import Mathlib

/-!
# Soundfont compiler (`tools/audio/soundfont_compiler.c`)

A shallow embedding of the bank-model builder and layout emitter.

Conventions of the embedding:

* a C linked list that is only ever appended to (`next` pointers with a `*_last` tail pointer)
  is a Lean `List` in reading order; a C `(pointer, count)` array is a `List`;
* the doubly linked "struct order" list of instruments is kept as pointers: a heap of
  `instr_data` records addressed by natural numbers, with `next_struct` / `prev_struct`
  fields of type `Option Nat` (`none` is `NULL`);
* `error(...)` (which prints and exits) is `Except.error` with the message;
* `fprintf` output is a list of structured statements instead of raw text;
* `unsigned` values are naturals reduced modulo `2 ^ 32` where the code's arithmetic can wrap;
  `size_t` byte totals are plain naturals (they are bounded by the number of records in
  memory times a small constant and never reach `2 ^ 64`);
* `float` / `double` values are elements of an abstract carrier type and `calc_tuning` is a
  parameter of the emitters that use it; in the reading functions a `double` sample rate is
  the rational it denotes and a `float` tuning is its 32-bit pattern;
* an XML node is a record of its parsed attributes (`none`: attribute absent) and its children.
-/

namespace Soundfont

/-! ## Constants of `soundfont.h` -/

def ADSR_DISABLE : Int := 0
def ADSR_HANG : Int := -1
def ADSR_GOTO : Int := -2
def ADSR_RESTART : Int := -3

def INSTR_LO_NONE : Int := 0
def INSTR_HI_NONE : Int := 127

def NOTE_UNSET : Int := -128
def RELEASE_UNSET : Nat := 0

/-! ## Alignment -/

/-- Modelled from the spec: the `ALIGN16` macro lives in `util.h`, which is not among the
sources. It brings an offset to the next 16-byte boundary (`((x) + 0xF) & ~0xF`): add 15 and
clear the low four bits. -/
def ALIGN16 (x : Nat) : Nat := (x + 0xF) / 16 * 16

/-- The padding statements `emit_padding_stmt` can print. -/
inductive pad_stmt where
  | SF_PAD4
  | SF_PAD8
  | SF_PADC
  deriving DecidableEq, Repr

/-- The value `ALIGN16(pos) - pos` computed in `unsigned` (32-bit) arithmetic. -/
def pad_amount (pos : Nat) : Nat :=
  (ALIGN16 pos % 2 ^ 32 + 2 ^ 32 - pos % 2 ^ 32) % 2 ^ 32

/-- `emit_padding_stmt(out, pos)`: the statements written to `out`, or the internal error.
`pos` is the `unsigned` argument. -/
def emit_padding_stmt (pos : Nat) : Except String (List pad_stmt) :=
  if pad_amount pos = 0 then .ok []
  else if pad_amount pos = 4 then .ok [.SF_PAD4]
  else if pad_amount pos = 8 then .ok [.SF_PAD8]
  else if pad_amount pos = 0xC then .ok [.SF_PADC]
  else .error "[Internal] Bad alignment generated"

/-- Number of bytes a padding statement stands for. -/
def pad_stmt.bytes : pad_stmt → Nat
  | .SF_PAD4 => 4
  | .SF_PAD8 => 8
  | .SF_PADC => 12

/-! ## Envelopes -/

structure envelope_point where
  delay : Int
  arg : Int
  deriving DecidableEq, Repr

/-- The record `envelope_data`; `points` together with its length stands for the C pair
`(points, n_points)`. `name = none` is the empty envelope. -/
structure envelope_data where
  name : Option String
  release : Nat
  points : List envelope_point
  used : Bool
  deriving DecidableEq, Repr

def envelope_data.n_points (e : envelope_data) : Nat := e.points.length

/-- A child node of an `<Envelope>` element, with the attributes the attribute specs
`spec_env_pt` and `spec_env_goto` look for already parsed (`none`: attribute absent). -/
structure xml_env_pt where
  is_element : Bool
  name : String
  Delay : Option Int
  Arg : Option Int
  Index : Option Int
  deriving DecidableEq, Repr

/-- An `<Envelope>` element: its attributes (spec `spec_env`) and its children. -/
structure xml_env where
  Name : Option String
  Release : Option Nat
  children : List xml_env_pt
  deriving DecidableEq, Repr

/-- Body of the loop over the children of an `<Envelope>`: `none` when the child is skipped
(not an element node), otherwise the point stored at `pts[points_num]`.
Both attributes of a spec marked non-optional must be present. -/
def read_envelope_point (env_pt : xml_env_pt) : Except String (Option envelope_point) :=
  if !env_pt.is_element then .ok none
  else if env_pt.name = "Point" then
    match env_pt.Delay, env_pt.Arg with
    | some d, some a => .ok (some ⟨d, a⟩)
    | _, _ => .error "Missing required attribute"
  else if env_pt.name = "Disable" then .ok (some ⟨ADSR_DISABLE, 0⟩)
  else if env_pt.name = "Goto" then
    match env_pt.Index with
    | some i => .ok (some ⟨ADSR_GOTO, i⟩)
    | none => .error "Missing required attribute"
  else if env_pt.name = "Restart" then .ok (some ⟨ADSR_RESTART, 0⟩)
  else if env_pt.name = "Hang" then .ok (some ⟨ADSR_HANG, 0⟩)
  else .error "Unexpected element node in envelope definition"

/-- The loop over `env->children`, accumulating the stored points in order. -/
def read_envelope_points : List xml_env_pt → Except String (List envelope_point)
  | [] => .ok []
  | env_pt :: rest =>
    match read_envelope_point env_pt with
    | .error e => .error e
    | .ok none => read_envelope_points rest
    | .ok (some pt) =>
      match read_envelope_points rest with
      | .error e => .error e
      | .ok pts => .ok (pt :: pts)

/-- One iteration of the loop of `read_envelopes_info` over `<Envelope>` elements: the record
that gets linked at the end of `sf->envelopes`. `envelopes` is the list read so far. -/
def read_envelope (envelopes : List envelope_data) (env : xml_env) : Except String envelope_data :=
  if env.children = [] then
    .ok { name := none, release := 0, points := [], used := false }
  else
    match env.Name, env.Release with
    | some name, some release =>
      if envelopes.any (fun envdata2 => envdata2.name = some name) then
        .error "Duplicate envelope name"
      else
        match read_envelope_points env.children with
        | .error e => .error e
        | .ok pts => .ok { name := some name, release := release, points := pts, used := false }
    | _, _ => .error "Missing required attribute"

/-- `read_envelopes_info`: reads every `<Envelope>` of the list, appending to `sf->envelopes`. -/
def read_envelopes_info (envelopes : List envelope_data) : List xml_env → Except String (List envelope_data)
  | [] => .ok envelopes
  | env :: rest =>
    match read_envelope envelopes env with
    | .error e => .error e
    | .ok envdata => read_envelopes_info (envelopes ++ [envdata]) rest

/-- One entry written between the braces of an `EnvelopePoint` array. -/
inductive env_stmt where
  | ENVELOPE_DISABLE
  | ENVELOPE_GOTO (arg : Int)
  | ENVELOPE_HANG
  | ENVELOPE_RESTART
  | ENVELOPE_POINT (delay arg : Int)
  | ZERO
  deriving DecidableEq, Repr

/-- The `switch (pt->delay)` of `emit_c_envelopes`. -/
def emit_envelope_point (pt : envelope_point) : env_stmt :=
  if pt.delay = ADSR_DISABLE then .ENVELOPE_DISABLE
  else if pt.delay = ADSR_GOTO then .ENVELOPE_GOTO pt.arg
  else if pt.delay = ADSR_HANG then .ENVELOPE_HANG
  else if pt.delay = ADSR_RESTART then .ENVELOPE_RESTART
  else .ENVELOPE_POINT pt.delay pt.arg

/-- One emitted `EnvelopePoint` array: its symbol (`Sum.inl n` for `SF<i>_ENV_EMPTY_<n>`,
`Sum.inr name` for `SF<i>_<name>`), its entries and the padding statement after it. -/
structure env_decl where
  symbol : Nat ⊕ String
  entries : List env_stmt
  padding : List pad_stmt
  deriving DecidableEq, Repr

/-- Body of the loop of `emit_c_envelopes` for one envelope: the emitted array and the bytes
added to `size`. -/
def emit_c_envelope (empty_num : Nat) (envdata : envelope_data) : Except String (env_decl × Nat) :=
  match envdata.name with
  | none => .ok (⟨.inl empty_num, [.ZERO, .ZERO, .ZERO, .ZERO], []⟩, 0x10)
  | some name =>
    let env_size := 4 * (envdata.n_points + 1)
    match emit_padding_stmt (env_size % 2 ^ 32) with
    | .error e => .error e
    | .ok pad =>
      .ok (⟨.inr name, envdata.points.map emit_envelope_point ++ [.ENVELOPE_HANG], pad⟩,
           ALIGN16 env_size)

/-- The loop of `emit_c_envelopes`, threading `empty_num` and `size`. -/
def emit_c_envelopes_loop : List envelope_data → Nat → Nat → Except String (List env_decl × Nat)
  | [], _, size => .ok ([], size)
  | envdata :: rest, empty_num, size =>
    match emit_c_envelope empty_num envdata with
    | .error e => .error e
    | .ok (decl, sz) =>
      match emit_c_envelopes_loop rest (if envdata.name = none then empty_num + 1 else empty_num)
              (size + sz) with
      | .error e => .error e
      | .ok (decls, total) => .ok (decl :: decls, total)

/-- `emit_c_envelopes`: the emitted arrays and the returned size. -/
def emit_c_envelopes (envelopes : List envelope_data) : Except String (List env_decl × Nat) :=
  emit_c_envelopes_loop envelopes 0 0

/-! ## Samples and codebooks -/

/-- The fields of the waveform record `aifc_data` (declared in `aifc.h`) that the compiler
reads. `book_state` holds the 16-bit predictor coefficients, `8 * order * npredictors` of them
for a well-formed codebook. -/
structure aifc_data where
  compression_type : Nat
  ssnd_size : Nat
  has_loop : Bool
  loop_count : Nat
  has_book : Bool
  book_order : Int
  book_npredictors : Int
  book_state : List Int
  sample_rate : Rat := 0
  has_inst : Bool := false
  basenote : Int := 0
  num_frames : Nat := 0
  loop_start : Nat := 0
  loop_end : Nat := 0
  deriving DecidableEq, Repr

/-- The record `sample_data`. A `double` sample rate is kept as the rational it denotes. -/
structure sample_data where
  name : String
  is_dd : Bool
  cached : Bool
  aifc : aifc_data
  sample_rate : Rat := 0
  base_note : Int := 0
  deriving DecidableEq, Repr

/-- The C conversion `(unsigned)x` of an `int32_t`. -/
def to_unsigned (x : Int) : Nat := (x % 2 ^ 32).toNat

/-- The call `memcmp(a, b, n) == 0` on two arrays of 16-bit values, for an even byte count
`n`: the first `n / 2` elements of both arrays agree (an element is determined by its two
bytes). -/
def memcmp_eq (a b : List Int) (n : Nat) : Bool :=
  decide (a.take (n / 2) = b.take (n / 2))

/-- `samples_books_equal(s1, s2)`. As in the source, all four locals are read from `s1`, and
the byte count handed to `memcmp` is `8 * order * npredictors`. -/
def samples_books_equal (s1 s2 : sample_data) : Bool :=
  let s1_order := s1.aifc.book_order
  let s1_npredictors := s1.aifc.book_npredictors
  let s2_order := s1.aifc.book_order
  let s2_npredictors := s1.aifc.book_npredictors
  if s1_order ≠ s2_order ∨ s1_npredictors ≠ s2_npredictors then false
  else memcmp_eq s1.aifc.book_state s2.aifc.book_state
    ((8 * to_unsigned s1_order * to_unsigned s1_npredictors) % 2 ^ 32)

/-- The inner loop of `emit_c_samples`: walks `sf->samples` from its head (`j` is the position
of `sample2`) until it reaches the current sample (position `i`) or finds a sample whose book
compares equal. Returns the sample whose name becomes `bookname`, `none` for a new book. -/
def find_book (sample : sample_data) (i : Nat) : List sample_data → Nat → Option sample_data
  | [], _ => none
  | sample2 :: rest, j =>
    if j = i then none
    else if samples_books_equal sample sample2 then some sample2
    else find_book sample i rest (j + 1)

/-- Modelled from the spec: the four-character-code macro `CC4` is declared in a header that
is not among the sources; it packs four characters into one 32-bit code. -/
def CC4 (a b c d : Char) : Nat := a.toNat * 2 ^ 24 + b.toNat * 2 ^ 16 + c.toNat * 2 ^ 8 + d.toNat

/-- `codec_enum`: the `SampleCodec` enumerator, or the error for an unknown compression. -/
def codec_enum (compression_type : Nat) : Except String String :=
  if compression_type = CC4 'A' 'D' 'P' '9' then .ok "CODEC_ADPCM"
  else if compression_type = CC4 'H' 'P' 'C' 'M' then .ok "CODEC_S8"
  else if compression_type = CC4 'A' 'D' 'P' '5' then .ok "CODEC_SMALL_ADPCM"
  else if compression_type = CC4 'R' 'V' 'R' 'B' then .ok "CODEC_REVERB"
  else if compression_type = CC4 'N' 'O' 'N' 'E' then .ok "CODEC_S16"
  else .error "Bad compression type in aifc file"

/-- What `emit_c_samples` writes for one sample: the header's symbols, whether a book block
was written and, if so, its coefficient rows and padding, and the kind of loop record. -/
structure sample_decl where
  name : String
  bookname : String
  new_book : Bool
  book_data : List Nat
  book_padding : List pad_stmt
  loop_has_state : Bool
  deriving DecidableEq, Repr

/-- The coefficients printed into a book block: `order * npredictors` rows of eight values
`(uint16_t)(*book_state)[j * 8 + k]`. -/
def book_rows (sample : sample_data) : List Nat :=
  (List.range
    (((to_unsigned sample.aifc.book_order * to_unsigned sample.aifc.book_npredictors) % 2 ^ 32) * 8)).map
    (fun i => ((sample.aifc.book_state.getD i 0) % 65536).toNat)

/-- Body of the outer loop of `emit_c_samples` for the sample at position `i` of `samples`:
what is written and the bytes added to `size`. -/
def emit_c_sample (samples : List sample_data) (i : Nat) (sample : sample_data) :
    Except String (sample_decl × Nat) :=
  let found := find_book sample i samples 0
  let new_book := found.isNone
  let bookname := match found with
    | some sample2 => sample2.name
    | none => sample.name
  match codec_enum sample.aifc.compression_type with
  | .error e => .error e
  | .ok _ =>
    let loop_has_state := !(!sample.aifc.has_loop || sample.aifc.loop_count = 0)
    let loop_size := if loop_has_state then 0x30 else 0x10
    if new_book then
      let book_size := 8 + (2 * 8 * to_unsigned sample.aifc.book_order
                              * to_unsigned sample.aifc.book_npredictors) % 2 ^ 32
      match emit_padding_stmt (book_size % 2 ^ 32) with
      | .error e => .error e
      | .ok pad =>
        .ok (⟨sample.name, bookname, true, book_rows sample, pad, loop_has_state⟩,
             0x10 + ALIGN16 book_size + loop_size)
    else
      .ok (⟨sample.name, bookname, false, [], [], loop_has_state⟩, 0x10 + loop_size)

/-- The outer loop of `emit_c_samples` from position `i` on, threading `size`. -/
def emit_c_samples_loop (samples : List sample_data) :
    List sample_data → Nat → Nat → Except String (List sample_decl × Nat)
  | [], _, size => .ok ([], size)
  | sample :: rest, i, size =>
    match emit_c_sample samples i sample with
    | .error e => .error e
    | .ok (decl, sz) =>
      match emit_c_samples_loop samples rest (i + 1) (size + sz) with
      | .error e => .error e
      | .ok (decls, total) => .ok (decl :: decls, total)

/-- `emit_c_samples`: what is written for every sample, and the returned size. -/
def emit_c_samples (samples : List sample_data) : Except String (List sample_decl × Nat) :=
  emit_c_samples_loop samples samples 0 0

/-! ## Loops and the frame count -/

/-- `codec_frame_size`: the bytes of one compressed frame of 16 samples. -/
def codec_frame_size (compression_type : Nat) : Nat :=
  if compression_type = CC4 'A' 'D' 'P' '9' then 9
  else if compression_type = CC4 'A' 'D' 'P' '5' then 5
  else 16

/-- The local `frame_count` of `emit_c_samples`:
`uint32_t frame_count = (sample->aifc.ssnd_size * 16) / codec_frame_size(...)`.
`ssnd_size` is a `size_t`: the product and the quotient are computed in 64 bits and the
result is stored in 32 bits. -/
def frame_count (aifc : aifc_data) : Nat :=
  ((aifc.ssnd_size * 16) % 2 ^ 64 / codec_frame_size aifc.compression_type) % 2 ^ 32

/-- The four numbers printed in the header of a loop record (start, end, count and the
frame count field), and whether the sixteen state values follow. -/
structure loop_decl where
  start : Nat
  loop_end : Nat
  count : Nat
  num_frames : Nat
  has_state : Bool
  deriving DecidableEq, Repr

/-- The block "Write the loop" of the body of `emit_c_samples`: the loop record written for a
sample and the bytes added to `size`. `loops_have_frames` is `sf->info.loops_have_frames`. -/
def emit_c_loop (loops_have_frames : Bool) (aifc : aifc_data) : loop_decl × Nat :=
  let frame_count := frame_count aifc
  if !aifc.has_loop || aifc.loop_count = 0 then
    if !aifc.has_loop then (⟨0, frame_count, 0, 0, false⟩, 0x10)
    else (⟨aifc.loop_start, aifc.loop_end, aifc.loop_count, 0, false⟩, 0x10)
  else
    let frame_count := if !loops_have_frames then 0 else frame_count
    (⟨aifc.loop_start, aifc.loop_end, aifc.loop_count, frame_count, true⟩, 0x30)

/-! ## Instruments: reading and the struct-order list -/

/-- The fields of `instr_data` that decide the struct order. The two link fields hold
addresses into the heap of records. -/
structure instr_data where
  name : Option String := none
  struct_index : Int := 0
  unused : Bool := false
  next_struct : Option Nat := none
  prev_struct : Option Nat := none
  deriving DecidableEq, Repr

/-- A child node of an `<Instrument>` element: its element name and its attributes in
document order (attribute name, value). -/
structure xml_instr_sample where
  is_element : Bool
  name : String
  attrs : List (String × String)
  deriving DecidableEq, Repr

/-- A child of the `<Instruments>` list, with the attributes of `instr_spec` already parsed
(`none`: attribute absent); `has_properties` is `instr_node->properties != NULL`. `Name` and
`MatchOrder` are the attributes that matter for linking; `MatchOrder` is the `int` that
`xml_parse_int` stores in `struct_index`. -/
structure xml_instr where
  is_element : Bool
  name : String
  has_properties : Bool
  Name : Option String
  MatchOrder : Option Int
  Envelope : Option String := none
  Release : Option Nat := none
  Sample : Option String := none
  BaseNote : Option Int := none
  SampleRate : Option Rat := none
  RangeLo : Option Int := none
  SampleLo : Option String := none
  BaseNoteLo : Option Int := none
  SampleRateLo : Option Rat := none
  RangeHi : Option Int := none
  SampleHi : Option String := none
  BaseNoteHi : Option Int := none
  SampleRateHi : Option Rat := none
  children : List xml_instr_sample := []
  deriving DecidableEq, Repr

/-- The instrument part of `soundfont`. `heap a` is the record `malloc` returned for the
`a`-th instrument node (`n_alloc` records exist); `instruments` is the logical list. -/
structure instr_state where
  heap : Nat → instr_data
  n_alloc : Nat
  num_instruments : Nat
  instruments : List Nat
  instruments_struct : Option Nat
  instruments_struct_last : Option Nat

/-- The assignment `heap[a].next_struct = v`. -/
def set_next_struct (heap : Nat → instr_data) (a : Nat) (v : Option Nat) : Nat → instr_data :=
  fun b => if b = a then { heap b with next_struct := v } else heap b

/-- The assignment `heap[a].prev_struct = v`. -/
def set_prev_struct (heap : Nat → instr_data) (a : Nat) (v : Option Nat) : Nat → instr_data :=
  fun b => if b = a then { heap b with prev_struct := v } else heap b

/-- The `for` loop of the last branch of the struct link: starting at `instr2`, follow
`next_struct` until it is `NULL` or the next record's index is not larger than `idx`.
`none` when the fuel runs out before the loop exits. -/
def walk_struct (heap : Nat → instr_data) (idx : Int) : Nat → Nat → Option Nat
  | 0, _ => none
  | fuel + 1, instr2 =>
    match (heap instr2).next_struct with
    | none => some instr2
    | some nx =>
      if idx ≥ (heap nx).struct_index then some instr2
      else walk_struct heap idx fuel nx

/-- The block "link (struct), insertion sort by struct_index from highest to lowest" for the
record at address `instr`. `none` only if the walk does not terminate within `n_alloc`
steps. -/
def link_struct (sf : instr_state) (instr : Nat) : Option instr_state :=
  match sf.instruments_struct with
  | none =>
    some { sf with
      instruments_struct := some instr
      instruments_struct_last := some instr
      heap := set_prev_struct (set_next_struct sf.heap instr none) instr none }
  | some head =>
    if (sf.heap instr).struct_index ≥ (sf.heap head).struct_index then
      let next := head
      let heap1 := set_prev_struct sf.heap instr none
      let heap2 := set_prev_struct heap1 next (some instr)
      let heap3 := set_next_struct heap2 instr (some next)
      some { sf with
        heap := heap3
        instruments_struct := some instr
        instruments_struct_last :=
          if (heap3 next).next_struct = none then some next else sf.instruments_struct_last }
    else
      match walk_struct sf.heap (sf.heap instr).struct_index sf.n_alloc head with
      | none => none
      | some instr2 =>
        let next := (sf.heap instr2).next_struct
        let prev := instr2
        let heap1 := set_next_struct sf.heap prev (some instr)
        let heap2 := set_prev_struct heap1 instr (some prev)
        let heap3 := set_next_struct heap2 instr next
        match next with
        | none => some { sf with heap := heap3, instruments_struct_last := some instr }
        | some nx => some { sf with heap := set_prev_struct heap3 nx (some instr) }

/-- The final "link" block: append the record to the logical list. -/
def link_instr (sf : instr_state) (instr : Nat) : instr_state :=
  { sf with instruments := sf.instruments ++ [instr] }

def walk_error : String := "struct list walk did not terminate"

/-- The statement `if (!is_instr_unused) sf->num_instruments++;`. -/
def count_instr (sf : instr_state) (is_instr_unused : Bool) : instr_state :=
  if !is_instr_unused then { sf with num_instruments := sf.num_instruments + 1 } else sf

/-- `malloc` of a record followed by the initialisation of its fields to `r`: the record
lives at the fresh address `sf.n_alloc`. -/
def alloc_instr (sf : instr_state) (r : instr_data) : instr_state :=
  { sf with heap := fun b => if b = sf.n_alloc then r else sf.heap b, n_alloc := sf.n_alloc + 1 }

/-- The value of an `int` expression whose mathematical value is `x`. An overflow, which C
leaves undefined, wraps around modulo `2^32` in the compiled code, and so it does here. -/
def to_int (x : Int) : Int := (x + 2 ^ 31) % 2 ^ 32 - 2 ^ 31

/-- One iteration of the loop of `read_instrs_info` on an element node. `resolve` stands for
the envelope and sample resolution between the name check and the struct link (it can only
abort the read, and writes none of the fields of `instr_data` kept here). Returns the new
state and the new `last_struct_index`, an `int`. -/
def read_instr (resolve : xml_instr → Except String Unit) (sf : instr_state)
    (last_struct_index : Int) (instr_node : xml_instr) : Except String (instr_state × Int) :=
  let is_instr := decide (instr_node.name = "Instrument")
  let is_instr_unused := decide (instr_node.name = "InstrumentUnused")
  if !is_instr && !is_instr_unused then .error "Unexpected element node in instrument list"
  else
    let sf := count_instr sf is_instr_unused
    let instr := sf.n_alloc
    let rec0 : instr_data := { name := none, struct_index := last_struct_index, unused := is_instr_unused }
    if !instr_node.has_properties && !is_instr_unused then
      let rec1 : instr_data := { rec0 with struct_index := -1, next_struct := none, prev_struct := none }
      .ok (link_instr (alloc_instr sf rec1) instr, last_struct_index)
    else
      let rec1 : instr_data :=
        { rec0 with name := instr_node.Name,
                    struct_index := instr_node.MatchOrder.getD last_struct_index }
      if !is_instr_unused && rec1.name = none then .error "Instrument must be named"
      else
        let last_struct_index := to_int (rec1.struct_index + 1)
        match resolve instr_node with
        | .error e => .error e
        | .ok _ =>
          match link_struct (alloc_instr sf rec1) instr with
          | none => .error walk_error
          | some sf => .ok (link_instr sf instr, last_struct_index)

/-- The loop of `read_instrs_info` over the children of the `<Instruments>` node. -/
def read_instrs_loop (resolve : xml_instr → Except String Unit) :
    instr_state → Int → List xml_instr → Except String instr_state
  | sf, _, [] => .ok sf
  | sf, last_struct_index, instr_node :: rest =>
    if !instr_node.is_element then read_instrs_loop resolve sf last_struct_index rest
    else
      match read_instr resolve sf last_struct_index instr_node with
      | .error e => .error e
      | .ok (sf, last_struct_index) => read_instrs_loop resolve sf last_struct_index rest

/-- The state `main` sets up before reading instruments. -/
def instr_state.init : instr_state :=
  { heap := fun _ => {}, n_alloc := 0, num_instruments := 0, instruments := [],
    instruments_struct := none, instruments_struct_last := none }

/-- `read_instrs_info` on a fresh bank. -/
def read_instrs_info (resolve : xml_instr → Except String Unit) (instrs : List xml_instr) :
    Except String instr_state :=
  read_instrs_loop resolve instr_state.init 0 instrs

/-- One emitted `Instrument` structure: the address of the record it was written from and
its symbol (`Sum.inl n` for `_INSTR_UNUSED_<n>`, `Sum.inr name` otherwise). -/
structure instr_decl where
  instr : Nat
  symbol : Nat ⊕ String
  deriving DecidableEq, Repr

/-- The loop header of `emit_c_instruments`: the records visited from `instr` following
`prev_struct`, in visiting order. `none` when the fuel runs out before `NULL` is reached. -/
def walk_prev_struct (heap : Nat → instr_data) : Nat → Option Nat → Option (List Nat)
  | _, none => some []
  | 0, some _ => none
  | fuel + 1, some instr =>
    match walk_prev_struct heap fuel (heap instr).prev_struct with
    | none => none
    | some visited => some (instr :: visited)

/-- The loop body of `emit_c_instruments` over the visited records, threading
`unused_instr_num` and `size`. -/
def emit_c_instruments_body (heap : Nat → instr_data) :
    List Nat → Nat → Nat → List instr_decl × Nat
  | [], _, size => ([], size)
  | instr :: rest, unused_instr_num, size =>
    if (heap instr).name = none && !(heap instr).unused then
      emit_c_instruments_body heap rest unused_instr_num size
    else
      let decl : instr_decl :=
        if (heap instr).unused then ⟨instr, .inl unused_instr_num⟩
        else ⟨instr, .inr ((heap instr).name.getD "")⟩
      let r := emit_c_instruments_body heap rest
        (if (heap instr).unused then unused_instr_num + 1 else unused_instr_num) (size + 0x20)
      (decl :: r.1, r.2)

/-- `emit_c_instruments`: the emitted structures in emission order and the returned size. -/
def emit_c_instruments (sf : instr_state) : Except String (List instr_decl × Nat) :=
  match walk_prev_struct sf.heap sf.n_alloc sf.instruments_struct_last with
  | none => .error walk_error
  | some visited => .ok (emit_c_instruments_body sf.heap visited 0 0)

/-! ## Header -/

/-- What `emit_c_header` writes: whether the two fixed pointers are non-`NULL`, the
instrument pointer table, and the padding statement. -/
structure header_decl where
  drums_ptr : Bool
  sfx_ptr : Bool
  instr_ptrs : List (Option String)
  padding : List pad_stmt
  deriving DecidableEq, Repr

/-- `emit_c_header`. The arguments `has_drums` / `has_sfx` are `sf->drums != NULL` and
`sf->sfx != NULL`. `pos` is a `uint32_t`, `size` a `size_t`. -/
def emit_c_header (sf : instr_state) (has_drums has_sfx : Bool) :
    Except String (header_decl × Nat) :=
  let written := sf.instruments.filter (fun instr => !(sf.heap instr).unused)
  let pos := (4 + 4 + 4 * written.length) % 2 ^ 32
  let size := 4 + 4 + 4 * written.length
  match emit_padding_stmt pos with
  | .error e => .error e
  | .ok pad =>
    .ok (⟨has_drums, has_sfx, written.map (fun instr => (sf.heap instr).name), pad⟩, ALIGN16 size)

/-! ## Drums -/

/-- The record `drum_data`, over the carrier `R` of sample rates. `envelope` and `sample`
are the resolved references (`none` for the attribute-less `<Drum/>`). -/
structure drum_data (R : Type) where
  name : Option String
  envelope : Option envelope_data
  sample : Option sample_data
  semitone_start : Int
  semitone_end : Int
  pan : Int
  sample_rate : R
  base_note : Int

/-- One slot of the local `ptr_table`; after `memset` every slot is `⟨none, 0⟩`. -/
structure ptr_entry where
  name : Option String
  n : Nat
  deriving DecidableEq, Repr

/-- The zeroed 64-slot pointer table. -/
def ptr_table_init : List ptr_entry := List.replicate 64 ⟨none, 0⟩

/-- One emitted `Drum` array: `length` entries, entry `i` written as `<name>_ENTRY(tuning i)`. -/
structure drum_decl (T : Type) where
  name : Option String
  release : Option Nat
  pan : Int
  sample_name : Option String
  envelope_name : Option String
  length : Nat
  entries : List T

/-- The conversion of an `int` value to `size_t`. -/
def to_size_t (x : Int) : Nat := (x % 2 ^ 64).toNat

/-- The note handed to `calc_tuning` for the entry at `note_offset`: the base note plus the
offset, "wrap note on overflow". -/
def drum_note (base_note : Int) (note_offset : Nat) : Int :=
  let note := base_note + note_offset
  if note > 127 then note - 128 else note

/-- The inner `for` loop of `emit_c_drums` for one drum: the table after the stores
`ptr_table[semitone_start + note_offset] = { name, note_offset }`. -/
def drum_fill_table {R : Type} (drum : drum_data R) (length : Nat) (ptr_table : List ptr_entry) :
    List ptr_entry :=
  (List.range length).foldl
    (fun tbl (note_offset : Nat) =>
      tbl.set (to_size_t (drum.semitone_start + (note_offset : Int))) ⟨drum.name, note_offset⟩)
    ptr_table

/-- The inner `for` loop of `emit_c_drums` for one drum: the tunings of the written entries. -/
def drum_entries {R T : Type} (calc_tuning : R → Int → T) (drum : drum_data R) (length : Nat) :
    List T :=
  (List.range length).map
    (fun (note_offset : Nat) => calc_tuning drum.sample_rate (drum_note drum.base_note note_offset))

/-- Body of the loop over `sf->drums` for one named drum: the emitted array and the new
pointer table, or the error "Bad drum range". -/
def emit_c_drum {R T : Type} (calc_tuning : R → Int → T) (drum : drum_data R)
    (ptr_table : List ptr_entry) : Except String (drum_decl T × List ptr_entry) :=
  let length := to_size_t (drum.semitone_end - drum.semitone_start + 1)
  if drum.semitone_end + 1 > 64 then .error "Bad drum range"
  else
    .ok (⟨drum.name, drum.envelope.map (fun e => e.release), drum.pan,
          drum.sample.map (fun s => s.name), drum.envelope.bind (fun e => e.name), length,
          drum_entries calc_tuning drum length⟩,
         drum_fill_table drum length ptr_table)

/-- The state threaded through the loop over `sf->drums`. -/
structure drums_acc (T : Type) where
  ptr_table : List ptr_entry
  max_semitone : Int
  size : Nat
  decls : List (drum_decl T)

/-- The loop of `emit_c_drums` over `sf->drums`. -/
def emit_c_drums_loop {R T : Type} (calc_tuning : R → Int → T) :
    List (drum_data R) → drums_acc T → Except String (drums_acc T)
  | [], acc => .ok acc
  | drum :: rest, acc =>
    if drum.name = none then
      emit_c_drums_loop calc_tuning rest { acc with max_semitone := acc.max_semitone + 1 }
    else
      let max_semitone :=
        if drum.semitone_end > acc.max_semitone then drum.semitone_end else acc.max_semitone
      match emit_c_drum calc_tuning drum acc.ptr_table with
      | .error e => .error e
      | .ok (decl, tbl) =>
        emit_c_drums_loop calc_tuning rest
          { ptr_table := tbl, max_semitone := max_semitone,
            size := acc.size + 0x10 * decl.length, decls := acc.decls ++ [decl] }

/-- What `emit_c_drums` produces: the drum arrays, the pointer table (`none` is `NULL`,
`some (name, n)` is `&name[n]`), the padding, the value stored in `sf->num_drums`, and the
returned size. -/
structure drums_out (T : Type) where
  decls : List (drum_decl T)
  ptr_list : List (Option (String × Nat))
  padding : List pad_stmt
  num_drums : Nat
  size : Nat

/-- `emit_c_drums`. `num_drums` is left at its previous value (`0` after `main`'s
initialisation) when there are no drums. -/
def emit_c_drums {R T : Type} (calc_tuning : R → Int → T) (drums : List (drum_data R)) :
    Except String (drums_out T) :=
  if drums.isEmpty then .ok ⟨[], [], [], 0, 0⟩
  else
    match emit_c_drums_loop calc_tuning drums ⟨ptr_table_init, -1, 0, []⟩ with
    | .error e => .error e
    | .ok acc =>
      let table_len := to_size_t (acc.max_semitone + 1)
      if table_len > 64 then .error "Bad drum pointer table length"
      else
        match emit_padding_stmt ((table_len * 4) % 2 ^ 32) with
        | .error e => .error e
        | .ok pad =>
          .ok ⟨acc.decls,
               (List.range table_len).map (fun i =>
                 match (acc.ptr_table.getD i ⟨none, 0⟩).name with
                 | none => none
                 | some name => some (name, (acc.ptr_table.getD i ⟨none, 0⟩).n)),
               pad, table_len, acc.size + ALIGN16 (table_len * 4)⟩

/-! ## Sound effects -/

/-- The record `sfx_data`, over the carrier `T` of tunings. -/
structure sfx_data (T : Type) where
  name : Option String
  sample : Option sample_data
  tuning : T
  sample_rate : Rat := 0
  base_note : Int := 0

/-- `emit_c_effects`: one `SoundEffect` entry per effect (`none` is `{ NULL, 0.0f }`) and
the returned size. -/
def emit_c_effects {T : Type} (sfx : List (sfx_data T)) : List (Option (String × T)) × Nat :=
  (sfx.map (fun e => e.sample.map (fun s => (s.name, e.tuning))), 8 * sfx.length)

/-! ## The emission sequence of `main` -/

/-- The bank handed to the emitters. -/
structure soundfont (R T : Type) where
  envelopes : List envelope_data
  samples : List sample_data
  instrs : instr_state
  drums : List (drum_data R)
  sfx : List (sfx_data T)
  num_effects : Nat := 0
  match_padding : Option (List Nat) := none
  pad_to_size : Nat := 0

/-- The sizes returned by the six emitters, in call order. -/
structure emit_sizes where
  header : Nat
  samples : Nat
  envelopes : Nat
  instruments : Nat
  drums : Nat
  effects : Nat
  deriving DecidableEq, Repr

/-- The value of `size` in `main` after each of the six `size += emit_c_*` statements. -/
def emit_sizes.running (s : emit_sizes) : List Nat :=
  [s.header,
   s.header + s.samples,
   s.header + s.samples + s.envelopes,
   s.header + s.samples + s.envelopes + s.instruments,
   s.header + s.samples + s.envelopes + s.instruments + s.drums,
   s.header + s.samples + s.envelopes + s.instruments + s.drums + s.effects]

/-- The size `main` hands to `emit_c_match_padding`. -/
def emit_sizes.total (s : emit_sizes) : Nat :=
  s.header + s.samples + s.envelopes + s.instruments + s.drums + s.effects

/-- The six emitter calls of `main`, in order; fails when any emitter reports an error. -/
def main_emit {R T : Type} (calc_tuning : R → Int → T) (sf : soundfont R T) :
    Except String emit_sizes :=
  match emit_c_header sf.instrs (!sf.drums.isEmpty) (!sf.sfx.isEmpty) with
  | .error e => .error e
  | .ok (_, header) =>
    match emit_c_samples sf.samples with
    | .error e => .error e
    | .ok (_, samples) =>
      match emit_c_envelopes sf.envelopes with
      | .error e => .error e
      | .ok (_, envelopes) =>
        match emit_c_instruments sf.instrs with
        | .error e => .error e
        | .ok (_, instruments) =>
          match emit_c_drums calc_tuning sf.drums with
          | .error e => .error e
          | .ok d =>
            .ok ⟨header, samples, envelopes, instruments, d.size, (emit_c_effects sf.sfx).2⟩

/-! ## Match padding and the definitions stream -/

/-- What `emit_c_match_padding` writes: the bytes of the array `SF<i>_MATCH_PADDING` (`none`:
the array is not written), the length of the zero-filled array
`SF<i>_MATCH_PADDING_TO_SIZE` (`none`: not written), whether the warning
"PadToSize directive ignored." is printed, and the value of the local `size` after the
literal padding. -/
structure match_padding_out where
  literal : Option (List Nat)
  to_size : Option Nat
  warning : Bool
  size : Nat
  deriving DecidableEq, Repr

/-- `emit_c_match_padding`. `match_padding` is `sf->match_padding` with its
`match_padding_num` bytes (`none`: `NULL`), `pad_to_size` is `sf->info.pad_to_size`. -/
def emit_c_match_padding (match_padding : Option (List Nat)) (pad_to_size : Nat) (size : Nat) :
    match_padding_out :=
  let lit : Option (List Nat) × Nat :=
    match match_padding with
    | none => (none, size)
    | some bytes =>
      if bytes.length ≠ 0 then
        let expected := bytes.length
        let remaining := ALIGN16 size - size
        let amount := if expected > remaining then remaining else expected
        (some (bytes.take amount), size + amount)
      else (none, size)
  if pad_to_size ≠ 0 then
    if pad_to_size ≤ lit.2 then ⟨lit.1, none, true, lit.2⟩
    else ⟨lit.1, some (pad_to_size - lit.2), false, lit.2⟩
  else ⟨lit.1, none, false, lit.2⟩

/-- One block of the definitions stream written by `main`, with what the emitter wrote. -/
inductive c_section (T : Type) where
  | header (d : header_decl)
  | samples (d : List sample_decl)
  | envelopes (d : List env_decl)
  | instruments (d : List instr_decl)
  | drums (d : drums_out T)
  | effects (d : List (Option (String × T)))
  | match_padding (d : match_padding_out)

/-- The name of the emitter that wrote a block. -/
def c_section.emitter {T : Type} : c_section T → String
  | .header _ => "emit_c_header"
  | .samples _ => "emit_c_samples"
  | .envelopes _ => "emit_c_envelopes"
  | .instruments _ => "emit_c_instruments"
  | .drums _ => "emit_c_drums"
  | .effects _ => "emit_c_effects"
  | .match_padding _ => "emit_c_match_padding"

/-- The part "emit C source" of `main`: the blocks written to the definitions stream, in
writing order, and the value of `size` handed to `emit_c_match_padding`. -/
def main_emit_c {R T : Type} (calc_tuning : R → Int → T) (sf : soundfont R T) :
    Except String (List (c_section T) × Nat) :=
  let size := 0
  match emit_c_header sf.instrs (!sf.drums.isEmpty) (!sf.sfx.isEmpty) with
  | .error e => .error e
  | .ok (hd, n) =>
    let size := size + n
    match emit_c_samples sf.samples with
    | .error e => .error e
    | .ok (ds, n) =>
      let size := size + n
      match emit_c_envelopes sf.envelopes with
      | .error e => .error e
      | .ok (es, n) =>
        let size := size + n
        match emit_c_instruments sf.instrs with
        | .error e => .error e
        | .ok (is, n) =>
          let size := size + n
          match emit_c_drums calc_tuning sf.drums with
          | .error e => .error e
          | .ok d =>
            let size := size + d.size
            let size := size + (emit_c_effects sf.sfx).2
            .ok ([.header hd, .samples ds, .envelopes es, .instruments is, .drums d,
                  .effects (emit_c_effects sf.sfx).1,
                  .match_padding (emit_c_match_padding sf.match_padding sf.pad_to_size size)],
                 size)

/-! ## The header file -/

/-- The loop of `emit_h_instruments` over the logical list from the record `instr` on, with the
counter `i`: the pairs (name, value) of the `#define` lines written. -/
def emit_h_instruments_loop (heap : Nat → instr_data) : List Nat → Nat → List (String × Nat)
  | [], _ => []
  | instr :: rest, i =>
    match (heap instr).name with
    | some name => (name, i) :: emit_h_instruments_loop heap rest (i + 1)
    | none => emit_h_instruments_loop heap rest (i + 1)

/-- `emit_h_instruments`: the `#define <name> <i>` lines, in writing order. -/
def emit_h_instruments (sf : instr_state) : List (String × Nat) :=
  emit_h_instruments_loop sf.heap sf.instruments 0

/-! ## Instruments and effects: envelope and sample resolution -/

/-- Modelled from the spec: `sf_get_envelope` is declared in `soundfont.h` but defined outside
the sources. It resolves an envelope reference by name against the bank's envelopes; a `NULL`
name resolves to nothing. -/
def sf_get_envelope (envelopes : List envelope_data) (name : Option String) :
    Option envelope_data :=
  match name with
  | none => none
  | some n => envelopes.find? (fun e => e.name = some n)

/-- Modelled from the spec: `sample_data_forname` is declared in `soundfont.h` but defined
outside the sources. It resolves a sample reference by name against the bank's samples; a
`NULL` name resolves to nothing. -/
def sample_data_forname (samples : List sample_data) (name : Option String) :
    Option sample_data :=
  match name with
  | none => none
  | some n => samples.find? (fun s => s.name = n)

/-- The conversion of an `int` to `int8_t` (two's complement wrap). -/
def to_int8 (x : Int) : Int := (x + 128) % 256 - 128

/-- A `float` is kept as its 32-bit pattern, so the union in `f2i` reads back the same
number. -/
def f2i (f : Nat) : Nat := f

/-- The union in `i2f`: the `float` with the given 32-bit pattern. -/
def i2f (i : Nat) : Nat := i

/-- The locals `seen_low`, `seen_mid`, `seen_high` of `read_instrs_info` and the three sample
names of the record while the child nodes of an `<Instrument>` are read. -/
structure seen_state where
  seen_low : Bool
  seen_mid : Bool
  seen_high : Bool
  sample_name_low : Option String
  sample_name_mid : Option String
  sample_name_high : Option String
  deriving DecidableEq, Repr

/-- Body of the loop over the child nodes of an `<Instrument>` without `Sample` attribute. -/
def read_instr_sample_node (sample_low_end sample_high_start : Int) (st : seen_state)
    (node : xml_instr_sample) : Except String seen_state :=
  if !node.is_element then .ok st
  else if node.name ≠ "Sample" then .error "Unexpected element node in instrument sample list"
  else
    match node.attrs with
    | [] => .error "Expected a Low/Mid/High sample path"
    | (attr_name, value) :: rest =>
      if !rest.isEmpty then .error "Instrument sample should have exactly one attribute"
      else if attr_name = "Low" then
        if sample_low_end = INSTR_LO_NONE then .error "Useless Low sample specified (RangeLo is 0)"
        else if st.seen_low then .error "Duplicate sample specifier in instrument sample"
        else .ok { st with seen_low := true, sample_name_low := some value }
      else if attr_name = "Mid" then
        if st.seen_mid then .error "Duplicate sample specifier in instrument sample"
        else .ok { st with seen_mid := true, sample_name_mid := some value }
      else if attr_name = "High" then
        if sample_high_start = INSTR_HI_NONE then
          .error "Useless High sample specified (RangeHi is 0)"
        else if st.seen_high then .error "Duplicate sample specifier in instrument sample"
        else .ok { st with seen_high := true, sample_name_high := some value }
      else .error "Unexpected attribute name for instrument sample"

/-- The loop over the child nodes of an `<Instrument>`. -/
def read_instr_sample_nodes (sample_low_end sample_high_start : Int) :
    seen_state → List xml_instr_sample → Except String seen_state
  | st, [] => .ok st
  | st, node :: rest =>
    match read_instr_sample_node sample_low_end sample_high_start st node with
    | .error e => .error e
    | .ok st => read_instr_sample_nodes sample_low_end sample_high_start st rest

/-- The block of `read_instrs_info` under `if (instr->sample_name_mid == NULL)`:
the range check, the loop over the children and the three "unset-but-used" checks.
`sample_name_low` / `sample_name_high` are the names the attributes `SampleLo` / `SampleHi`
left in the record. -/
def read_instr_children (sample_low_end sample_high_start : Int)
    (sample_name_low sample_name_high : Option String) (children : List xml_instr_sample) :
    Except String seen_state :=
  if sample_low_end = INSTR_LO_NONE ∧ sample_high_start = INSTR_HI_NONE then .error "epic fail"
  else if children.isEmpty then .error "Sample list is empty"
  else
    match read_instr_sample_nodes sample_low_end sample_high_start
        ⟨false, false, false, sample_name_low, none, sample_name_high⟩ children with
    | .error e => .error e
    | .ok st =>
      if !st.seen_mid ∧ sample_low_end ≠ sample_high_start then .error "Unset-but-used Mid sample"
      else if !st.seen_low ∧ sample_low_end ≠ 0 then .error "Unset-but-used Low sample"
      else if !st.seen_high ∧ sample_high_start ≠ 0 then .error "Unset-but-used High sample"
      else .ok st

/-- One resolved sample reference of an instrument: the sample, the resolved base note and
sample rate, and the tuning. -/
structure sample_slot where
  sample : sample_data
  base_note : Int
  sample_rate : Rat
  tuning : Nat
  deriving DecidableEq, Repr

/-- The defaulting of base note and sample rate from the referenced sample, and the tuning
computed from the result. `base_note` and `sample_rate` are the values the attributes left in
the record (`NOTE_UNSET` and `-1.0` when absent). -/
def resolve_sample (calc_tuning : Rat → Int → Nat) (sample : sample_data) (base_note : Int)
    (sample_rate : Rat) : sample_slot :=
  let base_note := if base_note = NOTE_UNSET then to_int8 sample.base_note else base_note
  let sample_rate := if sample_rate < 0 then sample.sample_rate else sample_rate
  ⟨sample, base_note, sample_rate, calc_tuning sample_rate base_note⟩

/-- The blocks `if (instr->sample_name_low != NULL) { ... }` and its `high` twin. -/
def resolve_opt_sample (calc_tuning : Rat → Int → Nat) (samples : List sample_data)
    (name : Option String) (base_note : Int) (sample_rate : Rat) (err : String) :
    Except String (Option sample_slot) :=
  match name with
  | none => .ok none
  | some _ =>
    match sample_data_forname samples name with
    | none => .error err
    | some sample => .ok (some (resolve_sample calc_tuning sample base_note sample_rate))

/-- "The nastiest hack": the substitution on the mid tuning. -/
def patch_mid_tuning (tuning : Nat) : Nat :=
  if f2i tuning = 0x3E7319DF then i2f 0x3E7319E3 else tuning

/-- The fields of `instr_data` written between the name check and the struct link. -/
structure instr_resolved where
  envelope : envelope_data
  release : Nat
  sample_low_end : Int
  sample_high_start : Int
  sample_name_low : Option String
  sample_name_mid : Option String
  sample_name_high : Option String
  low : Option sample_slot
  mid : sample_slot
  high : Option sample_slot
  deriving DecidableEq, Repr

/-- The part of one iteration of `read_instrs_info` between the name check and the struct
link: envelope lookup, release default, sample names, and the three sample resolutions.
The `Envelope` attribute is the one attribute of `instr_spec` that is not optional. -/
def resolve_instr (calc_tuning : Rat → Int → Nat) (envelopes : List envelope_data)
    (samples : List sample_data) (node : xml_instr) : Except String instr_resolved :=
  if node.Envelope = none then .error "Missing required attribute"
  else
    match sf_get_envelope envelopes node.Envelope with
    | none => .error "Bad envelope name"
    | some envelope =>
      let release := node.Release.getD RELEASE_UNSET
      let release := if release = RELEASE_UNSET then envelope.release else release
      let sample_low_end := node.RangeLo.getD INSTR_LO_NONE
      let sample_high_start := node.RangeHi.getD INSTR_HI_NONE
      let names : Except String (Option String × Option String × Option String) :=
        if node.Sample = none then
          match read_instr_children sample_low_end sample_high_start node.SampleLo node.SampleHi
              node.children with
          | .error e => .error e
          | .ok st => .ok (st.sample_name_low, st.sample_name_mid, st.sample_name_high)
        else .ok (node.SampleLo, node.Sample, node.SampleHi)
      match names with
      | .error e => .error e
      | .ok (name_low, name_mid, name_high) =>
        match resolve_opt_sample calc_tuning samples name_low (node.BaseNoteLo.getD NOTE_UNSET)
            (node.SampleRateLo.getD (-1)) "Bad sample name for LOW sample" with
        | .error e => .error e
        | .ok low =>
          match sample_data_forname samples name_mid with
          | none => .error "Bad sample name for MID sample"
          | some sample_mid =>
            let mid := resolve_sample calc_tuning sample_mid (node.BaseNote.getD NOTE_UNSET)
              (node.SampleRate.getD (-1))
            let mid := { mid with tuning := patch_mid_tuning mid.tuning }
            match resolve_opt_sample calc_tuning samples name_high
                (node.BaseNoteHi.getD NOTE_UNSET) (node.SampleRateHi.getD (-1))
                "Bad sample name for HIGH sample" with
            | .error e => .error e
            | .ok high =>
              .ok ⟨envelope, release, sample_low_end, sample_high_start, name_low, name_mid,
                   name_high, low, mid, high⟩

/-- The `resolve` argument of `read_instr` for a bank with the given envelopes and samples. -/
def resolve_in (calc_tuning : Rat → Int → Nat) (envelopes : List envelope_data)
    (samples : List sample_data) (node : xml_instr) : Except String Unit :=
  match resolve_instr calc_tuning envelopes samples node with
  | .error e => .error e
  | .ok _ => .ok ()

/-- A child of the `<Effects>` list, with the attributes of `effect_spec` already parsed. -/
structure xml_effect where
  is_element : Bool
  name : String
  has_properties : Bool
  Name : Option String := none
  Sample : Option String := none
  SampleRate : Option Rat := none
  BaseNote : Option Int := none
  deriving DecidableEq, Repr

/-- The outcome of dereferencing a `NULL` sample pointer (the source has no check there). -/
def null_dereference : String := "undefined behaviour: NULL sample dereferenced"

/-- One iteration of the loop of `read_sfx_info` on an element node: the record linked at the
end of `sf->sfx`. `Name` and `Sample` are not optional. For the attribute-less `<Effect/>`
only `sample` is written. The looked-up sample is not tested: when it is `NULL` it is
dereferenced for the base note or the sample rate that the attributes left unset, and when
both were given the record is linked with its `NULL` sample. -/
def read_sfx (calc_tuning : Rat → Int → Nat) (samples : List sample_data) (eff : xml_effect) :
    Except String (sfx_data Nat) :=
  if eff.name ≠ "Effect" then .error "Unexpected element node in effects list"
  else if !eff.has_properties then .ok { name := none, sample := none, tuning := 0 }
  else if eff.Name = none ∨ eff.Sample = none then .error "Missing required attribute"
  else
    match sample_data_forname samples eff.Sample with
    | none =>
      let base_note := eff.BaseNote.getD NOTE_UNSET
      let sample_rate := eff.SampleRate.getD (-1)
      if base_note = NOTE_UNSET ∨ sample_rate = -1 then .error null_dereference
      else
        .ok { name := eff.Name, sample := none, tuning := calc_tuning sample_rate base_note,
              sample_rate := sample_rate, base_note := base_note }
    | some sample =>
      let base_note := eff.BaseNote.getD NOTE_UNSET
      let base_note := if base_note = NOTE_UNSET then to_int8 sample.base_note else base_note
      let sample_rate := eff.SampleRate.getD (-1)
      let sample_rate := if sample_rate = -1 then sample.sample_rate else sample_rate
      .ok { name := eff.Name, sample := some sample, tuning := calc_tuning sample_rate base_note,
            sample_rate := sample_rate, base_note := base_note }

/-- The loop of `read_sfx_info`, threading `sf->sfx` and `sf->num_effects`. -/
def read_sfx_info (calc_tuning : Rat → Int → Nat) (samples : List sample_data) :
    List (sfx_data Nat) × Nat → List xml_effect → Except String (List (sfx_data Nat) × Nat)
  | acc, [] => .ok acc
  | acc, eff :: rest =>
    if !eff.is_element then read_sfx_info calc_tuning samples acc rest
    else
      match read_sfx calc_tuning samples eff with
      | .error e => .error e
      | .ok sfx => read_sfx_info calc_tuning samples (acc.1 ++ [sfx], acc.2 + 1) rest

/-! ## Match padding: reading -/

/-- `isspace` in the "C" locale. -/
def isspace (c : Char) : Bool := c.toNat = 32 || (9 ≤ c.toNat && c.toNat ≤ 13)

/-- `toupper` in the "C" locale. -/
def toupper (c : Char) : Char :=
  if 'a' ≤ c ∧ c ≤ 'z' then Char.ofNat (c.toNat - 32) else c

/-- `is_hex`. -/
def is_hex (c : Char) : Bool := ('0' ≤ c && c ≤ '9') || ('A' ≤ c && c ≤ 'F')

/-- `from_hex`; the failing `assert` is the error. -/
def from_hex (c : Char) : Except String Nat :=
  if '0' ≤ c ∧ c ≤ '9' then .ok (c.toNat - '0'.toNat)
  else if 'A' ≤ c ∧ c ≤ 'F' then .ok (c.toNat - 'A'.toNat + 10)
  else .error "assertion failed"

/-- The `<MatchPadding>` node: whether it has attributes, and the `content` of each of its
child nodes (`none`: `NULL`). -/
structure xml_padding where
  has_properties : Bool
  children : List (Option (List Char))
  deriving DecidableEq, Repr

/-- The character `data_str[i]`; the string is followed by its terminating NUL. -/
def char_at (data_str : List Char) (i : Nat) : Char := data_str.getD i (Char.ofNat 0)

def loop_error : String := "padding loop did not terminate"

/-- The `for` loop of `read_match_padding`, entered at the test `i < data_len - 4` with the
bytes stored so far; `bound` is the `size_t` value of `data_len - 4`. Every iteration
advances `i`, and the error only marks the end of the fuel. -/
def read_match_padding_loop (data_str : List Char) (bound : Nat) :
    Nat → Nat → Bool → List Nat → Except String (List Nat)
  | 0, _, _, _ => .error loop_error
  | fuel + 1, i, must_be_delimiter, padding =>
    if ¬ i < bound then .ok padding
    else if isspace (char_at data_str i) || char_at data_str i = Char.ofNat 44 then
      read_match_padding_loop data_str bound fuel (i + 1) false padding
    else if must_be_delimiter then .error "Malformed padding data (1)"
    else if char_at data_str (i + 0) ≠ '0' ∨ char_at data_str (i + 1) ≠ 'x' then
      .error "Malformed padding data (2)"
    else
      let c1 := toupper (char_at data_str (i + 2))
      let c2 := toupper (char_at data_str (i + 3))
      if !is_hex c1 || !is_hex c2 then .error "Malformed padding data (3)"
      else
        match from_hex c1, from_hex c2 with
        | .ok h1, .ok h2 =>
          read_match_padding_loop data_str bound fuel (i + 3 + 1) true
            (padding ++ [((h1 <<< 4) ||| h2) % 256])
        | _, _ => .error "assertion failed"

/-- `read_match_padding`: the bytes stored in `sf->match_padding`, `sf->match_padding_num`
of them. -/
def read_match_padding (padding_decl : xml_padding) : Except String (List Nat) :=
  if padding_decl.has_properties then .error "Unexpected attributes"
  else
    match padding_decl.children with
    | [] => .error "No data"
    | none :: _ => .error "No data"
    | some data_str :: rest =>
      if !rest.isEmpty then .error "Malformed padding data"
      else
        let data_len := data_str.length
        read_match_padding_loop data_str (to_size_t ((data_len : Int) - 4)) (data_len + 1) 0
          false []

/-! ## Samples and drums: reading -/

/-- A child of the `<Samples>` list, with the attributes of `sample_spec` already parsed. -/
structure xml_sample where
  is_element : Bool
  name : String
  Name : Option String := none
  SampleRate : Option Rat := none
  BaseNote : Option Int := none
  IsDD : Option Bool := none
  Cached : Option Bool := none
  deriving DecidableEq, Repr

/-- `midinote_to_z64note`. -/
def midinote_to_z64note (note : Int) : Int :=
  let z64note := note - 21
  if z64note < 0 then z64note + 128 else z64note

/-- One iteration of the loop of `read_samples_info` on an element node: the record linked
at the end of `sf->samples`. Modelled from the spec: `aifc_of` stands for
`samplebank_path_forname` followed by `aifc_read`, the waveform provider keyed by sample
name (`none`: no such sample in the sample bank). -/
def read_sample (aifc_of : String → Option aifc_data) (defaults_is_dd defaults_cached : Bool)
    (sample_node : xml_sample) : Except String sample_data :=
  if sample_node.name ≠ "Sample" then .error "Unexpected element node in samples list"
  else
    match sample_node.Name with
    | none => .error "Missing required attribute"
    | some name =>
      match aifc_of name with
      | none => .error "Bad sample name"
      | some aifc =>
        let sample_rate := sample_node.SampleRate.getD (-1)
        let sample_rate := if sample_rate = -1 then aifc.sample_rate else sample_rate
        let base_note := sample_node.BaseNote.getD NOTE_UNSET
        if base_note = NOTE_UNSET ∧ !aifc.has_inst then .error "No basenote"
        else
          let base_note :=
            if base_note = NOTE_UNSET then midinote_to_z64note aifc.basenote else base_note
          if !aifc.has_book then .error "No book"
          else
            .ok { name := name, is_dd := sample_node.IsDD.getD defaults_is_dd,
                  cached := sample_node.Cached.getD defaults_cached, aifc := aifc,
                  sample_rate := sample_rate, base_note := base_note }

/-- The loop of `read_samples_info`, threading `sf->samples`. -/
def read_samples_loop (aifc_of : String → Option aifc_data)
    (defaults_is_dd defaults_cached : Bool) :
    List sample_data → List xml_sample → Except String (List sample_data)
  | samples, [] => .ok samples
  | samples, sample_node :: rest =>
    if !sample_node.is_element then
      read_samples_loop aifc_of defaults_is_dd defaults_cached samples rest
    else
      match read_sample aifc_of defaults_is_dd defaults_cached sample_node with
      | .error e => .error e
      | .ok sample =>
        read_samples_loop aifc_of defaults_is_dd defaults_cached (samples ++ [sample]) rest

/-- `read_samples_info`: `IsDD` and `Cached` are the attributes of the `<Samples>` node. -/
def read_samples_info (aifc_of : String → Option aifc_data) (samples : List sample_data)
    (IsDD Cached : Option Bool) (children : List xml_sample) :
    Except String (List sample_data) :=
  read_samples_loop aifc_of (IsDD.getD false) (Cached.getD false) samples children

/-- A child of the `<Drums>` list, with the attributes of `drum_spec` already parsed. -/
structure xml_drum where
  is_element : Bool
  name : String
  has_properties : Bool
  Name : Option String := none
  Semitone : Option Int := none
  SemitoneStart : Option Int := none
  SemitoneEnd : Option Int := none
  Pan : Option Int := none
  Envelope : Option String := none
  Sample : Option String := none
  SampleRate : Option Rat := none
  BaseNote : Option Int := none
  deriving DecidableEq, Repr

/-- One iteration of the loop of `read_drums_info` on an element node: the record linked at
the end of `sf->drums`. The attributes `Name`, `Pan`, `Envelope` and `Sample` are not
optional. For the attribute-less `<Drum/>` the field `pan` is not written. -/
def read_drum (envelopes : List envelope_data) (samples : List sample_data)
    (drum_node : xml_drum) : Except String (drum_data Rat) :=
  if drum_node.name ≠ "Drum" then .error "Unexpected element node in drums list"
  else if !drum_node.has_properties then
    .ok { name := none, envelope := none, sample := none, semitone_start := NOTE_UNSET,
          semitone_end := NOTE_UNSET, pan := 0, sample_rate := -1, base_note := NOTE_UNSET }
  else
    match drum_node.Name, drum_node.Pan, drum_node.Envelope, drum_node.Sample with
    | some name, some pan, some envelope_name, some sample_name =>
      match sf_get_envelope envelopes (some envelope_name) with
      | none => .error "Bad envelope name"
      | some envelope =>
        let semitone := drum_node.Semitone.getD NOTE_UNSET
        let semitone_start := drum_node.SemitoneStart.getD NOTE_UNSET
        let semitone_end := drum_node.SemitoneEnd.getD NOTE_UNSET
        if semitone = NOTE_UNSET ∧ (semitone_start = NOTE_UNSET ∨ semitone_end = NOTE_UNSET) then
          .error "Incomplete semitone range specification"
        else if semitone ≠ NOTE_UNSET ∧
            (semitone_start ≠ NOTE_UNSET ∨ semitone_end ≠ NOTE_UNSET) then
          .error "Overspecified semitone range"
        else
          let semitone_start := if semitone = NOTE_UNSET then semitone_start else semitone
          let semitone_end := if semitone = NOTE_UNSET then semitone_end else semitone
          if semitone_end < semitone_start then .error "Invalid drum semitone range"
          else
            match sample_data_forname samples (some sample_name) with
            | none => .error "Bad sample name"
            | some sample =>
              let sample_rate := drum_node.SampleRate.getD (-1)
              let sample_rate := if sample_rate = -1 then sample.sample_rate else sample_rate
              let base_note := drum_node.BaseNote.getD NOTE_UNSET
              if base_note = NOTE_UNSET ∧ !sample.aifc.has_inst then
                .error "No basenote for drum"
              else
                let base_note :=
                  if base_note = NOTE_UNSET then to_int8 sample.base_note else base_note
                .ok { name := some name, envelope := some envelope, sample := some sample,
                      semitone_start := semitone_start, semitone_end := semitone_end,
                      pan := pan, sample_rate := sample_rate, base_note := base_note }
    | _, _, _, _ => .error "Missing required attribute"

/-- The loop of `read_drums_info`, threading `sf->drums`. -/
def read_drums_info (envelopes : List envelope_data) (samples : List sample_data) :
    List (drum_data Rat) → List xml_drum → Except String (List (drum_data Rat))
  | drums, [] => .ok drums
  | drums, drum_node :: rest =>
    if !drum_node.is_element then read_drums_info envelopes samples drums rest
    else
      match read_drum envelopes samples drum_node with
      | .error e => .error e
      | .ok drum => read_drums_info envelopes samples (drums ++ [drum]) rest

/-! ## The reading passes of `main` -/

/-- A child of the root `<Soundfont>` node, seen through its name: the five lists, the
`<MatchPadding>` block, and every other node (text, comments, other elements). -/
inductive xml_block where
  | Envelopes (children : List xml_env)
  | Samples (IsDD Cached : Option Bool) (children : List xml_sample)
  | Instruments (children : List xml_instr)
  | Drums (children : List xml_drum)
  | Effects (children : List xml_effect)
  | MatchPadding (node : xml_padding)
  | other (name : String)
  deriving DecidableEq, Repr

/-- The name `node->name` the loops of `main` compare. -/
def xml_block.name : xml_block → String
  | .Envelopes _ => "Envelopes"
  | .Samples _ _ _ => "Samples"
  | .Instruments _ => "Instruments"
  | .Drums _ => "Drums"
  | .Effects _ => "Effects"
  | .MatchPadding _ => "MatchPadding"
  | .other name => name

/-- One loop of `main` over the children of the root node, with the loop body `step`. -/
def run_pass {σ : Type} (step : σ → xml_block → Except String σ) :
    σ → List xml_block → Except String σ
  | st, [] => .ok st
  | st, node :: rest =>
    match step st node with
    | .error e => .error e
    | .ok st => run_pass step st rest

/-- Body of the first loop of `main`: "read all envelopes first irrespective of their
positioning". -/
def read_envelopes_step : List envelope_data → xml_block → Except String (List envelope_data)
  | envelopes, .Envelopes children => read_envelopes_info envelopes children
  | envelopes, _ => .ok envelopes

/-- Body of the second loop of `main`: "read all samples". -/
def read_samples_step (aifc_of : String → Option aifc_data) :
    List sample_data → xml_block → Except String (List sample_data)
  | samples, .Samples IsDD Cached children =>
    read_samples_info aifc_of samples IsDD Cached children
  | samples, _ => .ok samples

/-- The fields of `soundfont` written by the third loop of `main`. -/
structure entities where
  instrs : instr_state
  drums : List (drum_data Rat)
  sfx : List (sfx_data Nat)
  num_effects : Nat

/-- Body of the third loop of `main`: "read all instruments", drums and effects. -/
def read_entities_step (calc_tuning : Rat → Int → Nat) (envelopes : List envelope_data)
    (samples : List sample_data) : entities → xml_block → Except String entities
  | sf, .Instruments children =>
    match read_instrs_loop (resolve_in calc_tuning envelopes samples) sf.instrs 0 children with
    | .error e => .error e
    | .ok instrs => .ok { sf with instrs := instrs }
  | sf, .Drums children =>
    match read_drums_info envelopes samples sf.drums children with
    | .error e => .error e
    | .ok drums => .ok { sf with drums := drums }
  | sf, .Effects children =>
    match read_sfx_info calc_tuning samples (sf.sfx, sf.num_effects) children with
    | .error e => .error e
    | .ok r => .ok { sf with sfx := r.1, num_effects := r.2 }
  | sf, _ => .ok sf

/-- Body of the fourth loop of `main`: "read match padding if it exists". -/
def read_padding_step : Option (List Nat) → xml_block → Except String (Option (List Nat))
  | _, .MatchPadding node =>
    match read_match_padding node with
    | .error e => .error e
    | .ok padding => .ok (some padding)
  | match_padding, _ => .ok match_padding

/-- The four reading loops of `main` over the children of the root node, giving the bank
handed to the emitters. `pad_to_size` is the value `read_soundfont_info` left in
`sf->info.pad_to_size`. -/
def main_read (calc_tuning : Rat → Int → Nat) (aifc_of : String → Option aifc_data)
    (pad_to_size : Nat) (root_children : List xml_block) : Except String (soundfont Rat Nat) :=
  match run_pass read_envelopes_step [] root_children with
  | .error e => .error e
  | .ok envelopes =>
    match run_pass (read_samples_step aifc_of) [] root_children with
    | .error e => .error e
    | .ok samples =>
      match run_pass (read_entities_step calc_tuning envelopes samples)
          ⟨instr_state.init, [], [], 0⟩ root_children with
      | .error e => .error e
      | .ok sf =>
        match run_pass read_padding_step none root_children with
        | .error e => .error e
        | .ok match_padding =>
          .ok { envelopes := envelopes, samples := samples, instrs := sf.instrs,
                drums := sf.drums, sfx := sf.sfx, num_effects := sf.num_effects,
                match_padding := match_padding, pad_to_size := pad_to_size }

/-! ## Single-precision arithmetic and `calc_tuning` -/

/-- A value of the C type `float` (IEEE 754 binary32). `finite sign m e` is the number
`(-1)^sign * m * 2^e`; the values produced by the operations below have `m < 2^24` and
`e ≥ -149`, with `e = -149` whenever `m < 2^23` (zero and the subnormal numbers). -/
inductive float where
  | finite (sign : Bool) (m : Nat) (e : Int)
  | inf (sign : Bool)
  | nan
  deriving DecidableEq, Repr

/-- Halving `n` until it is below 2, at most `fuel` times: the number of halvings. -/
def log2_fuel : Nat → Nat → Nat
  | 0, _ => 0
  | fuel + 1, n => if n < 2 then 0 else log2_fuel fuel (n / 2) + 1

/-- The position of the leading bit of `n`: `⌊log2 n⌋` for `n > 0`. -/
def nat_log2 (n : Nat) : Nat := log2_fuel n n

/-- The binary exponent `⌊log2 (N / D)⌋` of the positive rational `N / D`. -/
def ilog2 (N D : Nat) : Int :=
  let e0 : Int := (nat_log2 N : Int) - (nat_log2 D : Int)
  if D * 2 ^ e0.toNat ≤ N * 2 ^ (-e0).toNat then e0 else e0 - 1

/-- The integer nearest to `N / D`, ties to even. -/
def round_nearest_even (N D : Nat) : Nat :=
  let q := N / D
  let r := N % D
  if 2 * r < D then q else if D < 2 * r then q + 1 else if q % 2 = 0 then q else q + 1

/-- Rounding of the rational `(-1)^sign * N / D` (`D > 0`) to `float` in the default mode,
round to nearest with ties to even: 24 significant bits, least exponent -149, overflow to
infinity. -/
def to_float (sign : Bool) (N D : Nat) : float :=
  if N = 0 then .finite sign 0 (-149)
  else
    let e := max (ilog2 N D) (-126)
    let u := e - 23
    let m := round_nearest_even (N * 2 ^ (-u).toNat) (D * 2 ^ u.toNat)
    let m1 := if m = 2 ^ 24 then 2 ^ 23 else m
    let u1 := if m = 2 ^ 24 then u + 1 else u
    if u1 > 104 then .inf sign else .finite sign m1 u1

/-- The conversion of a `double` (kept as the rational it denotes) to `float`. -/
def double_to_float (x : Rat) : float := to_float (decide (x < 0)) x.num.natAbs x.den

/-- The `float` constant written with the decimal digits `digits`, the last `decimals` of
them after the point: `float_lit 105112 6` is `0.105112f`. -/
def float_lit (digits decimals : Nat) : float := to_float false digits (10 ^ decimals)

/-- The `float` product `x * y`. -/
def float.mul : float → float → float
  | .nan, _ => .nan
  | _, .nan => .nan
  | .inf s, .inf t => .inf (xor s t)
  | .inf s, .finite t n _ => if n = 0 then .nan else .inf (xor s t)
  | .finite s m _, .inf t => if m = 0 then .nan else .inf (xor s t)
  | .finite s m e, .finite t n f =>
    to_float (xor s t) (m * n * 2 ^ (e + f).toNat) (2 ^ (-(e + f)).toNat)

/-- The `float` quotient `x / y`. -/
def float.div : float → float → float
  | .nan, _ => .nan
  | _, .nan => .nan
  | .inf _, .inf _ => .nan
  | .inf s, .finite t _ _ => .inf (xor s t)
  | .finite s _ _, .inf t => .finite (xor s t) 0 (-149)
  | .finite s m e, .finite t n f =>
    if n = 0 then (if m = 0 then .nan else .inf (xor s t))
    else to_float (xor s t) (m * 2 ^ (e - f).toNat) (n * 2 ^ (-(e - f)).toNat)

/-- The object representation of a `float` as read by `f2i`. The sign and payload of a NaN
are not fixed by the C standard; the quiet NaN `0x7FC00000` stands for them. -/
def float.bits : float → Nat
  | .finite sign m e =>
    (if sign then 2 ^ 31 else 0) + (if m < 2 ^ 23 then m else (e + 149).toNat * 2 ^ 23 + m)
  | .inf sign => (if sign then 2 ^ 31 else 0) + 0x7F800000
  | .nan => 0x7FC00000

/-- The table `pitch_frequencies` of `calc_tuning` (`gPitchFrequencies`), 128 entries. -/
def pitch_frequencies : List float :=
  [float_lit 105112 6, float_lit 111362 6, float_lit 117984 6, float_lit 125 3,
   float_lit 132433 6, float_lit 140308 6, float_lit 148651 6, float_lit 15749 5,
   float_lit 166855 6, float_lit 176777 6, float_lit 187288 6, float_lit 198425 6,
   float_lit 210224 6, float_lit 222725 6, float_lit 235969 6, float_lit 25 2,
   float_lit 264866 6, float_lit 280616 6, float_lit 297302 6, float_lit 31498 5,
   float_lit 33371 5, float_lit 353553 6, float_lit 374577 6, float_lit 39685 5,
   float_lit 420448 6, float_lit 445449 6, float_lit 471937 6, float_lit 5 1, float_lit 529732 6,
   float_lit 561231 6, float_lit 594604 6, float_lit 629961 6, float_lit 66742 5,
   float_lit 707107 6, float_lit 749154 6, float_lit 793701 6, float_lit 840897 6,
   float_lit 890899 6, float_lit 943875 6, float_lit 10 1, float_lit 1059463 6,
   float_lit 1122462 6, float_lit 1189207 6, float_lit 1259921 6, float_lit 133484 5,
   float_lit 1414214 6, float_lit 1498307 6, float_lit 1587401 6, float_lit 1681793 6,
   float_lit 1781798 6, float_lit 1887749 6, float_lit 20 1, float_lit 2118926 6,
   float_lit 2244924 6, float_lit 2378414 6, float_lit 2519842 6, float_lit 266968 5,
   float_lit 2828428 6, float_lit 2996615 6, float_lit 3174803 6, float_lit 3363586 6,
   float_lit 3563596 6, float_lit 3775498 6, float_lit 40 1, float_lit 4237853 6,
   float_lit 4489849 6, float_lit 4756829 6, float_lit 5039685 6, float_lit 533936 5,
   float_lit 5656855 6, float_lit 5993229 6, float_lit 6349606 6, float_lit 6727173 6,
   float_lit 7127192 6, float_lit 7550996 6, float_lit 80 1, float_lit 8475705 6,
   float_lit 8979697 6, float_lit 9513658 6, float_lit 1007937 5, float_lit 106787205 7,
   float_lit 1131371 5, float_lit 11986459 6, float_lit 12699211 6, float_lit 13454346 6,
   float_lit 14254383 6, float_lit 15101993 6, float_lit 160 1, float_lit 1695141 5,
   float_lit 17959395 6, float_lit 19027315 6, float_lit 2015874 5, float_lit 2135744 5,
   float_lit 2262742 5, float_lit 23972918 6, float_lit 25398422 6, float_lit 26908691 6,
   float_lit 28508766 6, float_lit 30203985 6, float_lit 320 1, float_lit 3390282 5,
   float_lit 3591879 5, float_lit 3805463 5, float_lit 4031748 5, float_lit 4271488 5,
   float_lit 4525484 5, float_lit 47945835 6, float_lit 50796845 6, float_lit 53817383 6,
   float_lit 57017532 6, float_lit 6040797 5, float_lit 640 1, float_lit 6780564 5,
   float_lit 7183758 5, float_lit 7610926 5, float_lit 8063496 5, float_lit 8542976 5,
   float_lit 55681 6, float_lit 58992 6, float_lit 625 4, float_lit 66216 6, float_lit 70154 6,
   float_lit 74325 6, float_lit 78745 6, float_lit 83427 6, float_lit 88388 6, float_lit 93644 6,
   float_lit 99213 6]

/-- The constant `playback_sample_rate`, `32000.0f`. -/
def playback_sample_rate : float := float_lit 320000 1

/-- `calc_tuning(sample_rate, basenote)`:
`(sample_rate / playback_sample_rate) * pitch_frequencies[basenote]`; `none` when `basenote`
is not an index of the table (the read is then out of bounds). -/
def calc_tuning (sample_rate : float) (basenote : Int) : Option float :=
  if basenote < 0 then none
  else
    match pitch_frequencies[basenote.toNat]? with
    | none => none
    | some pitch => some ((sample_rate.div playback_sample_rate).mul pitch)

/-- The rational number a finite `float` denotes (0 for the infinities and NaN). -/
def float.toRat : float → Rat
  | .finite sign m e => (if sign then -1 else 1) * (m : Rat) * (2 : Rat) ^ e
  | .inf _ => 0
  | .nan => 0

/-! ## Note names -/

/-- The table `note_names` of `z64_note_name`, 128 entries. -/
def note_names : List String :=
  ["A0", "BF0", "B0", "C1", "DF1", "D1", "EF1", "E1", "F1", "GF1", "G1", "AF1", "A1", "BF1",
   "B1", "C2", "DF2", "D2", "EF2", "E2", "F2", "GF2", "G2", "AF2", "A2", "BF2", "B2", "C3",
   "DF3", "D3", "EF3", "E3", "F3", "GF3", "G3", "AF3", "A3", "BF3", "B3", "C4", "DF4", "D4",
   "EF4", "E4", "F4", "GF4", "G4", "AF4", "A4", "BF4", "B4", "C5", "DF5", "D5", "EF5", "E5",
   "F5", "GF5", "G5", "AF5", "A5", "BF5", "B5", "C6", "DF6", "D6", "EF6", "E6", "F6", "GF6",
   "G6", "AF6", "A6", "BF6", "B6", "C7", "DF7", "D7", "EF7", "E7", "F7", "GF7", "G7", "AF7",
   "A7", "BF7", "B7", "C8", "DF8", "D8", "EF8", "E8", "F8", "GF8", "G8", "AF8", "A8", "BF8",
   "B8", "C9", "DF9", "D9", "EF9", "E9", "F9", "GF9", "G9", "AF9", "A9", "BF9", "B9", "C10",
   "DF10", "D10", "EF10", "E10", "F10", "BFNEG1", "BNEG1", "C0", "DF0", "D0", "EF0", "E0", "F0",
   "GF0", "G0", "AF0"]

/-- `z64_note_name(note_num)`; `none` when `note_num` is not an index of the table. -/
def z64_note_name (note_num : Int) : Option String :=
  if note_num < 0 then none else note_names[note_num.toNat]?

/-! ## `util.c`: C identifiers -/

/-- `isdigit` in the "C" locale. -/
def isdigit (c : Char) : Bool := '0' ≤ c && c ≤ '9'

/-- `isalpha` in the "C" locale. -/
def isalpha (c : Char) : Bool := ('a' ≤ c && c ≤ 'z') || ('A' ≤ c && c ≤ 'Z')

/-- The table `c_kwds` of `str_is_c_identifier`. -/
def c_kwds : List String :=
  ["auto", "break", "case", "char", "const", "continue", "default", "do",
   "double", "else", "enum", "extern", "float", "for", "goto", "if",
   "inline", "int", "long", "register", "restrict", "return", "short", "signed",
   "sizeof", "static", "struct", "switch", "typedef", "union", "unsigned", "void",
   "volatile", "while",
   "_Alignas", "_Alignof", "_Atomic", "_Bool", "_Complex", "_Generic", "_Imaginary", "_Noreturn",
   "_Static_assert", "_Thread_local"]

/-- The first loop of `str_is_c_identifier`, from the character at hand on: `false` at the
first character that is neither a letter, a digit nor an underscore. -/
def str_is_c_identifier_chars : List Char → Bool
  | [] => true
  | c :: rest =>
    let alpha := isalpha c
    let digit := isdigit c
    let uscore := decide (c = '_')
    if !(alpha || digit || uscore) then false else str_is_c_identifier_chars rest

/-- The second loop of `str_is_c_identifier`, from the keyword at hand on: `false` at the
first keyword equal to `str`. -/
def str_is_c_identifier_kwds (str : String) : List String → Bool
  | [] => true
  | kwd :: rest => if str = kwd then false else str_is_c_identifier_kwds str rest

/-- `str_is_c_identifier(str)`; `none` is the `NULL` pointer. `str[0]` of the empty string
is its terminating NUL. -/
def str_is_c_identifier (str : Option String) : Bool :=
  match str with
  | none => false
  | some str =>
    if isdigit (char_at str.toList 0) then false
    else if !str_is_c_identifier_chars str.toList then false
    else str_is_c_identifier_kwds str c_kwds

/-! ## Specification-side notions -/

/-- A drum covers the table slot `t`. -/
def drum_covers {R : Type} (d : drum_data R) (t : Nat) : Prop :=
  d.semitone_start ≤ (t : Int) ∧ (t : Int) ≤ d.semitone_end

/-- Following the pointer field `f` from `s` visits exactly the addresses of `l`, in order,
and then arrives at `e`. -/
def ptr_chain (f : Nat → Option Nat) : Option Nat → List Nat → Option Nat → Prop
  | s, [], e => s = e
  | s, a :: rest, e => s = some a ∧ ptr_chain f (f a) rest e

/-- The record at `a` stands before the record at `b` in the struct list read from its head:
it has the larger struct index or, for equal indices, it was read later. -/
def struct_before (heap : Nat → instr_data) (a b : Nat) : Prop :=
  (heap b).struct_index < (heap a).struct_index ∨
    ((heap a).struct_index = (heap b).struct_index ∧ b < a)

/-- The record is linked into the struct list: it is not an attribute-less `<Instrument/>`,
which is exactly the condition under which `emit_c_instruments` writes a structure for it. -/
def instr_linked (r : instr_data) : Prop := ¬ (r.name = none ∧ r.unused = false)

/-- The state of the struct list between two iterations of `read_instrs_info`: `l` lists the
linked records from `instruments_struct` to `instruments_struct_last`. -/
structure struct_inv (sf : instr_state) (l : List Nat) : Prop where
  next_chain : ptr_chain (fun a => (sf.heap a).next_struct) sf.instruments_struct l none
  prev_chain : ptr_chain (fun a => (sf.heap a).prev_struct) sf.instruments_struct_last l.reverse none
  sorted : l.Pairwise (struct_before sf.heap)
  mem : ∀ a, a ∈ l ↔ a < sf.n_alloc ∧ instr_linked (sf.heap a)
  logical : sf.instruments = List.range sf.n_alloc
  length_le : l.length ≤ sf.n_alloc

/-- An instrument node passes the checks of `read_instrs_info` modelled here. -/
def instr_node_ok (resolve : xml_instr → Except String Unit) (node : xml_instr) : Prop :=
  node.is_element = false ∨
    ((node.name = "Instrument" ∨ node.name = "InstrumentUnused") ∧
      ((node.has_properties = false ∧ node.name ≠ "InstrumentUnused") ∨
        ((node.name = "InstrumentUnused" ∨ node.Name ≠ none) ∧ resolve node = .ok ())))

/-- What one run of the struct link achieves: the record `n` is inserted into the list `l`,
giving `l'`; only link fields of the heap change. -/
structure link_result (sf sf' : instr_state) (n : Nat) (l l' : List Nat) : Prop where
  perm : l'.Perm (n :: l)
  next_chain : ptr_chain (fun a => (sf'.heap a).next_struct) sf'.instruments_struct l' none
  prev_chain : ptr_chain (fun a => (sf'.heap a).prev_struct) sf'.instruments_struct_last l'.reverse none
  sorted : l'.Pairwise (struct_before sf'.heap)
  index_eq : ∀ a, (sf'.heap a).struct_index = (sf.heap a).struct_index
  name_eq : ∀ a, (sf'.heap a).name = (sf.heap a).name
  unused_eq : ∀ a, (sf'.heap a).unused = (sf.heap a).unused
  n_alloc_eq : sf'.n_alloc = sf.n_alloc
  instruments_eq : sf'.instruments = sf.instruments

/-- The base note of a resolved sample reference, from the `BaseNote` attribute of the entity
(`none`: absent) and the referenced sample: the attribute unless it is absent or equal to the
marker `NOTE_UNSET`, else the sample's base note converted to `int8_t`. -/
def resolved_base_note (attr : Option Int) (sample : sample_data) : Int :=
  match attr with
  | some b => if b = NOTE_UNSET then to_int8 sample.base_note else b
  | none => to_int8 sample.base_note

/-- The sample rate of a resolved sample reference of an instrument: the attribute unless it
is absent or negative, else the sample's rate. -/
def resolved_rate_instr (attr : Option Rat) (sample : sample_data) : Rat :=
  match attr with
  | some x => if x < 0 then sample.sample_rate else x
  | none => sample.sample_rate

/-- The sample rate of a resolved sample reference of an effect: the attribute unless it is
absent or equal to `-1`, else the sample's rate. -/
def resolved_rate_sfx (attr : Option Rat) (sample : sample_data) : Rat :=
  match attr with
  | some x => if x = -1 then sample.sample_rate else x
  | none => sample.sample_rate

/-- The number of element children of an `<Instrument>` that carry exactly the one attribute
`slot` (`Low`, `Mid` or `High`). -/
def slot_count (slot : String) (children : List xml_instr_sample) : Nat :=
  children.countP (fun c => c.is_element && decide (c.attrs.map Prod.fst = [slot]))

/-- A child of an `<Instrument>` is either not an element, or a `<Sample>` element with
exactly one attribute, `Low`, `Mid` or `High`, whose value names a sample of the bank. -/
def sample_child_ok (samples : List sample_data) (c : xml_instr_sample) : Prop :=
  c.is_element = true →
    c.name = "Sample" ∧ ∃ slot v, c.attrs = [(slot, v)] ∧
      (slot = "Low" ∨ slot = "Mid" ∨ slot = "High") ∧
      ∃ s, sample_data_forname samples (some v) = some s

/-- The names of the six kinds of top-level blocks `main` reads. -/
def block_kinds : List String :=
  ["Envelopes", "Samples", "Instruments", "Drums", "Effects", "MatchPadding"]

/-- Two top-level nodes are not two blocks of the same kind. -/
def block_compat (x y : xml_block) : Prop := x.name = y.name → x.name ∉ block_kinds

/-- Each kind of block occurs at most once among the children of the root: no two of them are
blocks of the same kind (other nodes may repeat). -/
def at_most_once (blocks : List xml_block) : Prop := blocks.Pairwise block_compat

/-- A valid C identifier in the sense of the documentation of `str_is_c_identifier`: not
empty, made of underscores, letters and digits only, not starting with a digit, and not a
keyword of the table. -/
def is_c_identifier (s : String) : Prop :=
  s.toList ≠ [] ∧
  (∀ c ∈ s.toList, c = '_' ∨ ('a' ≤ c ∧ c ≤ 'z') ∨ ('A' ≤ c ∧ c ≤ 'Z') ∨ ('0' ≤ c ∧ c ≤ '9')) ∧
  (∀ c, s.toList.head? = some c → ¬ ('0' ≤ c ∧ c ≤ '9')) ∧
  s ∉ c_kwds

/-- The struct indices that the entries of an instrument list which are not placeholders are
to receive, in reading order: the `MatchOrder` attribute of the entry, and without it one more
than the struct index of the previous such entry (`last` is that successor; 0 at the start of
the list). -/
def default_struct_indices : Int → List xml_instr → List Int
  | _, [] => []
  | last, node :: rest =>
    if !node.is_element || (!node.has_properties && !decide (node.name = "InstrumentUnused"))
    then default_struct_indices last rest
    else node.MatchOrder.getD last :: default_struct_indices (node.MatchOrder.getD last + 1) rest

/-- A positive normal `float` between `2^-5` and `2^7`: the range of the pitch table. -/
def float.in_pitch_range : float → Bool
  | .finite false m e => decide (2 ^ 23 ≤ m ∧ m < 2 ^ 24 ∧ -28 ≤ e ∧ e ≤ -17)
  | _ => false

/-! ## Example data -/

/-- A waveform record with an ADPCM codebook of the given shape and coefficients. -/
def ex_aifc (order npredictors : Int) (state : List Int) : aifc_data :=
  { compression_type := CC4 'A' 'D' 'P' '9', ssnd_size := 0x900, has_loop := false,
    loop_count := 0, has_book := true, book_order := order, book_npredictors := npredictors,
    book_state := state }

/-- A sample named `name` with the given codebook. -/
def ex_sample (name : String) (order npredictors : Int) (state : List Int) : sample_data :=
  { name := name, is_dd := false, cached := false, aifc := ex_aifc order npredictors state }

/-- Sixteen coefficients: one order-2 predictor. -/
def ex_coefs : List Int := [1, 2, 3, 4, 5, 6, 7, 8, 9, 10, 11, 12, 13, 14, 15, 16]

/-- The same coefficients as `ex_coefs` except for the last one. -/
def ex_coefs_last : List Int := [1, 2, 3, 4, 5, 6, 7, 8, 9, 10, 11, 12, 13, 14, 15, 99]

/-- Thirty-two coefficients, the data of both an order-2 book with two predictors and an
order-4 book with one predictor. -/
def ex_coefs32 : List Int := (List.range 32).map (fun i => (i : Int) - 7)

/-- A tuning function for examples: it records its two arguments. -/
def ex_calc_tuning (sample_rate : Nat) (basenote : Int) : Nat × Int := (sample_rate, basenote)

/-- A drum named `name` over the semitone range `[semitone_start, semitone_end]`. -/
def ex_drum (name : String) (semitone_start semitone_end base_note : Int) : drum_data Nat :=
  { name := some name, envelope := none, sample := none, semitone_start := semitone_start,
    semitone_end := semitone_end, pan := 64, sample_rate := 32000, base_note := base_note }

/-- The instrument state read from a single named `<Instrument>`. -/
def ex_instrs : instr_state :=
  match read_instrs_info (fun _ => .ok ())
      [{ is_element := true, name := "Instrument", has_properties := true,
         Name := some "INST_KICK", MatchOrder := none }] with
  | .ok sf => sf
  | .error _ => instr_state.init

/-- A bank with one envelope, one sample, one instrument, one drum over semitones 0..3 and
`n` sound effects. -/
def ex_bank (n : Nat) : soundfont Nat (Nat × Int) :=
  { envelopes := [⟨some "Env0", 0, [⟨10, 5⟩], false⟩],
    samples := [ex_sample "kick" 2 1 ex_coefs],
    instrs := ex_instrs,
    drums := [ex_drum "D" 0 3 39],
    sfx := List.replicate n
      { name := some "SFX", sample := some (ex_sample "kick" 2 1 ex_coefs), tuning := (32000, 39) } }

/-- Four named instruments read with the match orders 5, 2, 8, 2. -/
def ex_instr_nodes : List xml_instr :=
  [{ is_element := true, name := "Instrument", has_properties := true, Name := some "A",
     MatchOrder := some 5 },
   { is_element := true, name := "Instrument", has_properties := true, Name := some "B",
     MatchOrder := some 2 },
   { is_element := true, name := "Instrument", has_properties := true, Name := some "C",
     MatchOrder := some 8 },
   { is_element := true, name := "Instrument", has_properties := true, Name := some "D",
     MatchOrder := some 2 }]

/-- An envelope named `Env0` with one point. -/
def ex_env : envelope_data := ⟨some "Env0", 7, [⟨10, 5⟩], false⟩

/-- The sample `kick`: rate 32000, base note 39 (C4). -/
def ex_kick : sample_data :=
  { name := "kick", is_dd := false, cached := false, aifc := ex_aifc 2 1 ex_coefs,
    sample_rate := 32000, base_note := 39 }

/-- A stand-in for `calc_tuning` on bit patterns, for examples: it only looks at the note. -/
def ex_tuning (_sample_rate : Rat) (basenote : Int) : Nat := 0x3F800000 + basenote.toNat

/-- An instrument with the direct `Sample` attribute and `RangeLo` set, but no low sample:
`<Instrument Name="I" Envelope="Env0" Sample="kick" RangeLo="30"/>`. -/
def ex_instr_range_lo : xml_instr :=
  { is_element := true, name := "Instrument", has_properties := true, Name := some "I",
    MatchOrder := none, Envelope := some "Env0", Sample := some "kick", RangeLo := some 30 }

/-- The same instrument with its mid sample given by a child node instead:
`<Instrument Name="I" Envelope="Env0" RangeLo="30"><Sample Mid="kick"/></Instrument>`. -/
def ex_instr_range_lo_child : xml_instr :=
  { is_element := true, name := "Instrument", has_properties := true, Name := some "I",
    MatchOrder := none, Envelope := some "Env0", RangeLo := some 30,
    children := [⟨true, "Sample", [("Mid", "kick")]⟩] }

/-- An instrument without range bounds whose only child gives the mid sample:
`<Instrument Name="I" Envelope="Env0"><Sample Mid="kick"/></Instrument>`. -/
def ex_instr_mid_child : xml_instr :=
  { is_element := true, name := "Instrument", has_properties := true, Name := some "I",
    MatchOrder := none, Envelope := some "Env0",
    children := [⟨true, "Sample", [("Mid", "kick")]⟩] }

/-- An instrument with `RangeHi` set and children `Mid` and `High`. -/
def ex_instr_mid_high : xml_instr :=
  { is_element := true, name := "Instrument", has_properties := true, Name := some "I",
    MatchOrder := none, Envelope := some "Env0", RangeHi := some 62,
    children := [⟨true, "Sample", [("Mid", "kick")]⟩, ⟨true, "Sample", [("High", "kick")]⟩] }

/-- An instrument that overrides the sample rate of its mid sample with a negative value:
`<Instrument Name="I" Envelope="Env0" Sample="kick" SampleRate="-2"/>`. -/
def ex_instr_negative_rate : xml_instr :=
  { is_element := true, name := "Instrument", has_properties := true, Name := some "I",
    MatchOrder := none, Envelope := some "Env0", Sample := some "kick", SampleRate := some (-2) }

/-- An instrument with `RangeLo` set, `RangeHi` left unset, and children `Low` and `Mid`:
`<Instrument Name="I" Envelope="Env0" RangeLo="30"><Sample Low="kick"/><Sample Mid="kick"/>
</Instrument>`. -/
def ex_instr_low_mid : xml_instr :=
  { is_element := true, name := "Instrument", has_properties := true, Name := some "I",
    MatchOrder := none, Envelope := some "Env0", RangeLo := some 30,
    children := [⟨true, "Sample", [("Low", "kick")]⟩, ⟨true, "Sample", [("Mid", "kick")]⟩] }

/-- A stand-in for `calc_tuning` that agrees with it at the pair (22765, 20): in single
precision 22765 / 32000 times the table entry 0.33371 of note 20 is the number with the bit
pattern `0x3E7319DF`. -/
def ex_tuning_patched (sample_rate : Rat) (basenote : Int) : Nat :=
  if sample_rate = 22765 ∧ basenote = 20 then 0x3E7319DF else 0x3F800000

/-- An instrument that plays `kick` at the rate 22765 with the base note 20:
`<Instrument Name="I" Envelope="Env0" Sample="kick" SampleRate="22765" BaseNote="20"/>`. -/
def ex_instr_patched : xml_instr :=
  { is_element := true, name := "Instrument", has_properties := true, Name := some "I",
    MatchOrder := none, Envelope := some "Env0", Sample := some "kick",
    SampleRate := some 22765, BaseNote := some 20 }

/-- An effect that overrides both the rate and the base note of `kick`:
`<Effect Name="E" Sample="kick" SampleRate="16000" BaseNote="51"/>`. -/
def ex_effect : xml_effect :=
  { is_element := true, name := "Effect", has_properties := true, Name := some "E",
    Sample := some "kick", SampleRate := some 16000, BaseNote := some 51 }

/-- The waveform of `kick` with a stored frame count that is off by one. -/
def ex_aifc_frames : aifc_data := { ex_aifc 2 1 ex_coefs with num_frames := 4097 }

/-- The text `0xAB` of a `<MatchPadding>` block, ending right after its only token. -/
def ex_padding_one : xml_padding := ⟨false, [some "0xAB".toList]⟩

/-- The text `0xAB, 0xCD`, ending right after its last token. -/
def ex_padding_two : xml_padding := ⟨false, [some "0xAB, 0xCD".toList]⟩

/-- The text `0xAB, 0xcd` followed by a line break. -/
def ex_padding_two_newline : xml_padding :=
  ⟨false, [some ("0xAB, 0xcd".toList ++ [Char.ofNat 10])]⟩

/-- The waveform provider of the examples: the sample bank holds `kick`, recorded at 32000 Hz
with MIDI base note 60. -/
def ex_aifc_of (name : String) : Option aifc_data :=
  if name = "kick" then
    some { ex_aifc 2 1 ex_coefs with sample_rate := 32000, has_inst := true, basenote := 60 }
  else none

/-- The `<Instruments>` block with the instrument that has `RangeHi` and two children. -/
def ex_block_instruments : xml_block := .Instruments [ex_instr_mid_high]

/-- The `<Envelopes>` block defining `Env0`. -/
def ex_block_envelopes : xml_block :=
  .Envelopes [⟨some "Env0", some 7, [⟨true, "Point", some 10, some 5, none⟩]⟩]

/-- The `<Samples>` block defining `kick`. -/
def ex_block_samples : xml_block :=
  .Samples none none [{ is_element := true, name := "Sample", Name := some "kick" }]

/-- The blocks of a document other than its `<Instruments>` block. -/
def ex_document_rest : List xml_block :=
  [.other "text", ex_block_envelopes, .other "text", ex_block_samples, .other "text"]

/-- A document with the instruments before the envelopes and samples they reference. -/
def ex_document : List xml_block := ex_block_instruments :: ex_document_rest

/-- The same blocks with the instruments last. -/
def ex_document_sorted : List xml_block := ex_document_rest ++ [ex_block_instruments]

/-- The placeholder `<Instrument/>`. -/
def ex_instr_placeholder : xml_instr :=
  { is_element := true, name := "Instrument", has_properties := false, Name := none,
    MatchOrder := none }

/-- The reservation `<InstrumentUnused Envelope="Env0" Sample="kick"/>`. -/
def ex_instr_unused : xml_instr :=
  { is_element := true, name := "InstrumentUnused", has_properties := true, Name := none,
    MatchOrder := none, Envelope := some "Env0", Sample := some "kick" }

/-- The instrument `<Instrument Name="A" Envelope="Env0" Sample="kick"/>`. -/
def ex_instr_a : xml_instr :=
  { is_element := true, name := "Instrument", has_properties := true, Name := some "A",
    MatchOrder := none, Envelope := some "Env0", Sample := some "kick" }

/-- The placeholder `<Effect/>`. -/
def ex_effect_placeholder : xml_effect :=
  { is_element := true, name := "Effect", has_properties := false }

/-- An effect that names a sample the bank does not have, and gives rate and base note:
`<Effect Name="E" Sample="missing" SampleRate="16000" BaseNote="51"/>`. -/
def ex_effect_missing : xml_effect :=
  { is_element := true, name := "Effect", has_properties := true, Name := some "E",
    Sample := some "missing", SampleRate := some 16000, BaseNote := some 51 }

/-- An effect that names a sample the bank does not have: `<Effect Name="E" Sample="missing"/>`. -/
def ex_effect_missing_plain : xml_effect :=
  { is_element := true, name := "Effect", has_properties := true, Name := some "E",
    Sample := some "missing" }

/-- The entry `<Sample Name="kick"/>` of a `<Samples>` list. -/
def ex_sample_node : xml_sample := { is_element := true, name := "Sample", Name := some "kick" }

/-- An instrument with a low sample given by attribute and `RangeLo` left unset:
`<Instrument Name="I" Envelope="Env0" Sample="kick" SampleLo="kick"/>`. -/
def ex_instr_low_attr : xml_instr :=
  { is_element := true, name := "Instrument", has_properties := true, Name := some "I",
    MatchOrder := none, Envelope := some "Env0", Sample := some "kick", SampleLo := some "kick" }

/-- An instrument with a high sample given by attribute and `RangeHi` left unset:
`<Instrument Name="I" Envelope="Env0" Sample="kick" SampleHi="kick"/>`. -/
def ex_instr_high_attr : xml_instr :=
  { is_element := true, name := "Instrument", has_properties := true, Name := some "I",
    MatchOrder := none, Envelope := some "Env0", Sample := some "kick", SampleHi := some "kick" }

/-- An instrument that asks for the release 0, with an envelope whose release is 7:
`<Instrument Name="I" Envelope="Env0" Release="0" Sample="kick"/>`. -/
def ex_instr_release_zero : xml_instr :=
  { is_element := true, name := "Instrument", has_properties := true, Name := some "I",
    MatchOrder := none, Envelope := some "Env0", Release := some 0, Sample := some "kick" }

/-- The drum `<Drum Name="D" Semitone="5" Pan="64" Envelope="Env0" Sample="kick" BaseNote="39"/>`. -/
def ex_drum_node : xml_drum :=
  { is_element := true, name := "Drum", has_properties := true, Name := some "D",
    Semitone := some 5, Pan := some 64, Envelope := some "Env0", Sample := some "kick",
    BaseNote := some 39 }

/-- The waveform of `kick` as the provider `ex_aifc_of` reports it: no loop. -/
def ex_aifc_kick : aifc_data :=
  { ex_aifc 2 1 ex_coefs with sample_rate := 32000, has_inst := true, basenote := 60 }

/-- An envelope declared with a plain point whose delay is 0:
`<Envelope Name="Env0" Release="7"><Point Delay="0" Arg="5"/></Envelope>`. -/
def ex_env_zero_delay : xml_env := ⟨some "Env0", some 7, [⟨true, "Point", some 0, some 5, none⟩]⟩

/-- An envelope declared with plain points whose delays are -1, -2 and -3. -/
def ex_env_negative_delays : xml_env :=
  ⟨some "Env1", some 7, [⟨true, "Point", some (-1), some 5, none⟩,
    ⟨true, "Point", some (-2), some 5, none⟩, ⟨true, "Point", some (-3), some 5, none⟩]⟩

/-- An envelope declared with a plain point and the four commands. -/
def ex_env_commands : xml_env :=
  ⟨some "Env2", some 7, [⟨true, "Point", some 10, some 5, none⟩,
    ⟨false, "text", none, none, none⟩, ⟨true, "Goto", none, none, some 0⟩,
    ⟨true, "Restart", none, none, none⟩, ⟨true, "Disable", none, none, none⟩,
    ⟨true, "Hang", none, none, none⟩]⟩

/-- The record that `read_envelopes_info` builds for `ex_env_commands`. -/
def ex_env_commands_data : envelope_data :=
  ⟨some "Env2", 7, [⟨10, 5⟩, ⟨ADSR_GOTO, 0⟩, ⟨ADSR_RESTART, 0⟩, ⟨ADSR_DISABLE, 0⟩,
    ⟨ADSR_HANG, 0⟩], false⟩

/-- Three samples for the codebook comparison: `A` and `B` have one order-1 predictor, and
their coefficients agree in the first four values only; `C` has one order-2 predictor whose
first eight coefficients are those of `B`. -/
def ex_samples_chain : List sample_data :=
  [ex_sample "A" 1 1 [1, 2, 3, 4, 5, 6, 7, 8],
   ex_sample "B" 1 1 [1, 2, 3, 4, 50, 60, 70, 80],
   ex_sample "C" 2 1 [1, 2, 3, 4, 50, 60, 70, 80, 9, 10, 11, 12, 13, 14, 15, 16]]

/-- A waveform provider whose sample bank holds `snare`, a waveform with a codebook and
without instrument data. -/
def ex_aifc_of_snare (name : String) : Option aifc_data :=
  if name = "snare" then some { ex_aifc 2 1 ex_coefs with sample_rate := 32000, has_inst := false }
  else none

/-- The sample `<Sample Name="snare" BaseNote="51"/>`. -/
def ex_sample_node_snare : xml_sample :=
  { is_element := true, name := "Sample", Name := some "snare", BaseNote := some 51 }

/-- The drum `<Drum Name="D" Semitone="5" Pan="64" Envelope="Env0" Sample="snare"/>`. -/
def ex_drum_node_snare : xml_drum :=
  { is_element := true, name := "Drum", has_properties := true, Name := some "D",
    Semitone := some 5, Pan := some 64, Envelope := some "Env0", Sample := some "snare" }

/-- The instrument state read from a placeholder, a reservation and the named instrument `A`. -/
def ex_instrs_header : instr_state :=
  match read_instrs_info (resolve_in ex_tuning [ex_env] [ex_kick])
      [ex_instr_placeholder, ex_instr_unused, ex_instr_a] with
  | .ok sf => sf
  | .error _ => instr_state.init

/-- The tuning function of the instrument reader built from `calc_tuning`: the bit pattern
of the result for a `double` rate. For a note outside the table, where the source reads out
of bounds, it is 0. -/
def ex_tuning_bits (sample_rate : Rat) (basenote : Int) : Nat :=
  match calc_tuning (double_to_float sample_rate) basenote with
  | some tuning => tuning.bits
  | none => 0

/-- The instrument `<Instrument Name="A" MatchOrder="2147483647" Envelope="Env0"
Sample="kick"/>`, with the largest `int` as match order. -/
def ex_instr_int_max : xml_instr :=
  { is_element := true, name := "Instrument", has_properties := true, Name := some "A",
    MatchOrder := some 2147483647, Envelope := some "Env0", Sample := some "kick" }

/-- The instrument `<Instrument Name="B" Envelope="Env0" Sample="kick"/>`. -/
def ex_instr_b : xml_instr :=
  { is_element := true, name := "Instrument", has_properties := true, Name := some "B",
    MatchOrder := none, Envelope := some "Env0", Sample := some "kick" }

/-! ## Alignment lemmas -/

theorem ALIGN16_mod (x : Nat) : ALIGN16 x % 16 = 0 := by
  unfold ALIGN16; omega

theorem ALIGN16_ge (x : Nat) : x ≤ ALIGN16 x ∧ ALIGN16 x < x + 16 := by
  unfold ALIGN16; omega

theorem pad_amount_eq (pos : Nat) : pad_amount pos = (16 - pos % 16) % 16 := by
  unfold pad_amount ALIGN16
  norm_num
  omega

theorem emit_padding_stmt_ok_of_mod4 (pos : Nat) (h4 : pos % 4 = 0) :
    ∃ pad, emit_padding_stmt pos = .ok pad := by
  have hk := pad_amount_eq pos
  have hc : pos % 16 = 0 ∨ pos % 16 = 4 ∨ pos % 16 = 8 ∨ pos % 16 = 12 := by omega
  rcases hc with h | h | h | h <;> rw [h] at hk <;> norm_num at hk <;>
    simp [emit_padding_stmt, hk]

/-! ## C7: `emit_padding_stmt` -/

/-- C7: for every position that is a multiple of 4, `emit_padding_stmt` prints
nothing, `SF_PAD4`, `SF_PAD8` or `SF_PADC` according to whether `ALIGN16(pos) - pos` is 0, 4,
8 or 12, and the position plus the printed padding is the next multiple of 16; for every
position that is not a multiple of 4 it prints nothing and raises the internal error
"Bad alignment generated". -/
theorem emit_padding_stmt_spec (pos : Nat) :
    pad_amount pos = ALIGN16 pos - pos ∧
    (pos % 4 = 0 →
      ((pad_amount pos = 0 ∧ emit_padding_stmt pos = .ok []) ∨
       (pad_amount pos = 4 ∧ emit_padding_stmt pos = .ok [.SF_PAD4]) ∨
       (pad_amount pos = 8 ∧ emit_padding_stmt pos = .ok [.SF_PAD8]) ∨
       (pad_amount pos = 12 ∧ emit_padding_stmt pos = .ok [.SF_PADC])) ∧
      (pos + pad_amount pos) % 16 = 0 ∧ pad_amount pos < 16 ∧
      ∀ pad, emit_padding_stmt pos = .ok pad → (pad.map pad_stmt.bytes).sum = pad_amount pos) ∧
    (pos % 4 ≠ 0 → emit_padding_stmt pos = .error "[Internal] Bad alignment generated") := by
  have hk := pad_amount_eq pos
  refine ⟨?_, ?_, ?_⟩
  · rw [hk]; unfold ALIGN16; omega
  · intro h4
    have hc : pos % 16 = 0 ∨ pos % 16 = 4 ∨ pos % 16 = 8 ∨ pos % 16 = 12 := by omega
    refine ⟨?_, by omega, by omega, ?_⟩
    · rcases hc with h | h | h | h <;> rw [h] at hk <;> norm_num at hk <;>
        simp [emit_padding_stmt, hk]
    · intro pad hpad
      rcases hc with h | h | h | h <;> rw [h] at hk <;> norm_num at hk <;>
        simp [emit_padding_stmt, hk] at hpad <;> subst hpad <;> simp [pad_stmt.bytes, hk]
  · intro h4
    have h0 : pad_amount pos ≠ 0 := by omega
    have h1 : pad_amount pos ≠ 4 := by omega
    have h2 : pad_amount pos ≠ 8 := by omega
    have h3 : pad_amount pos ≠ 12 := by omega
    simp [emit_padding_stmt, h0, h1, h2, h3]

/-- Witness for C7 at `pos = 8` (eight bytes of padding, `SF_PAD8`). -/
theorem emit_padding_stmt_spec_witness :
    8 % 4 = 0 ∧ (8 + pad_amount 8) % 16 = 0 ∧ pad_amount 8 = ALIGN16 8 - 8 ∧
    6 % 4 ≠ 0 ∧ emit_padding_stmt 6 = .error "[Internal] Bad alignment generated" :=
  ⟨by decide, ((emit_padding_stmt_spec 8).2.1 (by decide)).2.1, (emit_padding_stmt_spec 8).1,
    by decide, (emit_padding_stmt_spec 6).2.2 (by decide)⟩

/-! ## C10: envelopes -/

theorem read_envelope_point_none (c : xml_env_pt) (h : read_envelope_point c = .ok none) :
    c.is_element = false := by
  unfold read_envelope_point at h
  cases hc : c.is_element
  · rfl
  · exfalso
    simp only [hc, Bool.not_true, Bool.false_eq_true, if_false] at h
    repeat' split at h
    all_goals simp at h

theorem read_envelope_point_some (c : xml_env_pt) (pt : envelope_point)
    (h : read_envelope_point c = .ok (some pt)) : c.is_element = true := by
  unfold read_envelope_point at h
  cases hc : c.is_element
  · simp [hc] at h
  · rfl

theorem read_envelope_points_declared (cs : List xml_env_pt) :
    ∀ pts, read_envelope_points cs = .ok pts →
      (cs.filter (fun c => c.is_element)).map read_envelope_point
        = pts.map (fun pt => .ok (some pt)) := by
  induction cs with
  | nil => intro pts h; simp [read_envelope_points] at h; subst h; simp
  | cons c cs ih =>
    intro pts h
    unfold read_envelope_points at h
    cases hc : read_envelope_point c with
    | error e => simp [hc] at h
    | ok o =>
      cases o with
      | none =>
        simp only [hc] at h
        have := read_envelope_point_none c hc
        simp [this, ih pts h]
      | some pt =>
        simp only [hc] at h
        have hel := read_envelope_point_some c pt hc
        cases hr : read_envelope_points cs with
        | error e => simp [hr] at h
        | ok pts0 =>
          simp [hr] at h
          subst h
          simp [hel, hc, ih pts0 hr]

theorem read_envelope_named (envelopes : List envelope_data) (env : xml_env)
    (envdata : envelope_data) (name : String)
    (h : read_envelope envelopes env = .ok envdata) (hname : envdata.name = some name) :
    read_envelope_points env.children = .ok envdata.points := by
  unfold read_envelope at h
  split_ifs at h with hc
  · simp at h; subst h; simp at hname
  · split at h
    · split_ifs at h
      split at h
      · simp at h
      · simp at h; subst h; assumption
    · simp at h

/-- C10: a named envelope stored with `n` points is emitted as exactly `n + 1` entries, the
`n` stored points in their stored order followed by one implicit `ENVELOPE_HANG`, and adds
`ALIGN16(4 * (n + 1))` bytes to the size; what `read_envelopes_info` stored for it is exactly
one point per declared element child, in order (no hang is stored). An envelope declared
with the single point (delay 10, arg 5) is stored with one point and emitted with two. -/
theorem emit_c_envelopes_implicit_hang (envdata : envelope_data) (name : String)
    (hname : envdata.name = some name) :
    (∀ empty_num, ∃ pad,
      emit_c_envelope empty_num envdata
        = .ok (⟨.inr name, envdata.points.map emit_envelope_point ++ [.ENVELOPE_HANG], pad⟩,
               ALIGN16 (4 * (envdata.n_points + 1))) ∧
      emit_c_envelopes [envdata]
        = .ok ([⟨.inr name, envdata.points.map emit_envelope_point ++ [.ENVELOPE_HANG], pad⟩],
               ALIGN16 (4 * (envdata.n_points + 1)))) ∧
    (envdata.points.map emit_envelope_point ++ [env_stmt.ENVELOPE_HANG]).length
      = envdata.n_points + 1 ∧
    (∀ envelopes env, read_envelope envelopes env = .ok envdata →
      (env.children.filter (fun c => c.is_element)).map read_envelope_point
        = envdata.points.map (fun pt => .ok (some pt)) ∧
      envdata.n_points = (env.children.filter (fun c => c.is_element)).length) ∧
    read_envelopes_info [] [⟨some "Env0", some 0, [⟨true, "Point", some 10, some 5, none⟩]⟩]
      = .ok [⟨some "Env0", 0, [⟨10, 5⟩], false⟩] ∧
    emit_c_envelopes [⟨some "Env0", 0, [⟨10, 5⟩], false⟩]
      = .ok ([⟨.inr "Env0", [.ENVELOPE_POINT 10 5, .ENVELOPE_HANG], [.SF_PAD8]⟩], 16) := by
  refine ⟨?_, ?_, ?_, by rfl, by rfl⟩
  · intro empty_num
    obtain ⟨pad, hpad⟩ := emit_padding_stmt_ok_of_mod4 ((4 * (envdata.n_points + 1)) % 2 ^ 32)
      (by norm_num)
    refine ⟨pad, ?_, ?_⟩
    · simp only [emit_c_envelope, hname, hpad]
    · simp only [emit_c_envelopes, emit_c_envelopes_loop, emit_c_envelope, hname, hpad,
        Nat.zero_add]
  · simp [envelope_data.n_points]
  · intro envelopes env h
    have hp := read_envelope_points_declared env.children envdata.points
      (read_envelope_named envelopes env envdata name h hname)
    refine ⟨hp, ?_⟩
    have := congrArg List.length hp
    simpa [envelope_data.n_points] using this.symm

/-- Witness for C10: the envelope read from one declared point (delay 10, arg 5). -/
theorem emit_c_envelopes_implicit_hang_witness :
    (envelope_data.mk (some "Env0") 0 [⟨10, 5⟩] false).name = some "Env0" ∧
    (((envelope_data.mk (some "Env0") 0 [⟨10, 5⟩] false).points.map emit_envelope_point
      ++ [env_stmt.ENVELOPE_HANG]).length
      = (envelope_data.mk (some "Env0") 0 [⟨10, 5⟩] false).n_points + 1) :=
  ⟨rfl, (emit_c_envelopes_implicit_hang ⟨some "Env0", 0, [⟨10, 5⟩], false⟩ "Env0" rfl).2.1⟩

/-! ## C2 - C4: codebook deduplication -/

theorem find_book_eq_find (sample : sample_data) (i : Nat) (l : List sample_data) :
    ∀ j, j ≤ i →
      find_book sample i l j = (l.take (i - j)).find? (fun s2 => samples_books_equal sample s2) := by
  induction l with
  | nil => intro j _; simp [find_book]
  | cons s2 rest ih =>
    intro j hj
    unfold find_book
    by_cases hji : j = i
    · simp [hji]
    · have hlt : j < i := lt_of_le_of_ne hj hji
      obtain ⟨m, hm⟩ : ∃ m, i - j = m + 1 := ⟨i - j - 1, by omega⟩
      have hm2 : i - (j + 1) = m := by omega
      simp only [hji, if_false, hm, List.take_succ_cons, List.find?_cons]
      cases hp : samples_books_equal sample s2
      · simp [ih (j + 1) hlt, hm2]
      · simp

theorem emit_c_samples_loop_get (samples : List sample_data) (l : List sample_data) :
    ∀ i size decls total, emit_c_samples_loop samples l i size = .ok (decls, total) →
      decls.length = l.length ∧
      ∀ k s, l[k]? = some s →
        ∃ d sz, decls[k]? = some d ∧ emit_c_sample samples (i + k) s = .ok (d, sz) := by
  induction l with
  | nil =>
    intro i size decls total h
    simp [emit_c_samples_loop] at h
    simp [h.1]
  | cons s0 rest ih =>
    intro i size decls total h
    unfold emit_c_samples_loop at h
    cases h0 : emit_c_sample samples i s0 with
    | error e => simp [h0] at h
    | ok r =>
      obtain ⟨d0, sz0⟩ := r
      simp only [h0] at h
      cases h1 : emit_c_samples_loop samples rest (i + 1) (size + sz0) with
      | error e => simp [h1] at h
      | ok r1 =>
        obtain ⟨ds, tot⟩ := r1
        simp only [h1] at h
        simp at h
        obtain ⟨hd, _⟩ := h
        subst hd
        obtain ⟨hlen, hget⟩ := ih (i + 1) (size + sz0) ds tot h1
        refine ⟨by simp [hlen], ?_⟩
        intro k s hk
        cases k with
        | zero =>
          simp at hk
          subst hk
          exact ⟨d0, sz0, by simp, by simpa using h0⟩
        | succ k =>
          simp at hk
          obtain ⟨d, sz, hd, he⟩ := hget k s hk
          exact ⟨d, sz, by simpa using hd, by rw [← he]; congr 1; omega⟩

theorem emit_c_sample_book (samples : List sample_data) (i : Nat) (sample : sample_data)
    (d : sample_decl) (sz : Nat) (h : emit_c_sample samples i sample = .ok (d, sz)) :
    d.name = sample.name ∧
    d.new_book = (find_book sample i samples 0).isNone ∧
    d.bookname = (match find_book sample i samples 0 with
      | some sample2 => sample2.name
      | none => sample.name) := by
  unfold emit_c_sample at h
  simp only at h
  cases hcodec : codec_enum sample.aifc.compression_type with
  | error e => simp [hcodec] at h
  | ok c =>
    simp only [hcodec] at h
    cases hnb : (find_book sample i samples 0).isNone with
    | true =>
      simp only [hnb, if_true] at h
      revert h
      generalize emit_padding_stmt _ = r
      intro h
      cases r with
      | error e => simp at h
      | ok pad =>
        simp only at h
        injection h with h
        injection h with hd _
        subst hd
        simp
    | false =>
      simp only [hnb] at h
      injection h with h
      injection h with hd _
      subst hd
      simp

theorem memcmp_eq_self (a : List Int) (n : Nat) : memcmp_eq a a n = true := by
  simp [memcmp_eq]

theorem samples_books_equal_of_same_book (s1 s2 : sample_data)
    (hstate : s1.aifc.book_state = s2.aifc.book_state) : samples_books_equal s1 s2 = true := by
  simp [samples_books_equal, hstate, memcmp_eq_self]

/-- C2: for every sample list on which `emit_c_samples` succeeds, the codebook symbol used
for the sample at position `i` is the name of the earliest sample strictly before it whose
codebook compares equal under `samples_books_equal`, and a new codebook block is written
under the sample's own name iff there is no such earlier sample. In particular, if the list
is `S1, S2, S3` and `S2`, `S3` both have the codebook content of `S1`, both reference the
symbol of `S1`. -/
theorem emit_c_samples_dedup_first (samples : List sample_data) (decls : List sample_decl)
    (total : Nat) (h : emit_c_samples samples = .ok (decls, total)) :
    decls.length = samples.length ∧
    (∀ i sample, samples[i]? = some sample → ∃ d, decls[i]? = some d ∧ d.name = sample.name ∧
      (d.new_book = true ↔ ∀ s2 ∈ samples.take i, samples_books_equal sample s2 = false) ∧
      ((∀ s2 ∈ samples.take i, samples_books_equal sample s2 = false) →
        d.bookname = sample.name) ∧
      (∀ as s2 bs, samples.take i = as ++ s2 :: bs →
        (∀ a ∈ as, samples_books_equal sample a = false) →
        samples_books_equal sample s2 = true → d.bookname = s2.name ∧ d.new_book = false)) ∧
    (∀ S1 S2 S3, samples = [S1, S2, S3] →
      S2.aifc.book_order = S1.aifc.book_order →
      S2.aifc.book_npredictors = S1.aifc.book_npredictors →
      S2.aifc.book_state = S1.aifc.book_state →
      S3.aifc.book_order = S1.aifc.book_order →
      S3.aifc.book_npredictors = S1.aifc.book_npredictors →
      S3.aifc.book_state = S1.aifc.book_state →
      ∃ d1 d2 d3, decls = [d1, d2, d3] ∧
        d1.bookname = S1.name ∧ d1.new_book = true ∧
        d2.bookname = S1.name ∧ d2.new_book = false ∧
        d3.bookname = S1.name ∧ d3.new_book = false) := by
  obtain ⟨hlen, hget⟩ := emit_c_samples_loop_get samples samples 0 0 decls total h
  have main : ∀ i sample, samples[i]? = some sample → ∃ d, decls[i]? = some d ∧
      d.name = sample.name ∧
      (d.new_book = true ↔ ∀ s2 ∈ samples.take i, samples_books_equal sample s2 = false) ∧
      ((∀ s2 ∈ samples.take i, samples_books_equal sample s2 = false) →
        d.bookname = sample.name) ∧
      (∀ as s2 bs, samples.take i = as ++ s2 :: bs →
        (∀ a ∈ as, samples_books_equal sample a = false) →
        samples_books_equal sample s2 = true → d.bookname = s2.name ∧ d.new_book = false) := by
    intro i sample hi
    obtain ⟨d, sz, hd, he⟩ := hget i sample hi
    rw [Nat.zero_add] at he
    obtain ⟨hn, hnew, hbook⟩ := emit_c_sample_book samples i sample d sz he
    have hf := find_book_eq_find sample i samples 0 (Nat.zero_le _)
    rw [Nat.sub_zero] at hf
    rw [hf] at hnew hbook
    refine ⟨d, hd, hn, ?_, ?_, ?_⟩
    · rw [hnew]
      simp [List.find?_eq_none]
    · intro hall
      have : (List.take i samples).find? (fun s2 => samples_books_equal sample s2) = none := by
        simp [List.find?_eq_none]; exact hall
      rw [this] at hbook
      exact hbook
    · intro as s2 bs hsplit has hs2
      have : (List.take i samples).find? (fun s2 => samples_books_equal sample s2) = some s2 := by
        rw [List.find?_eq_some]
        exact ⟨hs2, as, bs, hsplit, by simpa using has⟩
      rw [this] at hnew hbook
      exact ⟨hbook, by simpa using hnew⟩
  refine ⟨hlen, main, ?_⟩
  intro S1 S2 S3 hs _ _ h2 _ _ h3
  subst hs
  obtain ⟨d1, hd1, _, hn1, hb1, _⟩ := main 0 S1 (by simp)
  obtain ⟨d2, hd2, _, _, _, hb2⟩ := main 1 S2 (by simp)
  obtain ⟨d3, hd3, _, _, _, hb3⟩ := main 2 S3 (by simp)
  rcases decls with _ | ⟨a, _ | ⟨b, _ | ⟨c, _ | ⟨_, _⟩⟩⟩⟩ <;> simp at hlen
  simp at hd1 hd2 hd3
  subst hd1 hd2 hd3
  have r2 := hb2 [] S1 [] (by simp) (by simp) (samples_books_equal_of_same_book S2 S1 h2)
  have r3 := hb3 [] S1 [S2] (by simp) (by simp) (samples_books_equal_of_same_book S3 S1 h3)
  exact ⟨a, b, c, rfl, hb1 (by simp), hn1.2 (by simp), r2.1, r2.2, r3.1, r3.2⟩

/-- Witness for C2: three ADPCM samples with the same codebook. -/
theorem emit_c_samples_dedup_first_witness :
    emit_c_samples [ex_sample "S1" 2 1 ex_coefs, ex_sample "S2" 2 1 ex_coefs,
        ex_sample "S3" 2 1 ex_coefs]
      = .ok ([⟨"S1", "S1", true, [1, 2, 3, 4, 5, 6, 7, 8, 9, 10, 11, 12, 13, 14, 15, 16],
                [.SF_PAD8], false⟩,
              ⟨"S2", "S1", false, [], [], false⟩, ⟨"S3", "S1", false, [], [], false⟩], 144) ∧
    ([⟨"S1", "S1", true, [1, 2, 3, 4, 5, 6, 7, 8, 9, 10, 11, 12, 13, 14, 15, 16],
        [.SF_PAD8], false⟩,
      ⟨"S2", "S1", false, [], [], false⟩,
      ⟨"S3", "S1", false, [], [], false⟩] : List sample_decl).length
      = [ex_sample "S1" 2 1 ex_coefs, ex_sample "S2" 2 1 ex_coefs,
          ex_sample "S3" 2 1 ex_coefs].length :=
  ⟨by rfl, (emit_c_samples_dedup_first _ _ 144 (by rfl)).1⟩

/-! ### C3, C4: what `samples_books_equal` compares -/

theorem samples_books_equal_eq (s1 s2 : sample_data) :
    samples_books_equal s1 s2
      = memcmp_eq s1.aifc.book_state s2.aifc.book_state
          ((8 * to_unsigned s1.aifc.book_order * to_unsigned s1.aifc.book_npredictors) % 2 ^ 32) := by
  simp [samples_books_equal]

theorem samples_books_equal_iff_take (s1 s2 : sample_data) (order npredictors : Nat)
    (ho : s1.aifc.book_order = order) (hn : s1.aifc.book_npredictors = npredictors)
    (hlo : order < 2 ^ 32) (hln : npredictors < 2 ^ 32) (hlt : 8 * order * npredictors < 2 ^ 32) :
    samples_books_equal s1 s2 = true ↔
      s1.aifc.book_state.take (4 * order * npredictors)
        = s2.aifc.book_state.take (4 * order * npredictors) := by
  have h1 : to_unsigned (order : Int) = order := by
    unfold to_unsigned
    norm_num at hlo ⊢
    omega
  have h2 : to_unsigned (npredictors : Int) = npredictors := by
    unfold to_unsigned
    norm_num at hln ⊢
    omega
  have h3 : (8 * order * npredictors) % 2 ^ 32 / 2 = 4 * order * npredictors := by
    rw [Nat.mod_eq_of_lt hlt]
    have : 8 * order * npredictors = 2 * (4 * order * npredictors) := by ring
    omega
  rw [samples_books_equal_eq, ho, hn, h1, h2]
  unfold memcmp_eq
  rw [h3]
  simp

/-- C3 (the code departs from the claim): `samples_books_equal` reads the order and the
predictor count of its first argument twice and never those of the second, so it returns
true for an order-2 book with two predictors and an order-4 book with one predictor that
hold the same 32 coefficients, and `emit_c_samples` then drops the second book. -/
theorem samples_books_equal_ignores_shape :
    samples_books_equal (ex_sample "B" 4 1 ex_coefs32) (ex_sample "A" 2 2 ex_coefs32) = true ∧
    (ex_sample "B" 4 1 ex_coefs32).aifc.book_order ≠ (ex_sample "A" 2 2 ex_coefs32).aifc.book_order ∧
    (ex_sample "B" 4 1 ex_coefs32).aifc.book_npredictors
      ≠ (ex_sample "A" 2 2 ex_coefs32).aifc.book_npredictors ∧
    (∀ s1 s2 order npredictors,
      samples_books_equal s1
          { s2 with aifc := { s2.aifc with book_order := order, book_npredictors := npredictors } }
        = samples_books_equal s1 s2) ∧
    (match emit_c_samples [ex_sample "A" 2 2 ex_coefs32, ex_sample "B" 4 1 ex_coefs32] with
      | .ok (decls, _) => decls.map (fun d => (d.name, d.bookname, d.new_book))
      | .error _ => [])
      = [("A", "A", true), ("B", "A", false)] := by
  refine ⟨by decide, by decide, by decide, ?_, by rfl⟩
  intro s1 s2 order npredictors
  simp [samples_books_equal_eq]

/-- C4 (the code departs from the claim): the byte count handed to `memcmp` is
`8 * order * npredictors`, half of the `16 * order * npredictors` bytes of coefficient data,
so only the first `4 * order * npredictors` coefficients are compared: two order-2,
one-predictor books that differ only in their last coefficient compare equal, and
`emit_c_samples` reuses the first book for the second sample. -/
theorem samples_books_equal_half :
    samples_books_equal (ex_sample "B" 2 1 ex_coefs_last) (ex_sample "A" 2 1 ex_coefs) = true ∧
    (ex_sample "B" 2 1 ex_coefs_last).aifc.book_order = (ex_sample "A" 2 1 ex_coefs).aifc.book_order ∧
    (ex_sample "B" 2 1 ex_coefs_last).aifc.book_npredictors
      = (ex_sample "A" 2 1 ex_coefs).aifc.book_npredictors ∧
    (ex_sample "B" 2 1 ex_coefs_last).aifc.book_state ≠ (ex_sample "A" 2 1 ex_coefs).aifc.book_state ∧
    book_rows (ex_sample "B" 2 1 ex_coefs_last) ≠ book_rows (ex_sample "A" 2 1 ex_coefs) ∧
    (match emit_c_samples [ex_sample "A" 2 1 ex_coefs, ex_sample "B" 2 1 ex_coefs_last] with
      | .ok (decls, _) => decls.map (fun d => (d.name, d.bookname, d.new_book))
      | .error _ => [])
      = [("A", "A", true), ("B", "A", false)] := by
  exact ⟨by decide, by decide, by decide, by decide, by decide, by rfl⟩

/-! ## C8, C9: drums -/

theorem to_size_t_ofNat (n : Nat) (h : n < 2 ^ 64) : to_size_t (n : Int) = n := by
  unfold to_size_t
  norm_num at h ⊢
  omega

theorem drum_fill_table_succ {R : Type} (drum : drum_data R) (n : Nat) (tbl : List ptr_entry) :
    drum_fill_table drum (n + 1) tbl
      = (drum_fill_table drum n tbl).set (to_size_t (drum.semitone_start + (n : Int)))
          ⟨drum.name, n⟩ := by
  simp [drum_fill_table, List.range_succ, List.foldl_append]

theorem drum_fill_table_spec {R : Type} (drum : drum_data R) (s : Nat)
    (hs : drum.semitone_start = (s : Int)) (tbl : List ptr_entry) (htbl : tbl.length = 64) :
    ∀ n, s + n ≤ 64 →
      (drum_fill_table drum n tbl).length = 64 ∧
      ∀ t, (drum_fill_table drum n tbl)[t]?
        = if s ≤ t ∧ t < s + n then some ⟨drum.name, t - s⟩ else tbl[t]? := by
  intro n
  induction n with
  | zero =>
    intro _
    refine ⟨by simpa [drum_fill_table] using htbl, ?_⟩
    intro t
    have : ¬ (s ≤ t ∧ t < s + 0) := by omega
    rw [if_neg this]
    simp [drum_fill_table]
  | succ n ih =>
    intro hn
    obtain ⟨hlen, hget⟩ := ih (by omega)
    have hidx : to_size_t (drum.semitone_start + (n : Int)) = s + n := by
      rw [hs]
      have := to_size_t_ofNat (s + n) (by norm_num; omega)
      simpa using this
    rw [drum_fill_table_succ, hidx]
    refine ⟨by simp [hlen], ?_⟩
    intro t
    rw [List.getElem?_set, hget t, hlen]
    by_cases h1 : s + n = t
    · subst h1
      have : s ≤ s + n ∧ s + n < s + (n + 1) := by omega
      simp [this]
      omega
    · simp only [h1, if_false]
      by_cases h2 : s ≤ t ∧ t < s + n
      · have : s ≤ t ∧ t < s + (n + 1) := by omega
        simp [h2, this]
      · have : ¬ (s ≤ t ∧ t < s + (n + 1)) := by omega
        simp [h2, this]

theorem drum_entries_length {R T : Type} (ct : R → Int → T) (drum : drum_data R) (n : Nat) :
    (drum_entries ct drum n).length = n := by
  simp [drum_entries]

theorem drum_entries_get {R T : Type} (ct : R → Int → T) (drum : drum_data R) (n i : Nat)
    (hi : i < n) :
    (drum_entries ct drum n)[i]? = some (ct drum.sample_rate (drum_note drum.base_note i)) := by
  simp [drum_entries, List.getElem?_range hi]

theorem emit_c_drums_eq {R T : Type} (calc_tuning : R → Int → T) (drums : List (drum_data R))
    (acc : drums_acc T) (n : Nat) (pad : List pad_stmt) (hne : drums.isEmpty = false)
    (hrun : emit_c_drums_loop calc_tuning drums ⟨ptr_table_init, -1, 0, []⟩ = .ok acc)
    (hsz : to_size_t (acc.max_semitone + 1) = n) (hn64 : ¬ (n > 64))
    (hpad : emit_padding_stmt ((n * 4) % 2 ^ 32) = .ok pad) :
    emit_c_drums calc_tuning drums
      = .ok ⟨acc.decls,
             (List.range n).map (fun i =>
               match (acc.ptr_table.getD i ⟨none, 0⟩).name with
               | none => none
               | some name => some (name, (acc.ptr_table.getD i ⟨none, 0⟩).n)),
             pad, n, acc.size + ALIGN16 (n * 4)⟩ := by
  unfold emit_c_drums
  rw [hne, hrun]
  simp only [hsz, if_neg hn64, hpad]
  rfl

/-- C8: for a named drum with semitone range `[start, end]`, `0 <= start <= end <= 63`, and
base note `N` in `0..127`, the loop body of `emit_c_drums` writes exactly `end - start + 1`
entries; entry `i` has tuning `calc_tuning(sample_rate, note_i)` with `note_i = N + i`, or
`N + i - 128` when `N + i > 127`, a note in `0..127`; slot `start + i` of the pointer table is set to entry `i`
of the drum and the slots outside the range are left alone. When the drum is the whole
Drums list and `start = 0`, `end = 3`, there are exactly 4 entries, with the notes
`N, N+1, N+2, N+3` (wrapped), and the emitted table is `&name[0], ..., &name[3]`. -/
theorem emit_c_drums_expansion {R T : Type} (calc_tuning : R → Int → T) (drum : drum_data R)
    (name : String) (ptr_table : List ptr_entry) (hname : drum.name = some name)
    (h0 : 0 ≤ drum.semitone_start) (h1 : drum.semitone_start ≤ drum.semitone_end)
    (h2 : drum.semitone_end ≤ 63) (hN0 : 0 ≤ drum.base_note) (hN1 : drum.base_note ≤ 127)
    (htbl : ptr_table.length = 64) :
    ∃ decl tbl, emit_c_drum calc_tuning drum ptr_table = .ok (decl, tbl) ∧
      (decl.length : Int) = drum.semitone_end - drum.semitone_start + 1 ∧
      decl.entries.length = decl.length ∧
      (∀ i : Nat, i < decl.length →
        decl.entries[i]? = some (calc_tuning drum.sample_rate
          (if drum.base_note + i > 127 then drum.base_note + i - 128 else drum.base_note + i))) ∧
      (∀ i : Nat, i < decl.length →
        0 ≤ drum_note drum.base_note i ∧ drum_note drum.base_note i ≤ 127) ∧
      (∀ i : Nat, i < decl.length →
        tbl[drum.semitone_start.toNat + i]? = some ⟨some name, i⟩) ∧
      (∀ t : Nat, ((t : Int) < drum.semitone_start ∨ drum.semitone_end < (t : Int)) →
        tbl[t]? = ptr_table[t]?) ∧
      (drum.semitone_start = 0 → drum.semitone_end = 3 →
        ∃ out, emit_c_drums calc_tuning [drum] = .ok out ∧
          out.decls.map (fun d => d.entries) =
            [[calc_tuning drum.sample_rate (drum_note drum.base_note 0),
              calc_tuning drum.sample_rate (drum_note drum.base_note 1),
              calc_tuning drum.sample_rate (drum_note drum.base_note 2),
              calc_tuning drum.sample_rate (drum_note drum.base_note 3)]] ∧
          out.ptr_list = [some (name, 0), some (name, 1), some (name, 2), some (name, 3)] ∧
          out.num_drums = 4) := by
  obtain ⟨s, hs⟩ : ∃ s : Nat, drum.semitone_start = (s : Int) := ⟨drum.semitone_start.toNat, by omega⟩
  obtain ⟨len, hlen⟩ : ∃ len : Nat, drum.semitone_end - drum.semitone_start + 1 = (len : Int) :=
    ⟨(drum.semitone_end - drum.semitone_start + 1).toNat, by omega⟩
  have hsz : to_size_t (drum.semitone_end - drum.semitone_start + 1) = len := by
    rw [hlen]; exact to_size_t_ofNat len (by norm_num; omega)
  have hguard : ¬ (drum.semitone_end + 1 > 64) := by omega
  obtain ⟨hfl, hfg⟩ := drum_fill_table_spec drum s hs ptr_table htbl len (by omega)
  have hemit : emit_c_drum calc_tuning drum ptr_table
      = .ok (⟨drum.name, drum.envelope.map (fun e => e.release), drum.pan,
              drum.sample.map (fun s => s.name), drum.envelope.bind (fun e => e.name), len,
              drum_entries calc_tuning drum len⟩, drum_fill_table drum len ptr_table) := by
    simp only [emit_c_drum, hsz, if_neg hguard]
  refine ⟨_, _, hemit, ?_, ?_, ?_, ?_, ?_, ?_, ?_⟩
  · simp [hlen]
  · simp [drum_entries_length]
  · intro i hi
    simp only at hi
    simp only [drum_entries_get calc_tuning drum len i hi, drum_note]
  · intro i hi
    simp only at hi
    simp only [drum_note]
    split_ifs <;> omega
  · intro i hi
    simp only at hi
    have : drum.semitone_start.toNat = s := by omega
    rw [this, hfg]
    have : s ≤ s + i ∧ s + i < s + len := by omega
    simp [this, hname]
  · intro t ht
    rw [hfg]
    have : ¬ (s ≤ t ∧ t < s + len) := by omega
    simp [this]
  · intro hs0 he3
    have hs' : s = 0 := by omega
    have hl' : len = 4 := by omega
    subst hs' hl'
    obtain ⟨_, hg⟩ := drum_fill_table_spec drum 0 hs ptr_table_init (by simp [ptr_table_init])
      4 (by omega)
    have hemit0 : emit_c_drum calc_tuning drum ptr_table_init
        = .ok (⟨drum.name, drum.envelope.map (fun e => e.release), drum.pan,
                drum.sample.map (fun s => s.name), drum.envelope.bind (fun e => e.name), 4,
                drum_entries calc_tuning drum 4⟩, drum_fill_table drum 4 ptr_table_init) := by
      simp only [emit_c_drum, hsz, if_neg hguard]
    have hpad : emit_padding_stmt (4 * 4 % 2 ^ 32) = .ok [] := by rfl
    have hmax : to_size_t (3 + 1) = 4 := by decide
    have hgd : ∀ t, t < 4 →
        (drum_fill_table drum 4 ptr_table_init)[t]?.getD ⟨none, 0⟩ = ⟨some name, t⟩ := by
      intro t ht
      rw [hg]
      have : 0 ≤ t ∧ t < 0 + 4 := by omega
      simp [this, hname]
    have e1 : (if (3 : Int) > -1 then (3 : Int) else -1) = 3 := by decide
    have e2 : ¬ (4 > 64) := by decide
    have hloop : emit_c_drums_loop calc_tuning [drum] ⟨ptr_table_init, -1, 0, []⟩
        = .ok ⟨drum_fill_table drum 4 ptr_table_init, 3, 0 + 0x10 * 4,
            [] ++ [⟨drum.name, drum.envelope.map (fun e => e.release), drum.pan,
              drum.sample.map (fun s => s.name), drum.envelope.bind (fun e => e.name), 4,
              drum_entries calc_tuning drum 4⟩]⟩ := by
      simp only [emit_c_drums_loop, hname, hemit0, he3]
      rw [if_neg (by simp), e1]
    have hout := emit_c_drums_eq calc_tuning [drum] _ 4 [] rfl hloop hmax e2 hpad
    refine ⟨_, hout, ?_, ?_, rfl⟩
    · simp [drum_entries, List.range_succ]
    · simp [List.range_succ, hgd 0 (by omega), hgd 1 (by omega), hgd 2 (by omega),
        hgd 3 (by omega)]

/-- Witness for C8: a drum over semitones 0..3 with base note 126, whose notes wrap. -/
theorem emit_c_drums_expansion_witness :
    ∃ out, emit_c_drums ex_calc_tuning [ex_drum "D" 0 3 126] = .ok out ∧
      out.decls.map (fun d => d.entries) = [[(32000, 126), (32000, 127), (32000, 0), (32000, 1)]] ∧
      out.ptr_list = [some ("D", 0), some ("D", 1), some ("D", 2), some ("D", 3)] ∧
      out.num_drums = 4 := by
  obtain ⟨_, _, _, _, _, _, _, _, _, h⟩ :=
    emit_c_drums_expansion ex_calc_tuning (ex_drum "D" 0 3 126) "D" ptr_table_init rfl
      (by decide) (by decide) (by decide) (by decide) (by decide) (by simp [ptr_table_init])
  obtain ⟨out, h1, h2, h3, h4⟩ := h rfl rfl
  exact ⟨out, h1, h2, h3, h4⟩

theorem emit_c_drums_loop_spec {R T : Type} (calc_tuning : R → Int → T) :
    ∀ (l : List (drum_data R)) (acc : drums_acc T),
      (∀ d ∈ l, d.name ≠ none ∧ 0 ≤ d.semitone_start ∧ d.semitone_start ≤ d.semitone_end ∧
        d.semitone_end ≤ 63) →
      acc.ptr_table.length = 64 →
      ∃ acc', emit_c_drums_loop calc_tuning l acc = .ok acc' ∧
        acc'.ptr_table.length = 64 ∧
        acc.max_semitone ≤ acc'.max_semitone ∧
        (∀ d ∈ l, d.semitone_end ≤ acc'.max_semitone) ∧
        (acc'.max_semitone = acc.max_semitone ∨ ∃ d ∈ l, acc'.max_semitone = d.semitone_end) ∧
        (∀ t : Nat, acc'.ptr_table[t]?.bind (fun e => e.name) = none ↔
          (acc.ptr_table[t]?.bind (fun e => e.name) = none ∧ ∀ d ∈ l, ¬ drum_covers d t)) := by
  intro l
  induction l with
  | nil =>
    intro acc _ hlen
    exact ⟨acc, by simp [emit_c_drums_loop], hlen, le_refl _, by simp, Or.inl rfl, by simp⟩
  | cons drum rest ih =>
    intro acc hall hlen
    obtain ⟨hnm, h0, h1, h2⟩ := hall drum (by simp)
    obtain ⟨name, hname⟩ : ∃ name, drum.name = some name := by
      cases hn : drum.name with
      | none => exact absurd hn hnm
      | some name => exact ⟨name, rfl⟩
    obtain ⟨s, hs⟩ : ∃ s : Nat, drum.semitone_start = (s : Int) :=
      ⟨drum.semitone_start.toNat, by omega⟩
    obtain ⟨len, hl⟩ : ∃ len : Nat, drum.semitone_end - drum.semitone_start + 1 = (len : Int) :=
      ⟨(drum.semitone_end - drum.semitone_start + 1).toNat, by omega⟩
    have hsz : to_size_t (drum.semitone_end - drum.semitone_start + 1) = len := by
      rw [hl]; exact to_size_t_ofNat len (by norm_num; omega)
    have hguard : ¬ (drum.semitone_end + 1 > 64) := by omega
    obtain ⟨hfl, hfg⟩ := drum_fill_table_spec drum s hs acc.ptr_table hlen len (by omega)
    obtain ⟨acc', hrun, hlen', hmax1, hmax2, hmax3, htab⟩ :=
      ih { ptr_table := drum_fill_table drum len acc.ptr_table,
           max_semitone :=
             if drum.semitone_end > acc.max_semitone then drum.semitone_end else acc.max_semitone,
           size := acc.size + 0x10 * len,
           decls := acc.decls ++ [⟨drum.name, drum.envelope.map (fun e => e.release), drum.pan,
              drum.sample.map (fun s => s.name), drum.envelope.bind (fun e => e.name), len,
              drum_entries calc_tuning drum len⟩] }
        (fun d hd => hall d (by simp [hd])) hfl
    simp only at hmax1 hmax3 htab
    refine ⟨acc', ?_, hlen', ?_, ?_, ?_, ?_⟩
    · rw [← hrun]
      simp only [emit_c_drums_loop, emit_c_drum, hsz, if_neg hguard, if_neg hnm]
    · split_ifs at hmax1 <;> omega
    · intro d hd
      rcases List.mem_cons.mp hd with rfl | hd
      · split_ifs at hmax1 <;> omega
      · exact hmax2 d hd
    · rcases hmax3 with h | ⟨d, hd, h⟩
      · split_ifs at h with hgt
        · exact Or.inr ⟨drum, by simp, h⟩
        · exact Or.inl h
      · exact Or.inr ⟨d, by simp [hd], h⟩
    · intro t
      rw [htab t, hfg t]
      have hcov : drum_covers drum t ↔ (s ≤ t ∧ t < s + len) := by
        unfold drum_covers; omega
      by_cases hc : s ≤ t ∧ t < s + len
      · simp [hc, hname, hcov.mpr hc]
      · have hnc : ¬ drum_covers drum t := fun h => hc (hcov.mp h)
        simp [hc, hnc]

theorem ptr_table_init_name (t : Nat) : ptr_table_init[t]?.bind (fun e => e.name) = none := by
  unfold ptr_table_init
  rw [List.getElem?_replicate]
  split_ifs <;> rfl

/-- C9: for a non-empty Drums list of named drums with ranges inside `0..63`, `emit_c_drums`
succeeds; the pointer table has length 1 + (the largest `semitone_end`); slot `t` of the
table is `NULL` iff no drum's range covers `t`; and `sf->num_drums` is the table length. -/
theorem emit_c_drums_table {R T : Type} (calc_tuning : R → Int → T) (drums : List (drum_data R))
    (hne : drums ≠ [])
    (hall : ∀ d ∈ drums, d.name ≠ none ∧ 0 ≤ d.semitone_start ∧
      d.semitone_start ≤ d.semitone_end ∧ d.semitone_end ≤ 63) :
    ∃ out, emit_c_drums calc_tuning drums = .ok out ∧
      (∃ d ∈ drums, (out.ptr_list.length : Int) = 1 + d.semitone_end) ∧
      (∀ d ∈ drums, 1 + d.semitone_end ≤ (out.ptr_list.length : Int)) ∧
      (∀ t : Nat, t < out.ptr_list.length →
        (out.ptr_list[t]? = some none ↔
          ∀ d ∈ drums, ¬ (d.semitone_start ≤ (t : Int) ∧ (t : Int) ≤ d.semitone_end))) ∧
      out.num_drums = out.ptr_list.length := by
  obtain ⟨acc, hrun, hlen, hmax1, hmax2, hmax3, htab⟩ :=
    emit_c_drums_loop_spec calc_tuning drums ⟨ptr_table_init, -1, 0, []⟩ hall
      (by simp [ptr_table_init])
  simp only at hmax1 hmax3 htab
  obtain ⟨d0, hd0⟩ : ∃ d, d ∈ drums := by
    cases drums with
    | nil => exact absurd rfl hne
    | cons d _ => exact ⟨d, by simp⟩
  have hd0r := hall d0 hd0
  have hd0m := hmax2 d0 hd0
  obtain ⟨dm, hdm, hmax⟩ : ∃ d ∈ drums, acc.max_semitone = d.semitone_end := by
    rcases hmax3 with h | h
    · omega
    · exact h
  have hdmr := hall dm hdm
  obtain ⟨n, hn⟩ : ∃ n : Nat, acc.max_semitone + 1 = (n : Int) :=
    ⟨(acc.max_semitone + 1).toNat, by omega⟩
  have hsz : to_size_t (acc.max_semitone + 1) = n := by
    rw [hn]; exact to_size_t_ofNat n (by norm_num; omega)
  have hn64 : ¬ (n > 64) := by omega
  obtain ⟨pad, hpad⟩ := emit_padding_stmt_ok_of_mod4 ((n * 4) % 2 ^ 32)
    (by norm_num)
  have hempty : drums.isEmpty = false := by
    cases drums with
    | nil => exact absurd rfl hne
    | cons _ _ => rfl
  have hemit := emit_c_drums_eq calc_tuning drums acc n pad hempty hrun hsz hn64 hpad
  refine ⟨_, hemit, ?_, ?_, ?_, ?_⟩
  · exact ⟨dm, hdm, by simp; omega⟩
  · intro d hd
    have := hmax2 d hd
    simp; omega
  · intro t ht
    simp only [List.length_map, List.length_range] at ht
    have ht64 : t < acc.ptr_table.length := by omega
    have hget : acc.ptr_table[t]? = some (acc.ptr_table[t]) := List.getElem?_eq_getElem ht64
    have hgd : acc.ptr_table.getD t ⟨none, 0⟩ = acc.ptr_table[t] := by
      rw [List.getD_eq_getElem?_getD, hget]; rfl
    have hiff := htab t
    rw [hget] at hiff
    simp only [Option.some_bind, ptr_table_init_name, true_and] at hiff
    unfold drum_covers at hiff
    rw [← hiff]
    simp only [List.getElem?_map, List.getElem?_range ht, Option.map_some', hgd]
    cases hnm : (acc.ptr_table[t]).name <;> simp
  · simp

/-- Witness for C9: two drums over semitones 1..2 and 4..4; the table has five slots, the
slots 0 and 3 are `NULL`, and `num_drums` is 5 although there are two drums. -/
theorem emit_c_drums_table_witness :
    (∃ out, emit_c_drums ex_calc_tuning [ex_drum "D1" 1 2 39, ex_drum "D2" 4 4 39] = .ok out ∧
      out.num_drums = out.ptr_list.length) ∧
    (match emit_c_drums ex_calc_tuning [ex_drum "D1" 1 2 39, ex_drum "D2" 4 4 39] with
      | .ok out => (out.ptr_list, out.num_drums)
      | .error _ => ([], 0))
      = ([none, some ("D1", 0), some ("D1", 1), none, some ("D2", 0)], 5) := by
  refine ⟨?_, by rfl⟩
  obtain ⟨out, h, _, _, _, hn⟩ :=
    emit_c_drums_table ex_calc_tuning [ex_drum "D1" 1 2 39, ex_drum "D2" 4 4 39] (by simp)
      (by simp [ex_drum])
  exact ⟨out, h, hn⟩

/-! ## C5, C6: the running size -/

theorem emit_c_header_size (sf : instr_state) (has_drums has_sfx : Bool) (decl : header_decl)
    (size : Nat) (h : emit_c_header sf has_drums has_sfx = .ok (decl, size)) :
    size % 16 = 0 := by
  unfold emit_c_header at h
  simp only at h
  revert h
  generalize emit_padding_stmt _ = r
  intro h
  cases r with
  | error e => simp at h
  | ok pad =>
    simp only at h
    injection h with h
    injection h with _ hs
    rw [← hs]
    exact ALIGN16_mod _

theorem emit_c_sample_size (samples : List sample_data) (i : Nat) (sample : sample_data)
    (d : sample_decl) (sz : Nat) (h : emit_c_sample samples i sample = .ok (d, sz)) :
    sz % 16 = 0 := by
  unfold emit_c_sample at h
  simp only at h
  cases hcodec : codec_enum sample.aifc.compression_type with
  | error e => simp [hcodec] at h
  | ok c =>
    simp only [hcodec] at h
    cases hnb : (find_book sample i samples 0).isNone with
    | true =>
      simp only [hnb, if_true] at h
      revert h
      generalize emit_padding_stmt _ = r
      intro h
      cases r with
      | error e => simp at h
      | ok pad =>
        simp only at h
        injection h with h
        injection h with _ hs
        rw [← hs]
        have := ALIGN16_mod (8 + (2 * 8 * to_unsigned sample.aifc.book_order
          * to_unsigned sample.aifc.book_npredictors) % 2 ^ 32)
        split_ifs <;> omega
    | false =>
      simp only [hnb] at h
      injection h with h
      injection h with _ hs
      rw [← hs]
      split_ifs <;> omega

theorem emit_c_samples_loop_size (samples : List sample_data) (l : List sample_data) :
    ∀ i size decls total, emit_c_samples_loop samples l i size = .ok (decls, total) →
      total % 16 = size % 16 := by
  induction l with
  | nil =>
    intro i size decls total h
    simp [emit_c_samples_loop] at h
    rw [h.2]
  | cons s0 rest ih =>
    intro i size decls total h
    unfold emit_c_samples_loop at h
    cases h0 : emit_c_sample samples i s0 with
    | error e => simp [h0] at h
    | ok r =>
      obtain ⟨d0, sz0⟩ := r
      simp only [h0] at h
      cases h1 : emit_c_samples_loop samples rest (i + 1) (size + sz0) with
      | error e => simp [h1] at h
      | ok r1 =>
        obtain ⟨ds, tot⟩ := r1
        simp only [h1] at h
        simp at h
        have := ih (i + 1) (size + sz0) ds tot h1
        have := emit_c_sample_size samples i s0 d0 sz0 h0
        omega

theorem emit_c_envelope_size (empty_num : Nat) (envdata : envelope_data) (decl : env_decl)
    (sz : Nat) (h : emit_c_envelope empty_num envdata = .ok (decl, sz)) : sz % 16 = 0 := by
  unfold emit_c_envelope at h
  cases hn : envdata.name with
  | none =>
    simp only [hn] at h
    injection h with h
    injection h with _ hs
    omega
  | some name =>
    simp only [hn] at h
    revert h
    generalize emit_padding_stmt _ = r
    intro h
    cases r with
    | error e => simp at h
    | ok pad =>
      simp only at h
      injection h with h
      injection h with _ hs
      rw [← hs]
      exact ALIGN16_mod _

theorem emit_c_envelopes_loop_size (l : List envelope_data) :
    ∀ empty_num size decls total, emit_c_envelopes_loop l empty_num size = .ok (decls, total) →
      total % 16 = size % 16 := by
  induction l with
  | nil =>
    intro empty_num size decls total h
    simp [emit_c_envelopes_loop] at h
    rw [h.2]
  | cons e0 rest ih =>
    intro empty_num size decls total h
    unfold emit_c_envelopes_loop at h
    cases h0 : emit_c_envelope empty_num e0 with
    | error e => simp [h0] at h
    | ok r =>
      obtain ⟨d0, sz0⟩ := r
      simp only [h0] at h
      revert h
      generalize hr : emit_c_envelopes_loop rest _ (size + sz0) = r1
      intro h
      cases r1 with
      | error e => simp at h
      | ok r1 =>
        obtain ⟨ds, tot⟩ := r1
        simp at h
        have := ih _ (size + sz0) ds tot hr
        have := emit_c_envelope_size empty_num e0 d0 sz0 h0
        omega

theorem emit_c_instruments_body_size (heap : Nat → instr_data) (l : List Nat) :
    ∀ unused_instr_num size,
      (emit_c_instruments_body heap l unused_instr_num size).2 % 16 = size % 16 := by
  induction l with
  | nil => intro _ _; simp [emit_c_instruments_body]
  | cons a rest ih =>
    intro u size
    unfold emit_c_instruments_body
    by_cases hc : (decide ((heap a).name = none) && !(heap a).unused) = true
    · rw [if_pos hc]
      exact ih u size
    · rw [if_neg hc]
      show (emit_c_instruments_body heap rest _ (size + 0x20)).2 % 16 = size % 16
      rw [ih]
      omega

theorem emit_c_drums_loop_size {R T : Type} (calc_tuning : R → Int → T) (l : List (drum_data R)) :
    ∀ acc acc', emit_c_drums_loop calc_tuning l acc = .ok acc' → acc'.size % 16 = acc.size % 16 := by
  induction l with
  | nil =>
    intro acc acc' h
    simp [emit_c_drums_loop] at h
    rw [h]
  | cons d rest ih =>
    intro acc acc' h
    unfold emit_c_drums_loop at h
    by_cases hn : d.name = none
    · rw [if_pos hn] at h
      have := ih { acc with max_semitone := acc.max_semitone + 1 } acc' h
      exact this
    · rw [if_neg hn] at h
      cases hd : emit_c_drum calc_tuning d acc.ptr_table with
      | error e => simp [hd] at h
      | ok r =>
        obtain ⟨decl, tbl⟩ := r
        simp only [hd] at h
        have := ih _ _ h
        simp only at this
        omega

theorem emit_c_drums_size {R T : Type} (calc_tuning : R → Int → T) (drums : List (drum_data R))
    (out : drums_out T) (h : emit_c_drums calc_tuning drums = .ok out) : out.size % 16 = 0 := by
  unfold emit_c_drums at h
  by_cases he : drums.isEmpty = true
  · rw [if_pos he] at h
    injection h with h
    rw [← h]
    rfl
  · rw [if_neg he] at h
    cases hl : emit_c_drums_loop calc_tuning drums ⟨ptr_table_init, -1, 0, []⟩ with
    | error e => simp [hl] at h
    | ok acc =>
      simp only [hl] at h
      by_cases hlen : to_size_t (acc.max_semitone + 1) > 64
      · rw [if_pos hlen] at h
        simp at h
      · rw [if_neg hlen] at h
        revert h
        generalize emit_padding_stmt _ = r
        intro h
        cases r with
        | error e => simp at h
        | ok pad =>
          simp only at h
          injection h with h
          rw [← h]
          have h1 := emit_c_drums_loop_size calc_tuning drums _ _ hl
          have h2 := ALIGN16_mod (to_size_t (acc.max_semitone + 1) * 4)
          show (acc.size + ALIGN16 (to_size_t (acc.max_semitone + 1) * 4)) % 16 = 0
          simp only at h1
          omega

theorem main_emit_inv {R T : Type} (calc_tuning : R → Int → T) (sf : soundfont R T)
    (s : emit_sizes) (h : main_emit calc_tuning sf = .ok s) :
    (∃ hd, emit_c_header sf.instrs (!sf.drums.isEmpty) (!sf.sfx.isEmpty) = .ok (hd, s.header)) ∧
    (∃ ds, emit_c_samples sf.samples = .ok (ds, s.samples)) ∧
    (∃ ds, emit_c_envelopes sf.envelopes = .ok (ds, s.envelopes)) ∧
    (∃ ds, emit_c_instruments sf.instrs = .ok (ds, s.instruments)) ∧
    (∃ out, emit_c_drums calc_tuning sf.drums = .ok out ∧ out.size = s.drums) ∧
    s.effects = 8 * sf.sfx.length := by
  unfold main_emit at h
  cases h1 : emit_c_header sf.instrs (!sf.drums.isEmpty) (!sf.sfx.isEmpty) with
  | error e => simp [h1] at h
  | ok r1 =>
    obtain ⟨hd, header⟩ := r1
    simp only [h1] at h
    cases h2 : emit_c_samples sf.samples with
    | error e => simp [h2] at h
    | ok r2 =>
      obtain ⟨d2, samples⟩ := r2
      simp only [h2] at h
      cases h3 : emit_c_envelopes sf.envelopes with
      | error e => simp [h3] at h
      | ok r3 =>
        obtain ⟨d3, envelopes⟩ := r3
        simp only [h3] at h
        cases h4 : emit_c_instruments sf.instrs with
        | error e => simp [h4] at h
        | ok r4 =>
          obtain ⟨d4, instruments⟩ := r4
          simp only [h4] at h
          cases h5 : emit_c_drums calc_tuning sf.drums with
          | error e => simp [h5] at h
          | ok out =>
            simp only [h5] at h
            injection h with h
            subst h
            exact ⟨⟨hd, rfl⟩, ⟨d2, rfl⟩, ⟨d3, rfl⟩, ⟨d4, rfl⟩, ⟨out, rfl, rfl⟩,
              by simp [emit_c_effects]⟩

theorem main_emit_sizes_mod {R T : Type} (calc_tuning : R → Int → T) (sf : soundfont R T)
    (s : emit_sizes) (h : main_emit calc_tuning sf = .ok s) :
    s.header % 16 = 0 ∧ s.samples % 16 = 0 ∧ s.envelopes % 16 = 0 ∧ s.instruments % 16 = 0 ∧
    s.drums % 16 = 0 ∧ s.effects = 8 * sf.sfx.length := by
  obtain ⟨⟨hd, h1⟩, ⟨d2, h2⟩, ⟨d3, h3⟩, ⟨d4, h4⟩, ⟨out, h5, h5s⟩, h6⟩ :=
    main_emit_inv calc_tuning sf s h
  refine ⟨emit_c_header_size _ _ _ _ _ h1, ?_, ?_, ?_, ?_, h6⟩
  · have := emit_c_samples_loop_size _ _ _ _ _ _ h2
    simpa using this
  · have := emit_c_envelopes_loop_size _ _ _ _ _ h3
    simpa using this
  · unfold emit_c_instruments at h4
    cases hw : walk_prev_struct sf.instrs.heap sf.instrs.n_alloc sf.instrs.instruments_struct_last with
    | none => simp [hw] at h4
    | some visited =>
      simp only [hw] at h4
      injection h4 with h4
      have := emit_c_instruments_body_size sf.instrs.heap visited 0 0
      rw [h4] at this
      simpa using this
  · rw [← h5s]
    exact emit_c_drums_size calc_tuning sf.drums out h5

/-- C5: for every bank on which emission succeeds, the running byte total in `main` is a
multiple of 4 after each of `emit_c_header`, `emit_c_samples`, `emit_c_envelopes`,
`emit_c_instruments`, `emit_c_drums` and `emit_c_effects`, and each of the sizes returned by
the first five is a multiple of 16. -/
theorem main_emit_alignment {R T : Type} (calc_tuning : R → Int → T) (sf : soundfont R T)
    (s : emit_sizes) (h : main_emit calc_tuning sf = .ok s) :
    (∀ t ∈ s.running, t % 4 = 0) ∧
    s.header % 16 = 0 ∧ s.samples % 16 = 0 ∧ s.envelopes % 16 = 0 ∧ s.instruments % 16 = 0 ∧
    s.drums % 16 = 0 := by
  obtain ⟨h1, h2, h3, h4, h5, h6⟩ := main_emit_sizes_mod calc_tuning sf s h
  refine ⟨?_, h1, h2, h3, h4, h5⟩
  intro t ht
  simp only [emit_sizes.running, List.mem_cons, List.mem_singleton, List.not_mem_nil,
    or_false] at ht
  rcases ht with rfl | rfl | rfl | rfl | rfl | rfl <;> omega

/-- Witness for C5: the example bank with one sound effect. -/
theorem main_emit_alignment_witness :
    main_emit ex_calc_tuning (ex_bank 1) = .ok ⟨16, 80, 16, 32, 80, 8⟩ ∧
    (∀ t ∈ (emit_sizes.mk 16 80 16 32 80 8).running, t % 4 = 0) :=
  ⟨by rfl, (main_emit_alignment ex_calc_tuning (ex_bank 1) ⟨16, 80, 16, 32, 80, 8⟩ (by rfl)).1⟩

/-- C6, counterexample: with one sound effect the size handed to `emit_c_match_padding` is
232, which is 8 modulo 16; no padding follows the sound-effect list. -/
theorem emit_c_effects_unpadded :
    main_emit ex_calc_tuning (ex_bank 1) = .ok ⟨16, 80, 16, 32, 80, 8⟩ ∧
    (emit_sizes.mk 16 80 16 32 80 8).total = 232 ∧
    ¬ ((emit_sizes.mk 16 80 16 32 80 8).total % 16 = 0) :=
  ⟨by rfl, by decide, by decide⟩

/-- C6, amended: padding to the next 16-byte boundary follows every block except the
sound-effect list. `emit_c_effects` adds 8 bytes per effect and no padding, so the running
size before it is a multiple of 16, and the size handed to `emit_c_match_padding` is
congruent to 8 times the number of effects modulo 16: a multiple of 8, and a multiple of 16
exactly when the number of effects is even. -/
theorem main_emit_effects_size {R T : Type} (calc_tuning : R → Int → T) (sf : soundfont R T)
    (s : emit_sizes) (h : main_emit calc_tuning sf = .ok s) :
    (s.header + s.samples + s.envelopes + s.instruments + s.drums) % 16 = 0 ∧
    s.effects = 8 * sf.sfx.length ∧
    s.total % 16 = (8 * sf.sfx.length) % 16 ∧
    s.total % 8 = 0 ∧
    (s.total % 16 = 0 ↔ sf.sfx.length % 2 = 0) := by
  obtain ⟨h1, h2, h3, h4, h5, h6⟩ := main_emit_sizes_mod calc_tuning sf s h
  unfold emit_sizes.total
  refine ⟨by omega, h6, by omega, by omega, by omega⟩

/-- Witness for the amended C6: the example bank with two sound effects ends aligned. -/
theorem main_emit_effects_size_witness :
    main_emit ex_calc_tuning (ex_bank 2) = .ok ⟨16, 80, 16, 32, 80, 16⟩ ∧
    (emit_sizes.mk 16 80 16 32 80 16).total % 16 = (8 * (ex_bank 2).sfx.length) % 16 :=
  ⟨by rfl, (main_emit_effects_size ex_calc_tuning (ex_bank 2) ⟨16, 80, 16, 32, 80, 16⟩ (by rfl)).2.2.1⟩

/-! ## C1: the struct order of instruments -/

@[simp] theorem set_next_struct_next (heap : Nat → instr_data) (a : Nat) (v : Option Nat) (b : Nat) :
    (set_next_struct heap a v b).next_struct = if b = a then v else (heap b).next_struct := by
  unfold set_next_struct; split_ifs <;> rfl

@[simp] theorem set_next_struct_prev (heap : Nat → instr_data) (a : Nat) (v : Option Nat) (b : Nat) :
    (set_next_struct heap a v b).prev_struct = (heap b).prev_struct := by
  unfold set_next_struct; split_ifs <;> rfl

@[simp] theorem set_next_struct_index (heap : Nat → instr_data) (a : Nat) (v : Option Nat) (b : Nat) :
    (set_next_struct heap a v b).struct_index = (heap b).struct_index := by
  unfold set_next_struct; split_ifs <;> rfl

@[simp] theorem set_next_struct_name (heap : Nat → instr_data) (a : Nat) (v : Option Nat) (b : Nat) :
    (set_next_struct heap a v b).name = (heap b).name := by
  unfold set_next_struct; split_ifs <;> rfl

@[simp] theorem set_next_struct_unused (heap : Nat → instr_data) (a : Nat) (v : Option Nat) (b : Nat) :
    (set_next_struct heap a v b).unused = (heap b).unused := by
  unfold set_next_struct; split_ifs <;> rfl

@[simp] theorem set_prev_struct_prev (heap : Nat → instr_data) (a : Nat) (v : Option Nat) (b : Nat) :
    (set_prev_struct heap a v b).prev_struct = if b = a then v else (heap b).prev_struct := by
  unfold set_prev_struct; split_ifs <;> rfl

@[simp] theorem set_prev_struct_next (heap : Nat → instr_data) (a : Nat) (v : Option Nat) (b : Nat) :
    (set_prev_struct heap a v b).next_struct = (heap b).next_struct := by
  unfold set_prev_struct; split_ifs <;> rfl

@[simp] theorem set_prev_struct_index (heap : Nat → instr_data) (a : Nat) (v : Option Nat) (b : Nat) :
    (set_prev_struct heap a v b).struct_index = (heap b).struct_index := by
  unfold set_prev_struct; split_ifs <;> rfl

@[simp] theorem set_prev_struct_name (heap : Nat → instr_data) (a : Nat) (v : Option Nat) (b : Nat) :
    (set_prev_struct heap a v b).name = (heap b).name := by
  unfold set_prev_struct; split_ifs <;> rfl

@[simp] theorem set_prev_struct_unused (heap : Nat → instr_data) (a : Nat) (v : Option Nat) (b : Nat) :
    (set_prev_struct heap a v b).unused = (heap b).unused := by
  unfold set_prev_struct; split_ifs <;> rfl

theorem ptr_chain_congr (f g : Nat → Option Nat) :
    ∀ (l : List Nat) (s e : Option Nat), (∀ a ∈ l, f a = g a) →
      ptr_chain f s l e → ptr_chain g s l e := by
  intro l
  induction l with
  | nil => intro s e _ h; exact h
  | cons a rest ih =>
    intro s e hfg h
    obtain ⟨h1, h2⟩ := h
    refine ⟨h1, ?_⟩
    rw [← hfg a (by simp)]
    exact ih _ _ (fun b hb => hfg b (by simp [hb])) h2

theorem ptr_chain_congr_start (f g : Nat → Option Nat) (l : List Nat) (s s' e : Option Nat)
    (hs : s = s') (hfg : ∀ a ∈ l, f a = g a) (h : ptr_chain f s l e) : ptr_chain g s' l e := by
  subst hs
  exact ptr_chain_congr f g l s e hfg h

theorem ptr_chain_append (f : Nat → Option Nat) :
    ∀ (l1 l2 : List Nat) (s e : Option Nat),
      ptr_chain f s (l1 ++ l2) e ↔ ∃ m, ptr_chain f s l1 m ∧ ptr_chain f m l2 e := by
  intro l1
  induction l1 with
  | nil =>
    intro l2 s e
    constructor
    · intro h; exact ⟨s, rfl, h⟩
    · rintro ⟨m, h1, h2⟩
      have : s = m := h1
      subst this
      exact h2
  | cons a rest ih =>
    intro l2 s e
    constructor
    · intro h
      obtain ⟨h1, h2⟩ := h
      obtain ⟨m, h3, h4⟩ := (ih l2 (f a) e).mp h2
      exact ⟨m, ⟨h1, h3⟩, h4⟩
    · rintro ⟨m, ⟨h1, h3⟩, h4⟩
      exact ⟨h1, (ih l2 (f a) e).mpr ⟨m, h3, h4⟩⟩

theorem walk_prev_struct_of_chain (heap : Nat → instr_data) :
    ∀ (l : List Nat) (fuel : Nat) (s : Option Nat),
      ptr_chain (fun a => (heap a).prev_struct) s l none → l.length ≤ fuel →
      walk_prev_struct heap fuel s = some l := by
  intro l
  induction l with
  | nil =>
    intro fuel s h _
    have : s = none := h
    subst this
    cases fuel <;> rfl
  | cons a rest ih =>
    intro fuel s h hlen
    obtain ⟨h1, h2⟩ := h
    subst h1
    cases fuel with
    | zero => simp at hlen
    | succ fuel =>
      simp only [walk_prev_struct]
      rw [ih fuel _ h2 (by simpa using hlen)]

theorem walk_struct_spec (heap : Nat → instr_data) (x : Int) :
    ∀ (rest : List Nat) (a fuel : Nat),
      ptr_chain (fun a => (heap a).next_struct) (some a) (a :: rest) none → rest.length < fuel →
      ∃ pre instr2 post, a :: rest = pre ++ instr2 :: post ∧
        walk_struct heap x fuel a = some instr2 ∧
        (∀ c ∈ pre ++ [instr2], c = a ∨ x < (heap c).struct_index) ∧
        (∀ p, post.head? = some p → (heap p).struct_index ≤ x) := by
  intro rest
  induction rest with
  | nil =>
    intro a fuel h hlen
    obtain ⟨_, h2⟩ := h
    have hn : (heap a).next_struct = none := h2
    cases fuel with
    | zero => simp at hlen
    | succ fuel =>
      refine ⟨[], a, [], rfl, ?_, ?_, ?_⟩
      · simp [walk_struct, hn]
      · intro c hc; simp at hc; exact Or.inl hc
      · intro p hp; simp at hp
  | cons b rest ih =>
    intro a fuel h hlen
    obtain ⟨_, h2⟩ := h
    obtain ⟨hb, h3⟩ := h2
    have hn : (heap a).next_struct = some b := hb
    cases fuel with
    | zero => simp at hlen
    | succ fuel =>
      by_cases hx : x ≥ (heap b).struct_index
      · refine ⟨[], a, b :: rest, rfl, ?_, ?_, ?_⟩
        · simp [walk_struct, hn, hx]
        · intro c hc; simp at hc; exact Or.inl hc
        · intro p hp; simp at hp; subst hp; exact hx
      · obtain ⟨pre, instr2, post, hsplit, hwalk, hpre, hpost⟩ :=
          ih b fuel ⟨rfl, h3⟩ (by simpa using hlen)
        refine ⟨a :: pre, instr2, post, by simp [hsplit], ?_, ?_, hpost⟩
        · simp [walk_struct, hn, hx, hwalk]
        · intro c hc
          simp only [List.cons_append, List.mem_cons] at hc
          rcases hc with rfl | hc
          · exact Or.inl rfl
          · rcases hpre c hc with rfl | h
            · exact Or.inr (by omega)
            · exact Or.inr h

theorem struct_before_ne (heap : Nat → instr_data) (a b : Nat) (h : struct_before heap a b) :
    a ≠ b := by
  rintro rfl
  rcases h with h | ⟨_, h⟩ <;> omega

theorem struct_before_index_le (heap : Nat → instr_data) (a b : Nat) (h : struct_before heap a b) :
    (heap b).struct_index ≤ (heap a).struct_index := by
  rcases h with h | ⟨h, _⟩ <;> omega

theorem pairwise_struct_before_congr (heap heap' : Nat → instr_data) (l : List Nat)
    (hidx : ∀ a, (heap' a).struct_index = (heap a).struct_index)
    (h : l.Pairwise (struct_before heap)) : l.Pairwise (struct_before heap') := by
  refine h.imp ?_
  intro a b hab
  unfold struct_before at hab ⊢
  rw [hidx a, hidx b]
  exact hab

theorem link_struct_empty (sf : instr_state) (n : Nat)
    (hnext : ptr_chain (fun a => (sf.heap a).next_struct) sf.instruments_struct [] none) :
    ∃ sf', link_struct sf n = some sf' ∧ link_result sf sf' n [] [n] := by
  have hs : sf.instruments_struct = none := hnext
  have hl : link_struct sf n = some { sf with
      instruments_struct := some n
      instruments_struct_last := some n
      heap := set_prev_struct (set_next_struct sf.heap n none) n none } := by
    simp only [link_struct, hs]
  refine ⟨_, hl, ?_⟩
  constructor
  · exact List.Perm.refl _
  · exact ⟨rfl, by simp [ptr_chain]⟩
  · exact ⟨rfl, by simp [ptr_chain]⟩
  · simp
  · intro a; simp
  · intro a; simp
  · intro a; simp
  · rfl
  · rfl

theorem link_struct_front (sf : instr_state) (n h : Nat) (t : List Nat)
    (hnext : ptr_chain (fun a => (sf.heap a).next_struct) sf.instruments_struct (h :: t) none)
    (hprev : ptr_chain (fun a => (sf.heap a).prev_struct) sf.instruments_struct_last
      (h :: t).reverse none)
    (hsorted : (h :: t).Pairwise (struct_before sf.heap))
    (hfresh : ∀ a ∈ h :: t, a < n)
    (hge : (sf.heap n).struct_index ≥ (sf.heap h).struct_index) :
    ∃ sf', link_struct sf n = some sf' ∧ link_result sf sf' n (h :: t) (n :: h :: t) := by
  obtain ⟨hs, hchain⟩ := hnext
  have hchain : ptr_chain (fun a => (sf.heap a).next_struct) (sf.heap h).next_struct t none :=
    hchain
  have hhn : h ≠ n := by have := hfresh h (by simp); omega
  rw [List.reverse_cons, ptr_chain_append] at hprev
  obtain ⟨m, hp1, hp2⟩ := hprev
  obtain ⟨hm, hp3⟩ := hp2
  have hgh : (sf.heap h).prev_struct = none := hp3
  subst hm
  have hnd : ∀ a ∈ t, a ≠ h := by
    intro a ha
    have := (List.pairwise_cons.mp hsorted).1 a ha
    exact (struct_before_ne _ _ _ this).symm
  -- the tail pointer is not moved
  have hlast : (if (set_next_struct (set_prev_struct (set_prev_struct sf.heap n none) h (some n))
        n (some h) h).next_struct = none then some h else sf.instruments_struct_last)
      = sf.instruments_struct_last := by
    split_ifs with hc
    · simp [hhn] at hc
      rw [hc] at hchain
      cases t with
      | nil =>
        have : sf.instruments_struct_last = some h := hp1
        rw [this]
      | cons b t' =>
        obtain ⟨hb, _⟩ := hchain
        simp at hb
    · rfl
  have hs' : sf.instruments_struct = some h := hs
  have hl : link_struct sf n = some { sf with
      heap := set_next_struct (set_prev_struct (set_prev_struct sf.heap n none) h (some n))
        n (some h)
      instruments_struct := some n
      instruments_struct_last :=
        if (set_next_struct (set_prev_struct (set_prev_struct sf.heap n none) h (some n))
          n (some h) h).next_struct = none then some h else sf.instruments_struct_last } := by
    simp only [link_struct, hs']
    rw [if_pos hge]
  refine ⟨_, hl, ?_⟩
  constructor
  · exact List.Perm.refl _
  · refine ⟨rfl, ?_⟩
    simp only [set_next_struct_next, if_true]
    refine ptr_chain_congr _ _ _ _ _ ?_ (show ptr_chain (fun a => (sf.heap a).next_struct)
      (some h) (h :: t) none from ⟨rfl, hchain⟩)
    intro a ha
    have : a ≠ n := by have := hfresh a ha; omega
    simp [this]
  · simp only
    rw [hlast]
    have hrev : (n :: h :: t).reverse = t.reverse ++ ([h] ++ [n]) := by simp
    rw [hrev, ptr_chain_append]
    refine ⟨some h, ?_, ?_⟩
    · refine ptr_chain_congr _ _ _ _ _ ?_ hp1
      intro a ha
      have ha' : a ∈ t := by simpa using ha
      have h1 : a ≠ n := by have := hfresh a (by simp [ha']); omega
      have h2 : a ≠ h := hnd a ha'
      simp [h1, h2]
    · refine ⟨rfl, ?_, ?_⟩
      · simp
      · show _ = none
        simp [hhn.symm]
  · refine pairwise_struct_before_congr sf.heap _ _ (by intro a; simp) ?_
    refine List.pairwise_cons.mpr ⟨?_, hsorted⟩
    intro b hb
    have hbn := hfresh b hb
    have hle : (sf.heap b).struct_index ≤ (sf.heap h).struct_index := by
      rcases List.mem_cons.mp hb with rfl | hb'
      · exact le_refl _
      · exact struct_before_index_le _ _ _ ((List.pairwise_cons.mp hsorted).1 b hb')
    unfold struct_before
    by_cases he : (sf.heap b).struct_index < (sf.heap n).struct_index
    · exact Or.inl he
    · exact Or.inr ⟨by omega, hbn⟩
  · intro a; simp
  · intro a; simp
  · intro a; simp
  · rfl
  · rfl

theorem link_struct_middle (sf : instr_state) (n h : Nat) (t : List Nat)
    (hnext : ptr_chain (fun a => (sf.heap a).next_struct) sf.instruments_struct (h :: t) none)
    (hprev : ptr_chain (fun a => (sf.heap a).prev_struct) sf.instruments_struct_last
      (h :: t).reverse none)
    (hsorted : (h :: t).Pairwise (struct_before sf.heap))
    (hfresh : ∀ a ∈ h :: t, a < n)
    (hlt : ¬ (sf.heap n).struct_index ≥ (sf.heap h).struct_index)
    (hfuel : t.length < sf.n_alloc) :
    ∃ sf' l', link_struct sf n = some sf' ∧ link_result sf sf' n (h :: t) l' := by
  obtain ⟨hs, hchain⟩ := hnext
  obtain ⟨pre, instr2, post, hsplit, hwalk, hpre, hpost⟩ :=
    walk_struct_spec sf.heap (sf.heap n).struct_index t h sf.n_alloc ⟨rfl, hchain⟩ hfuel
  have hpre' : ∀ c ∈ pre ++ [instr2], (sf.heap n).struct_index < (sf.heap c).struct_index := by
    intro c hc
    rcases hpre c hc with rfl | hlt'
    · omega
    · exact hlt'
  have hnext' : ptr_chain (fun a => (sf.heap a).next_struct) (some h) (pre ++ instr2 :: post) none := by
    rw [← hsplit]; exact ⟨rfl, hchain⟩
  rw [hsplit] at hprev hsorted hfresh
  have hnd : (pre ++ instr2 :: post).Nodup :=
    hsorted.imp (fun {a b} hab => struct_before_ne _ a b hab)
  obtain ⟨hnd1, hnd2, hdisj⟩ := List.nodup_append.mp hnd
  obtain ⟨hnd3, hnd4⟩ := List.nodup_cons.mp hnd2
  have hpre_ne : ∀ a ∈ pre, a ≠ n ∧ a ≠ instr2 ∧ a ∉ post := by
    intro a ha
    have h1 := hfresh a (by simp [ha])
    have h2 : a ∉ instr2 :: post := fun hm => hdisj ha hm
    simp at h2
    exact ⟨by omega, h2.1, h2.2⟩
  have hi2n : instr2 ≠ n := by have := hfresh instr2 (by simp); omega
  have hpost_ne : ∀ a ∈ post, a ≠ n ∧ a ≠ instr2 := by
    intro a ha
    have h1 := hfresh a (by simp [ha])
    exact ⟨by omega, fun he => hnd3 (he ▸ ha)⟩
  obtain ⟨m, hn1, hn2⟩ := (ptr_chain_append _ _ _ _ _).mp hnext'
  obtain ⟨hm, hn3⟩ := hn2
  subst hm
  have hrev : (pre ++ instr2 :: post).reverse = post.reverse ++ (instr2 :: pre.reverse) := by simp
  rw [hrev] at hprev
  obtain ⟨m2, hp1, hp2⟩ := (ptr_chain_append _ _ _ _ _).mp hprev
  -- sortedness of the new list, stated on the old heap
  have hsorted' : (pre ++ instr2 :: n :: post).Pairwise (struct_before sf.heap) := by
    have hsplit2 : pre ++ instr2 :: n :: post = (pre ++ [instr2]) ++ n :: post := by simp
    have hsplit3 : pre ++ instr2 :: post = (pre ++ [instr2]) ++ post := by simp
    rw [hsplit3] at hsorted
    rw [hsplit2]
    obtain ⟨hs1, hs2, hs3⟩ := List.pairwise_append.mp hsorted
    refine List.pairwise_append.mpr ⟨hs1, List.pairwise_cons.mpr ⟨?_, hs2⟩, ?_⟩
    · intro p hp
      have hpn : p < n := hfresh p (by simp [hp])
      have hle : (sf.heap p).struct_index ≤ (sf.heap n).struct_index := by
        cases post with
        | nil => simp at hp
        | cons q post' =>
          have hq := hpost q rfl
          rcases List.mem_cons.mp hp with rfl | hp'
          · exact hq
          · have := struct_before_index_le _ _ _ ((List.pairwise_cons.mp hs2).1 p hp')
            omega
      unfold struct_before
      by_cases he : (sf.heap p).struct_index < (sf.heap n).struct_index
      · exact Or.inl he
      · exact Or.inr ⟨by omega, hpn⟩
    · intro a ha b hb
      rcases List.mem_cons.mp hb with rfl | hb'
      · exact Or.inl (hpre' a ha)
      · exact hs3 a ha b hb'
  have hperm : (pre ++ instr2 :: n :: post).Perm (n :: (pre ++ instr2 :: post)) := by
    have : pre ++ instr2 :: n :: post = (pre ++ [instr2]) ++ n :: post := by simp
    rw [this]
    have h2 : pre ++ instr2 :: post = (pre ++ [instr2]) ++ post := by simp
    rw [h2]
    exact List.perm_middle
  have hs' : sf.instruments_struct = some h := hs
  cases post with
  | nil =>
    have hni : (sf.heap instr2).next_struct = none := hn3
    have hlast : sf.instruments_struct_last = some instr2 := by
      have : m2 = sf.instruments_struct_last := by
        have : sf.instruments_struct_last = m2 := hp1
        exact this.symm
      subst this
      exact hp2.1
    have hp3 : ptr_chain (fun a => (sf.heap a).prev_struct) (some instr2) (instr2 :: pre.reverse) none := by
      have : sf.instruments_struct_last = m2 := hp1
      rw [← this, hlast] at hp2
      exact hp2
    have hl : link_struct sf n = some { sf with
        heap := set_next_struct (set_prev_struct (set_next_struct sf.heap instr2 (some n))
          n (some instr2)) n none
        instruments_struct_last := some n } := by
      simp only [link_struct, hs']
      rw [if_neg hlt]
      simp only [hwalk, hni]
    refine ⟨_, pre ++ instr2 :: n :: [], hl, ?_⟩
    · rw [hsplit]
      constructor
      · exact hperm
      · simp only
        rw [hs']
        refine (ptr_chain_append _ _ _ _ _).mpr ⟨some instr2, ?_, ?_⟩
        · refine ptr_chain_congr _ _ _ _ _ ?_ hn1
          intro a ha
          obtain ⟨h1, h2, _⟩ := hpre_ne a ha
          simp [h1, h2]
        · refine ⟨rfl, ?_, ?_⟩
          · simp [hi2n]
          · show _ = none
            simp [hni]
      · simp only
        have : (pre ++ [instr2, n]).reverse = n :: instr2 :: pre.reverse := by simp
        rw [this]
        refine ⟨rfl, ?_⟩
        simp only [set_next_struct_prev, set_prev_struct_prev, if_true]
        refine ptr_chain_congr _ _ _ _ _ ?_ hp3
        intro a ha
        have : a ≠ n := by
          rcases List.mem_cons.mp ha with rfl | ha'
          · exact hi2n
          · exact (hpre_ne a (by simpa using ha')).1
        simp [this]
      · exact pairwise_struct_before_congr sf.heap _ _ (by intro a; simp) hsorted'
      · intro a; simp
      · intro a; simp
      · intro a; simp
      · rfl
      · rfl
  | cons p post' =>
    obtain ⟨hnp, hn4⟩ := hn3
    have hni : (sf.heap instr2).next_struct = some p := hnp
    have hrev2 : (p :: post').reverse ++ (instr2 :: pre.reverse)
        = post'.reverse ++ (p :: instr2 :: pre.reverse) := by simp
    have hprev2 : ptr_chain (fun a => (sf.heap a).prev_struct) sf.instruments_struct_last
        (post'.reverse ++ (p :: instr2 :: pre.reverse)) none := by
      rw [← hrev2]
      exact (ptr_chain_append _ _ _ _ _).mpr ⟨m2, hp1, hp2⟩
    obtain ⟨m3, hq1, hq2⟩ := (ptr_chain_append _ _ _ _ _).mp hprev2
    obtain ⟨hm3, hq3⟩ := hq2
    subst hm3
    obtain ⟨hq4, hq5⟩ := hq3
    have hp_ne := hpost_ne p (by simp)
    have hp_post' : p ∉ post' := (List.nodup_cons.mp hnd4).1
    have hl : link_struct sf n = some { sf with
        heap := set_prev_struct (set_next_struct (set_prev_struct
          (set_next_struct sf.heap instr2 (some n)) n (some instr2)) n (some p)) p (some n) } := by
      simp only [link_struct, hs']
      rw [if_neg hlt]
      simp only [hwalk, hni]
    refine ⟨_, pre ++ instr2 :: n :: p :: post', hl, ?_⟩
    · rw [hsplit]
      constructor
      · exact hperm
      · simp only
        rw [hs']
        refine (ptr_chain_append _ _ _ _ _).mpr ⟨some instr2, ?_, ?_⟩
        · refine ptr_chain_congr _ _ _ _ _ ?_ hn1
          intro a ha
          obtain ⟨h1, h2, _⟩ := hpre_ne a ha
          simp [h1, h2]
        · refine ⟨rfl, ?_, ?_⟩
          · simp [hi2n]
          · refine ⟨by simp, ?_⟩
            refine ptr_chain_congr_start _ _ _ _ _ _ ?_ ?_ hn4
            · simp [hp_ne.1, hp_ne.2]
            · intro a ha
              obtain ⟨h1, h2⟩ := hpost_ne a (by simp [ha])
              simp [h1, h2]
      · simp only
        have : (pre ++ instr2 :: n :: p :: post').reverse
            = post'.reverse ++ (p :: n :: instr2 :: pre.reverse) := by simp
        rw [this]
        refine (ptr_chain_append _ _ _ _ _).mpr ⟨some p, ?_, ?_⟩
        · refine ptr_chain_congr _ _ _ _ _ ?_ hq1
          intro a ha
          have ha' : a ∈ post' := by simpa using ha
          have h1 : a ≠ p := fun he => hp_post' (he ▸ ha')
          have h2 : a ≠ n := (hpost_ne a (by simp [ha'])).1
          simp [h1, h2]
        · refine ⟨rfl, ⟨by simp, ⟨by simp [hp_ne.1.symm], ?_⟩⟩⟩
          have hi2p : instr2 ≠ p := fun he => hp_ne.2 he.symm
          simp only [set_prev_struct_prev, set_next_struct_prev, hi2p, hi2n, if_false]
          refine ptr_chain_congr _ _ _ _ _ ?_ hq5
          intro a ha
          have ha' : a ∈ pre := by simpa using ha
          obtain ⟨h1, _, h3⟩ := hpre_ne a ha'
          have h4 : a ≠ p := fun he => h3 (by simp [he])
          simp [h1, h4]
      · exact pairwise_struct_before_congr sf.heap _ _ (by intro a; simp) hsorted'
      · intro a; simp
      · intro a; simp
      · intro a; simp
      · rfl
      · rfl

theorem link_struct_spec (sf : instr_state) (l : List Nat) (n : Nat)
    (hnext : ptr_chain (fun a => (sf.heap a).next_struct) sf.instruments_struct l none)
    (hprev : ptr_chain (fun a => (sf.heap a).prev_struct) sf.instruments_struct_last l.reverse none)
    (hsorted : l.Pairwise (struct_before sf.heap))
    (hfresh : ∀ a ∈ l, a < n)
    (hfuel : l.length ≤ sf.n_alloc) :
    ∃ sf' l', link_struct sf n = some sf' ∧ link_result sf sf' n l l' := by
  cases l with
  | nil =>
    obtain ⟨sf', h1, h2⟩ := link_struct_empty sf n hnext
    exact ⟨sf', [n], h1, h2⟩
  | cons h t =>
    by_cases hge : (sf.heap n).struct_index ≥ (sf.heap h).struct_index
    · obtain ⟨sf', h1, h2⟩ := link_struct_front sf n h t hnext hprev hsorted hfresh hge
      exact ⟨sf', n :: h :: t, h1, h2⟩
    · exact link_struct_middle sf n h t hnext hprev hsorted hfresh hge
        (by simp at hfuel; omega)

theorem struct_inv_count (sf : instr_state) (l : List Nat) (u : Bool) (h : struct_inv sf l) :
    struct_inv (count_instr sf u) l := by
  unfold count_instr
  split_ifs
  · exact ⟨h.next_chain, h.prev_chain, h.sorted, h.mem, h.logical, h.length_le⟩
  · exact h

theorem count_instr_n_alloc (sf : instr_state) (u : Bool) :
    (count_instr sf u).n_alloc = sf.n_alloc := by
  unfold count_instr; split_ifs <;> rfl

/-- Allocating a record leaves the struct list of the old records as it was. -/
theorem struct_inv_alloc_frame (sf : instr_state) (l : List Nat) (r : instr_data)
    (h : struct_inv sf l) :
    ptr_chain (fun a => ((alloc_instr sf r).heap a).next_struct)
      (alloc_instr sf r).instruments_struct l none ∧
    ptr_chain (fun a => ((alloc_instr sf r).heap a).prev_struct)
      (alloc_instr sf r).instruments_struct_last l.reverse none ∧
    l.Pairwise (struct_before (alloc_instr sf r).heap) ∧
    (∀ a ∈ l, a < sf.n_alloc) ∧
    (∀ a, a ≠ sf.n_alloc → (alloc_instr sf r).heap a = sf.heap a) ∧
    (alloc_instr sf r).heap sf.n_alloc = r := by
  have hlt : ∀ a ∈ l, a < sf.n_alloc := fun a ha => ((h.mem a).mp ha).1
  have hheap : ∀ a, a ≠ sf.n_alloc → (alloc_instr sf r).heap a = sf.heap a := by
    intro a ha
    simp [alloc_instr, ha]
  have hheap_l : ∀ a ∈ l, (alloc_instr sf r).heap a = sf.heap a := by
    intro a ha
    exact hheap a (by have := hlt a ha; omega)
  refine ⟨?_, ?_, ?_, hlt, hheap, by simp [alloc_instr]⟩
  · refine ptr_chain_congr _ _ _ _ _ ?_ h.next_chain
    intro a ha
    rw [hheap_l a ha]
  · refine ptr_chain_congr _ _ _ _ _ ?_ h.prev_chain
    intro a ha
    rw [hheap_l a (by simpa using ha)]
  · refine h.sorted.imp_of_mem ?_
    intro a b ha hb hab
    unfold struct_before at hab ⊢
    rw [hheap_l a ha, hheap_l b hb]
    exact hab

/-- Reading an attribute-less `<Instrument/>` keeps the struct list. -/
theorem struct_inv_placeholder (sf : instr_state) (l : List Nat) (r : instr_data)
    (h : struct_inv sf l) (hname : r.name = none) (hunused : r.unused = false) :
    struct_inv (link_instr (alloc_instr sf r) sf.n_alloc) l := by
  obtain ⟨h1, h2, h3, hlt, hheap, hnew⟩ := struct_inv_alloc_frame sf l r h
  refine ⟨h1, h2, h3, ?_, ?_, ?_⟩
  · intro a
    show a ∈ l ↔ a < sf.n_alloc + 1 ∧ instr_linked ((alloc_instr sf r).heap a)
    by_cases ha : a = sf.n_alloc
    · subst ha
      rw [hnew]
      constructor
      · intro hm; have := hlt _ hm; omega
      · rintro ⟨_, hl⟩
        exact absurd ⟨hname, hunused⟩ hl
    · rw [hheap a ha, h.mem a]
      constructor
      · rintro ⟨h4, h5⟩; exact ⟨by omega, h5⟩
      · rintro ⟨h4, h5⟩; exact ⟨by omega, h5⟩
  · show sf.instruments ++ [sf.n_alloc] = List.range (sf.n_alloc + 1)
    rw [h.logical, List.range_succ]
  · show l.length ≤ sf.n_alloc + 1
    have := h.length_le
    omega

/-- Reading an instrument with attributes links its record into the struct list. -/
theorem struct_inv_linked (sf : instr_state) (l : List Nat) (r : instr_data)
    (h : struct_inv sf l) (hlinked : instr_linked r) :
    ∃ sf' l', link_struct (alloc_instr sf r) sf.n_alloc = some sf' ∧
      struct_inv (link_instr sf' sf.n_alloc) l' := by
  obtain ⟨h1, h2, h3, hlt, hheap, hnew⟩ := struct_inv_alloc_frame sf l r h
  obtain ⟨sf', l', hlink, hres⟩ := link_struct_spec (alloc_instr sf r) l sf.n_alloc h1 h2 h3 hlt
    (by show l.length ≤ sf.n_alloc + 1; have := h.length_le; omega)
  refine ⟨sf', l', hlink, hres.next_chain, hres.prev_chain, hres.sorted, ?_, ?_, ?_⟩
  · intro a
    show a ∈ l' ↔ a < sf'.n_alloc ∧ instr_linked (sf'.heap a)
    have hl : instr_linked (sf'.heap a) ↔ instr_linked ((alloc_instr sf r).heap a) := by
      unfold instr_linked
      rw [hres.name_eq a, hres.unused_eq a]
    rw [hres.perm.mem_iff, hl, hres.n_alloc_eq]
    show a ∈ sf.n_alloc :: l ↔ a < sf.n_alloc + 1 ∧ _
    by_cases ha : a = sf.n_alloc
    · subst ha
      rw [hnew]
      simp [hlinked]
    · rw [hheap a ha]
      simp only [List.mem_cons, ha, false_or]
      rw [h.mem a]
      constructor
      · rintro ⟨h4, h5⟩; exact ⟨by omega, h5⟩
      · rintro ⟨h4, h5⟩; exact ⟨by omega, h5⟩
  · show sf'.instruments ++ [sf.n_alloc] = List.range sf'.n_alloc
    rw [hres.instruments_eq, hres.n_alloc_eq]
    show sf.instruments ++ [sf.n_alloc] = List.range (sf.n_alloc + 1)
    rw [h.logical, List.range_succ]
  · show l'.length ≤ sf'.n_alloc
    rw [hres.perm.length_eq, hres.n_alloc_eq]
    show (sf.n_alloc :: l).length ≤ sf.n_alloc + 1
    have := h.length_le
    simp
    omega

theorem read_instr_inv (resolve : xml_instr → Except String Unit) (sf : instr_state)
    (l : List Nat) (lsi : Int) (node : xml_instr) (hinv : struct_inv sf l)
    (sf' : instr_state) (lsi' : Int) (h : read_instr resolve sf lsi node = .ok (sf', lsi')) :
    ∃ l', struct_inv sf' l' := by
  have hc := struct_inv_count sf l (decide (node.name = "InstrumentUnused")) hinv
  unfold read_instr at h
  simp only at h
  split_ifs at h with h1 h2 h3
  · injection h with h
    injection h with h _
    subst h
    have hu : decide (node.name = "InstrumentUnused") = false := by
      simp only [Bool.and_eq_true, Bool.not_eq_true'] at h2
      exact h2.2
    exact ⟨l, struct_inv_placeholder _ l _ hc rfl hu⟩
  · cases hr : resolve node with
    | error e => simp [hr] at h
    | ok u =>
      simp only [hr] at h
      have hlinked : instr_linked
          { name := node.Name, struct_index := node.MatchOrder.getD lsi,
            unused := decide (node.name = "InstrumentUnused") } := by
        unfold instr_linked
        rintro ⟨hn, hu⟩
        simp only at hn hu
        apply h3
        simp [hn, hu]
      obtain ⟨sf3, l', hlink, hinv'⟩ := struct_inv_linked _ l _ hc hlinked
      rw [hlink] at h
      injection h with h
      injection h with h _
      subst h
      exact ⟨l', hinv'⟩

theorem read_instr_ok (resolve : xml_instr → Except String Unit) (sf : instr_state)
    (l : List Nat) (lsi : Int) (node : xml_instr) (hinv : struct_inv sf l)
    (hname : node.name = "Instrument" ∨ node.name = "InstrumentUnused")
    (hok : (node.has_properties = false ∧ node.name ≠ "InstrumentUnused") ∨
      ((node.name = "InstrumentUnused" ∨ node.Name ≠ none) ∧ resolve node = .ok ())) :
    ∃ r, read_instr resolve sf lsi node = .ok r := by
  have hc := struct_inv_count sf l (decide (node.name = "InstrumentUnused")) hinv
  unfold read_instr
  simp only
  have h1 : ¬ ((!decide (node.name = "Instrument") && !decide (node.name = "InstrumentUnused")) = true) := by
    rcases hname with h | h <;> simp [h]
  rw [if_neg h1]
  by_cases h2 : (!node.has_properties && !decide (node.name = "InstrumentUnused")) = true
  · rw [if_pos h2]
    exact ⟨_, rfl⟩
  · rw [if_neg h2]
    rcases hok with ⟨hp, hnu⟩ | ⟨hnamed, hres⟩
    · exfalso
      apply h2
      simp [hp, hnu]
    · have h3 : ¬ ((!decide (node.name = "InstrumentUnused") && decide (node.Name = none)) = true) := by
        rcases hnamed with h | h
        · simp [h]
        · simp [h]
      rw [if_neg h3]
      simp only [hres]
      have hlinked : instr_linked
          { name := node.Name, struct_index := node.MatchOrder.getD lsi,
            unused := decide (node.name = "InstrumentUnused") } := by
        unfold instr_linked
        rintro ⟨hn, hu⟩
        simp only at hn hu
        apply h3
        simp [hn, hu]
      obtain ⟨sf3, l', hlink, _⟩ := struct_inv_linked _ l _ hc hlinked
      rw [hlink]
      exact ⟨_, rfl⟩

theorem struct_inv_init : struct_inv instr_state.init [] := by
  refine ⟨rfl, rfl, List.Pairwise.nil, ?_, rfl, le_refl _⟩
  intro a
  simp [instr_state.init]

theorem read_instrs_loop_spec (resolve : xml_instr → Except String Unit) :
    ∀ (instrs : List xml_instr) (sf : instr_state) (lsi : Int) (l : List Nat),
      struct_inv sf l →
      ((∀ node ∈ instrs, instr_node_ok resolve node) →
        ∃ sf', read_instrs_loop resolve sf lsi instrs = .ok sf') ∧
      (∀ sf', read_instrs_loop resolve sf lsi instrs = .ok sf' → ∃ l', struct_inv sf' l') := by
  intro instrs
  induction instrs with
  | nil =>
    intro sf lsi l hinv
    refine ⟨fun _ => ⟨sf, rfl⟩, ?_⟩
    intro sf' h
    simp only [read_instrs_loop] at h
    injection h with h
    subst h
    exact ⟨l, hinv⟩
  | cons node rest ih =>
    intro sf lsi l hinv
    by_cases hel : (!node.is_element) = true
    · have hstep : read_instrs_loop resolve sf lsi (node :: rest)
          = read_instrs_loop resolve sf lsi rest := by
        simp only [read_instrs_loop]
        rw [if_pos hel]
      rw [hstep]
      obtain ⟨ih1, ih2⟩ := ih sf lsi l hinv
      exact ⟨fun hall => ih1 (fun nd hnd => hall nd (by simp [hnd])), ih2⟩
    · have hstep : read_instrs_loop resolve sf lsi (node :: rest)
          = (match read_instr resolve sf lsi node with
              | .error e => .error e
              | .ok (sf, last_struct_index) => read_instrs_loop resolve sf last_struct_index rest) := by
        simp only [read_instrs_loop]
        rw [if_neg hel]
      rw [hstep]
      constructor
      · intro hall
        have hok := hall node (by simp)
        have hrest : ∀ nd ∈ rest, instr_node_ok resolve nd := fun nd hnd => hall nd (by simp [hnd])
        unfold instr_node_ok at hok
        rcases hok with hne | ⟨hname, hok⟩
        · simp [hne] at hel
        · obtain ⟨r, hr⟩ := read_instr_ok resolve sf l lsi node hinv hname hok
          obtain ⟨sf1, lsi1⟩ := r
          obtain ⟨l1, hinv1⟩ := read_instr_inv resolve sf l lsi node hinv sf1 lsi1 hr
          rw [hr]
          exact (ih sf1 lsi1 l1 hinv1).1 hrest
      · intro sf' h
        cases hr : read_instr resolve sf lsi node with
        | error e => rw [hr] at h; simp at h
        | ok r =>
          obtain ⟨sf1, lsi1⟩ := r
          rw [hr] at h
          obtain ⟨l1, hinv1⟩ := read_instr_inv resolve sf l lsi node hinv sf1 lsi1 hr
          exact (ih sf1 lsi1 l1 hinv1).2 sf' h

theorem emit_c_instruments_body_instrs (heap : Nat → instr_data) :
    ∀ (v : List Nat) (u size : Nat), (∀ a ∈ v, instr_linked (heap a)) →
      (emit_c_instruments_body heap v u size).1.map (fun d => d.instr) = v := by
  intro v
  induction v with
  | nil => intro u size _; rfl
  | cons a rest ih =>
    intro u size hall
    have ha := hall a (by simp)
    have hc : ¬ ((decide ((heap a).name = none) && !(heap a).unused) = true) := by
      intro hc
      apply ha
      simp only [Bool.and_eq_true, decide_eq_true_eq, Bool.not_eq_true'] at hc
      exact hc
    unfold emit_c_instruments_body
    rw [if_neg hc]
    have hrest := ih (if (heap a).unused then u + 1 else u) (size + 0x20)
      (fun b hb => hall b (by simp [hb]))
    by_cases hu : (heap a).unused = true
    · simp only [hu, if_true] at hrest ⊢
      simp only [List.map_cons, hrest]
    · simp only [hu, if_false] at hrest ⊢
      simp only [List.map_cons, hrest]
      simp

/-- C1: `read_instrs_info` succeeds on every instrument list whose nodes pass its checks, and
for every list it reads, `emit_c_instruments` (walking `prev_struct` back from
`instruments_struct_last`) terminates and emits exactly the non-placeholder instruments, each
once, in the stable ascending sort of the reading sequence by `struct_index`: the emitted
struct indices are non-decreasing, and instruments with equal `struct_index` are emitted in
reading order (addresses are handed out in reading order: the logical list is `0, 1, ...`).
For instruments read with the indices 5, 2, 8, 2 the emission order is: first index-2 entry,
second index-2 entry, 5, 8. -/
theorem emit_c_instruments_struct_order (resolve : xml_instr → Except String Unit)
    (instrs : List xml_instr) :
    ((∀ node ∈ instrs, instr_node_ok resolve node) →
      ∃ sf, read_instrs_info resolve instrs = .ok sf) ∧
    (∀ sf, read_instrs_info resolve instrs = .ok sf →
      sf.instruments = List.range sf.n_alloc ∧
      ∃ decls size, emit_c_instruments sf = .ok (decls, size) ∧
        (decls.map (fun d => d.instr)).Perm
          (sf.instruments.filter
            (fun a => !(decide ((sf.heap a).name = none) && !(sf.heap a).unused))) ∧
        (decls.map (fun d => d.instr)).Pairwise
          (fun a b => (sf.heap a).struct_index ≤ (sf.heap b).struct_index) ∧
        (decls.map (fun d => d.instr)).Pairwise
          (fun a b => (sf.heap a).struct_index = (sf.heap b).struct_index → a < b)) ∧
    (match read_instrs_info (fun _ => .ok ()) ex_instr_nodes with
      | .ok sf =>
        (match emit_c_instruments sf with
          | .ok (decls, _) => decls.map (fun d => (d.symbol, (sf.heap d.instr).struct_index))
          | .error _ => [])
      | .error _ => [])
      = [(.inr "B", 2), (.inr "D", 2), (.inr "A", 5), (.inr "C", 8)] := by
  obtain ⟨hok, hinv⟩ := read_instrs_loop_spec resolve instrs instr_state.init 0 [] struct_inv_init
  refine ⟨hok, ?_, by rfl⟩
  intro sf hsf
  obtain ⟨l, hl⟩ := hinv sf hsf
  refine ⟨hl.logical, ?_⟩
  have hwalk := walk_prev_struct_of_chain sf.heap l.reverse sf.n_alloc sf.instruments_struct_last
    hl.prev_chain (by simpa using hl.length_le)
  have hlinked : ∀ a ∈ l.reverse, instr_linked (sf.heap a) := by
    intro a ha
    exact ((hl.mem a).mp (by simpa using ha)).2
  have hbody := emit_c_instruments_body_instrs sf.heap l.reverse 0 0 hlinked
  have hemit : emit_c_instruments sf = .ok (emit_c_instruments_body sf.heap l.reverse 0 0) := by
    unfold emit_c_instruments
    rw [hwalk]
  refine ⟨(emit_c_instruments_body sf.heap l.reverse 0 0).1,
    (emit_c_instruments_body sf.heap l.reverse 0 0).2, hemit, ?_, ?_, ?_⟩
  · rw [hbody]
    refine (List.reverse_perm l).trans ?_
    have hnd : l.Nodup := hl.sorted.imp (fun {a b} hab => struct_before_ne _ a b hab)
    have hnd2 : (sf.instruments.filter
        (fun a => !(decide ((sf.heap a).name = none) && !(sf.heap a).unused))).Nodup := by
      rw [hl.logical]
      exact (List.nodup_range _).filter _
    refine (List.perm_ext_iff_of_nodup hnd hnd2).mpr ?_
    intro a
    rw [hl.mem a, List.mem_filter, hl.logical, List.mem_range]
    unfold instr_linked
    simp only [Bool.not_eq_true', Bool.and_eq_false_iff, decide_eq_false_iff_not, not_and,
      Bool.not_eq_false', Bool.not_eq_false]
    constructor
    · rintro ⟨h1, h2⟩
      refine ⟨h1, ?_⟩
      by_cases hn : (sf.heap a).name = none
      · exact Or.inr (h2 hn)
      · exact Or.inl hn
    · rintro ⟨h1, h2⟩
      refine ⟨h1, ?_⟩
      intro hn
      rcases h2 with h | h
      · exact absurd hn h
      · exact h
  · rw [hbody, List.pairwise_reverse]
    refine hl.sorted.imp ?_
    intro a b hab
    exact struct_before_index_le _ _ _ hab
  · rw [hbody, List.pairwise_reverse]
    refine hl.sorted.imp ?_
    intro a b hab heq
    rcases hab with h | ⟨_, h⟩
    · omega
    · exact h

/-- Witness for C1: the four instruments with match orders 5, 2, 8, 2 are read. -/
theorem emit_c_instruments_struct_order_witness :
    ∃ sf, read_instrs_info (fun _ => .ok ()) ex_instr_nodes = .ok sf :=
  (emit_c_instruments_struct_order (fun _ => .ok ()) ex_instr_nodes).1
    (by
      intro node hn
      simp only [ex_instr_nodes, List.mem_cons, List.mem_singleton, List.not_mem_nil,
        or_false] at hn
      rcases hn with rfl | rfl | rfl | rfl <;>
        exact Or.inr ⟨Or.inl rfl, Or.inr ⟨Or.inr (by simp), rfl⟩⟩)


/-! ## C11 - C14: instrument sample resolution -/

theorem resolve_instr_inv (calc_tuning : Rat → Int → Nat) (envelopes : List envelope_data)
    (samples : List sample_data) (node : xml_instr) (r : instr_resolved)
    (h : resolve_instr calc_tuning envelopes samples node = .ok r) :
    sf_get_envelope envelopes node.Envelope = some r.envelope ∧
    r.sample_low_end = node.RangeLo.getD INSTR_LO_NONE ∧
    r.sample_high_start = node.RangeHi.getD INSTR_HI_NONE ∧
    (if node.Sample = none then
      ∃ st, read_instr_children (node.RangeLo.getD INSTR_LO_NONE) (node.RangeHi.getD INSTR_HI_NONE)
          node.SampleLo node.SampleHi node.children = .ok st ∧
        r.sample_name_low = st.sample_name_low ∧ r.sample_name_mid = st.sample_name_mid ∧
        r.sample_name_high = st.sample_name_high
     else r.sample_name_low = node.SampleLo ∧ r.sample_name_mid = node.Sample ∧
        r.sample_name_high = node.SampleHi) ∧
    resolve_opt_sample calc_tuning samples r.sample_name_low (node.BaseNoteLo.getD NOTE_UNSET)
        (node.SampleRateLo.getD (-1)) "Bad sample name for LOW sample" = .ok r.low ∧
    (∃ sample_mid, sample_data_forname samples r.sample_name_mid = some sample_mid ∧
      r.mid = { resolve_sample calc_tuning sample_mid (node.BaseNote.getD NOTE_UNSET)
                  (node.SampleRate.getD (-1)) with
                tuning := patch_mid_tuning (resolve_sample calc_tuning sample_mid
                  (node.BaseNote.getD NOTE_UNSET) (node.SampleRate.getD (-1))).tuning }) ∧
    resolve_opt_sample calc_tuning samples r.sample_name_high (node.BaseNoteHi.getD NOTE_UNSET)
        (node.SampleRateHi.getD (-1)) "Bad sample name for HIGH sample" = .ok r.high := by
  unfold resolve_instr at h
  by_cases henv : node.Envelope = none
  · rw [if_pos henv] at h; simp at h
  · rw [if_neg henv] at h
    cases he : sf_get_envelope envelopes node.Envelope with
    | none => rw [he] at h; simp at h
    | some envelope =>
      rw [he] at h
      simp only at h
      -- the three names
      generalize hnames : (if node.Sample = none then
          match read_instr_children (node.RangeLo.getD INSTR_LO_NONE)
              (node.RangeHi.getD INSTR_HI_NONE) node.SampleLo node.SampleHi node.children with
          | .error e => (Except.error e : Except String (Option String × Option String × Option String))
          | .ok st => .ok (st.sample_name_low, st.sample_name_mid, st.sample_name_high)
        else .ok (node.SampleLo, node.Sample, node.SampleHi)) = names at h
      cases names with
      | error e => simp at h
      | ok nm =>
        obtain ⟨name_low, name_mid, name_high⟩ := nm
        simp only at h
        cases hlow : resolve_opt_sample calc_tuning samples name_low (node.BaseNoteLo.getD NOTE_UNSET)
            (node.SampleRateLo.getD (-1)) "Bad sample name for LOW sample" with
        | error e => rw [hlow] at h; simp at h
        | ok low =>
          rw [hlow] at h
          simp only at h
          cases hmid : sample_data_forname samples name_mid with
          | none => rw [hmid] at h; simp at h
          | some sample_mid =>
            rw [hmid] at h
            simp only at h
            cases hhigh : resolve_opt_sample calc_tuning samples name_high
                (node.BaseNoteHi.getD NOTE_UNSET) (node.SampleRateHi.getD (-1))
                "Bad sample name for HIGH sample" with
            | error e => rw [hhigh] at h; simp at h
            | ok high =>
              rw [hhigh] at h
              simp only at h
              injection h with h
              subst h
              refine ⟨rfl, rfl, rfl, ?_, hlow, ⟨sample_mid, hmid, rfl⟩, hhigh⟩
              by_cases hs : node.Sample = none
              · rw [if_pos hs] at hnames ⊢
                cases hch : read_instr_children (node.RangeLo.getD INSTR_LO_NONE)
                    (node.RangeHi.getD INSTR_HI_NONE) node.SampleLo node.SampleHi
                    node.children with
                | error e => rw [hch] at hnames; simp at hnames
                | ok st =>
                  rw [hch] at hnames
                  simp only at hnames
                  injection hnames with hnames
                  injection hnames with h1 h2
                  injection h2 with h2 h3
                  exact ⟨st, rfl, h1.symm, h2.symm, h3.symm⟩
              · rw [if_neg hs] at hnames ⊢
                injection hnames with hnames
                injection hnames with h1 h2
                injection h2 with h2 h3
                exact ⟨h1.symm, h2.symm, h3.symm⟩

theorem read_instr_resolved (resolve : xml_instr → Except String Unit) (sf : instr_state)
    (lsi : Int) (node : xml_instr) (r : instr_state × Int)
    (h : read_instr resolve sf lsi node = .ok r)
    (hp : node.has_properties = true ∨ node.name = "InstrumentUnused") :
    resolve node = .ok () := by
  unfold read_instr at h
  simp only at h
  split_ifs at h with h1 h2 h3
  · exfalso
    simp only [Bool.and_eq_true, Bool.not_eq_true', decide_eq_false_iff_not] at h2
    rcases hp with hp | hp
    · rw [hp] at h2
      exact Bool.noConfusion h2.1
    · exact h2.2 hp
  · cases hr : resolve node with
    | error e => simp [hr] at h
    | ok u => rfl

theorem read_instrs_loop_resolved (resolve : xml_instr → Except String Unit) :
    ∀ (instrs : List xml_instr) (sf : instr_state) (lsi : Int) (sf' : instr_state),
      read_instrs_loop resolve sf lsi instrs = .ok sf' →
      ∀ node ∈ instrs, node.is_element = true →
        (node.has_properties = true ∨ node.name = "InstrumentUnused") →
        resolve node = .ok () := by
  intro instrs
  induction instrs with
  | nil =>
    intro sf lsi sf' _ node hn
    simp at hn
  | cons nd rest ih =>
    intro sf lsi sf' h node hn hel hp
    by_cases hnel : (!nd.is_element) = true
    · simp only [read_instrs_loop] at h
      rw [if_pos hnel] at h
      rcases List.mem_cons.mp hn with rfl | hn
      · rw [hel] at hnel
        exact Bool.noConfusion hnel
      · exact ih sf lsi sf' h node hn hel hp
    · simp only [read_instrs_loop] at h
      rw [if_neg hnel] at h
      cases hr : read_instr resolve sf lsi nd with
      | error e => rw [hr] at h; simp at h
      | ok r =>
        rw [hr] at h
        rcases List.mem_cons.mp hn with rfl | hn
        · exact read_instr_resolved resolve sf lsi node r hr hp
        · obtain ⟨sf1, lsi1⟩ := r
          exact ih sf1 lsi1 sf' h node hn hel hp

theorem resolve_in_ok (calc_tuning : Rat → Int → Nat) (envelopes : List envelope_data)
    (samples : List sample_data) (node : xml_instr) :
    resolve_in calc_tuning envelopes samples node = .ok () ↔
      ∃ r, resolve_instr calc_tuning envelopes samples node = .ok r := by
  unfold resolve_in
  cases hr : resolve_instr calc_tuning envelopes samples node with
  | error e => simp
  | ok r => simp

/-- Every instrument with attributes that `read_instrs_info` accepts went through the envelope
and sample resolution. -/
theorem read_instrs_info_resolved (calc_tuning : Rat → Int → Nat)
    (envelopes : List envelope_data) (samples : List sample_data) (instrs : List xml_instr)
    (node : xml_instr)
    (hread : ∃ sf, read_instrs_info (resolve_in calc_tuning envelopes samples) instrs = .ok sf)
    (hnode : node ∈ instrs) (hel : node.is_element = true)
    (hprop : node.has_properties = true) :
    ∃ r, resolve_instr calc_tuning envelopes samples node = .ok r := by
  obtain ⟨sf, hsf⟩ := hread
  exact (resolve_in_ok calc_tuning envelopes samples node).mp
    (read_instrs_loop_resolved _ instrs instr_state.init 0 sf hsf node hnode hel (Or.inl hprop))

/-- A single named `<Instrument>` with attributes is accepted exactly when its envelope and
samples resolve. -/
theorem read_instrs_info_single (calc_tuning : Rat → Int → Nat)
    (envelopes : List envelope_data) (samples : List sample_data) (node : xml_instr)
    (hel : node.is_element = true) (hname : node.name = "Instrument")
    (hprop : node.has_properties = true) (hnamed : node.Name ≠ none) :
    (∃ sf, read_instrs_info (resolve_in calc_tuning envelopes samples) [node] = .ok sf) ↔
      ∃ r, resolve_instr calc_tuning envelopes samples node = .ok r := by
  constructor
  · intro h
    exact read_instrs_info_resolved calc_tuning envelopes samples [node] node h (by simp) hel hprop
  · intro h
    have hres := (resolve_in_ok calc_tuning envelopes samples node).mpr h
    apply (read_instrs_loop_spec (resolve_in calc_tuning envelopes samples) [node]
      instr_state.init 0 [] struct_inv_init).1
    intro nd hnd
    rw [List.mem_singleton] at hnd
    subst hnd
    exact Or.inr ⟨Or.inl hname, Or.inr ⟨Or.inr hnamed, hres⟩⟩

theorem resolve_sample_eq (calc_tuning : Rat → Int → Nat) (sample : sample_data)
    (note : Option Int) (rate : Option Rat) :
    resolve_sample calc_tuning sample (note.getD NOTE_UNSET) (rate.getD (-1)) =
      ⟨sample, resolved_base_note note sample, resolved_rate_instr rate sample,
       calc_tuning (resolved_rate_instr rate sample) (resolved_base_note note sample)⟩ := by
  have hneg : ((-1 : Rat) < 0) := by norm_num
  cases note <;> cases rate <;>
    simp [resolve_sample, resolved_base_note, resolved_rate_instr, hneg]

theorem resolve_opt_sample_inv (calc_tuning : Rat → Int → Nat) (samples : List sample_data)
    (name : Option String) (note : Option Int) (rate : Option Rat) (err : String)
    (slot : Option sample_slot)
    (h : resolve_opt_sample calc_tuning samples name (note.getD NOTE_UNSET) (rate.getD (-1)) err
      = .ok slot) :
    ∀ s, slot = some s →
      sample_data_forname samples name = some s.sample ∧
      s.base_note = resolved_base_note note s.sample ∧
      s.sample_rate = resolved_rate_instr rate s.sample ∧
      s.tuning = calc_tuning s.sample_rate s.base_note := by
  intro s hs
  subst hs
  unfold resolve_opt_sample at h
  cases name with
  | none => simp at h
  | some n =>
    simp only at h
    cases hf : sample_data_forname samples (some n) with
    | none => rw [hf] at h; simp at h
    | some sample =>
      rw [hf] at h
      simp only at h
      injection h with h
      injection h with h
      rw [resolve_sample_eq] at h
      subst h
      exact ⟨rfl, rfl, rfl, rfl⟩

theorem patch_mid_tuning_spec (t : Nat) :
    (f2i t = 0x3E7319DF → f2i (patch_mid_tuning t) = 0x3E7319E3) ∧
    (f2i t ≠ 0x3E7319DF → patch_mid_tuning t = t) ∧
    f2i (patch_mid_tuning t) ≠ 0x3E7319DF := by
  unfold patch_mid_tuning
  by_cases h : f2i t = 0x3E7319DF
  · rw [if_pos h]
    refine ⟨fun _ => rfl, fun hne => absurd h hne, ?_⟩
    unfold f2i i2f
    decide
  · rw [if_neg h]
    exact ⟨fun he => absurd he h, fun _ => rfl, h⟩

theorem read_sfx_info_mem (calc_tuning : Rat → Int → Nat) (samples : List sample_data) :
    ∀ (effs : List xml_effect) (acc res : List (sfx_data Nat) × Nat),
      read_sfx_info calc_tuning samples acc effs = .ok res →
      ∀ sfx ∈ res.1, sfx ∈ acc.1 ∨
        ∃ eff ∈ effs, eff.is_element = true ∧ read_sfx calc_tuning samples eff = .ok sfx := by
  intro effs
  induction effs with
  | nil =>
    intro acc res h sfx hs
    simp only [read_sfx_info] at h
    injection h with h
    subst h
    exact Or.inl hs
  | cons eff rest ih =>
    intro acc res h sfx hs
    by_cases hnel : (!eff.is_element) = true
    · simp only [read_sfx_info] at h
      rw [if_pos hnel] at h
      rcases ih acc res h sfx hs with h1 | ⟨e, he, h2⟩
      · exact Or.inl h1
      · exact Or.inr ⟨e, List.mem_cons_of_mem _ he, h2⟩
    · simp only [read_sfx_info] at h
      rw [if_neg hnel] at h
      cases hr : read_sfx calc_tuning samples eff with
      | error e => rw [hr] at h; simp at h
      | ok x =>
        rw [hr] at h
        simp only at h
        rcases ih _ res h sfx hs with h1 | ⟨e, he, h2⟩
        · simp only [List.mem_append, List.mem_singleton] at h1
          rcases h1 with h1 | h1
          · exact Or.inl h1
          · subst h1
            refine Or.inr ⟨eff, List.mem_cons_self _ _, ?_, hr⟩
            simpa using hnel
        · exact Or.inr ⟨e, List.mem_cons_of_mem _ he, h2⟩

theorem read_sfx_inv (calc_tuning : Rat → Int → Nat) (samples : List sample_data)
    (eff : xml_effect) (sfx : sfx_data Nat) (sample : sample_data)
    (h : read_sfx calc_tuning samples eff = .ok sfx) (hs : sfx.sample = some sample) :
    sample_data_forname samples eff.Sample = some sample ∧
    sfx.base_note = resolved_base_note eff.BaseNote sample ∧
    sfx.sample_rate = resolved_rate_sfx eff.SampleRate sample ∧
    sfx.tuning = calc_tuning sfx.sample_rate sfx.base_note := by
  unfold read_sfx at h
  split_ifs at h with h1 h2 h3
  · injection h with h
    subst h
    simp at hs
  · cases hf : sample_data_forname samples eff.Sample with
    | none =>
      rw [hf] at h
      simp only at h
      split_ifs at h
      injection h with h
      subst h
      simp at hs
    | some sm =>
      rw [hf] at h
      simp only at h
      injection h with h
      subst h
      simp only [Option.some.injEq] at hs
      subst hs
      refine ⟨rfl, ?_, ?_, rfl⟩
      · cases eff.BaseNote <;> simp [resolved_base_note]
      · cases eff.SampleRate <;> simp [resolved_rate_sfx]

/-- C12 (code bug): an `<Instrument>` that sets `RangeLo` to 30 and gives its mid sample by the
direct `Sample` attribute, with no low sample at all, is accepted by `read_instrs_info`
whatever `calc_tuning` is: the record has `sample_low_end = 30`, no low sample name and no
low sample, and it is added to the bank (one record, one instrument). The check
"Unset-but-used Low sample" is only made when the mid sample comes from a child node: the same
instrument with `<Sample Mid="kick"/>` as child is rejected with that error. -/
theorem read_instrs_info_range_lo_without_low (calc_tuning : Rat → Int → Nat) :
    (ex_instr_range_lo.RangeLo = some 30 ∧ ex_instr_range_lo.SampleLo = none ∧
      ex_instr_range_lo.children = []) ∧
    (∃ r, resolve_instr calc_tuning [ex_env] [ex_kick] ex_instr_range_lo = .ok r ∧
      r.sample_low_end = 30 ∧ r.sample_name_low = none ∧ r.low = none) ∧
    (∃ sf, read_instrs_info (resolve_in calc_tuning [ex_env] [ex_kick]) [ex_instr_range_lo]
        = .ok sf ∧ sf.n_alloc = 1 ∧ sf.instruments = [0] ∧ sf.num_instruments = 1 ∧
        (sf.heap 0).name = some "I") ∧
    resolve_instr calc_tuning [ex_env] [ex_kick] ex_instr_range_lo_child
      = .error "Unset-but-used Low sample" ∧
    read_instrs_info (resolve_in calc_tuning [ex_env] [ex_kick]) [ex_instr_range_lo_child]
      = .error "Unset-but-used Low sample" := by
  refine ⟨⟨rfl, rfl, rfl⟩, ⟨_, rfl, rfl, rfl, rfl⟩, ⟨_, rfl, rfl, rfl, rfl, rfl⟩, rfl, rfl⟩

/-- C13 (counterexample): an attribute that is given is not always the resolved value, and the
stored mid tuning is not always the result of `calc_tuning`. The instrument
`<Instrument Name="I" Envelope="Env0" Sample="kick" SampleRate="-2"/>` is accepted with the
resolved mid rate 32000 of the sample, not the given -2; and with a `calc_tuning` whose result
for the resolved mid pair (22765, 20) has the bit pattern `0x3E7319DF`, the stored mid
tuning is `0x3E7319E3`, which is not that result. -/
theorem resolve_instr_override_ignored :
    (ex_instr_negative_rate.SampleRate = some (-2) ∧
      ∃ r, resolve_instr ex_tuning [ex_env] [ex_kick] ex_instr_negative_rate = .ok r ∧
        r.mid.sample_rate = 32000 ∧ r.mid.sample_rate ≠ -2) ∧
    (∃ r, resolve_instr ex_tuning_patched [ex_env] [ex_kick] ex_instr_patched = .ok r ∧
      r.mid.sample_rate = 22765 ∧ r.mid.base_note = 20 ∧
      ex_tuning_patched r.mid.sample_rate r.mid.base_note = 0x3E7319DF ∧
      r.mid.tuning = 0x3E7319E3 ∧
      r.mid.tuning ≠ ex_tuning_patched r.mid.sample_rate r.mid.base_note) := by
  refine ⟨⟨rfl, _, rfl, by decide, by decide⟩, ⟨_, rfl, by decide, by decide, by decide,
    by decide, by decide⟩⟩

/-- C13 (amended): for every instrument with attributes accepted by `read_instrs_info`, the
mid sample and each of the low and high samples that is present is the sample its name
resolves to; its resolved base note is the `BaseNote` attribute unless that is absent or
equal to the marker `NOTE_UNSET`, in which case it is the sample's base note converted to
`int8_t`; its resolved rate is the `SampleRate` attribute unless that is absent or negative,
in which case it is the sample's rate; the low and high tunings are `calc_tuning` of the
resolved (rate, note) pair, and the mid tuning is `calc_tuning` of the resolved pair passed
through the bit-pattern substitution `patch_mid_tuning`. For every effect with a sample read
by `read_sfx_info` the same holds with the rate marker `-1` in place of "negative", and the
tuning is `calc_tuning` of the resolved pair. -/
theorem resolve_sample_defaults (calc_tuning : Rat → Int → Nat)
    (envelopes : List envelope_data) (samples : List sample_data) :
    (∀ (instrs : List xml_instr) (node : xml_instr),
      (∃ sf, read_instrs_info (resolve_in calc_tuning envelopes samples) instrs = .ok sf) →
      node ∈ instrs → node.is_element = true → node.has_properties = true →
      ∃ r, resolve_instr calc_tuning envelopes samples node = .ok r ∧
        sample_data_forname samples r.sample_name_mid = some r.mid.sample ∧
        r.mid.base_note = resolved_base_note node.BaseNote r.mid.sample ∧
        r.mid.sample_rate = resolved_rate_instr node.SampleRate r.mid.sample ∧
        r.mid.tuning = patch_mid_tuning (calc_tuning r.mid.sample_rate r.mid.base_note) ∧
        (∀ s, r.low = some s →
          sample_data_forname samples r.sample_name_low = some s.sample ∧
          s.base_note = resolved_base_note node.BaseNoteLo s.sample ∧
          s.sample_rate = resolved_rate_instr node.SampleRateLo s.sample ∧
          s.tuning = calc_tuning s.sample_rate s.base_note) ∧
        (∀ s, r.high = some s →
          sample_data_forname samples r.sample_name_high = some s.sample ∧
          s.base_note = resolved_base_note node.BaseNoteHi s.sample ∧
          s.sample_rate = resolved_rate_instr node.SampleRateHi s.sample ∧
          s.tuning = calc_tuning s.sample_rate s.base_note)) ∧
    (∀ (effects : List xml_effect) (res : List (sfx_data Nat) × Nat),
      read_sfx_info calc_tuning samples ([], 0) effects = .ok res →
      ∀ sfx ∈ res.1, ∀ sample, sfx.sample = some sample →
        ∃ eff ∈ effects, sample_data_forname samples eff.Sample = some sample ∧
          sfx.base_note = resolved_base_note eff.BaseNote sample ∧
          sfx.sample_rate = resolved_rate_sfx eff.SampleRate sample ∧
          sfx.tuning = calc_tuning sfx.sample_rate sfx.base_note) := by
  constructor
  · intro instrs node hread hnode hel hprop
    obtain ⟨r, hr⟩ := read_instrs_info_resolved calc_tuning envelopes samples instrs node hread
      hnode hel hprop
    obtain ⟨_, _, _, _, hlow, ⟨sm, hsm, hmid⟩, hhigh⟩ :=
      resolve_instr_inv calc_tuning envelopes samples node r hr
    rw [resolve_sample_eq] at hmid
    refine ⟨r, hr, ?_, ?_, ?_, ?_, ?_, ?_⟩
    · rw [hmid]; exact hsm
    · rw [hmid]
    · rw [hmid]
    · rw [hmid]
    · exact resolve_opt_sample_inv calc_tuning samples _ _ _ _ _ hlow
    · exact resolve_opt_sample_inv calc_tuning samples _ _ _ _ _ hhigh
  · intro effects res h sfx hsfx sample hs
    rcases read_sfx_info_mem calc_tuning samples effects ([], 0) res h sfx hsfx with h1 | h1
    · simp at h1
    · obtain ⟨eff, heff, _, hr⟩ := h1
      exact ⟨eff, heff, read_sfx_inv calc_tuning samples eff sfx sample hr hs⟩

/-- Witness for C13 (amended): the instrument with `RangeHi` and children `Mid` and `High`
is accepted, and the effect that overrides rate and base note of `kick` is read. -/
theorem resolve_sample_defaults_witness :
    (∃ r, resolve_instr ex_tuning [ex_env] [ex_kick] ex_instr_mid_high = .ok r ∧
        sample_data_forname [ex_kick] r.sample_name_mid = some r.mid.sample ∧
        r.mid.base_note = resolved_base_note ex_instr_mid_high.BaseNote r.mid.sample ∧
        r.mid.sample_rate = resolved_rate_instr ex_instr_mid_high.SampleRate r.mid.sample ∧
        r.mid.tuning = patch_mid_tuning (ex_tuning r.mid.sample_rate r.mid.base_note) ∧
        (∀ s, r.low = some s →
          sample_data_forname [ex_kick] r.sample_name_low = some s.sample ∧
          s.base_note = resolved_base_note ex_instr_mid_high.BaseNoteLo s.sample ∧
          s.sample_rate = resolved_rate_instr ex_instr_mid_high.SampleRateLo s.sample ∧
          s.tuning = ex_tuning s.sample_rate s.base_note) ∧
        (∀ s, r.high = some s →
          sample_data_forname [ex_kick] r.sample_name_high = some s.sample ∧
          s.base_note = resolved_base_note ex_instr_mid_high.BaseNoteHi s.sample ∧
          s.sample_rate = resolved_rate_instr ex_instr_mid_high.SampleRateHi s.sample ∧
          s.tuning = ex_tuning s.sample_rate s.base_note)) ∧
    (∀ sfx ∈ [({ name := some "E", sample := some ex_kick, tuning := ex_tuning 16000 51,
                 sample_rate := 16000, base_note := 51 } : sfx_data Nat)],
      ∀ sample, sfx.sample = some sample →
        ∃ eff ∈ [ex_effect], sample_data_forname [ex_kick] eff.Sample = some sample ∧
          sfx.base_note = resolved_base_note eff.BaseNote sample ∧
          sfx.sample_rate = resolved_rate_sfx eff.SampleRate sample ∧
          sfx.tuning = ex_tuning sfx.sample_rate sfx.base_note) :=
  ⟨(resolve_sample_defaults ex_tuning [ex_env] [ex_kick]).1 [ex_instr_mid_high]
      ex_instr_mid_high ⟨_, rfl⟩ (List.mem_singleton.mpr rfl) rfl rfl,
   (resolve_sample_defaults ex_tuning [ex_env] [ex_kick]).2 [ex_effect]
      ([{ name := some "E", sample := some ex_kick, tuning := ex_tuning 16000 51,
          sample_rate := 16000, base_note := 51 }], 1) (by rfl)⟩

/-- C14: for every instrument with attributes accepted by `read_instrs_info`, the stored mid
tuning has the bit pattern `0x3E7319E3` whenever the result of `calc_tuning` for the resolved
mid pair has the bit pattern `0x3E7319DF`, and is equal to that result for every other bit
pattern; the stored mid tuning never has the bit pattern `0x3E7319DF`; and the low and high
tunings are the results of `calc_tuning` for their resolved pairs, without substitution. -/
theorem read_instrs_info_mid_tuning_patch (calc_tuning : Rat → Int → Nat)
    (envelopes : List envelope_data) (samples : List sample_data) (instrs : List xml_instr)
    (node : xml_instr)
    (hread : ∃ sf, read_instrs_info (resolve_in calc_tuning envelopes samples) instrs = .ok sf)
    (hnode : node ∈ instrs) (hel : node.is_element = true)
    (hprop : node.has_properties = true) :
    ∃ r, resolve_instr calc_tuning envelopes samples node = .ok r ∧
      (f2i (calc_tuning r.mid.sample_rate r.mid.base_note) = 0x3E7319DF →
        f2i r.mid.tuning = 0x3E7319E3) ∧
      (f2i (calc_tuning r.mid.sample_rate r.mid.base_note) ≠ 0x3E7319DF →
        r.mid.tuning = calc_tuning r.mid.sample_rate r.mid.base_note) ∧
      f2i r.mid.tuning ≠ 0x3E7319DF ∧
      (∀ s, r.low = some s → s.tuning = calc_tuning s.sample_rate s.base_note) ∧
      (∀ s, r.high = some s → s.tuning = calc_tuning s.sample_rate s.base_note) := by
  obtain ⟨r, hr⟩ := read_instrs_info_resolved calc_tuning envelopes samples instrs node hread
    hnode hel hprop
  obtain ⟨_, _, _, _, hlow, ⟨sm, hsm, hmid⟩, hhigh⟩ :=
    resolve_instr_inv calc_tuning envelopes samples node r hr
  rw [resolve_sample_eq] at hmid
  have ht : r.mid.tuning = patch_mid_tuning (calc_tuning r.mid.sample_rate r.mid.base_note) := by
    rw [hmid]
  obtain ⟨h1, h2, h3⟩ := patch_mid_tuning_spec (calc_tuning r.mid.sample_rate r.mid.base_note)
  refine ⟨r, hr, ?_, ?_, ?_, ?_, ?_⟩
  · intro h; rw [ht]; exact h1 h
  · intro h; rw [ht]; exact h2 h
  · rw [ht]; exact h3
  · intro s hs
    exact (resolve_opt_sample_inv calc_tuning samples _ _ _ _ _ hlow s hs).2.2.2
  · intro s hs
    exact (resolve_opt_sample_inv calc_tuning samples _ _ _ _ _ hhigh s hs).2.2.2

/-- Witness for C14: the instrument that plays `kick` at the rate 22765 is accepted,
with a `calc_tuning` that gives the bit pattern `0x3E7319DF` for its mid pair. -/
theorem read_instrs_info_mid_tuning_patch_witness :
    ∃ r, resolve_instr ex_tuning_patched [ex_env] [ex_kick] ex_instr_patched = .ok r ∧
      (f2i (ex_tuning_patched r.mid.sample_rate r.mid.base_note) = 0x3E7319DF →
        f2i r.mid.tuning = 0x3E7319E3) ∧
      (f2i (ex_tuning_patched r.mid.sample_rate r.mid.base_note) ≠ 0x3E7319DF →
        r.mid.tuning = ex_tuning_patched r.mid.sample_rate r.mid.base_note) ∧
      f2i r.mid.tuning ≠ 0x3E7319DF ∧
      (∀ s, r.low = some s → s.tuning = ex_tuning_patched s.sample_rate s.base_note) ∧
      (∀ s, r.high = some s → s.tuning = ex_tuning_patched s.sample_rate s.base_note) :=
  read_instrs_info_mid_tuning_patch ex_tuning_patched [ex_env] [ex_kick] [ex_instr_patched]
    ex_instr_patched ⟨_, rfl⟩ (List.mem_singleton.mpr rfl) rfl rfl

/-! ## C11: the child sample nodes of an instrument -/

theorem slot_count_cons_skip (slot : String) (c : xml_instr_sample)
    (rest : List xml_instr_sample) (hel : c.is_element = false) :
    slot_count slot (c :: rest) = slot_count slot rest := by
  unfold slot_count
  rw [List.countP_cons]
  simp [hel]

theorem slot_count_cons (slot k v : String) (c : xml_instr_sample)
    (rest : List xml_instr_sample) (hel : c.is_element = true) (hattrs : c.attrs = [(k, v)]) :
    slot_count slot (c :: rest) = slot_count slot rest + (if k = slot then 1 else 0) := by
  unfold slot_count
  rw [List.countP_cons]
  simp [hel, hattrs]

theorem read_instr_sample_nodes_skip (lo hi : Int) (st : seen_state) (c : xml_instr_sample)
    (rest : List xml_instr_sample) (hel : c.is_element = false) :
    read_instr_sample_nodes lo hi st (c :: rest) = read_instr_sample_nodes lo hi st rest := by
  simp [read_instr_sample_nodes, read_instr_sample_node, hel]

theorem read_instr_sample_nodes_low (lo hi : Int) (st : seen_state) (c : xml_instr_sample)
    (rest : List xml_instr_sample) (v : String) (hel : c.is_element = true)
    (hname : c.name = "Sample") (hattrs : c.attrs = [("Low", v)]) :
    read_instr_sample_nodes lo hi st (c :: rest) =
      if lo = INSTR_LO_NONE then .error "Useless Low sample specified (RangeLo is 0)"
      else if st.seen_low = true then .error "Duplicate sample specifier in instrument sample"
      else read_instr_sample_nodes lo hi
        { st with seen_low := true, sample_name_low := some v } rest := by
  simp only [read_instr_sample_nodes, read_instr_sample_node, hel, hname, hattrs]
  by_cases h1 : lo = INSTR_LO_NONE
  · simp [h1]
  · by_cases h2 : st.seen_low = true
    · simp [h1, h2]
    · simp [h1, h2]

theorem read_instr_sample_nodes_mid (lo hi : Int) (st : seen_state) (c : xml_instr_sample)
    (rest : List xml_instr_sample) (v : String) (hel : c.is_element = true)
    (hname : c.name = "Sample") (hattrs : c.attrs = [("Mid", v)]) :
    read_instr_sample_nodes lo hi st (c :: rest) =
      if st.seen_mid = true then .error "Duplicate sample specifier in instrument sample"
      else read_instr_sample_nodes lo hi
        { st with seen_mid := true, sample_name_mid := some v } rest := by
  simp only [read_instr_sample_nodes, read_instr_sample_node, hel, hname, hattrs]
  by_cases h2 : st.seen_mid = true
  · simp [h2]
  · simp [h2]

theorem read_instr_sample_nodes_high (lo hi : Int) (st : seen_state) (c : xml_instr_sample)
    (rest : List xml_instr_sample) (v : String) (hel : c.is_element = true)
    (hname : c.name = "Sample") (hattrs : c.attrs = [("High", v)]) :
    read_instr_sample_nodes lo hi st (c :: rest) =
      if hi = INSTR_HI_NONE then .error "Useless High sample specified (RangeHi is 0)"
      else if st.seen_high = true then .error "Duplicate sample specifier in instrument sample"
      else read_instr_sample_nodes lo hi
        { st with seen_high := true, sample_name_high := some v } rest := by
  simp only [read_instr_sample_nodes, read_instr_sample_node, hel, hname, hattrs]
  by_cases h1 : hi = INSTR_HI_NONE
  · simp [h1]
  · by_cases h2 : st.seen_high = true
    · simp [h1, h2]
    · simp [h1, h2]

theorem read_instr_sample_nodes_spec (lo hi : Int) (samples : List sample_data) :
    ∀ (children : List xml_instr_sample) (st : seen_state),
      (∀ c ∈ children, sample_child_ok samples c) →
      ((∃ st', read_instr_sample_nodes lo hi st children = .ok st') ↔
        ((slot_count "Low" children = 0 ∨
            (slot_count "Low" children = 1 ∧ st.seen_low = false ∧ lo ≠ INSTR_LO_NONE)) ∧
         (slot_count "Mid" children = 0 ∨
            (slot_count "Mid" children = 1 ∧ st.seen_mid = false)) ∧
         (slot_count "High" children = 0 ∨
            (slot_count "High" children = 1 ∧ st.seen_high = false ∧ hi ≠ INSTR_HI_NONE)))) ∧
      (∀ st', read_instr_sample_nodes lo hi st children = .ok st' →
        st'.seen_low = (st.seen_low || decide (0 < slot_count "Low" children)) ∧
        st'.seen_mid = (st.seen_mid || decide (0 < slot_count "Mid" children)) ∧
        st'.seen_high = (st.seen_high || decide (0 < slot_count "High" children)) ∧
        (slot_count "Low" children = 0 → st'.sample_name_low = st.sample_name_low) ∧
        (slot_count "Mid" children = 0 → st'.sample_name_mid = st.sample_name_mid) ∧
        (slot_count "High" children = 0 → st'.sample_name_high = st.sample_name_high) ∧
        (0 < slot_count "Low" children →
          ∃ s, sample_data_forname samples st'.sample_name_low = some s) ∧
        (0 < slot_count "Mid" children →
          ∃ s, sample_data_forname samples st'.sample_name_mid = some s) ∧
        (0 < slot_count "High" children →
          ∃ s, sample_data_forname samples st'.sample_name_high = some s)) := by
  intro children
  induction children with
  | nil =>
    intro st _
    constructor
    · simp [read_instr_sample_nodes, slot_count]
    · intro st' h
      simp only [read_instr_sample_nodes] at h
      injection h with h
      subst h
      simp [slot_count]
  | cons c rest ih =>
    intro st hok
    have hrest : ∀ c ∈ rest, sample_child_ok samples c :=
      fun c hc => hok c (List.mem_cons_of_mem _ hc)
    by_cases hel : c.is_element = true
    · obtain ⟨hname, slot, v, hattrs, hslot, hpres⟩ := hok c (List.mem_cons_self _ _) hel
      have hcL := slot_count_cons "Low" slot v c rest hel hattrs
      have hcM := slot_count_cons "Mid" slot v c rest hel hattrs
      have hcH := slot_count_cons "High" slot v c rest hel hattrs
      rcases hslot with rfl | rfl | rfl
      · -- a Low child
        have hstep := read_instr_sample_nodes_low lo hi st c rest v hel hname hattrs
        simp only [if_true] at hcL
        rw [if_neg (by decide)] at hcM hcH
        rw [hstep, hcL, hcM, hcH]
        obtain ⟨ih1, ih2⟩ := ih { st with seen_low := true, sample_name_low := some v } hrest
        by_cases h1 : lo = INSTR_LO_NONE
        · rw [if_pos h1]
          constructor
          · constructor
            · rintro ⟨st', h⟩
              exact Except.noConfusion h
            · rintro ⟨hL, _, _⟩
              rcases hL with hL | ⟨_, _, hL⟩
              · omega
              · exact absurd h1 hL
          · intro st' h
            exact Except.noConfusion h
        · rw [if_neg h1]
          by_cases h2 : st.seen_low = true
          · rw [if_pos h2]
            constructor
            · constructor
              · rintro ⟨st', h⟩
                exact Except.noConfusion h
              · rintro ⟨hL, _, _⟩
                rcases hL with hL | ⟨_, hL, _⟩
                · omega
                · rw [h2] at hL
                  exact Bool.noConfusion hL
            · intro st' h
              exact Except.noConfusion h
          · rw [if_neg h2]
            have h2f : st.seen_low = false := by simpa using h2
            constructor
            · rw [ih1]
              constructor
              · rintro ⟨hL, hM, hH⟩
                refine ⟨Or.inr ⟨?_, h2f, h1⟩, hM, hH⟩
                rcases hL with hL | ⟨_, hL, _⟩
                · omega
                · exact Bool.noConfusion hL
              · rintro ⟨hL, hM, hH⟩
                refine ⟨Or.inl ?_, hM, hH⟩
                rcases hL with hL | ⟨hL, _, _⟩ <;> omega
            · intro st' h
              obtain ⟨e1, e2, e3, n1, n2, n3, p1, p2, p3⟩ := ih2 st' h
              refine ⟨?_, e2, e3, ?_, n2, n3, ?_, p2, p3⟩
              · rw [e1]; simp
              · intro h0; omega
              · intro _
                by_cases hz : slot_count "Low" rest = 0
                · rw [n1 hz]
                  exact hpres
                · exact p1 (by omega)
      · -- a Mid child
        have hstep := read_instr_sample_nodes_mid lo hi st c rest v hel hname hattrs
        simp only [if_true] at hcM
        rw [if_neg (by decide)] at hcL hcH
        rw [hstep, hcL, hcM, hcH]
        obtain ⟨ih1, ih2⟩ := ih { st with seen_mid := true, sample_name_mid := some v } hrest
        by_cases h2 : st.seen_mid = true
        · rw [if_pos h2]
          constructor
          · constructor
            · rintro ⟨st', h⟩
              exact Except.noConfusion h
            · rintro ⟨_, hM, _⟩
              rcases hM with hM | ⟨_, hM⟩
              · omega
              · rw [h2] at hM
                exact Bool.noConfusion hM
          · intro st' h
            exact Except.noConfusion h
        · rw [if_neg h2]
          have h2f : st.seen_mid = false := by simpa using h2
          constructor
          · rw [ih1]
            constructor
            · rintro ⟨hL, hM, hH⟩
              refine ⟨hL, Or.inr ⟨?_, h2f⟩, hH⟩
              rcases hM with hM | ⟨_, hM⟩
              · omega
              · exact Bool.noConfusion hM
            · rintro ⟨hL, hM, hH⟩
              refine ⟨hL, Or.inl ?_, hH⟩
              rcases hM with hM | ⟨hM, _⟩ <;> omega
          · intro st' h
            obtain ⟨e1, e2, e3, n1, n2, n3, p1, p2, p3⟩ := ih2 st' h
            refine ⟨e1, ?_, e3, n1, ?_, n3, p1, ?_, p3⟩
            · rw [e2]; simp
            · intro h0; omega
            · intro _
              by_cases hz : slot_count "Mid" rest = 0
              · rw [n2 hz]
                exact hpres
              · exact p2 (by omega)
      · -- a High child
        have hstep := read_instr_sample_nodes_high lo hi st c rest v hel hname hattrs
        simp only [if_true] at hcH
        rw [if_neg (by decide)] at hcL hcM
        rw [hstep, hcL, hcM, hcH]
        obtain ⟨ih1, ih2⟩ := ih { st with seen_high := true, sample_name_high := some v } hrest
        by_cases h1 : hi = INSTR_HI_NONE
        · rw [if_pos h1]
          constructor
          · constructor
            · rintro ⟨st', h⟩
              exact Except.noConfusion h
            · rintro ⟨_, _, hH⟩
              rcases hH with hH | ⟨_, _, hH⟩
              · omega
              · exact absurd h1 hH
          · intro st' h
            exact Except.noConfusion h
        · rw [if_neg h1]
          by_cases h2 : st.seen_high = true
          · rw [if_pos h2]
            constructor
            · constructor
              · rintro ⟨st', h⟩
                exact Except.noConfusion h
              · rintro ⟨_, _, hH⟩
                rcases hH with hH | ⟨_, hH, _⟩
                · omega
                · rw [h2] at hH
                  exact Bool.noConfusion hH
            · intro st' h
              exact Except.noConfusion h
          · rw [if_neg h2]
            have h2f : st.seen_high = false := by simpa using h2
            constructor
            · rw [ih1]
              constructor
              · rintro ⟨hL, hM, hH⟩
                refine ⟨hL, hM, Or.inr ⟨?_, h2f, h1⟩⟩
                rcases hH with hH | ⟨_, hH, _⟩
                · omega
                · exact Bool.noConfusion hH
              · rintro ⟨hL, hM, hH⟩
                refine ⟨hL, hM, Or.inl ?_⟩
                rcases hH with hH | ⟨hH, _, _⟩ <;> omega
            · intro st' h
              obtain ⟨e1, e2, e3, n1, n2, n3, p1, p2, p3⟩ := ih2 st' h
              refine ⟨e1, e2, ?_, n1, n2, ?_, p1, p2, ?_⟩
              · rw [e3]; simp
              · intro h0; omega
              · intro _
                by_cases hz : slot_count "High" rest = 0
                · rw [n3 hz]
                  exact hpres
                · exact p3 (by omega)
    · have helf : c.is_element = false := by simpa using hel
      rw [read_instr_sample_nodes_skip lo hi st c rest helf,
        slot_count_cons_skip "Low" c rest helf, slot_count_cons_skip "Mid" c rest helf,
        slot_count_cons_skip "High" c rest helf]
      exact ih st hrest

theorem resolve_opt_sample_ok (calc_tuning : Rat → Int → Nat) (samples : List sample_data)
    (name : Option String) (note : Int) (rate : Rat) (err : String) :
    (∃ slot, resolve_opt_sample calc_tuning samples name note rate err = .ok slot) ↔
      (name = none ∨ ∃ s, sample_data_forname samples name = some s) := by
  unfold resolve_opt_sample
  cases name with
  | none => simp
  | some n =>
    cases hf : sample_data_forname samples (some n) with
    | none => simp
    | some sm => simp

theorem resolve_instr_ok_iff (calc_tuning : Rat → Int → Nat) (envelopes : List envelope_data)
    (samples : List sample_data) (node : xml_instr)
    (henv : ∃ e, sf_get_envelope envelopes node.Envelope = some e)
    (hs : node.Sample = none) :
    (∃ r, resolve_instr calc_tuning envelopes samples node = .ok r) ↔
      ∃ st, read_instr_children (node.RangeLo.getD INSTR_LO_NONE)
          (node.RangeHi.getD INSTR_HI_NONE) node.SampleLo node.SampleHi node.children = .ok st ∧
        (st.sample_name_low = none ∨
          ∃ s, sample_data_forname samples st.sample_name_low = some s) ∧
        (∃ s, sample_data_forname samples st.sample_name_mid = some s) ∧
        (st.sample_name_high = none ∨
          ∃ s, sample_data_forname samples st.sample_name_high = some s) := by
  constructor
  · rintro ⟨r, hr⟩
    obtain ⟨_, _, _, hnames, hlow, ⟨sm, hsm, _⟩, hhigh⟩ :=
      resolve_instr_inv calc_tuning envelopes samples node r hr
    rw [if_pos hs] at hnames
    obtain ⟨st, hst, e1, e2, e3⟩ := hnames
    refine ⟨st, hst, ?_, ⟨sm, ?_⟩, ?_⟩
    · rw [← e1]
      exact (resolve_opt_sample_ok calc_tuning samples _ _ _ _).mp ⟨_, hlow⟩
    · rw [← e2]
      exact hsm
    · rw [← e3]
      exact (resolve_opt_sample_ok calc_tuning samples _ _ _ _).mp ⟨_, hhigh⟩
  · rintro ⟨st, hst, hlow, ⟨sm, hsm⟩, hhigh⟩
    obtain ⟨e, he⟩ := henv
    have hne : ¬ node.Envelope = none := by
      intro h
      rw [h] at he
      exact Option.noConfusion he
    obtain ⟨low, hlow⟩ := (resolve_opt_sample_ok calc_tuning samples st.sample_name_low
      (node.BaseNoteLo.getD NOTE_UNSET) (node.SampleRateLo.getD (-1))
      "Bad sample name for LOW sample").mpr hlow
    obtain ⟨high, hhigh⟩ := (resolve_opt_sample_ok calc_tuning samples st.sample_name_high
      (node.BaseNoteHi.getD NOTE_UNSET) (node.SampleRateHi.getD (-1))
      "Bad sample name for HIGH sample").mpr hhigh
    unfold resolve_instr
    rw [if_neg hne, he]
    simp only
    rw [if_pos hs, hst]
    simp only
    rw [hlow]
    simp only
    rw [hsm]
    simp only
    rw [hhigh]
    exact ⟨_, rfl⟩

/-- The children of an instrument without the attributes `Sample`, `SampleLo`, `SampleHi` are
accepted, with names that resolve, exactly in the following case. -/
theorem read_instr_children_ok_iff (lo hi : Int) (samples : List sample_data)
    (children : List xml_instr_sample) (hok : ∀ c ∈ children, sample_child_ok samples c) :
    (∃ st, read_instr_children lo hi none none children = .ok st ∧
        (st.sample_name_low = none ∨
          ∃ s, sample_data_forname samples st.sample_name_low = some s) ∧
        (∃ s, sample_data_forname samples st.sample_name_mid = some s) ∧
        (st.sample_name_high = none ∨
          ∃ s, sample_data_forname samples st.sample_name_high = some s)) ↔
      (¬ (lo = INSTR_LO_NONE ∧ hi = INSTR_HI_NONE) ∧
        slot_count "Mid" children = 1 ∧
        slot_count "Low" children = (if lo ≠ INSTR_LO_NONE then 1 else 0) ∧
        ((slot_count "High" children = 1 ∧ hi ≠ INSTR_HI_NONE) ∨
          (slot_count "High" children = 0 ∧ hi = 0))) := by
  obtain ⟨hiff, hstate⟩ := read_instr_sample_nodes_spec lo hi samples children
    ⟨false, false, false, none, none, none⟩ hok
  simp only [Bool.false_or] at hstate
  constructor
  · rintro ⟨st, hst, _, ⟨sm, hsm⟩, _⟩
    unfold read_instr_children at hst
    by_cases hboth : lo = INSTR_LO_NONE ∧ hi = INSTR_HI_NONE
    · rw [if_pos hboth] at hst
      exact Except.noConfusion hst
    · rw [if_neg hboth] at hst
      by_cases hempty : children.isEmpty = true
      · rw [if_pos hempty] at hst
        exact Except.noConfusion hst
      · rw [if_neg hempty] at hst
        cases hloop : read_instr_sample_nodes lo hi ⟨false, false, false, none, none, none⟩
            children with
        | error e =>
          rw [hloop] at hst
          exact Except.noConfusion hst
        | ok st1 =>
          rw [hloop] at hst
          simp only at hst
          obtain ⟨e1, e2, e3, n1, n2, n3, p1, p2, p3⟩ := hstate st1 hloop
          obtain ⟨hL, hM, hH⟩ := hiff.mp ⟨st1, hloop⟩
          by_cases c1 : (!st1.seen_mid) = true ∧ lo ≠ hi
          · rw [if_pos c1] at hst
            exact Except.noConfusion hst
          · rw [if_neg c1] at hst
            by_cases c2 : (!st1.seen_low) = true ∧ lo ≠ 0
            · rw [if_pos c2] at hst
              exact Except.noConfusion hst
            · rw [if_neg c2] at hst
              by_cases c3 : (!st1.seen_high) = true ∧ hi ≠ 0
              · rw [if_pos c3] at hst
                exact Except.noConfusion hst
              · rw [if_neg c3] at hst
                injection hst with hst
                subst hst
                have hMpos : 0 < slot_count "Mid" children := by
                  by_contra hz
                  have hz : slot_count "Mid" children = 0 := by omega
                  have hn := n2 hz
                  simp only at hn
                  rw [hn] at hsm
                  exact Option.noConfusion hsm
                rw [e1] at c2
                rw [e3] at c3
                simp only [Bool.not_eq_true', decide_eq_false_iff_not, not_and, not_not,
                  not_lt, Nat.le_zero, ne_eq] at c2 c3
                refine ⟨hboth, ?_, ?_, ?_⟩
                · rcases hM with hM | ⟨hM, _⟩ <;> omega
                · by_cases hlo : lo = INSTR_LO_NONE
                  · rw [if_neg (not_not.mpr hlo)]
                    rcases hL with hL | ⟨_, _, hL⟩
                    · exact hL
                    · exact absurd hlo hL
                  · rw [if_pos hlo]
                    rcases hL with hL | ⟨hL, _, _⟩
                    · exact absurd (c2 hL) hlo
                    · exact hL
                · rcases hH with hH | ⟨hH, _, hH2⟩
                  · exact Or.inr ⟨hH, c3 hH⟩
                  · exact Or.inl ⟨hH, hH2⟩
  · rintro ⟨hboth, hM, hL, hH⟩
    have hloopok : ∃ st1, read_instr_sample_nodes lo hi ⟨false, false, false, none, none, none⟩
        children = .ok st1 := by
      apply hiff.mpr
      refine ⟨?_, Or.inr ⟨hM, rfl⟩, ?_⟩
      · by_cases hlo : lo = INSTR_LO_NONE
        · rw [if_neg (not_not.mpr hlo)] at hL
          exact Or.inl hL
        · rw [if_pos hlo] at hL
          exact Or.inr ⟨hL, rfl, hlo⟩
      · rcases hH with ⟨hH, hH2⟩ | ⟨hH, _⟩
        · exact Or.inr ⟨hH, rfl, hH2⟩
        · exact Or.inl hH
    obtain ⟨st1, hloop⟩ := hloopok
    obtain ⟨e1, e2, e3, n1, n2, n3, p1, p2, p3⟩ := hstate st1 hloop
    have hempty : ¬ children.isEmpty = true := by
      intro h
      rw [List.isEmpty_iff] at h
      rw [h] at hM
      simp [slot_count] at hM
    have c1 : ¬ ((!st1.seen_mid) = true ∧ lo ≠ hi) := by
      rw [e2]
      simp [hM]
    have c2 : ¬ ((!st1.seen_low) = true ∧ lo ≠ 0) := by
      rw [e1]
      by_cases hlo : lo = INSTR_LO_NONE
      · intro h
        exact h.2 hlo
      · rw [if_pos hlo] at hL
        simp [hL]
    have c3 : ¬ ((!st1.seen_high) = true ∧ hi ≠ 0) := by
      rw [e3]
      rcases hH with ⟨hH, _⟩ | ⟨_, hH⟩
      · simp [hH]
      · intro h
        exact h.2 hH
    refine ⟨st1, ?_, ?_, p2 (by omega), ?_⟩
    · unfold read_instr_children
      rw [if_neg hboth, if_neg hempty, hloop]
      simp only
      rw [if_neg c1, if_neg c2, if_neg c3]
    · by_cases hz : slot_count "Low" children = 0
      · exact Or.inl (n1 hz)
      · exact Or.inr (p1 (by omega))
    · by_cases hz : slot_count "High" children = 0
      · exact Or.inl (n3 hz)
      · exact Or.inr (p3 (by omega))

/-- The check for a missing `High` child compares `sample_high_start` with 0, not with
`INSTR_HI_NONE`: an instrument with `RangeLo` set, `RangeHi` left unset and the children `Low`
and `Mid` is rejected. -/
theorem read_instrs_info_low_mid_rejected :
    read_instrs_info (resolve_in ex_tuning [ex_env] [ex_kick]) [ex_instr_low_mid]
      = .error "Unset-but-used High sample" := by
  rfl

/-- C11 (counterexample): the instrument
`<Instrument Name="I" Envelope="Env0"><Sample Mid="kick"/></Instrument>` supplies no direct
`Sample` attribute, leaves `RangeLo` and `RangeHi` at their unused defaults, and its children
supply exactly one `Mid`, no `Low` and no `High`, naming a sample of the bank; yet
`read_instrs_info` rejects it, with the error "epic fail". -/
theorem read_instrs_info_mid_child_rejected :
    ex_instr_mid_child.Sample = none ∧ ex_instr_mid_child.RangeLo = none ∧
    ex_instr_mid_child.RangeHi = none ∧
    slot_count "Mid" ex_instr_mid_child.children = 1 ∧
    slot_count "Low" ex_instr_mid_child.children = 0 ∧
    slot_count "High" ex_instr_mid_child.children = 0 ∧
    sample_data_forname [ex_kick] (some "kick") = some ex_kick ∧
    read_instrs_info (resolve_in ex_tuning [ex_env] [ex_kick]) [ex_instr_mid_child]
      = .error "epic fail" := by
  refine ⟨rfl, rfl, rfl, by decide, by decide, by decide, rfl, rfl⟩

/-- C11 (amended): let a named `<Instrument>` have no `Sample`, `SampleLo` or `SampleHi`
attribute, an envelope that resolves, and children that are non-element nodes or `<Sample>`
elements with exactly one attribute `Low`, `Mid` or `High` naming a sample of the bank. If
`RangeLo` and `RangeHi` are both at their unused defaults, `read_instrs_info` rejects it
whatever its children are. If its children supply a `High`, or `RangeHi` is neither 0 nor
its unused default 127, `read_instrs_info` accepts it if and only if the children supply
exactly one `Mid`, exactly one `Low` when `RangeLo` is not at its unused default and none
otherwise, and exactly one `High` when `RangeHi` is not at its unused default and none
otherwise. -/
theorem read_instrs_info_children_slots (calc_tuning : Rat → Int → Nat)
    (envelopes : List envelope_data) (samples : List sample_data) (node : xml_instr)
    (hel : node.is_element = true) (hname : node.name = "Instrument")
    (hprop : node.has_properties = true) (hnamed : node.Name ≠ none)
    (henv : ∃ e, sf_get_envelope envelopes node.Envelope = some e)
    (hs : node.Sample = none) (hslo : node.SampleLo = none) (hshi : node.SampleHi = none)
    (hch : ∀ c ∈ node.children, sample_child_ok samples c) :
    ((node.RangeLo.getD INSTR_LO_NONE = INSTR_LO_NONE ∧
        node.RangeHi.getD INSTR_HI_NONE = INSTR_HI_NONE) →
      ¬ ∃ sf, read_instrs_info (resolve_in calc_tuning envelopes samples) [node] = .ok sf) ∧
    ((0 < slot_count "High" node.children ∨
        (node.RangeHi.getD INSTR_HI_NONE ≠ 0 ∧
          node.RangeHi.getD INSTR_HI_NONE ≠ INSTR_HI_NONE)) →
      ((∃ sf, read_instrs_info (resolve_in calc_tuning envelopes samples) [node] = .ok sf) ↔
        (slot_count "Mid" node.children = 1 ∧
          slot_count "Low" node.children =
            (if node.RangeLo.getD INSTR_LO_NONE ≠ INSTR_LO_NONE then 1 else 0) ∧
          slot_count "High" node.children =
            (if node.RangeHi.getD INSTR_HI_NONE ≠ INSTR_HI_NONE then 1 else 0)))) := by
  have hres := resolve_instr_ok_iff calc_tuning envelopes samples node henv hs
  rw [hslo, hshi] at hres
  have hacc := (read_instrs_info_single calc_tuning envelopes samples node hel hname hprop
    hnamed).trans (hres.trans (read_instr_children_ok_iff (node.RangeLo.getD INSTR_LO_NONE)
      (node.RangeHi.getD INSTR_HI_NONE) samples node.children hch))
  constructor
  · intro hboth hok
    exact (hacc.mp hok).1 hboth
  · intro hcond
    rw [hacc]
    constructor
    · rintro ⟨_, hM, hL, hH⟩
      refine ⟨hM, hL, ?_⟩
      rcases hH with ⟨hH, hH2⟩ | ⟨hH, hH2⟩
      · rw [if_pos hH2]
        exact hH
      · exfalso
        rcases hcond with hc | ⟨hc, _⟩
        · omega
        · exact hc hH2
    · rintro ⟨hM, hL, hH⟩
      by_cases hhi : node.RangeHi.getD INSTR_HI_NONE = INSTR_HI_NONE
      · exfalso
        rw [if_neg (not_not.mpr hhi)] at hH
        rcases hcond with hc | ⟨_, hc⟩
        · omega
        · exact hc hhi
      · rw [if_pos hhi] at hH
        exact ⟨fun hb => hhi hb.2, hM, hL, Or.inl ⟨hH, hhi⟩⟩

/-- Witness for C11 (amended): the instrument with `RangeHi = 62` and children `Mid` and
`High`. -/
theorem read_instrs_info_children_slots_witness :
    (∃ sf, read_instrs_info (resolve_in ex_tuning [ex_env] [ex_kick]) [ex_instr_mid_high]
        = .ok sf) ↔
      (slot_count "Mid" ex_instr_mid_high.children = 1 ∧
        slot_count "Low" ex_instr_mid_high.children =
          (if ex_instr_mid_high.RangeLo.getD INSTR_LO_NONE ≠ INSTR_LO_NONE then 1 else 0) ∧
        slot_count "High" ex_instr_mid_high.children =
          (if ex_instr_mid_high.RangeHi.getD INSTR_HI_NONE ≠ INSTR_HI_NONE then 1 else 0)) :=
  (read_instrs_info_children_slots ex_tuning [ex_env] [ex_kick] ex_instr_mid_high rfl rfl rfl
    (by decide) ⟨ex_env, rfl⟩ rfl rfl rfl
    (by
      intro c hc
      have hc2 : c = ⟨true, "Sample", [("Mid", "kick")]⟩ ∨
          c = ⟨true, "Sample", [("High", "kick")]⟩ := by
        simpa [ex_instr_mid_high] using hc
      rcases hc2 with rfl | rfl
      · exact fun _ => ⟨rfl, "Mid", "kick", rfl, Or.inr (Or.inl rfl), ex_kick, rfl⟩
      · exact fun _ => ⟨rfl, "High", "kick", rfl, Or.inr (Or.inr rfl), ex_kick, rfl⟩)).2
    (Or.inr ⟨by decide, by decide⟩)

/-! ## C15: the frame count of a loop -/

theorem codec_frame_size_pos (ct : Nat) : 0 < codec_frame_size ct := by
  unfold codec_frame_size
  split_ifs <;> omega

/-- C15: for every sample whose byte size times 16 fits a `size_t`, the frame count used by
`emit_c_samples` is `ssnd_size * 16 / fs` rounded down and reduced to 32 bits, where
`fs = codec_frame_size compression_type` is 9 for `ADP9`, 5 for `ADP5` and 16 for every other
compression type. It is the number written as the end of the loop header of a sample without
loop, and as the frame count of a loop with state when the bank includes frame counts. It
depends only on the byte size and the codec (two waveforms that agree on these have the same
frame count, and changing the stored `num_frames` changes nothing that is written), and for
every codec other than `ADP9` and `ADP5` it is `ssnd_size` reduced to 32 bits, that is,
`ssnd_size` itself when that is below `2 ^ 32`. -/
theorem frame_count_spec (aifc : aifc_data) (hsize : aifc.ssnd_size * 16 < 2 ^ 64) :
    frame_count aifc
      = (aifc.ssnd_size * 16 / codec_frame_size aifc.compression_type) % 2 ^ 32 ∧
    (codec_frame_size (CC4 'A' 'D' 'P' '9') = 9 ∧ codec_frame_size (CC4 'A' 'D' 'P' '5') = 5 ∧
      ∀ ct, ct ≠ CC4 'A' 'D' 'P' '9' → ct ≠ CC4 'A' 'D' 'P' '5' → codec_frame_size ct = 16) ∧
    (∀ loops_have_frames, aifc.has_loop = false →
      (emit_c_loop loops_have_frames aifc).1 = ⟨0, frame_count aifc, 0, 0, false⟩) ∧
    (aifc.has_loop = true → aifc.loop_count ≠ 0 →
      (emit_c_loop true aifc).1.num_frames = frame_count aifc) ∧
    (∀ other : aifc_data, other.ssnd_size = aifc.ssnd_size →
      other.compression_type = aifc.compression_type → frame_count other = frame_count aifc) ∧
    (∀ loops_have_frames n,
      emit_c_loop loops_have_frames { aifc with num_frames := n }
        = emit_c_loop loops_have_frames aifc) ∧
    (aifc.compression_type ≠ CC4 'A' 'D' 'P' '9' → aifc.compression_type ≠ CC4 'A' 'D' 'P' '5' →
      frame_count aifc = aifc.ssnd_size % 2 ^ 32 ∧
      (aifc.ssnd_size < 2 ^ 32 → frame_count aifc = aifc.ssnd_size)) := by
  have h16 : ∀ ct, ct ≠ CC4 'A' 'D' 'P' '9' → ct ≠ CC4 'A' 'D' 'P' '5' →
      codec_frame_size ct = 16 := by
    intro ct h9 h5
    unfold codec_frame_size
    rw [if_neg h9, if_neg h5]
  refine ⟨?_, ⟨by decide, by decide, h16⟩, ?_, ?_, ?_, ?_, ?_⟩
  · unfold frame_count
    rw [Nat.mod_eq_of_lt hsize]
  · intro lhf hl
    simp [emit_c_loop, hl]
  · intro hl hc
    simp [emit_c_loop, hl, hc]
  · intro other h1 h2
    unfold frame_count
    rw [h1, h2]
  · intro lhf n
    rfl
  · intro h9 h5
    have hfc : frame_count aifc = aifc.ssnd_size % 2 ^ 32 := by
      unfold frame_count
      rw [h16 _ h9 h5, Nat.mod_eq_of_lt hsize, Nat.mul_div_cancel _ (by norm_num)]
    exact ⟨hfc, fun hlt => by rw [hfc, Nat.mod_eq_of_lt hlt]⟩

/-- Witness for C15: an `ADP9` waveform of `0x900` bytes has 4096 frames, whatever frame
count is stored in it. -/
theorem frame_count_spec_witness :
    ex_aifc_frames.num_frames = 4097 ∧ frame_count ex_aifc_frames = 4096 ∧
    frame_count ex_aifc_frames
      = (ex_aifc_frames.ssnd_size * 16 / codec_frame_size ex_aifc_frames.compression_type)
          % 2 ^ 32 :=
  ⟨rfl, by decide, (frame_count_spec ex_aifc_frames (by decide)).1⟩

/-! ## C16, C17: trailing padding -/

theorem emit_c_match_padding_some (bytes : List Nat) (pad_to_size s : Nat)
    (hn : 1 ≤ bytes.length) :
    (emit_c_match_padding (some bytes) pad_to_size s).literal
      = some (bytes.take (min bytes.length (ALIGN16 s - s))) ∧
    (emit_c_match_padding (some bytes) pad_to_size s).size
      = s + min bytes.length (ALIGN16 s - s) := by
  have hne : bytes.length ≠ 0 := by omega
  have hamount : (if bytes.length > ALIGN16 s - s then ALIGN16 s - s else bytes.length)
      = min bytes.length (ALIGN16 s - s) := by
    by_cases h : bytes.length > ALIGN16 s - s
    · rw [if_pos h]; omega
    · rw [if_neg h]; omega
  unfold emit_c_match_padding
  simp only [if_pos hne, hamount]
  by_cases hp : pad_to_size ≠ 0
  · rw [if_pos hp]
    by_cases hq : pad_to_size ≤ s + min bytes.length (ALIGN16 s - s)
    · rw [if_pos hq]
      exact ⟨rfl, rfl⟩
    · rw [if_neg hq]
      exact ⟨rfl, rfl⟩
  · rw [if_neg hp]
    exact ⟨rfl, rfl⟩

/-- C16: for every running size `s` and every literal sequence of `n ≥ 1` match-padding
bytes, `emit_c_match_padding` writes the array of literal bytes with exactly
`min n (ALIGN16 s - s)` bytes, the first bytes of the sequence in order; the size after the
literal padding is `s` plus that number and never exceeds `ALIGN16 s`; and when `s` is a
multiple of 16 no literal byte is written and the size stays `s`. -/
theorem emit_c_match_padding_literal (bytes : List Nat) (pad_to_size s : Nat)
    (hn : 1 ≤ bytes.length) :
    (∃ l, (emit_c_match_padding (some bytes) pad_to_size s).literal = some l ∧
      l.length = min bytes.length (ALIGN16 s - s) ∧
      (∀ i, i < l.length → l[i]? = bytes[i]?) ∧
      (emit_c_match_padding (some bytes) pad_to_size s).size = s + l.length) ∧
    (emit_c_match_padding (some bytes) pad_to_size s).size ≤ ALIGN16 s ∧
    (s % 16 = 0 →
      (emit_c_match_padding (some bytes) pad_to_size s).literal = some [] ∧
      (emit_c_match_padding (some bytes) pad_to_size s).size = s) := by
  obtain ⟨hlit, hsz⟩ := emit_c_match_padding_some bytes pad_to_size s hn
  have hge := ALIGN16_ge s
  have hlen : (bytes.take (min bytes.length (ALIGN16 s - s))).length
      = min bytes.length (ALIGN16 s - s) := by
    rw [List.length_take]
    omega
  refine ⟨⟨_, hlit, hlen, ?_, ?_⟩, ?_, ?_⟩
  · intro i hi
    rw [hlen] at hi
    rw [List.getElem?_take]
    rw [if_pos hi]
  · rw [hsz, hlen]
  · rw [hsz]
    omega
  · intro hs
    have hal : ALIGN16 s = s := by
      unfold ALIGN16
      omega
    rw [hlit, hsz, hal]
    simp

/-- Witness for C16: three literal bytes at the running size 0x1E, two bytes before the
boundary. Two bytes are written. -/
theorem emit_c_match_padding_literal_witness :
    (∃ l, (emit_c_match_padding (some [0xAA, 0xBB, 0xCC]) 0 0x1E).literal = some l ∧
      l.length = min [0xAA, 0xBB, 0xCC].length (ALIGN16 0x1E - 0x1E) ∧
      (∀ i, i < l.length → l[i]? = [0xAA, 0xBB, 0xCC][i]?) ∧
      (emit_c_match_padding (some [0xAA, 0xBB, 0xCC]) 0 0x1E).size = 0x1E + l.length) ∧
    (emit_c_match_padding (some [0xAA, 0xBB, 0xCC]) 0 0x1E).literal = some [0xAA, 0xBB] :=
  ⟨(emit_c_match_padding_literal [0xAA, 0xBB, 0xCC] 0 0x1E (by decide)).1, by decide⟩

/-- C17: let `s'` be the size after any literal match padding (`s` plus the number of literal
bytes written; it does not depend on `pad_to_size`). If `pad_to_size` is non-zero and greater
than `s'`, `emit_c_match_padding` writes one zero-filled block of exactly `pad_to_size - s'`
bytes, and `s'` plus the block is `pad_to_size`; if `pad_to_size` is non-zero and at most
`s'`, it writes no block, only the warning; if `pad_to_size` is 0 it writes neither. -/
theorem emit_c_match_padding_to_size (match_padding : Option (List Nat))
    (pad_to_size s : Nat) :
    (emit_c_match_padding match_padding pad_to_size s).size
      = s + ((emit_c_match_padding match_padding pad_to_size s).literal.map List.length).getD 0 ∧
    (emit_c_match_padding match_padding pad_to_size s).size
      = (emit_c_match_padding match_padding 0 s).size ∧
    (pad_to_size ≠ 0 → (emit_c_match_padding match_padding pad_to_size s).size < pad_to_size →
      (emit_c_match_padding match_padding pad_to_size s).to_size
        = some (pad_to_size - (emit_c_match_padding match_padding pad_to_size s).size) ∧
      (emit_c_match_padding match_padding pad_to_size s).warning = false ∧
      (emit_c_match_padding match_padding pad_to_size s).size
        + (pad_to_size - (emit_c_match_padding match_padding pad_to_size s).size)
        = pad_to_size) ∧
    (pad_to_size ≠ 0 → pad_to_size ≤ (emit_c_match_padding match_padding pad_to_size s).size →
      (emit_c_match_padding match_padding pad_to_size s).to_size = none ∧
      (emit_c_match_padding match_padding pad_to_size s).warning = true) ∧
    (pad_to_size = 0 →
      (emit_c_match_padding match_padding pad_to_size s).to_size = none ∧
      (emit_c_match_padding match_padding pad_to_size s).warning = false) := by
  unfold emit_c_match_padding
  generalize hlit : (match match_padding with
    | none => ((none : Option (List Nat)), s)
    | some bytes =>
      if bytes.length ≠ 0 then
        (some (bytes.take (if bytes.length > ALIGN16 s - s then ALIGN16 s - s
          else bytes.length)), s + (if bytes.length > ALIGN16 s - s then ALIGN16 s - s
          else bytes.length))
      else (none, s)) = lit
  have hsz : lit.2 = s + (lit.1.map List.length).getD 0 := by
    subst hlit
    cases match_padding with
    | none => simp
    | some bytes =>
      by_cases hne : bytes.length ≠ 0
      · simp only [if_pos hne]
        by_cases h : bytes.length > ALIGN16 s - s
        · simp only [if_pos h, Option.map_some', Option.getD_some, List.length_take]
          omega
        · simp only [if_neg h, Option.map_some', Option.getD_some, List.length_take]
          omega
      · simp only [if_neg hne]
        simp
  by_cases hp : pad_to_size ≠ 0
  · simp only [if_pos hp, ne_eq, not_true_eq_false, if_false]
    by_cases hq : pad_to_size ≤ lit.2
    · simp only [if_pos hq]
      refine ⟨hsz, trivial, ?_, ?_, ?_⟩
      · intro _ hlt
        omega
      · intro _ _
        refine ⟨?_, ?_⟩ <;> first | rfl | trivial
      · intro h0
        exact absurd h0 hp
    · simp only [if_neg hq]
      refine ⟨hsz, trivial, ?_, ?_, ?_⟩
      · intro _ hlt
        refine ⟨?_, ?_, ?_⟩ <;> first | rfl | trivial | omega
      · intro _ hle
        exact absurd hle hq
      · intro h0
        exact absurd h0 hp
  · simp only [if_neg hp, ne_eq, not_true_eq_false, if_false]
    refine ⟨hsz, trivial, ?_, ?_, ?_⟩
    · intro h
      exact absurd h hp
    · intro h
      exact absurd h hp
    · intro _
      refine ⟨?_, ?_⟩ <;> first | rfl | trivial

/-- Witness for C17: a bank of 0x1E bytes with three literal bytes, padded to 0x40 bytes: two
literal bytes and a block of 0x20 zero bytes are written. -/
theorem emit_c_match_padding_to_size_witness :
    (emit_c_match_padding (some [0xAA, 0xBB, 0xCC]) 0x40 0x1E).to_size
        = some (0x40 - (emit_c_match_padding (some [0xAA, 0xBB, 0xCC]) 0x40 0x1E).size) ∧
      (emit_c_match_padding (some [0xAA, 0xBB, 0xCC]) 0x40 0x1E).warning = false ∧
      (emit_c_match_padding (some [0xAA, 0xBB, 0xCC]) 0x40 0x1E).size
        + (0x40 - (emit_c_match_padding (some [0xAA, 0xBB, 0xCC]) 0x40 0x1E).size)
        = 0x40 :=
  (emit_c_match_padding_to_size (some [0xAA, 0xBB, 0xCC]) 0x40 0x1E).2.2.1 (by decide)
    (by decide)

/-! ## C18: reading the match padding -/

theorem char_at_of_le (data_str : List Char) (i : Nat) (h : data_str.length ≤ i) :
    char_at data_str i = Char.ofNat 0 := by
  unfold char_at
  rw [List.getD_eq_getElem?_getD, List.getElem?_eq_none h]
  rfl

/-- The loop of `read_match_padding` terminates within the fuel it is given: every iteration
advances `i`, and no iteration starts beyond the terminating NUL. -/
theorem read_match_padding_loop_fuel (data_str : List Char) (bound : Nat) :
    ∀ (fuel i : Nat) (must_be_delimiter : Bool) (padding : List Nat),
      i ≤ data_str.length → data_str.length + 1 ≤ fuel + i →
      read_match_padding_loop data_str bound fuel i must_be_delimiter padding
        ≠ .error loop_error := by
  intro fuel
  induction fuel with
  | zero =>
    intro i mbd padding h1 h2
    omega
  | succ fuel ih =>
    intro i must_be_delimiter padding h1 h2
    unfold read_match_padding_loop
    by_cases c1 : ¬ i < bound
    · rw [if_pos c1]
      intro h
      exact Except.noConfusion h
    · rw [if_neg c1]
      by_cases c2 : (isspace (char_at data_str i)
          || decide (char_at data_str i = Char.ofNat 44)) = true
      · rw [if_pos c2]
        apply ih
        · by_contra hlt
          have hnul := char_at_of_le data_str i (by omega)
          rw [hnul] at c2
          revert c2
          decide
        · omega
      · rw [if_neg c2]
        by_cases c3 : must_be_delimiter = true
        · rw [if_pos c3]
          intro h
          injection h with h
          revert h
          decide
        · rw [if_neg c3]
          by_cases c4 : char_at data_str (i + 0) ≠ '0' ∨ char_at data_str (i + 1) ≠ 'x'
          · rw [if_pos c4]
            intro h
            injection h with h
            revert h
            decide
          · rw [if_neg c4]
            simp only []
            by_cases c5 : (!is_hex (toupper (char_at data_str (i + 2)))
                || !is_hex (toupper (char_at data_str (i + 3)))) = true
            · rw [if_pos c5]
              intro h
              injection h with h
              revert h
              decide
            · rw [if_neg c5]
              have hlt : i + 3 < data_str.length := by
                by_contra hlt
                have hnul := char_at_of_le data_str (i + 3) (by omega)
                rw [hnul] at c5
                apply c5
                have : is_hex (toupper (Char.ofNat 0)) = false := by decide
                rw [this]
                simp
              split
              · apply ih
                · omega
                · omega
              · intro h
                injection h with h
                revert h
                decide

theorem read_match_padding_total (padding_decl : xml_padding) :
    read_match_padding padding_decl ≠ .error loop_error := by
  unfold read_match_padding
  by_cases c1 : padding_decl.has_properties = true
  · rw [if_pos c1]
    intro h
    injection h with h
    revert h
    decide
  · rw [if_neg c1]
    cases hc : padding_decl.children with
    | nil =>
      intro h
      injection h with h
      revert h
      decide
    | cons c rest =>
      cases c with
      | none =>
        intro h
        injection h with h
        revert h
        decide
      | some data_str =>
        simp only
        by_cases c2 : (!rest.isEmpty) = true
        · rw [if_pos c2]
          intro h
          injection h with h
          revert h
          decide
        · rw [if_neg c2]
          exact read_match_padding_loop_fuel data_str _ _ 0 false [] (Nat.zero_le _)
            (le_refl _)

/-- C18 (code bug): the loop of `read_match_padding` runs while `i < data_len - 4`, so a token
that ends the text is never read. Every text of exactly four characters, such as `0xAB`,
yields no byte at all; `0xAB, 0xCD` yields the single byte `0xAB`; only with at least one
character after the last token (here a line break) are all bytes read. The loop always
terminates within its fuel. -/
theorem read_match_padding_drops_last :
    (∀ data_str : List Char, data_str.length = 4 →
      read_match_padding ⟨false, [some data_str]⟩ = .ok []) ∧
    read_match_padding ex_padding_one = .ok [] ∧
    read_match_padding ex_padding_two = .ok [0xAB] ∧
    read_match_padding ex_padding_two_newline = .ok [0xAB, 0xCD] ∧
    (∀ padding_decl, read_match_padding padding_decl ≠ .error loop_error) := by
  refine ⟨?_, by rfl, by rfl, by rfl, read_match_padding_total⟩
  intro data_str hlen
  simp [read_match_padding, hlen, to_size_t, read_match_padding_loop]

/-! ## C19: the definitions stream -/

theorem main_emit_c_inv {R T : Type} (calc_tuning : R → Int → T) (sf : soundfont R T)
    (stream : List (c_section T)) (size : Nat)
    (h : main_emit_c calc_tuning sf = .ok (stream, size)) :
    ∃ hd n1 ds n2 es n3 is n4 d,
      emit_c_header sf.instrs (!sf.drums.isEmpty) (!sf.sfx.isEmpty) = .ok (hd, n1) ∧
      emit_c_samples sf.samples = .ok (ds, n2) ∧
      emit_c_envelopes sf.envelopes = .ok (es, n3) ∧
      emit_c_instruments sf.instrs = .ok (is, n4) ∧
      emit_c_drums calc_tuning sf.drums = .ok d ∧
      size = n1 + n2 + n3 + n4 + d.size + (emit_c_effects sf.sfx).2 ∧
      stream = [.header hd, .samples ds, .envelopes es, .instruments is, .drums d,
        .effects (emit_c_effects sf.sfx).1,
        .match_padding (emit_c_match_padding sf.match_padding sf.pad_to_size size)] := by
  unfold main_emit_c at h
  cases h1 : emit_c_header sf.instrs (!sf.drums.isEmpty) (!sf.sfx.isEmpty) with
  | error e => simp [h1] at h
  | ok r1 =>
    obtain ⟨hd, n1⟩ := r1
    simp only [h1] at h
    cases h2 : emit_c_samples sf.samples with
    | error e => simp [h2] at h
    | ok r2 =>
      obtain ⟨ds, n2⟩ := r2
      simp only [h2] at h
      cases h3 : emit_c_envelopes sf.envelopes with
      | error e => simp [h3] at h
      | ok r3 =>
        obtain ⟨es, n3⟩ := r3
        simp only [h3] at h
        cases h4 : emit_c_instruments sf.instrs with
        | error e => simp [h4] at h
        | ok r4 =>
          obtain ⟨is, n4⟩ := r4
          simp only [h4] at h
          cases h5 : emit_c_drums calc_tuning sf.drums with
          | error e => simp [h5] at h
          | ok d =>
            simp only [h5] at h
            injection h with h
            injection h with hs hz
            refine ⟨hd, n1, ds, n2, es, n3, is, n4, d, rfl, rfl, rfl, rfl, rfl, ?_, ?_⟩
            · rw [← hz]
              omega
            · rw [← hs, ← hz]

/-- C19: for every bank on which emission succeeds, the definitions stream written by `main`
consists of seven blocks in the fixed order header, samples, envelopes, instruments, drums,
effects, trailing match padding, each holding what its emitter wrote, and the size handed to
`emit_c_match_padding` is exactly the sum of the sizes returned by `emit_c_header`,
`emit_c_samples`, `emit_c_envelopes`, `emit_c_instruments`, `emit_c_drums` and
`emit_c_effects`. The header contributes at least 16 bytes, and each of the other five
emitters writes nothing and returns 0 when its collection is empty. -/
theorem main_emit_c_stream {R T : Type} (calc_tuning : R → Int → T) (sf : soundfont R T)
    (stream : List (c_section T)) (size : Nat)
    (h : main_emit_c calc_tuning sf = .ok (stream, size)) :
    stream.map c_section.emitter
      = ["emit_c_header", "emit_c_samples", "emit_c_envelopes", "emit_c_instruments",
         "emit_c_drums", "emit_c_effects", "emit_c_match_padding"] ∧
    (∃ hd n1 ds n2 es n3 is n4 d,
      emit_c_header sf.instrs (!sf.drums.isEmpty) (!sf.sfx.isEmpty) = .ok (hd, n1) ∧
      emit_c_samples sf.samples = .ok (ds, n2) ∧
      emit_c_envelopes sf.envelopes = .ok (es, n3) ∧
      emit_c_instruments sf.instrs = .ok (is, n4) ∧
      emit_c_drums calc_tuning sf.drums = .ok d ∧
      size = n1 + n2 + n3 + n4 + d.size + (emit_c_effects sf.sfx).2 ∧
      16 ≤ n1 ∧
      stream = [.header hd, .samples ds, .envelopes es, .instruments is, .drums d,
        .effects (emit_c_effects sf.sfx).1,
        .match_padding (emit_c_match_padding sf.match_padding sf.pad_to_size size)]) ∧
    (∃ sizes, main_emit calc_tuning sf = .ok sizes ∧ size = sizes.total) ∧
    emit_c_samples [] = .ok ([], 0) ∧
    emit_c_envelopes [] = .ok ([], 0) ∧
    (∀ instrs : instr_state, instrs.instruments_struct_last = none →
      emit_c_instruments instrs = .ok ([], 0)) ∧
    emit_c_instruments instr_state.init = .ok ([], 0) ∧
    (∃ d : drums_out T, emit_c_drums calc_tuning ([] : List (drum_data R)) = .ok d ∧
      d.decls = [] ∧ d.ptr_list = [] ∧ d.padding = [] ∧ d.size = 0) ∧
    emit_c_effects ([] : List (sfx_data T)) = ([], 0) := by
  obtain ⟨hd, n1, ds, n2, es, n3, is, n4, d, h1, h2, h3, h4, h5, hsize, hstream⟩ :=
    main_emit_c_inv calc_tuning sf stream size h
  have hn1 : 16 ≤ n1 := by
    unfold emit_c_header at h1
    simp only at h1
    revert h1
    generalize emit_padding_stmt _ = r
    intro h1
    cases r with
    | error e => exact Except.noConfusion h1
    | ok pad =>
      simp only at h1
      injection h1 with h1
      injection h1 with _ h1
      rw [← h1]
      unfold ALIGN16
      omega
  refine ⟨?_, ⟨hd, n1, ds, n2, es, n3, is, n4, d, h1, h2, h3, h4, h5, hsize, hn1, hstream⟩,
    ?_, rfl, rfl, ?_, rfl, ⟨_, rfl, rfl, rfl, rfl, rfl⟩, rfl⟩
  · rw [hstream]
    rfl
  · refine ⟨⟨n1, n2, n3, n4, d.size, (emit_c_effects sf.sfx).2⟩, ?_, ?_⟩
    · unfold main_emit
      rw [h1, h2, h3, h4, h5]
    · rw [hsize]
      rfl
  · intro instrs hnone
    unfold emit_c_instruments
    rw [hnone]
    cases instrs.n_alloc <;> rfl

/-- Witness for C19: the example bank with one sound effect; 232 bytes are handed to
`emit_c_match_padding`. -/
theorem main_emit_c_stream_witness :
    ∃ stream size, main_emit_c ex_calc_tuning (ex_bank 1) = .ok (stream, size) ∧ size = 232 ∧
      stream.map c_section.emitter
        = ["emit_c_header", "emit_c_samples", "emit_c_envelopes", "emit_c_instruments",
           "emit_c_drums", "emit_c_effects", "emit_c_match_padding"] :=
  ⟨_, _, rfl, rfl, (main_emit_c_stream ex_calc_tuning (ex_bank 1) _ _ rfl).1⟩

/-! ## C20: the order of the top-level blocks -/

theorem run_pass_append {σ : Type} (step : σ → xml_block → Except String σ) :
    ∀ (l1 l2 : List xml_block) (st : σ),
      (run_pass step st (l1 ++ l2)).toOption
        = (run_pass step st l1).toOption.bind (fun st1 => (run_pass step st1 l2).toOption) := by
  intro l1
  induction l1 with
  | nil =>
    intro l2 st
    rfl
  | cons x l1 ih =>
    intro l2 st
    simp only [List.cons_append, run_pass]
    cases hx : step st x with
    | error e => rfl
    | ok st1 => exact ih l2 st1

theorem block_compat_symm (x y : xml_block) (h : block_compat x y) : block_compat y x := by
  intro hxy
  rw [hxy]
  exact h hxy.symm

theorem run_pass_perm {σ : Type} (step : σ → xml_block → Except String σ)
    (hcomm : ∀ x y, block_compat x y → ∀ st,
      (run_pass step st [x, y]).toOption = (run_pass step st [y, x]).toOption) :
    ∀ l l' : List xml_block, l.Perm l' → l.Pairwise block_compat →
      ∀ st, (run_pass step st l).toOption = (run_pass step st l').toOption := by
  intro l l' hperm
  induction hperm with
  | nil =>
    intro _ st
    rfl
  | @cons x l1 l2 _ ih =>
    intro hpw st
    have h1 := run_pass_append step [x] l1 st
    have h2 := run_pass_append step [x] l2 st
    simp only [List.singleton_append] at h1 h2
    rw [h1, h2]
    congr 1
    funext st1
    exact ih (List.Pairwise.of_cons hpw) st1
  | swap x y l =>
    intro hpw st
    have h1 := run_pass_append step [y, x] l st
    have h2 := run_pass_append step [x, y] l st
    simp only [List.cons_append, List.nil_append] at h1 h2
    rw [h1, h2]
    have hyx : block_compat y x := by
      rw [List.pairwise_cons] at hpw
      exact hpw.1 x (List.mem_cons_self _ _)
    rw [hcomm y x hyx st]
  | trans h1 _ ih1 ih2 =>
    intro hpw st
    have hpw2 := (h1.pairwise_iff (fun {a b} hab => block_compat_symm a b hab)).mp hpw
    rw [ih1 hpw st, ih2 hpw2 st]

theorem read_envelopes_step_comm (x y : xml_block) (h : block_compat x y)
    (st : List envelope_data) :
    (run_pass read_envelopes_step st [x, y]).toOption
      = (run_pass read_envelopes_step st [y, x]).toOption := by
  cases x <;> cases y <;>
    first
    | rfl
    | exact absurd (h rfl) (by simp [xml_block.name, block_kinds])

theorem read_samples_step_comm (aifc_of : String → Option aifc_data) (x y : xml_block)
    (h : block_compat x y) (st : List sample_data) :
    (run_pass (read_samples_step aifc_of) st [x, y]).toOption
      = (run_pass (read_samples_step aifc_of) st [y, x]).toOption := by
  cases x <;> cases y <;>
    first
    | rfl
    | exact absurd (h rfl) (by simp [xml_block.name, block_kinds])

theorem read_padding_step_comm (x y : xml_block) (h : block_compat x y)
    (st : Option (List Nat)) :
    (run_pass read_padding_step st [x, y]).toOption
      = (run_pass read_padding_step st [y, x]).toOption := by
  cases x <;> cases y <;>
    first
    | rfl
    | exact absurd (h rfl) (by simp [xml_block.name, block_kinds])

theorem read_entities_step_comm (calc_tuning : Rat → Int → Nat)
    (envelopes : List envelope_data) (samples : List sample_data) (x y : xml_block)
    (h : block_compat x y) (st : entities) :
    (run_pass (read_entities_step calc_tuning envelopes samples) st [x, y]).toOption
      = (run_pass (read_entities_step calc_tuning envelopes samples) st [y, x]).toOption := by
  cases x <;> cases y <;>
    first
    | rfl
    | exact absurd (h rfl) (by simp [xml_block.name, block_kinds])
    | (rename_i c1 c2
       cases h1 : read_instrs_loop (resolve_in calc_tuning envelopes samples) st.instrs 0 c1 <;>
       cases h2 : read_drums_info envelopes samples st.drums c2 <;>
       simp [run_pass, read_entities_step, h1, h2, Except.toOption])
    | (rename_i c1 c2
       cases h1 : read_instrs_loop (resolve_in calc_tuning envelopes samples) st.instrs 0 c2 <;>
       cases h2 : read_drums_info envelopes samples st.drums c1 <;>
       simp [run_pass, read_entities_step, h1, h2, Except.toOption])
    | (rename_i c1 c2
       cases h1 : read_instrs_loop (resolve_in calc_tuning envelopes samples) st.instrs 0 c1 <;>
       cases h2 : read_sfx_info calc_tuning samples (st.sfx, st.num_effects) c2 <;>
       simp [run_pass, read_entities_step, h1, h2, Except.toOption])
    | (rename_i c1 c2
       cases h1 : read_instrs_loop (resolve_in calc_tuning envelopes samples) st.instrs 0 c2 <;>
       cases h2 : read_sfx_info calc_tuning samples (st.sfx, st.num_effects) c1 <;>
       simp [run_pass, read_entities_step, h1, h2, Except.toOption])
    | (rename_i c1 c2
       cases h1 : read_drums_info envelopes samples st.drums c1 <;>
       cases h2 : read_sfx_info calc_tuning samples (st.sfx, st.num_effects) c2 <;>
       simp [run_pass, read_entities_step, h1, h2, Except.toOption])
    | (rename_i c1 c2
       cases h1 : read_drums_info envelopes samples st.drums c2 <;>
       cases h2 : read_sfx_info calc_tuning samples (st.sfx, st.num_effects) c1 <;>
       simp [run_pass, read_entities_step, h1, h2, Except.toOption])

theorem main_read_toOption (calc_tuning : Rat → Int → Nat)
    (aifc_of : String → Option aifc_data) (pad_to_size : Nat) (blocks : List xml_block) :
    (main_read calc_tuning aifc_of pad_to_size blocks).toOption =
      (run_pass read_envelopes_step [] blocks).toOption.bind (fun envelopes =>
        (run_pass (read_samples_step aifc_of) [] blocks).toOption.bind (fun samples =>
          (run_pass (read_entities_step calc_tuning envelopes samples)
              ⟨instr_state.init, [], [], 0⟩ blocks).toOption.bind (fun sf =>
            (run_pass read_padding_step none blocks).toOption.bind (fun match_padding =>
              some { envelopes := envelopes, samples := samples, instrs := sf.instrs,
                     drums := sf.drums, sfx := sf.sfx, num_effects := sf.num_effects,
                     match_padding := match_padding, pad_to_size := pad_to_size })))) := by
  unfold main_read
  cases h1 : run_pass read_envelopes_step [] blocks with
  | error e => rfl
  | ok envelopes =>
    cases h2 : run_pass (read_samples_step aifc_of) [] blocks with
    | error e => rfl
    | ok samples =>
      cases h3 : run_pass (read_entities_step calc_tuning envelopes samples)
          ⟨instr_state.init, [], [], 0⟩ blocks with
      | error e =>
        simp only [Except.toOption, Option.bind, h3]
      | ok sf =>
        cases h4 : run_pass read_padding_step none blocks with
        | error e =>
          simp only [Except.toOption, Option.bind, h3, h4]
        | ok match_padding =>
          simp only [Except.toOption, Option.bind, h3, h4]

theorem main_read_inv (calc_tuning : Rat → Int → Nat)
    (aifc_of : String → Option aifc_data) (pad_to_size : Nat) (blocks : List xml_block)
    (sf : soundfont Rat Nat) (h : main_read calc_tuning aifc_of pad_to_size blocks = .ok sf) :
    run_pass read_envelopes_step [] blocks = .ok sf.envelopes ∧
    run_pass (read_samples_step aifc_of) [] blocks = .ok sf.samples ∧
    (∃ ent, run_pass (read_entities_step calc_tuning sf.envelopes sf.samples)
        ⟨instr_state.init, [], [], 0⟩ blocks = .ok ent ∧
      ent.instrs = sf.instrs ∧ ent.drums = sf.drums ∧ ent.sfx = sf.sfx ∧
      ent.num_effects = sf.num_effects) ∧
    run_pass read_padding_step none blocks = .ok sf.match_padding ∧
    sf.pad_to_size = pad_to_size := by
  unfold main_read at h
  cases h1 : run_pass read_envelopes_step [] blocks with
  | error e => rw [h1] at h; exact Except.noConfusion h
  | ok envelopes =>
    rw [h1] at h
    simp only at h
    cases h2 : run_pass (read_samples_step aifc_of) [] blocks with
    | error e => rw [h2] at h; exact Except.noConfusion h
    | ok samples =>
      rw [h2] at h
      simp only at h
      cases h3 : run_pass (read_entities_step calc_tuning envelopes samples)
          ⟨instr_state.init, [], [], 0⟩ blocks with
      | error e => rw [h3] at h; exact Except.noConfusion h
      | ok ent =>
        rw [h3] at h
        simp only at h
        cases h4 : run_pass read_padding_step none blocks with
        | error e => rw [h4] at h; exact Except.noConfusion h
        | ok match_padding =>
          rw [h4] at h
          simp only at h
          injection h with h
          subst h
          exact ⟨rfl, rfl, ⟨ent, h3, rfl, rfl, rfl, rfl⟩, rfl, rfl⟩

/-- C20: the bank built by the reading loops of `main` does not depend on the relative order
of the top-level blocks. For every document in which each kind of block (Envelopes, Samples,
Instruments, Drums, Effects, MatchPadding) occurs at most once, every permutation of the
children of the root is read with the same outcome: both orders fail, or both give the same
bank. Whenever a bank is built, its envelopes are the result of reading all Envelopes blocks,
its samples the result of reading all Samples blocks, and its instruments, drums and effects
were read against exactly these envelopes and samples, with the match padding read last. In
particular a document with its Instruments block before the Envelopes and Samples blocks is
read exactly like the document with the Instruments block after them. -/
theorem main_read_block_order (calc_tuning : Rat → Int → Nat)
    (aifc_of : String → Option aifc_data) (pad_to_size : Nat)
    (blocks blocks' : List xml_block) (hperm : blocks.Perm blocks')
    (honce : at_most_once blocks) :
    (main_read calc_tuning aifc_of pad_to_size blocks).toOption
      = (main_read calc_tuning aifc_of pad_to_size blocks').toOption ∧
    (∀ sf, main_read calc_tuning aifc_of pad_to_size blocks = .ok sf →
      run_pass read_envelopes_step [] blocks = .ok sf.envelopes ∧
      run_pass (read_samples_step aifc_of) [] blocks = .ok sf.samples ∧
      (∃ ent, run_pass (read_entities_step calc_tuning sf.envelopes sf.samples)
          ⟨instr_state.init, [], [], 0⟩ blocks = .ok ent ∧
        ent.instrs = sf.instrs ∧ ent.drums = sf.drums ∧ ent.sfx = sf.sfx ∧
        ent.num_effects = sf.num_effects) ∧
      run_pass read_padding_step none blocks = .ok sf.match_padding ∧
      sf.pad_to_size = pad_to_size) ∧
    (∀ instrs envelopes IsDD Cached samples,
      main_read calc_tuning aifc_of pad_to_size
          [.Instruments instrs, .Envelopes envelopes, .Samples IsDD Cached samples]
        = main_read calc_tuning aifc_of pad_to_size
          [.Envelopes envelopes, .Samples IsDD Cached samples, .Instruments instrs]) := by
  refine ⟨?_, fun sf h => main_read_inv calc_tuning aifc_of pad_to_size blocks sf h, ?_⟩
  · rw [main_read_toOption, main_read_toOption]
    rw [run_pass_perm read_envelopes_step read_envelopes_step_comm blocks blocks' hperm honce,
      run_pass_perm (read_samples_step aifc_of) (read_samples_step_comm aifc_of) blocks blocks'
        hperm honce,
      run_pass_perm read_padding_step read_padding_step_comm blocks blocks' hperm honce]
    congr 1
    funext envelopes
    congr 1
    funext samples
    rw [run_pass_perm (read_entities_step calc_tuning envelopes samples)
      (read_entities_step_comm calc_tuning envelopes samples) blocks blocks' hperm honce]
  · intro instrs envelopes IsDD Cached samples
    rfl

/-- Witness for C20: the document with the instruments first and the document with the
instruments last are both read, and give the same bank. -/
theorem main_read_block_order_witness :
    (main_read ex_tuning ex_aifc_of 0 ex_document).toOption.isSome = true ∧
    (main_read ex_tuning ex_aifc_of 0 ex_document).toOption
      = (main_read ex_tuning ex_aifc_of 0 ex_document_sorted).toOption :=
  ⟨by rfl,
   (main_read_block_order ex_tuning ex_aifc_of 0 ex_document ex_document_sorted
      (List.perm_append_singleton _ _).symm
      (by
        simp [at_most_once, ex_document, ex_document_rest, ex_block_instruments,
          ex_block_envelopes, ex_block_samples, block_compat, xml_block.name,
          block_kinds])).1⟩

/-! ## C21: the entity counts -/

theorem link_struct_frame (sf sf' : instr_state) (n : Nat) (h : link_struct sf n = some sf') :
    sf'.num_instruments = sf.num_instruments ∧ sf'.instruments = sf.instruments ∧
    sf'.n_alloc = sf.n_alloc ∧
    (∀ a, (sf'.heap a).unused = (sf.heap a).unused) ∧
    (∀ a, (sf'.heap a).name = (sf.heap a).name) := by
  unfold link_struct at h
  cases hs : sf.instruments_struct with
  | none =>
    rw [hs] at h
    simp only at h
    injection h with h
    subst h
    exact ⟨rfl, rfl, rfl, fun a => by simp, fun a => by simp⟩
  | some head =>
    rw [hs] at h
    simp only at h
    by_cases hge : (sf.heap n).struct_index ≥ (sf.heap head).struct_index
    · rw [if_pos hge] at h
      injection h with h
      subst h
      exact ⟨rfl, rfl, rfl, fun a => by simp, fun a => by simp⟩
    · rw [if_neg hge] at h
      cases hw : walk_struct sf.heap (sf.heap n).struct_index sf.n_alloc head with
      | none => rw [hw] at h; exact Option.noConfusion h
      | some instr2 =>
        rw [hw] at h
        simp only at h
        cases hn : (sf.heap instr2).next_struct with
        | none =>
          rw [hn] at h
          simp only at h
          injection h with h
          subst h
          exact ⟨rfl, rfl, rfl, fun a => by simp, fun a => by simp⟩
        | some nx =>
          rw [hn] at h
          simp only at h
          injection h with h
          subst h
          exact ⟨rfl, rfl, rfl, fun a => by simp, fun a => by simp⟩

theorem read_instr_frame (resolve : xml_instr → Except String Unit) (sf : instr_state)
    (lsi : Int) (node : xml_instr) (sf' : instr_state) (lsi' : Int)
    (h : read_instr resolve sf lsi node = .ok (sf', lsi')) :
    sf'.n_alloc = sf.n_alloc + 1 ∧
    sf'.instruments = sf.instruments ++ [sf.n_alloc] ∧
    sf'.num_instruments
      = sf.num_instruments + (if node.name = "InstrumentUnused" then 0 else 1) ∧
    (∀ a, a ≠ sf.n_alloc →
      (sf'.heap a).unused = (sf.heap a).unused ∧ (sf'.heap a).name = (sf.heap a).name) ∧
    (sf'.heap sf.n_alloc).unused = decide (node.name = "InstrumentUnused") ∧
    (sf'.heap sf.n_alloc).name
      = (if node.has_properties = false ∧ node.name ≠ "InstrumentUnused" then none
         else node.Name) := by
  have hcount : ∀ u : Bool, (count_instr sf u).n_alloc = sf.n_alloc ∧
      (count_instr sf u).instruments = sf.instruments ∧
      (count_instr sf u).heap = sf.heap ∧
      (count_instr sf u).num_instruments = sf.num_instruments + (if u then 0 else 1) := by
    intro u
    cases u <;> exact ⟨rfl, rfl, rfl, rfl⟩
  obtain ⟨c1, c2, c3, c4⟩ := hcount (decide (node.name = "InstrumentUnused"))
  have c4' : (count_instr sf (decide (node.name = "InstrumentUnused"))).num_instruments
      = sf.num_instruments + (if node.name = "InstrumentUnused" then 0 else 1) := by
    rw [c4]
    by_cases hu : node.name = "InstrumentUnused" <;> simp [hu]
  unfold read_instr at h
  simp only at h
  split_ifs at h with h1 h2 h3
  · injection h with h
    injection h with h _
    subst h
    have hu : ¬ node.name = "InstrumentUnused" := by
      simp only [Bool.and_eq_true, Bool.not_eq_true', decide_eq_false_iff_not] at h2
      exact h2.2
    have hp : node.has_properties = false := by
      simp only [Bool.and_eq_true, Bool.not_eq_true', decide_eq_false_iff_not] at h2
      exact h2.1
    refine ⟨?_, ?_, ?_, ?_, ?_, ?_⟩
    · show (count_instr sf _).n_alloc + 1 = sf.n_alloc + 1
      rw [c1]
    · show (count_instr sf _).instruments ++ [(count_instr sf _).n_alloc]
        = sf.instruments ++ [sf.n_alloc]
      rw [c1, c2]
    · exact c4'
    · intro a ha
      show ((if a = (count_instr sf _).n_alloc then _ else (count_instr sf _).heap a)).unused
          = (sf.heap a).unused ∧
        ((if a = (count_instr sf _).n_alloc then _ else (count_instr sf _).heap a)).name
          = (sf.heap a).name
      rw [c1, c3, if_neg ha]
      exact ⟨rfl, rfl⟩
    · show ((if sf.n_alloc = (count_instr sf _).n_alloc then _
          else (count_instr sf _).heap sf.n_alloc)).unused = _
      rw [c1, if_pos rfl]
    · show ((if sf.n_alloc = (count_instr sf _).n_alloc then _
          else (count_instr sf _).heap sf.n_alloc)).name = _
      rw [c1, if_pos rfl, if_pos ⟨hp, hu⟩]
  · cases hr : resolve node with
    | error e => simp [hr] at h
    | ok u =>
      simp only [hr] at h
      cases hl : link_struct (alloc_instr (count_instr sf (decide (node.name = "InstrumentUnused")))
          { name := node.Name, struct_index := node.MatchOrder.getD lsi,
            unused := decide (node.name = "InstrumentUnused") })
          (count_instr sf (decide (node.name = "InstrumentUnused"))).n_alloc with
      | none => simp [hl] at h
      | some sf3 =>
        simp only [hl] at h
        injection h with h
        injection h with h _
        subst h
        obtain ⟨f1, f2, f3, f4, f5⟩ := link_struct_frame _ _ _ hl
        have hnp : ¬ (node.has_properties = false ∧ node.name ≠ "InstrumentUnused") := by
          intro hc
          apply h2
          simp [hc.1, hc.2]
        refine ⟨?_, ?_, ?_, ?_, ?_, ?_⟩
        · show sf3.n_alloc = sf.n_alloc + 1
          rw [f3]
          show (count_instr sf _).n_alloc + 1 = sf.n_alloc + 1
          rw [c1]
        · show sf3.instruments ++ [(count_instr sf _).n_alloc] = sf.instruments ++ [sf.n_alloc]
          rw [f2, c1]
          show (count_instr sf _).instruments ++ [sf.n_alloc] = _
          rw [c2]
        · show sf3.num_instruments = _
          rw [f1]
          exact c4'
        · intro a ha
          show (sf3.heap a).unused = _ ∧ (sf3.heap a).name = _
          rw [f4 a, f5 a]
          show ((if a = (count_instr sf _).n_alloc then _ else (count_instr sf _).heap a)).unused
              = (sf.heap a).unused ∧
            ((if a = (count_instr sf _).n_alloc then _ else (count_instr sf _).heap a)).name
              = (sf.heap a).name
          rw [c1, c3, if_neg ha]
          exact ⟨rfl, rfl⟩
        · show (sf3.heap sf.n_alloc).unused = _
          rw [f4]
          show ((if sf.n_alloc = (count_instr sf _).n_alloc then _
              else (count_instr sf _).heap sf.n_alloc)).unused = _
          rw [c1, if_pos rfl]
        · show (sf3.heap sf.n_alloc).name = _
          rw [f5]
          show ((if sf.n_alloc = (count_instr sf _).n_alloc then _
              else (count_instr sf _).heap sf.n_alloc)).name = _
          rw [c1, if_pos rfl, if_neg hnp]

/-- The logical list and the instrument count after one more node is read. -/
theorem read_instr_count_inv (resolve : xml_instr → Except String Unit) (sf : instr_state)
    (lsi : Int) (node : xml_instr) (sf' : instr_state) (lsi' : Int)
    (h : read_instr resolve sf lsi node = .ok (sf', lsi'))
    (hlog : sf.instruments = List.range sf.n_alloc)
    (hnum : sf.num_instruments
      = (sf.instruments.filter (fun a => !(sf.heap a).unused)).length) :
    sf'.instruments = List.range sf'.n_alloc ∧
    sf'.num_instruments = (sf'.instruments.filter (fun a => !(sf'.heap a).unused)).length := by
  obtain ⟨f1, f2, f3, f4, f5, _⟩ := read_instr_frame resolve sf lsi node sf' lsi' h
  constructor
  · rw [f2, f1, hlog, List.range_succ]
  · rw [f3, f2, List.filter_append, List.length_append, hnum]
    have hold : sf.instruments.filter (fun a => !(sf'.heap a).unused)
        = sf.instruments.filter (fun a => !(sf.heap a).unused) := by
      apply List.filter_congr
      intro a ha
      rw [hlog, List.mem_range] at ha
      rw [(f4 a (by omega)).1]
    rw [hold]
    congr 1
    by_cases hu : node.name = "InstrumentUnused"
    · simp [List.filter, f5, hu]
    · simp [List.filter, f5, hu]

theorem read_instrs_loop_count (resolve : xml_instr → Except String Unit) :
    ∀ (instrs : List xml_instr) (sf : instr_state) (lsi : Int) (sf' : instr_state),
      read_instrs_loop resolve sf lsi instrs = .ok sf' →
      sf'.num_instruments = sf.num_instruments
        + (instrs.filter
            (fun n => n.is_element && !decide (n.name = "InstrumentUnused"))).length ∧
      (sf.instruments = List.range sf.n_alloc →
        sf.num_instruments = (sf.instruments.filter (fun a => !(sf.heap a).unused)).length →
        sf'.instruments = List.range sf'.n_alloc ∧
        sf'.num_instruments
          = (sf'.instruments.filter (fun a => !(sf'.heap a).unused)).length) := by
  intro instrs
  induction instrs with
  | nil =>
    intro sf lsi sf' h
    simp only [read_instrs_loop] at h
    injection h with h
    subst h
    exact ⟨by simp, fun h1 h2 => ⟨h1, h2⟩⟩
  | cons node rest ih =>
    intro sf lsi sf' h
    by_cases hel : (!node.is_element) = true
    · simp only [read_instrs_loop] at h
      rw [if_pos hel] at h
      have helf : node.is_element = false := by simpa using hel
      obtain ⟨i1, i2⟩ := ih sf lsi sf' h
      refine ⟨?_, i2⟩
      rw [i1]
      simp [List.filter, helf]
    · simp only [read_instrs_loop] at h
      rw [if_neg hel] at h
      have helt : node.is_element = true := by simpa using hel
      cases hr : read_instr resolve sf lsi node with
      | error e => rw [hr] at h; simp at h
      | ok r =>
        obtain ⟨sf1, lsi1⟩ := r
        rw [hr] at h
        simp only at h
        obtain ⟨i1, i2⟩ := ih sf1 lsi1 sf' h
        obtain ⟨_, _, f3, _, _, _⟩ := read_instr_frame resolve sf lsi node sf1 lsi1 hr
        constructor
        · rw [i1, f3]
          by_cases hu : node.name = "InstrumentUnused"
          · simp [List.filter, helt, hu]
          · simp [List.filter, helt, hu]
            omega
        · intro h1 h2
          obtain ⟨j1, j2⟩ := read_instr_count_inv resolve sf lsi node sf1 lsi1 hr h1 h2
          exact i2 j1 j2

theorem read_sfx_info_count (calc_tuning : Rat → Int → Nat) (samples : List sample_data) :
    ∀ (effs : List xml_effect) (acc res : List (sfx_data Nat) × Nat),
      read_sfx_info calc_tuning samples acc effs = .ok res →
      res.2 = acc.2 + (effs.filter (fun e => e.is_element)).length ∧
      res.1.length = acc.1.length + (effs.filter (fun e => e.is_element)).length := by
  intro effs
  induction effs with
  | nil =>
    intro acc res h
    simp only [read_sfx_info] at h
    injection h with h
    subst h
    simp
  | cons eff rest ih =>
    intro acc res h
    by_cases hnel : (!eff.is_element) = true
    · simp only [read_sfx_info] at h
      rw [if_pos hnel] at h
      have helf : eff.is_element = false := by simpa using hnel
      obtain ⟨i1, i2⟩ := ih acc res h
      rw [i1, i2]
      simp [List.filter, helf]
    · simp only [read_sfx_info] at h
      rw [if_neg hnel] at h
      have helt : eff.is_element = true := by simpa using hnel
      cases hr : read_sfx calc_tuning samples eff with
      | error e => rw [hr] at h; simp at h
      | ok x =>
        rw [hr] at h
        simp only at h
        obtain ⟨i1, i2⟩ := ih _ res h
        rw [i1, i2]
        simp [List.filter, helt]
        omega

/-- C21 (counterexample): placeholders are counted. After reading the single placeholder
`<Instrument/>`, `num_instruments` is 1, and after reading the single placeholder `<Effect/>`,
`num_effects` is 1, although no entry is a non-placeholder. -/
theorem read_counts_include_placeholders :
    (ex_instr_placeholder.has_properties = false ∧
      ∃ sf, read_instrs_info (resolve_in ex_tuning [ex_env] [ex_kick]) [ex_instr_placeholder]
        = .ok sf ∧ sf.num_instruments = 1) ∧
    (ex_effect_placeholder.has_properties = false ∧
      ∃ res, read_sfx_info ex_tuning [ex_kick] ([], 0) [ex_effect_placeholder] = .ok res ∧
        res.2 = 1) :=
  ⟨⟨rfl, _, rfl, rfl⟩, ⟨rfl, _, rfl, rfl⟩⟩

/-- C21 (amended): after reading, `sf->num_instruments` is the number of instrument entries
that are not `InstrumentUnused` entries, placeholders `<Instrument/>` included; it is the
number of pointers in the instrument pointer table written by `emit_c_header`. And
`sf->num_effects` is the number of `Effect` entries, placeholders `<Effect/>` included; it is
the number of entries of the effect array written by `emit_c_effects`. -/
theorem read_counts (resolve : xml_instr → Except String Unit) (instrs : List xml_instr)
    (sf : instr_state) (h : read_instrs_info resolve instrs = .ok sf) :
    sf.num_instruments
      = (instrs.filter
          (fun n => n.is_element && !decide (n.name = "InstrumentUnused"))).length ∧
    (∀ has_drums has_sfx hd n, emit_c_header sf has_drums has_sfx = .ok (hd, n) →
      hd.instr_ptrs.length = sf.num_instruments) ∧
    (∀ calc_tuning samples effects res,
      read_sfx_info calc_tuning samples ([], 0) effects = .ok res →
      res.2 = (effects.filter (fun e => e.is_element)).length ∧
      res.1.length = res.2 ∧
      (emit_c_effects res.1).1.length = res.2) := by
  obtain ⟨h1, h2⟩ := read_instrs_loop_count resolve instrs instr_state.init 0 sf h
  obtain ⟨_, hnum⟩ := h2 rfl rfl
  refine ⟨?_, ?_, ?_⟩
  · rw [h1]
    show 0 + _ = _
    omega
  · intro has_drums has_sfx hd n hh
    unfold emit_c_header at hh
    simp only at hh
    revert hh
    generalize emit_padding_stmt _ = r
    intro hh
    cases r with
    | error e => exact Except.noConfusion hh
    | ok pad =>
      simp only at hh
      injection hh with hh
      injection hh with hh _
      rw [← hh, hnum]
      simp
  · intro calc_tuning samples effects res hr
    obtain ⟨e1, e2⟩ := read_sfx_info_count calc_tuning samples effects ([], 0) res hr
    simp only [List.length_nil, Nat.zero_add] at e1 e2
    refine ⟨e1, by rw [e2, e1], ?_⟩
    simp [emit_c_effects, e2, e1]

/-- Witness for C21 (amended): a placeholder, a reservation and a named instrument give the
count 2. -/
theorem read_counts_witness :
    ∃ sf, read_instrs_info (resolve_in ex_tuning [ex_env] [ex_kick])
        [ex_instr_placeholder, ex_instr_unused, ex_instr_a] = .ok sf ∧
      sf.num_instruments = 2 ∧
      sf.num_instruments
        = ([ex_instr_placeholder, ex_instr_unused, ex_instr_a].filter
            (fun n => n.is_element && !decide (n.name = "InstrumentUnused"))).length :=
  ⟨_, rfl, rfl,
    (read_counts (resolve_in ex_tuning [ex_env] [ex_kick])
      [ex_instr_placeholder, ex_instr_unused, ex_instr_a] _ rfl).1⟩

/-! ## C22: instrument defines and the pointer table -/

theorem emit_h_instruments_loop_mem (heap : Nat → instr_data) :
    ∀ (l : List Nat) (i k a : Nat) (nm : String), l[k]? = some a → (heap a).name = some nm →
      (nm, i + k) ∈ emit_h_instruments_loop heap l i := by
  intro l
  induction l with
  | nil =>
    intro i k a nm h
    simp at h
  | cons b rest ih =>
    intro i k a nm h hn
    cases k with
    | zero =>
      simp only [List.getElem?_cons_zero, Option.some.injEq] at h
      subst h
      simp [emit_h_instruments_loop, hn]
    | succ k =>
      simp only [List.getElem?_cons_succ] at h
      have hrec := ih (i + 1) k a nm h hn
      have hidx : i + 1 + k = i + (k + 1) := by omega
      rw [hidx] at hrec
      unfold emit_h_instruments_loop
      cases hb : (heap b).name with
      | none => exact hrec
      | some nb => exact List.mem_cons_of_mem _ hrec

theorem emit_h_instruments_loop_value (heap : Nat → instr_data) :
    ∀ (l : List Nat) (i : Nat) (d : String × Nat), d ∈ emit_h_instruments_loop heap l i →
      ∃ k a, l[k]? = some a ∧ (heap a).name = some d.1 ∧ d.2 = i + k := by
  intro l
  induction l with
  | nil =>
    intro i d h
    simp [emit_h_instruments_loop] at h
  | cons b rest ih =>
    intro i d h
    unfold emit_h_instruments_loop at h
    cases hb : (heap b).name with
    | none =>
      rw [hb] at h
      obtain ⟨k, a, h1, h2, h3⟩ := ih (i + 1) d h
      exact ⟨k + 1, a, by simpa using h1, h2, by omega⟩
    | some nb =>
      rw [hb] at h
      rcases List.mem_cons.mp h with h | h
      · subst h
        exact ⟨0, b, by simp, hb, rfl⟩
      · obtain ⟨k, a, h1, h2, h3⟩ := ih (i + 1) d h
        exact ⟨k + 1, a, by simpa using h1, h2, by omega⟩

theorem filter_getElem?_countP {α : Type} (p : α → Bool) :
    ∀ (l : List α) (k : Nat) (a : α), l[k]? = some a → p a = true →
      (l.filter p)[(l.take k).countP p]? = some a := by
  intro l
  induction l with
  | nil =>
    intro k a h
    simp at h
  | cons b rest ih =>
    intro k a h hp
    cases k with
    | zero =>
      simp only [List.getElem?_cons_zero, Option.some.injEq] at h
      subst h
      simp [List.filter, hp]
    | succ k =>
      simp only [List.getElem?_cons_succ] at h
      have hrec := ih k a h hp
      by_cases hb : p b = true
      · simp only [List.take_succ_cons, List.countP_cons_of_pos _ _ hb, List.filter_cons_of_pos hb]
        simpa using hrec
      · simp only [List.take_succ_cons, List.countP_cons_of_neg _ _ hb, List.filter_cons_of_neg hb]
        exact hrec

/-- The value of the define of the instrument at position `k` of the logical list is `k`; its
pointer is at the position in the table that counts only the entries before it that are not
`InstrumentUnused`. The two agree exactly when no `InstrumentUnused` entry precedes it. -/
theorem emit_h_instruments_index (sf : instr_state) (k a : Nat) (nm : String)
    (hk : sf.instruments[k]? = some a) (hname : (sf.heap a).name = some nm)
    (hused : (sf.heap a).unused = false) :
    (nm, k) ∈ emit_h_instruments sf ∧
    (∀ has_drums has_sfx hd n, emit_c_header sf has_drums has_sfx = .ok (hd, n) →
      hd.instr_ptrs[(sf.instruments.take k).countP (fun b => !(sf.heap b).unused)]?
        = some (some nm)) ∧
    ((sf.instruments.take k).countP (fun b => !(sf.heap b).unused) = k ↔
      ∀ b ∈ sf.instruments.take k, (sf.heap b).unused = false) := by
  have hklt : k < sf.instruments.length := by
    by_contra hc
    rw [List.getElem?_eq_none (by omega)] at hk
    exact Option.noConfusion hk
  refine ⟨?_, ?_, ?_⟩
  · have := emit_h_instruments_loop_mem sf.heap sf.instruments 0 k a nm hk hname
    simpa [emit_h_instruments] using this
  · intro has_drums has_sfx hd n hh
    unfold emit_c_header at hh
    simp only at hh
    revert hh
    generalize emit_padding_stmt _ = r
    intro hh
    cases r with
    | error e => exact Except.noConfusion hh
    | ok pad =>
      simp only at hh
      injection hh with hh
      injection hh with hh _
      rw [← hh]
      simp only [List.getElem?_map]
      rw [filter_getElem?_countP (fun b => !(sf.heap b).unused) sf.instruments k a hk
        (by simp [hused])]
      simp [hname]
  · have hlen : (sf.instruments.take k).length = k := by
      rw [List.length_take]
      omega
    constructor
    · intro hc b hb
      have hall := (List.countP_eq_length (p := fun b => !(sf.heap b).unused)
        (l := sf.instruments.take k)).mp (by rw [hc, hlen])
      simpa using hall b hb
    · intro hall
      have := (List.countP_eq_length (p := fun b => !(sf.heap b).unused)
        (l := sf.instruments.take k)).mpr (by
          intro b hb
          simp [hall b hb])
      rw [this, hlen]

/-- C22 (code bug): `emit_h_instruments` counts every entry of the logical list, while the
pointer table of `emit_c_header` skips the `InstrumentUnused` entries. For the list
`<InstrumentUnused .../>`, `<Instrument Name="A" .../>` the header file has `#define A 1`, but
the pointer table is `{ &A }`, with the pointer to `A` at position 0. -/
theorem emit_h_instruments_skew :
    ∃ sf hd n, read_instrs_info (resolve_in ex_tuning [ex_env] [ex_kick])
        [ex_instr_unused, ex_instr_a] = .ok sf ∧
      emit_h_instruments sf = [("A", 1)] ∧
      emit_c_header sf false false = .ok (hd, n) ∧
      hd.instr_ptrs = [some "A"] ∧
      hd.instr_ptrs[0]? = some (some "A") ∧ hd.instr_ptrs[1]? = none :=
  ⟨_, _, _, rfl, rfl, rfl, rfl, rfl, rfl⟩

/-! ## C23, C24: what `read_samples_info` checks -/

/-- When one `<Sample>` entry is accepted: the name is given, the provider has the waveform,
a base note is available, and the waveform has a codebook. -/
theorem read_sample_ok_iff (aifc_of : String → Option aifc_data)
    (defaults_is_dd defaults_cached : Bool) (sample_node : xml_sample) :
    (∃ sample, read_sample aifc_of defaults_is_dd defaults_cached sample_node = .ok sample) ↔
      (sample_node.name = "Sample" ∧
        ∃ name aifc, sample_node.Name = some name ∧ aifc_of name = some aifc ∧
          (sample_node.BaseNote.getD NOTE_UNSET = NOTE_UNSET → aifc.has_inst = true) ∧
          aifc.has_book = true) := by
  unfold read_sample
  by_cases hn : sample_node.name ≠ "Sample"
  · rw [if_pos hn]
    constructor
    · rintro ⟨s, hs⟩
      exact Except.noConfusion hs
    · rintro ⟨h, _⟩
      exact absurd h hn
  · rw [if_neg hn]
    have hn' : sample_node.name = "Sample" := not_not.mp hn
    cases hName : sample_node.Name with
    | none =>
      constructor
      · rintro ⟨s, hs⟩
        exact Except.noConfusion hs
      · rintro ⟨_, name, aifc, h, _⟩
        exact Option.noConfusion h
    | some name =>
      simp only
      cases ha : aifc_of name with
      | none =>
        constructor
        · rintro ⟨s, hs⟩
          exact Except.noConfusion hs
        · rintro ⟨_, name', aifc, h1, h2, _⟩
          injection h1 with h1
          subst h1
          rw [ha] at h2
          exact Option.noConfusion h2
      | some aifc =>
        simp only
        by_cases hb : sample_node.BaseNote.getD NOTE_UNSET = NOTE_UNSET ∧
            (!aifc.has_inst) = true
        · rw [if_pos hb]
          constructor
          · rintro ⟨s, hs⟩
            exact Except.noConfusion hs
          · rintro ⟨_, name', aifc', h1, h2, h3, _⟩
            injection h1 with h1
            subst h1
            rw [ha] at h2
            injection h2 with h2
            subst h2
            have := h3 hb.1
            rw [this] at hb
            exact absurd hb.2 (by decide)
        · rw [if_neg hb]
          by_cases hk : (!aifc.has_book) = true
          · rw [if_pos hk]
            constructor
            · rintro ⟨s, hs⟩
              exact Except.noConfusion hs
            · rintro ⟨_, name', aifc', h1, h2, _, h4⟩
              injection h1 with h1
              subst h1
              rw [ha] at h2
              injection h2 with h2
              subst h2
              rw [h4] at hk
              exact absurd hk (by decide)
          · rw [if_neg hk]
            constructor
            · intro _
              refine ⟨hn', name, aifc, rfl, ha, ?_, by simpa using hk⟩
              intro hu
              by_contra hi
              apply hb
              exact ⟨hu, by simpa using hi⟩
            · intro _
              exact ⟨_, rfl⟩

theorem read_sample_aifc (aifc_of : String → Option aifc_data)
    (defaults_is_dd defaults_cached : Bool) (sample_node : xml_sample) (sample : sample_data)
    (h : read_sample aifc_of defaults_is_dd defaults_cached sample_node = .ok sample) :
    sample_node.Name = some sample.name ∧ aifc_of sample.name = some sample.aifc ∧
    sample.aifc.has_book = true := by
  unfold read_sample at h
  split_ifs at h with hn
  cases hName : sample_node.Name with
  | none => rw [hName] at h; exact Except.noConfusion h
  | some name =>
    rw [hName] at h
    simp only at h
    cases ha : aifc_of name with
    | none => rw [ha] at h; exact Except.noConfusion h
    | some aifc =>
      rw [ha] at h
      simp only at h
      split_ifs at h with hb hk
      all_goals
        injection h with h
        subst h
        exact ⟨rfl, ha, by simpa using hk⟩

theorem read_samples_loop_mem (aifc_of : String → Option aifc_data)
    (defaults_is_dd defaults_cached : Bool) :
    ∀ (children : List xml_sample) (samples res : List sample_data),
      read_samples_loop aifc_of defaults_is_dd defaults_cached samples children = .ok res →
      ∀ s ∈ res, s ∈ samples ∨
        ∃ node ∈ children, node.is_element = true ∧
          read_sample aifc_of defaults_is_dd defaults_cached node = .ok s := by
  intro children
  induction children with
  | nil =>
    intro samples res h s hs
    simp only [read_samples_loop] at h
    injection h with h
    subst h
    exact Or.inl hs
  | cons node rest ih =>
    intro samples res h s hs
    by_cases hnel : (!node.is_element) = true
    · simp only [read_samples_loop] at h
      rw [if_pos hnel] at h
      rcases ih samples res h s hs with h1 | ⟨nd, hnd, h2⟩
      · exact Or.inl h1
      · exact Or.inr ⟨nd, List.mem_cons_of_mem _ hnd, h2⟩
    · simp only [read_samples_loop] at h
      rw [if_neg hnel] at h
      cases hr : read_sample aifc_of defaults_is_dd defaults_cached node with
      | error e => rw [hr] at h; exact Except.noConfusion h
      | ok x =>
        rw [hr] at h
        simp only at h
        rcases ih _ res h s hs with h1 | ⟨nd, hnd, h2⟩
        · simp only [List.mem_append, List.mem_singleton] at h1
          rcases h1 with h1 | h1
          · exact Or.inl h1
          · subst h1
            exact Or.inr ⟨node, List.mem_cons_self _ _, by simpa using hnel, hr⟩
        · exact Or.inr ⟨nd, List.mem_cons_of_mem _ hnd, h2⟩

/-- C23 (counterexample): the waveform of `kick` reports no loop, and `read_samples_info`
accepts the sample and adds it to the bank. -/
theorem read_samples_info_accepts_no_loop :
    ex_aifc_of "kick" = some ex_aifc_kick ∧ ex_aifc_kick.has_loop = false ∧
    ∃ sample, read_samples_info ex_aifc_of [] none none [ex_sample_node] = .ok [sample] ∧
      sample.name = "kick" ∧ sample.aifc.has_loop = false :=
  ⟨rfl, rfl, _, rfl, rfl, rfl⟩

/-- C23 (amended): `read_samples_info` requires a codebook, not a loop. A `<Sample>` entry is
accepted exactly when its `Name` is given, the provider has a waveform of that name, a base
note is available (the `BaseNote` attribute, or the waveform's instrument data) and the
waveform reports a codebook; so every sample added to the bank has a codebook, whether or not
it has a loop. For a sample without loop `emit_c_samples` writes a loop header that spans the
whole sample: start 0, end the frame count, count 0. -/
theorem read_samples_info_requires_book (aifc_of : String → Option aifc_data)
    (IsDD Cached : Option Bool) (children : List xml_sample) (res : List sample_data)
    (h : read_samples_info aifc_of [] IsDD Cached children = .ok res) :
    (∀ s ∈ res, s.aifc.has_book = true ∧ aifc_of s.name = some s.aifc) ∧
    (∀ s ∈ res, s.aifc.has_loop = false → ∀ loops_have_frames,
      (emit_c_loop loops_have_frames s.aifc).1 = ⟨0, frame_count s.aifc, 0, 0, false⟩) ∧
    (∀ node : xml_sample,
      (∃ sample, read_sample aifc_of (IsDD.getD false) (Cached.getD false) node = .ok sample) ↔
        (node.name = "Sample" ∧
          ∃ name aifc, node.Name = some name ∧ aifc_of name = some aifc ∧
            (node.BaseNote.getD NOTE_UNSET = NOTE_UNSET → aifc.has_inst = true) ∧
            aifc.has_book = true)) := by
  refine ⟨?_, ?_, fun node => read_sample_ok_iff aifc_of _ _ node⟩
  · intro s hs
    rcases read_samples_loop_mem aifc_of _ _ children [] res h s hs with h1 | ⟨nd, _, _, h2⟩
    · simp at h1
    · obtain ⟨_, h3, h4⟩ := read_sample_aifc aifc_of _ _ nd s h2
      exact ⟨h4, h3⟩
  · intro s _ hl lhf
    simp [emit_c_loop, hl]

/-- Witness for C23 (amended): the list with the single entry `kick` is read, and the sample
has a codebook. -/
theorem read_samples_info_requires_book_witness :
    ex_aifc_kick.has_book = true ∧ ex_aifc_of "kick" = some ex_aifc_kick :=
  (read_samples_info_requires_book ex_aifc_of none none [ex_sample_node] _ (by rfl)).1
    { name := "kick", is_dd := false, cached := false, aifc := ex_aifc_kick,
      sample_rate := 32000, base_note := 39 } (List.mem_singleton.mpr rfl)

/-- C24 (code bug): `read_samples_info` has no test for duplicate names. A `<Samples>` list
with two entries `<Sample Name="kick"/>` is read without error, and the bank then holds two
samples named `kick`. -/
theorem read_samples_info_accepts_duplicates :
    ∃ s1 s2, read_samples_info ex_aifc_of [] none none [ex_sample_node, ex_sample_node]
        = .ok [s1, s2] ∧
      s1.name = "kick" ∧ s2.name = "kick" ∧
      ¬ ([s1, s2].map (fun s => s.name)).Nodup :=
  ⟨_, _, rfl, rfl, rfl, by decide⟩

/-! ## C25 - C27: what resolution checks -/

theorem resolve_instr_release (calc_tuning : Rat → Int → Nat) (envelopes : List envelope_data)
    (samples : List sample_data) (node : xml_instr) (r : instr_resolved)
    (h : resolve_instr calc_tuning envelopes samples node = .ok r) :
    r.release = (if node.Release.getD RELEASE_UNSET = RELEASE_UNSET then r.envelope.release
      else node.Release.getD RELEASE_UNSET) := by
  unfold resolve_instr at h
  by_cases henv : node.Envelope = none
  · rw [if_pos henv] at h
    exact Except.noConfusion h
  · rw [if_neg henv] at h
    cases he : sf_get_envelope envelopes node.Envelope with
    | none => rw [he] at h; exact Except.noConfusion h
    | some envelope =>
      rw [he] at h
      simp only at h
      revert h
      generalize (if node.Sample = none then
          match read_instr_children (node.RangeLo.getD INSTR_LO_NONE)
              (node.RangeHi.getD INSTR_HI_NONE) node.SampleLo node.SampleHi node.children with
          | .error e => (Except.error e : Except String (Option String × Option String × Option String))
          | .ok st => .ok (st.sample_name_low, st.sample_name_mid, st.sample_name_high)
        else .ok (node.SampleLo, node.Sample, node.SampleHi)) = names
      intro h
      cases names with
      | error e => exact Except.noConfusion h
      | ok nm =>
        obtain ⟨name_low, name_mid, name_high⟩ := nm
        simp only at h
        revert h
        generalize resolve_opt_sample calc_tuning samples name_low _ _ _ = rlow
        intro h
        cases rlow with
        | error e => exact Except.noConfusion h
        | ok low =>
          simp only at h
          cases hmid : sample_data_forname samples name_mid with
          | none => rw [hmid] at h; exact Except.noConfusion h
          | some sample_mid =>
            rw [hmid] at h
            simp only at h
            revert h
            generalize resolve_opt_sample calc_tuning samples name_high _ _ _ = rhigh
            intro h
            cases rhigh with
            | error e => exact Except.noConfusion h
            | ok high =>
              simp only at h
              injection h with h
              subst h
              rfl

theorem resolve_release_cases (release : Option Nat) (env_release : Nat) :
    (if release.getD RELEASE_UNSET = RELEASE_UNSET then env_release
      else release.getD RELEASE_UNSET)
      = (match release with
         | some v => if v = 0 then env_release else v
         | none => env_release) := by
  cases release with
  | none => simp [RELEASE_UNSET]
  | some v => simp [RELEASE_UNSET]

theorem read_drum_resolved (envelopes : List envelope_data) (samples : List sample_data)
    (drum_node : xml_drum) (drum : drum_data Rat) (name : String)
    (h : read_drum envelopes samples drum_node = .ok drum) (hname : drum.name = some name) :
    (∃ e, sf_get_envelope envelopes drum_node.Envelope = some e ∧ drum.envelope = some e) ∧
    (∃ s, sample_data_forname samples drum_node.Sample = some s ∧ drum.sample = some s) := by
  unfold read_drum at h
  split_ifs at h with h1 h2
  · injection h with h
    subst h
    exact Option.noConfusion hname
  · cases hN : drum_node.Name with
    | none => simp [hN] at h
    | some nm =>
      cases hP : drum_node.Pan with
      | none => simp [hN, hP] at h
      | some pan =>
        cases hE : drum_node.Envelope with
        | none => simp [hN, hP, hE] at h
        | some en =>
          cases hS : drum_node.Sample with
          | none => simp [hN, hP, hE, hS] at h
          | some sn =>
            simp only [hN, hP, hE, hS] at h
            cases he : sf_get_envelope envelopes (some en) with
            | none => simp [he] at h
            | some envelope =>
              simp only [he] at h
              split_ifs at h
              all_goals
                cases hs : sample_data_forname samples (some sn) with
                | none => simp [hs] at h
                | some sample =>
                  simp only [hs] at h
                  split_ifs at h
                  all_goals
                    injection h with h
                    subst h
                    exact ⟨⟨envelope, rfl, rfl⟩, ⟨sample, rfl, rfl⟩⟩

/-- C25 (code bug): `read_sfx_info` does not test the sample it looks up. An effect that names
a sample absent from the bank and gives `SampleRate` and `BaseNote` is read without error
and added to the bank with a `NULL` sample (and counted); without these two attributes the
`NULL` sample is dereferenced, which is undefined behaviour and not a reported error.
`read_instrs_info` and `read_drums_info` do reject unresolved names: an accepted instrument
has an envelope and samples that resolve, and so has an accepted named drum. -/
theorem read_sfx_info_accepts_missing_sample :
    sample_data_forname [ex_kick] ex_effect_missing.Sample = none ∧
    (∃ sfx, read_sfx_info ex_tuning [ex_kick] ([], 0) [ex_effect_missing] = .ok ([sfx], 1) ∧
      sfx.name = some "E" ∧ sfx.sample = none) ∧
    read_sfx_info ex_tuning [ex_kick] ([], 0) [ex_effect_missing_plain]
      = .error null_dereference ∧
    (∀ calc_tuning envelopes samples node r,
      resolve_instr calc_tuning envelopes samples node = .ok r →
      sf_get_envelope envelopes node.Envelope = some r.envelope ∧
      (∃ s, sample_data_forname samples r.sample_name_mid = some s) ∧
      (r.sample_name_low = none ∨ ∃ s, sample_data_forname samples r.sample_name_low = some s) ∧
      (r.sample_name_high = none ∨
        ∃ s, sample_data_forname samples r.sample_name_high = some s)) ∧
    (∀ envelopes samples drum_node drum name,
      read_drum envelopes samples drum_node = .ok drum → drum.name = some name →
      (∃ e, sf_get_envelope envelopes drum_node.Envelope = some e ∧ drum.envelope = some e) ∧
      (∃ s, sample_data_forname samples drum_node.Sample = some s ∧ drum.sample = some s)) := by
  refine ⟨rfl, ⟨_, rfl, rfl, rfl⟩, rfl, ?_, ?_⟩
  · intro calc_tuning envelopes samples node r h
    obtain ⟨h1, _, _, _, hlow, ⟨sm, hsm, _⟩, hhigh⟩ :=
      resolve_instr_inv calc_tuning envelopes samples node r h
    exact ⟨h1, ⟨sm, hsm⟩,
      (resolve_opt_sample_ok calc_tuning samples _ _ _ _).mp ⟨_, hlow⟩,
      (resolve_opt_sample_ok calc_tuning samples _ _ _ _).mp ⟨_, hhigh⟩⟩
  · intro envelopes samples drum_node drum name h hn
    exact read_drum_resolved envelopes samples drum_node drum name h hn

/-- C26 (code bug): the tests "Useless Low sample specified" and "Useless High sample
specified" are only made for child nodes. An instrument that gives a low sample by the
attribute `SampleLo` and leaves `RangeLo` unset is accepted, with a low sample and
`sample_low_end = INSTR_LO_NONE`; likewise for `SampleHi` with `RangeHi` unset. -/
theorem resolve_instr_sample_without_range :
    (ex_instr_low_attr.RangeLo = none ∧
      (∃ r, resolve_instr ex_tuning [ex_env] [ex_kick] ex_instr_low_attr = .ok r ∧
        r.low.isSome = true ∧ r.sample_low_end = INSTR_LO_NONE) ∧
      ∃ sf, read_instrs_info (resolve_in ex_tuning [ex_env] [ex_kick]) [ex_instr_low_attr]
        = .ok sf ∧ sf.instruments = [0]) ∧
    (ex_instr_high_attr.RangeHi = none ∧
      (∃ r, resolve_instr ex_tuning [ex_env] [ex_kick] ex_instr_high_attr = .ok r ∧
        r.high.isSome = true ∧ r.sample_high_start = INSTR_HI_NONE) ∧
      ∃ sf, read_instrs_info (resolve_in ex_tuning [ex_env] [ex_kick]) [ex_instr_high_attr]
        = .ok sf ∧ sf.instruments = [0]) :=
  ⟨⟨rfl, ⟨_, rfl, rfl, rfl⟩, ⟨_, rfl, rfl⟩⟩, ⟨rfl, ⟨_, rfl, rfl, rfl⟩, ⟨_, rfl, rfl⟩⟩⟩

/-- C27 (code bug): the value 0 of the `Release` attribute is the marker `RELEASE_UNSET`. The
instrument `<Instrument Name="I" Envelope="Env0" Release="0" Sample="kick"/>`, whose envelope
has the release 7, is stored with the release 7, not 0. In general the release of an accepted
instrument is the attribute when it is given and not 0, and the release of the envelope
otherwise. -/
theorem resolve_instr_release_zero :
    ex_instr_release_zero.Release = some 0 ∧ ex_env.release = 7 ∧
    (∃ r, resolve_instr ex_tuning [ex_env] [ex_kick] ex_instr_release_zero = .ok r ∧
      r.envelope = ex_env ∧ r.release = 7) ∧
    (∀ calc_tuning envelopes samples node r,
      resolve_instr calc_tuning envelopes samples node = .ok r →
      r.release = (match node.Release with
        | some v => if v = 0 then r.envelope.release else v
        | none => r.envelope.release)) := by
  refine ⟨rfl, rfl, ⟨_, rfl, rfl, rfl⟩, ?_⟩
  intro calc_tuning envelopes samples node r h
  rw [resolve_instr_release calc_tuning envelopes samples node r h]
  exact resolve_release_cases node.Release r.envelope.release

/-! ## C28: the semitone range of a drum -/

/-- `read_drum` on a named drum whose required attributes are given and whose envelope and
sample resolve, with a base note available: what is left are the semitone tests. -/
theorem read_drum_eq (envelopes : List envelope_data) (samples : List sample_data)
    (drum_node : xml_drum) (name : String) (pan : Int) (envelope_name sample_name : String)
    (envelope : envelope_data) (sample : sample_data)
    (hname : drum_node.name = "Drum") (hprop : drum_node.has_properties = true)
    (hN : drum_node.Name = some name) (hP : drum_node.Pan = some pan)
    (hE : drum_node.Envelope = some envelope_name) (hS : drum_node.Sample = some sample_name)
    (henv : sf_get_envelope envelopes (some envelope_name) = some envelope)
    (hsample : sample_data_forname samples (some sample_name) = some sample)
    (hbase : drum_node.BaseNote.getD NOTE_UNSET ≠ NOTE_UNSET ∨ sample.aifc.has_inst = true) :
    read_drum envelopes samples drum_node =
      (if drum_node.Semitone.getD NOTE_UNSET = NOTE_UNSET ∧
          (drum_node.SemitoneStart.getD NOTE_UNSET = NOTE_UNSET ∨
            drum_node.SemitoneEnd.getD NOTE_UNSET = NOTE_UNSET) then
        .error "Incomplete semitone range specification"
      else if drum_node.Semitone.getD NOTE_UNSET ≠ NOTE_UNSET ∧
          (drum_node.SemitoneStart.getD NOTE_UNSET ≠ NOTE_UNSET ∨
            drum_node.SemitoneEnd.getD NOTE_UNSET ≠ NOTE_UNSET) then
        .error "Overspecified semitone range"
      else if (if drum_node.Semitone.getD NOTE_UNSET = NOTE_UNSET then
            drum_node.SemitoneEnd.getD NOTE_UNSET else drum_node.Semitone.getD NOTE_UNSET)
          < (if drum_node.Semitone.getD NOTE_UNSET = NOTE_UNSET then
            drum_node.SemitoneStart.getD NOTE_UNSET else drum_node.Semitone.getD NOTE_UNSET) then
        .error "Invalid drum semitone range"
      else
        .ok { name := some name, envelope := some envelope, sample := some sample,
              semitone_start := (if drum_node.Semitone.getD NOTE_UNSET = NOTE_UNSET then
                drum_node.SemitoneStart.getD NOTE_UNSET else drum_node.Semitone.getD NOTE_UNSET),
              semitone_end := (if drum_node.Semitone.getD NOTE_UNSET = NOTE_UNSET then
                drum_node.SemitoneEnd.getD NOTE_UNSET else drum_node.Semitone.getD NOTE_UNSET),
              pan := pan,
              sample_rate := (if drum_node.SampleRate.getD (-1) = -1 then sample.sample_rate
                else drum_node.SampleRate.getD (-1)),
              base_note := (if drum_node.BaseNote.getD NOTE_UNSET = NOTE_UNSET then
                to_int8 sample.base_note else drum_node.BaseNote.getD NOTE_UNSET) }) := by
  have hb : ¬ (drum_node.BaseNote.getD NOTE_UNSET = NOTE_UNSET ∧
      (!sample.aifc.has_inst) = true) := by
    rintro ⟨h1, h2⟩
    rcases hbase with h | h
    · exact h h1
    · rw [h] at h2
      exact absurd h2 (by decide)
  unfold read_drum
  have h1 : ¬ drum_node.name ≠ "Drum" := not_not.mpr hname
  have h2 : ¬ (!drum_node.has_properties) = true := by simp [hprop]
  rw [if_neg h1, if_neg h2]
  simp only [hN, hP, hE, hS, henv]
  by_cases c1 : drum_node.Semitone.getD NOTE_UNSET = NOTE_UNSET ∧
      (drum_node.SemitoneStart.getD NOTE_UNSET = NOTE_UNSET ∨
        drum_node.SemitoneEnd.getD NOTE_UNSET = NOTE_UNSET)
  · rw [if_pos c1, if_pos c1]
  · rw [if_neg c1, if_neg c1]
    by_cases c2 : drum_node.Semitone.getD NOTE_UNSET ≠ NOTE_UNSET ∧
        (drum_node.SemitoneStart.getD NOTE_UNSET ≠ NOTE_UNSET ∨
          drum_node.SemitoneEnd.getD NOTE_UNSET ≠ NOTE_UNSET)
    · rw [if_pos c2, if_pos c2]
    · rw [if_neg c2, if_neg c2]
      by_cases c3 : (if drum_node.Semitone.getD NOTE_UNSET = NOTE_UNSET then
            drum_node.SemitoneEnd.getD NOTE_UNSET else drum_node.Semitone.getD NOTE_UNSET)
          < (if drum_node.Semitone.getD NOTE_UNSET = NOTE_UNSET then
            drum_node.SemitoneStart.getD NOTE_UNSET else drum_node.Semitone.getD NOTE_UNSET)
      · rw [if_pos c3, if_pos c3]
      · rw [if_neg c3, if_neg c3]
        simp only [hsample]
        rw [if_neg hb]

/-- C28: for a named drum whose envelope and sample resolve, with a base note available and
semitone attributes that are note numbers (0..127), `read_drums_info` accepts the drum if and
only if either `Semitone` is given and neither `SemitoneStart` nor `SemitoneEnd` is, or
`Semitone` is absent and both `SemitoneStart` and `SemitoneEnd` are given with
`SemitoneEnd >= SemitoneStart`. Every accepted drum has `semitone_start <= semitone_end`;
with `Semitone` given both are `Semitone`, otherwise they are the two attributes. -/
theorem read_drum_semitones (envelopes : List envelope_data) (samples : List sample_data)
    (drum_node : xml_drum) (name : String) (pan : Int) (envelope_name sample_name : String)
    (envelope : envelope_data) (sample : sample_data)
    (hname : drum_node.name = "Drum") (hprop : drum_node.has_properties = true)
    (hN : drum_node.Name = some name) (hP : drum_node.Pan = some pan)
    (hE : drum_node.Envelope = some envelope_name) (hS : drum_node.Sample = some sample_name)
    (henv : sf_get_envelope envelopes (some envelope_name) = some envelope)
    (hsample : sample_data_forname samples (some sample_name) = some sample)
    (hbase : drum_node.BaseNote.getD NOTE_UNSET ≠ NOTE_UNSET ∨ sample.aifc.has_inst = true)
    (hnotes : ∀ v, (drum_node.Semitone = some v ∨ drum_node.SemitoneStart = some v ∨
      drum_node.SemitoneEnd = some v) → 0 ≤ v ∧ v ≤ 127) :
    ((∃ drum, read_drums_info envelopes samples [] [{ drum_node with is_element := true }]
        = .ok [drum]) ↔
      (((∃ v, drum_node.Semitone = some v) ∧ drum_node.SemitoneStart = none ∧
          drum_node.SemitoneEnd = none) ∨
        (drum_node.Semitone = none ∧
          ∃ a b, drum_node.SemitoneStart = some a ∧ drum_node.SemitoneEnd = some b ∧ a ≤ b))) ∧
    ((∃ drum, read_drums_info envelopes samples [] [{ drum_node with is_element := true }]
        = .ok [drum]) ↔ ∃ drum, read_drum envelopes samples drum_node = .ok drum) ∧
    (∀ drum, read_drum envelopes samples drum_node = .ok drum →
      drum.name = some name ∧ drum.semitone_start ≤ drum.semitone_end ∧
      (∀ v, drum_node.Semitone = some v → drum.semitone_start = v ∧ drum.semitone_end = v) ∧
      (drum_node.Semitone = none →
        drum_node.SemitoneStart = some drum.semitone_start ∧
        drum_node.SemitoneEnd = some drum.semitone_end)) := by
  have heq := read_drum_eq envelopes samples drum_node name pan envelope_name sample_name
    envelope sample hname hprop hN hP hE hS henv hsample hbase
  have hsame : read_drum envelopes samples { drum_node with is_element := true }
      = read_drum envelopes samples drum_node := rfl
  have hlist : (∃ drum, read_drums_info envelopes samples []
        [{ drum_node with is_element := true }] = .ok [drum]) ↔
      ∃ drum, read_drum envelopes samples drum_node = .ok drum := by
    simp only [read_drums_info, Bool.not_true, Bool.false_eq_true, if_false, hsame]
    cases hr : read_drum envelopes samples drum_node with
    | error e => simp
    | ok d => simp
  have hS1 : ∀ v, drum_node.Semitone = some v → v ≠ NOTE_UNSET := by
    intro v hv
    have := hnotes v (Or.inl hv)
    unfold NOTE_UNSET
    omega
  have hS2 : ∀ v, drum_node.SemitoneStart = some v → v ≠ NOTE_UNSET := by
    intro v hv
    have := hnotes v (Or.inr (Or.inl hv))
    unfold NOTE_UNSET
    omega
  have hS3 : ∀ v, drum_node.SemitoneEnd = some v → v ≠ NOTE_UNSET := by
    intro v hv
    have := hnotes v (Or.inr (Or.inr hv))
    unfold NOTE_UNSET
    omega
  refine ⟨?_, hlist, ?_⟩
  · rw [hlist, heq]
    cases h1 : drum_node.Semitone with
    | none =>
      cases h2 : drum_node.SemitoneStart with
      | none => simp
      | some a =>
        cases h3 : drum_node.SemitoneEnd with
        | none => simp
        | some b =>
          have ha := hS2 a h2
          have hb := hS3 b h3
          by_cases hab : b < a
          · simp [ha, hb, hab]
          · simp [ha, hb, hab]
            omega
    | some v =>
      have hv := hS1 v h1
      cases h2 : drum_node.SemitoneStart with
      | none =>
        cases h3 : drum_node.SemitoneEnd with
        | none => simp [hv]
        | some b =>
          have hb := hS3 b h3
          simp [hv, hb]
      | some a =>
        have ha := hS2 a h2
        cases h3 : drum_node.SemitoneEnd with
        | none => simp [hv, ha]
        | some b => simp [hv, ha]
  · intro drum hd
    rw [heq] at hd
    by_cases c1 : drum_node.Semitone.getD NOTE_UNSET = NOTE_UNSET ∧
        (drum_node.SemitoneStart.getD NOTE_UNSET = NOTE_UNSET ∨
          drum_node.SemitoneEnd.getD NOTE_UNSET = NOTE_UNSET)
    · rw [if_pos c1] at hd
      exact Except.noConfusion hd
    · rw [if_neg c1] at hd
      by_cases c2 : drum_node.Semitone.getD NOTE_UNSET ≠ NOTE_UNSET ∧
          (drum_node.SemitoneStart.getD NOTE_UNSET ≠ NOTE_UNSET ∨
            drum_node.SemitoneEnd.getD NOTE_UNSET ≠ NOTE_UNSET)
      · rw [if_pos c2] at hd
        exact Except.noConfusion hd
      · rw [if_neg c2] at hd
        by_cases c3 : (if drum_node.Semitone.getD NOTE_UNSET = NOTE_UNSET then
              drum_node.SemitoneEnd.getD NOTE_UNSET else drum_node.Semitone.getD NOTE_UNSET)
            < (if drum_node.Semitone.getD NOTE_UNSET = NOTE_UNSET then
              drum_node.SemitoneStart.getD NOTE_UNSET else drum_node.Semitone.getD NOTE_UNSET)
        · rw [if_pos c3] at hd
          exact Except.noConfusion hd
        · rw [if_neg c3] at hd
          injection hd with hd
          subst hd
          refine ⟨rfl, ?_, ?_, ?_⟩
          · exact not_lt.mp c3
          · intro v hv
            have hvn := hS1 v hv
            simp [hv, hvn]
          · intro hnone
            cases h2 : drum_node.SemitoneStart with
            | none =>
              exfalso
              apply c1
              simp [hnone, h2]
            | some a =>
              cases h3 : drum_node.SemitoneEnd with
              | none =>
                exfalso
                apply c1
                simp [hnone, h3]
              | some b => simp [hnone]

/-- Witness for C28: the drum with `Semitone="5"`. -/
theorem read_drum_semitones_witness :
    (∃ drum, read_drums_info [ex_env] [ex_kick] [] [{ ex_drum_node with is_element := true }]
        = .ok [drum]) ↔
      (((∃ v, ex_drum_node.Semitone = some v) ∧ ex_drum_node.SemitoneStart = none ∧
          ex_drum_node.SemitoneEnd = none) ∨
        (ex_drum_node.Semitone = none ∧
          ∃ a b, ex_drum_node.SemitoneStart = some a ∧ ex_drum_node.SemitoneEnd = some b ∧
            a ≤ b)) :=
  (read_drum_semitones [ex_env] [ex_kick] ex_drum_node "D" 64 "Env0" "kick" ex_env ex_kick
    rfl rfl rfl rfl rfl rfl rfl rfl (Or.inl (by decide))
    (by
      intro v hv
      have hv5 : v = 5 := by
        simpa [ex_drum_node, eq_comm] using hv
      subst hv5
      decide)).1

/-! ## C29, C30: the reserved delay values -/

/-- C29 (counterexample): `ADSR_DISABLE` is 0, which is not negative. -/
theorem ADSR_DISABLE_not_negative : ADSR_DISABLE = 0 ∧ ¬ ADSR_DISABLE < 0 := by
  decide

/-- C29 (amended): the four reserved delay values are pairwise distinct; `ADSR_HANG`,
`ADSR_GOTO` and `ADSR_RESTART` are the negative values -1, -2 and -3, and `ADSR_DISABLE` is
0. `read_envelopes_info` stores a `Disable` element as `(ADSR_DISABLE, 0)`, a `Goto` element
as `(ADSR_GOTO, Index)`, a `Restart` element as `(ADSR_RESTART, 0)` and a `Hang` element as
`(ADSR_HANG, 0)`. -/
theorem read_envelope_point_commands (env_pt : xml_env_pt) (hel : env_pt.is_element = true) :
    [ADSR_DISABLE, ADSR_GOTO, ADSR_RESTART, ADSR_HANG].Nodup ∧
    (ADSR_DISABLE = 0 ∧ ADSR_HANG = -1 ∧ ADSR_GOTO = -2 ∧ ADSR_RESTART = -3) ∧
    (env_pt.name = "Disable" → read_envelope_point env_pt = .ok (some ⟨ADSR_DISABLE, 0⟩)) ∧
    (env_pt.name = "Goto" → ∀ index, env_pt.Index = some index →
      read_envelope_point env_pt = .ok (some ⟨ADSR_GOTO, index⟩)) ∧
    (env_pt.name = "Restart" → read_envelope_point env_pt = .ok (some ⟨ADSR_RESTART, 0⟩)) ∧
    (env_pt.name = "Hang" → read_envelope_point env_pt = .ok (some ⟨ADSR_HANG, 0⟩)) := by
  refine ⟨by decide, ⟨rfl, rfl, rfl, rfl⟩, ?_, ?_, ?_, ?_⟩
  · intro hn
    simp [read_envelope_point, hel, hn]
  · intro hn index hi
    simp [read_envelope_point, hel, hn, hi]
  · intro hn
    simp [read_envelope_point, hel, hn]
  · intro hn
    simp [read_envelope_point, hel, hn]

/-- Witness for C29 (amended): the element `<Goto Index="0"/>` is stored as
`(ADSR_GOTO, 0)`. -/
theorem read_envelope_point_commands_witness :
    read_envelope_point ⟨true, "Goto", none, none, some 0⟩ = .ok (some ⟨ADSR_GOTO, 0⟩) :=
  (read_envelope_point_commands ⟨true, "Goto", none, none, some 0⟩ rfl).2.2.2.1 rfl 0 rfl

theorem read_envelope_point_plain (env_pt : xml_env_pt) (hel : env_pt.is_element = true)
    (hn : env_pt.name = "Point") (d a : Int) (hd : env_pt.Delay = some d)
    (ha : env_pt.Arg = some a) : read_envelope_point env_pt = .ok (some ⟨d, a⟩) := by
  simp [read_envelope_point, hel, hn, hd, ha]

/-- The entry written for the `j`-th element child of a named envelope is the translation of
the point stored for that child. -/
theorem emit_c_envelope_entry (envelopes : List envelope_data) (env : xml_env)
    (envdata : envelope_data) (name : String)
    (h : read_envelope envelopes env = .ok envdata) (hname : envdata.name = some name)
    (j : Nat) (c : xml_env_pt)
    (hj : (env.children.filter (fun c => c.is_element))[j]? = some c) :
    c.is_element = true ∧
    ∃ pt, read_envelope_point c = .ok (some pt) ∧
      (envdata.points.map emit_envelope_point ++ [env_stmt.ENVELOPE_HANG])[j]?
        = some (emit_envelope_point pt) := by
  have hp := read_envelope_points_declared env.children envdata.points
    (read_envelope_named envelopes env envdata name h hname)
  have hel : c.is_element = true := by
    have hmem := List.getElem?_mem hj
    exact (List.mem_filter.mp hmem).2
  have hj2 := congrArg (fun l => l[j]?) hp
  simp only [List.getElem?_map, hj, Option.map_some'] at hj2
  cases hpt : envdata.points[j]? with
  | none =>
    rw [hpt] at hj2
    exact Option.noConfusion hj2
  | some pt =>
    rw [hpt] at hj2
    simp only [Option.map_some', Option.some.injEq] at hj2
    refine ⟨hel, pt, hj2, ?_⟩
    have hlt : j < envdata.points.length := by
      by_contra hc
      rw [List.getElem?_eq_none (by omega)] at hpt
      exact Option.noConfusion hpt
    rw [List.getElem?_append_left (by simpa using hlt), List.getElem?_map, hpt]
    rfl

/-- C30 (counterexample): a plain point whose delay is one of the reserved values is emitted
as a command. The envelope declared with `<Point Delay="0" Arg="5"/>` is emitted as
`ENVELOPE_DISABLE()`, and plain points with the delays -1, -2 and -3 are emitted as
`ENVELOPE_HANG()`, `ENVELOPE_GOTO(5)` and `ENVELOPE_RESTART()`. -/
theorem emit_c_envelopes_reserved_delay :
    (∃ envelopes decl n, read_envelopes_info [] [ex_env_zero_delay] = .ok envelopes ∧
      emit_c_envelopes envelopes = .ok ([decl], n) ∧
      decl.entries = [.ENVELOPE_DISABLE, .ENVELOPE_HANG] ∧
      decl.entries[0]? ≠ some (.ENVELOPE_POINT 0 5)) ∧
    (∃ envelopes decl n, read_envelopes_info [] [ex_env_negative_delays] = .ok envelopes ∧
      emit_c_envelopes envelopes = .ok ([decl], n) ∧
      decl.entries
        = [.ENVELOPE_HANG, .ENVELOPE_GOTO 5, .ENVELOPE_RESTART, .ENVELOPE_HANG]) :=
  ⟨⟨_, _, _, rfl, rfl, rfl, by decide⟩, ⟨_, _, _, rfl, rfl, rfl⟩⟩

/-- C30 (amended): for every named envelope that `read_envelopes_info` reads, the entry that
`emit_c_envelopes` writes at the position of an element child is: for a plain `Point` with
delay `d` and argument `a`, the plain entry `ENVELOPE_POINT(d, a)` whenever `d` is none of the
four reserved values 0, -1, -2, -3, and otherwise the command that the reserved value stands
for (`ENVELOPE_DISABLE()` for 0, `ENVELOPE_HANG()` for -1, `ENVELOPE_GOTO(a)` for -2,
`ENVELOPE_RESTART()` for -3); for a declared `Disable`, `Goto`, `Restart` or `Hang` the
command itself, never a plain entry. -/
theorem emit_c_envelopes_points (envelopes : List envelope_data) (env : xml_env)
    (envdata : envelope_data) (name : String)
    (h : read_envelope envelopes env = .ok envdata) (hname : envdata.name = some name) :
    (∃ pad, ∀ empty_num, emit_c_envelope empty_num envdata
      = .ok (⟨.inr name, envdata.points.map emit_envelope_point ++ [.ENVELOPE_HANG], pad⟩,
             ALIGN16 (4 * (envdata.n_points + 1)))) ∧
    (∀ (j : Nat) (c : xml_env_pt),
      (env.children.filter (fun c => c.is_element))[j]? = some c →
      (c.name = "Point" → ∀ (d a : Int), c.Delay = some d → c.Arg = some a →
        (d ≠ 0 → d ≠ -1 → d ≠ -2 → d ≠ -3 →
          (envdata.points.map emit_envelope_point ++ [env_stmt.ENVELOPE_HANG])[j]?
            = some (.ENVELOPE_POINT d a)) ∧
        (d = 0 →
          (envdata.points.map emit_envelope_point ++ [env_stmt.ENVELOPE_HANG])[j]?
            = some .ENVELOPE_DISABLE) ∧
        (d = -1 →
          (envdata.points.map emit_envelope_point ++ [env_stmt.ENVELOPE_HANG])[j]?
            = some .ENVELOPE_HANG) ∧
        (d = -2 →
          (envdata.points.map emit_envelope_point ++ [env_stmt.ENVELOPE_HANG])[j]?
            = some (.ENVELOPE_GOTO a)) ∧
        (d = -3 →
          (envdata.points.map emit_envelope_point ++ [env_stmt.ENVELOPE_HANG])[j]?
            = some .ENVELOPE_RESTART)) ∧
      (c.name = "Disable" →
        (envdata.points.map emit_envelope_point ++ [env_stmt.ENVELOPE_HANG])[j]?
          = some .ENVELOPE_DISABLE) ∧
      (c.name = "Goto" → ∃ index, c.Index = some index ∧
        (envdata.points.map emit_envelope_point ++ [env_stmt.ENVELOPE_HANG])[j]?
          = some (.ENVELOPE_GOTO index)) ∧
      (c.name = "Restart" →
        (envdata.points.map emit_envelope_point ++ [env_stmt.ENVELOPE_HANG])[j]?
          = some .ENVELOPE_RESTART) ∧
      (c.name = "Hang" →
        (envdata.points.map emit_envelope_point ++ [env_stmt.ENVELOPE_HANG])[j]?
          = some .ENVELOPE_HANG)) := by
  constructor
  · obtain ⟨pad, hpad⟩ := emit_padding_stmt_ok_of_mod4 ((4 * (envdata.n_points + 1)) % 2 ^ 32)
      (by norm_num)
    refine ⟨pad, ?_⟩
    intro empty_num
    simp only [emit_c_envelope, hname, hpad]
  · intro j c hj
    obtain ⟨hel, pt, hpt, hentry⟩ := emit_c_envelope_entry envelopes env envdata name h hname j c hj
    rw [hentry]
    refine ⟨?_, ?_, ?_, ?_, ?_⟩
    · intro hn d a hd ha
      rw [read_envelope_point_plain c hel hn d a hd ha] at hpt
      injection hpt with hpt
      injection hpt with hpt
      subst hpt
      refine ⟨?_, ?_, ?_, ?_, ?_⟩
      · intro h0 h1 h2 h3
        simp [emit_envelope_point, ADSR_DISABLE, ADSR_GOTO, ADSR_HANG, ADSR_RESTART, h0, h1, h2,
          h3]
      · intro h0
        simp [emit_envelope_point, ADSR_DISABLE, h0]
      · intro h1
        simp [emit_envelope_point, ADSR_DISABLE, ADSR_GOTO, ADSR_HANG, h1]
      · intro h2
        simp [emit_envelope_point, ADSR_DISABLE, ADSR_GOTO, h2]
      · intro h3
        simp [emit_envelope_point, ADSR_DISABLE, ADSR_GOTO, ADSR_HANG, ADSR_RESTART, h3]
    · intro hn
      have hc : read_envelope_point c = .ok (some ⟨ADSR_DISABLE, 0⟩) := by
        simp [read_envelope_point, hel, hn]
      rw [hc] at hpt
      injection hpt with hpt
      injection hpt with hpt
      subst hpt
      rfl
    · intro hn
      cases hi : c.Index with
      | none =>
        have hc : read_envelope_point c = .error "Missing required attribute" := by
          simp [read_envelope_point, hel, hn, hi]
        rw [hc] at hpt
        exact Except.noConfusion hpt
      | some index =>
        have hc : read_envelope_point c = .ok (some ⟨ADSR_GOTO, index⟩) := by
          simp [read_envelope_point, hel, hn, hi]
        rw [hc] at hpt
        injection hpt with hpt
        injection hpt with hpt
        subst hpt
        exact ⟨index, rfl, rfl⟩
    · intro hn
      have hc : read_envelope_point c = .ok (some ⟨ADSR_RESTART, 0⟩) := by
        simp [read_envelope_point, hel, hn]
      rw [hc] at hpt
      injection hpt with hpt
      injection hpt with hpt
      subst hpt
      rfl
    · intro hn
      have hc : read_envelope_point c = .ok (some ⟨ADSR_HANG, 0⟩) := by
        simp [read_envelope_point, hel, hn]
      rw [hc] at hpt
      injection hpt with hpt
      injection hpt with hpt
      subst hpt
      rfl

/-- Witness for C30 (amended): in the envelope declared with a plain point, a text node and
the four commands, the first entry is `ENVELOPE_POINT(10, 5)`. -/
theorem emit_c_envelopes_points_witness :
    (ex_env_commands_data.points.map emit_envelope_point ++ [env_stmt.ENVELOPE_HANG])[0]?
      = some (.ENVELOPE_POINT 10 5) :=
  ((((emit_c_envelopes_points [] ex_env_commands ex_env_commands_data "Env2" (by rfl) rfl).2 0
    ⟨true, "Point", some 10, some 5, none⟩ (by rfl)).1 rfl 10 5 rfl rfl).1
    (by decide) (by decide) (by decide) (by decide))

/-! ## C34: deduplicated codebooks that are never written -/

/-- C34 (code bug): a sample can be deduplicated to a sample whose own codebook was not
written. In the list `A`, `B`, `C` the book of `B` compares equal to that of `A` (the first
four coefficients agree), so no book is written for `B`; the book of `C` differs from that of
`A` in its first eight coefficients and agrees with that of `B`, so `C` refers to the book
symbol of `B`, which is defined nowhere in the output. -/
theorem emit_c_samples_dangling_book :
    samples_books_equal (ex_sample "B" 1 1 [1, 2, 3, 4, 50, 60, 70, 80])
      (ex_sample "A" 1 1 [1, 2, 3, 4, 5, 6, 7, 8]) = true ∧
    (∃ dA dB dC size, emit_c_samples ex_samples_chain = .ok ([dA, dB, dC], size) ∧
      (dA.name, dA.bookname, dA.new_book) = ("A", "A", true) ∧
      (dB.name, dB.bookname, dB.new_book) = ("B", "A", false) ∧
      (dC.name, dC.bookname, dC.new_book) = ("C", "B", false) ∧
      ¬ ∃ d ∈ [dA, dB, dC], d.new_book = true ∧ d.bookname = dC.bookname) := by
  refine ⟨by decide, _, _, _, _, by rfl, by rfl, by rfl, by rfl, ?_⟩
  decide

/-! ## C35: the base note of a drum -/

/-- C35 (code bug): `read_drums_info` takes the base note of the referenced sample only when
the waveform has instrument data. The sample `<Sample Name="snare" BaseNote="51"/>`, whose
waveform has no instrument data, is read with the base note 51, but the drum
`<Drum Name="D" Semitone="5" Pan="64" Envelope="Env0" Sample="snare"/>` that refers to it is
rejected with "No basenote for drum". In general a drum without `BaseNote` is read only if
the waveform of its sample has instrument data, and then its base note is that of the
sample. -/
theorem read_drums_info_requires_inst :
    (∃ snare, read_samples_info ex_aifc_of_snare [] none none [ex_sample_node_snare]
        = .ok [snare] ∧
      snare.base_note = 51 ∧ snare.aifc.has_inst = false ∧
      read_drums_info [ex_env] [snare] [] [ex_drum_node_snare]
        = .error "No basenote for drum") ∧
    (∀ envelopes samples drum_node drum name,
      read_drum envelopes samples drum_node = .ok drum → drum.name = some name →
      drum_node.BaseNote = none →
      ∃ sample, sample_data_forname samples drum_node.Sample = some sample ∧
        sample.aifc.has_inst = true ∧ drum.base_note = to_int8 sample.base_note) := by
  refine ⟨⟨_, by rfl, by rfl, by rfl, by rfl⟩, ?_⟩
  intro envelopes samples drum_node drum name h hn hb
  unfold read_drum at h
  by_cases c1 : drum_node.name ≠ "Drum"
  · rw [if_pos c1] at h
    exact Except.noConfusion h
  · rw [if_neg c1] at h
    by_cases c2 : (!drum_node.has_properties) = true
    · rw [if_pos c2] at h
      injection h with h
      subst h
      simp at hn
    · rw [if_neg c2] at h
      cases hN : drum_node.Name with
      | none => simp [hN] at h
      | some nm =>
      cases hP : drum_node.Pan with
      | none => simp [hN, hP] at h
      | some pan =>
      cases hE : drum_node.Envelope with
      | none => simp [hN, hP, hE] at h
      | some en =>
      cases hS : drum_node.Sample with
      | none => simp [hN, hP, hE, hS] at h
      | some sn =>
      simp only [hN, hP, hE, hS] at h
      cases he : sf_get_envelope envelopes (some en) with
      | none => simp [he] at h
      | some envelope =>
      simp only [he] at h
      simp only [hb, Option.getD_none] at h
      split_ifs at h
      all_goals
        cases hs : sample_data_forname samples (some sn) with
        | none => simp [hs] at h
        | some sample =>
          simp only [hs] at h
          split_ifs at h with d4
          injection h with h
          subst h
          refine ⟨sample, rfl, ?_, ?_⟩
          · simpa using d4
          · simp

/-! ## C40: `str_is_c_identifier` -/

theorem str_is_c_identifier_chars_iff (l : List Char) :
    str_is_c_identifier_chars l = true ↔
      ∀ c ∈ l, c = '_' ∨ ('a' ≤ c ∧ c ≤ 'z') ∨ ('A' ≤ c ∧ c ≤ 'Z') ∨ ('0' ≤ c ∧ c ≤ '9') := by
  induction l with
  | nil => simp [str_is_c_identifier_chars]
  | cons c rest ih =>
    unfold str_is_c_identifier_chars
    simp only [List.mem_cons, forall_eq_or_imp]
    by_cases hc : (!(isalpha c || isdigit c || decide (c = '_'))) = true
    · rw [if_pos hc]
      simp only [isalpha, isdigit, Bool.not_eq_true', Bool.or_eq_false_iff, Bool.and_eq_false_iff,
        decide_eq_false_iff_not] at hc
      constructor
      · intro h
        exact absurd h (by simp)
      · rintro ⟨h, _⟩
        exfalso
        obtain ⟨⟨ha, hd⟩, hu⟩ := hc
        rcases h with h | ⟨h1, h2⟩ | ⟨h1, h2⟩ | ⟨h1, h2⟩
        · exact hu h
        · rcases ha.1 with h | h
          · exact h h1
          · exact h h2
        · rcases ha.2 with h | h
          · exact h h1
          · exact h h2
        · rcases hd with h | h
          · exact h h1
          · exact h h2
    · rw [if_neg hc, ih]
      simp only [isalpha, isdigit, Bool.not_eq_true', Bool.not_eq_false, Bool.or_eq_true,
        Bool.and_eq_true, decide_eq_true_eq] at hc
      constructor
      · intro h
        refine ⟨?_, h⟩
        rcases hc with (hc | hc) | hc
        · rcases hc with hc | hc
          · exact Or.inr (Or.inl hc)
          · exact Or.inr (Or.inr (Or.inl hc))
        · exact Or.inr (Or.inr (Or.inr hc))
        · exact Or.inl hc
      · rintro ⟨_, h⟩
        exact h

theorem str_is_c_identifier_kwds_iff (str : String) (l : List String) :
    str_is_c_identifier_kwds str l = true ↔ str ∉ l := by
  induction l with
  | nil => simp [str_is_c_identifier_kwds]
  | cons k rest ih =>
    unfold str_is_c_identifier_kwds
    by_cases hk : str = k
    · rw [if_pos hk]
      simp [hk]
    · rw [if_neg hk, ih]
      simp [hk]

/-- C40 (code bug): `str_is_c_identifier` accepts the empty string. `str[0]` is then the
terminating NUL, which is no digit, the loop over the characters runs zero times, and no
keyword is empty, so the function returns true although the empty string is no identifier.
On every other string it returns true exactly for the valid identifiers, and it returns
false for `NULL`. -/
theorem str_is_c_identifier_accepts_empty :
    str_is_c_identifier (some "") = true ∧ ¬ is_c_identifier "" ∧
    (∀ s : String, s.toList ≠ [] → (str_is_c_identifier (some s) = true ↔ is_c_identifier s)) ∧
    str_is_c_identifier none = false := by
  refine ⟨by decide, ?_, ?_, rfl⟩
  · intro h
    exact h.1 rfl
  · intro s hs
    unfold str_is_c_identifier is_c_identifier
    simp only
    obtain ⟨c0, rest, hl⟩ : ∃ c0 rest, s.toList = c0 :: rest := by
      cases hc : s.toList with
      | nil => exact absurd hc hs
      | cons c0 rest => exact ⟨c0, rest, rfl⟩
    have h0 : char_at s.toList 0 = c0 := by
      rw [hl]
      rfl
    have hhead : (∀ c, s.toList.head? = some c → ¬ ('0' ≤ c ∧ c ≤ '9')) ↔ isdigit c0 = false := by
      rw [hl]
      simp [isdigit]
    rw [h0, hhead]
    by_cases hd : isdigit c0 = true
    · rw [if_pos hd]
      simp [hd]
    · rw [if_neg hd]
      have hd2 : isdigit c0 = false := by simpa using hd
      by_cases hch : (!str_is_c_identifier_chars s.toList) = true
      · rw [if_pos hch]
        have hch2 : ¬ str_is_c_identifier_chars s.toList = true := by simpa using hch
        rw [str_is_c_identifier_chars_iff] at hch2
        constructor
        · intro h
          exact absurd h (by simp)
        · rintro ⟨_, h, _⟩
          exact absurd h hch2
      · rw [if_neg hch]
        have hch2 : str_is_c_identifier_chars s.toList = true := by simpa using hch
        rw [str_is_c_identifier_kwds_iff]
        rw [str_is_c_identifier_chars_iff] at hch2
        exact ⟨fun h => ⟨hs, hch2, hd2, h⟩, fun h => h.2.2.2⟩

/-! ## C38: MIDI note numbers -/

set_option maxRecDepth 100000 in
theorem pitch_frequencies_length : pitch_frequencies.length = 128 := by rfl

set_option maxRecDepth 100000 in
theorem note_names_length : note_names.length = 128 := by rfl

/-- C38: for every MIDI note number `m` with `0 <= m <= 127`, `midinote_to_z64note(m)` is
`(m - 21) mod 128`, lies in 0..127, so it is an index of the 128-entry pitch table of
`calc_tuning` and of the 128-entry table of `z64_note_name`; the function is injective on
that range, and it maps middle C (60) to 39. -/
theorem midinote_to_z64note_range (m : Int) (h0 : 0 ≤ m) (h1 : m ≤ 127) :
    midinote_to_z64note m = (m - 21) % 128 ∧
    0 ≤ midinote_to_z64note m ∧ midinote_to_z64note m ≤ 127 ∧
    (∃ pitch, pitch_frequencies[(midinote_to_z64note m).toNat]? = some pitch) ∧
    (∃ name, z64_note_name (midinote_to_z64note m) = some name) ∧
    (∀ m2 : Int, 0 ≤ m2 → m2 ≤ 127 → midinote_to_z64note m2 = midinote_to_z64note m → m2 = m) ∧
    midinote_to_z64note 60 = 39 := by
  have hval : midinote_to_z64note m = (m - 21) % 128 := by
    unfold midinote_to_z64note
    simp only
    split_ifs with h <;> omega
  have hlo : 0 ≤ midinote_to_z64note m := by rw [hval]; omega
  have hhi : midinote_to_z64note m ≤ 127 := by rw [hval]; omega
  have hidx : (midinote_to_z64note m).toNat < 128 := by omega
  refine ⟨hval, hlo, hhi, ?_, ?_, ?_, by decide⟩
  · exact ⟨_, List.getElem?_eq_getElem (by rw [pitch_frequencies_length]; exact hidx)⟩
  · unfold z64_note_name
    rw [if_neg (by omega)]
    exact ⟨_, List.getElem?_eq_getElem (by rw [note_names_length]; exact hidx)⟩
  · intro m2 h2 h3 heq
    have hval2 : midinote_to_z64note m2 = (m2 - 21) % 128 := by
      unfold midinote_to_z64note
      simp only
      split_ifs with h <;> omega
    rw [hval, hval2] at heq
    omega

/-- Witness for C38: middle C. -/
theorem midinote_to_z64note_range_witness :
    midinote_to_z64note 60 = (60 - 21) % 128 ∧ 0 ≤ midinote_to_z64note 60 ∧
      midinote_to_z64note 60 ≤ 127 :=
  ⟨(midinote_to_z64note_range 60 (by decide) (by decide)).1,
    (midinote_to_z64note_range 60 (by decide) (by decide)).2.1,
    (midinote_to_z64note_range 60 (by decide) (by decide)).2.2.1⟩

/-! ## C39: the header -/

theorem read_instr_named (resolve : xml_instr → Except String Unit) (sf : instr_state)
    (lsi : Int) (node : xml_instr) (sf1 : instr_state) (lsi1 : Int)
    (h : read_instr resolve sf lsi node = .ok (sf1, lsi1))
    (hu : node.name ≠ "InstrumentUnused") (hp : node.has_properties = true) :
    node.Name ≠ none := by
  unfold read_instr at h
  simp only at h
  split_ifs at h with h1 h2 h3
  · simp [hp] at h2
  · intro hn
    apply h3
    simp [hu, hn]

/-- The pointer table after one more node is read. -/
theorem read_instr_ptrs (resolve : xml_instr → Except String Unit) (sf : instr_state)
    (lsi : Int) (node : xml_instr) (sf1 : instr_state) (lsi1 : Int)
    (h : read_instr resolve sf lsi node = .ok (sf1, lsi1))
    (hlog : sf.instruments = List.range sf.n_alloc) :
    sf1.instruments = List.range sf1.n_alloc ∧
    (sf1.instruments.filter (fun a => !(sf1.heap a).unused)).map (fun a => (sf1.heap a).name)
      = (sf.instruments.filter (fun a => !(sf.heap a).unused)).map (fun a => (sf.heap a).name)
        ++ (if node.name = "InstrumentUnused" then []
            else [if node.has_properties = false then none else node.Name]) := by
  obtain ⟨f1, f2, _, f4, f5, f6⟩ := read_instr_frame resolve sf lsi node sf1 lsi1 h
  constructor
  · rw [f2, f1, hlog, List.range_succ]
  · rw [f2, List.filter_append, List.map_append]
    have hold : sf.instruments.filter (fun a => !(sf1.heap a).unused)
        = sf.instruments.filter (fun a => !(sf.heap a).unused) := by
      apply List.filter_congr
      intro a ha
      rw [hlog, List.mem_range] at ha
      rw [(f4 a (by omega)).1]
    have hmap : (sf.instruments.filter (fun a => !(sf.heap a).unused)).map
          (fun a => (sf1.heap a).name)
        = (sf.instruments.filter (fun a => !(sf.heap a).unused)).map
          (fun a => (sf.heap a).name) := by
      apply List.map_congr_left
      intro a ha
      have ha2 := (List.mem_filter.mp ha).1
      rw [hlog, List.mem_range] at ha2
      exact (f4 a (by omega)).2
    rw [hold, hmap]
    congr 1
    by_cases hu : node.name = "InstrumentUnused"
    · simp [List.filter, f5, hu]
    · simp only [List.filter, f5, hu, decide_False, Bool.not_false, List.map_cons, List.map_nil,
        if_false, f6]
      by_cases hp : node.has_properties = false
      · simp [hp, hu]
      · simp [hp]

theorem read_instrs_loop_ptrs (resolve : xml_instr → Except String Unit) :
    ∀ (instrs : List xml_instr) (sf : instr_state) (lsi : Int) (sf1 : instr_state),
      read_instrs_loop resolve sf lsi instrs = .ok sf1 →
      sf.instruments = List.range sf.n_alloc →
      (sf1.instruments.filter (fun a => !(sf1.heap a).unused)).map (fun a => (sf1.heap a).name)
        = (sf.instruments.filter (fun a => !(sf.heap a).unused)).map
            (fun a => (sf.heap a).name)
          ++ (instrs.filter
                (fun n => n.is_element && !decide (n.name = "InstrumentUnused"))).map
              (fun n => if n.has_properties = false then none else n.Name) ∧
      ∀ n ∈ instrs, n.is_element = true → n.name ≠ "InstrumentUnused" →
        n.has_properties = true → n.Name ≠ none := by
  intro instrs
  induction instrs with
  | nil =>
    intro sf lsi sf1 h _
    simp only [read_instrs_loop] at h
    injection h with h
    subst h
    simp
  | cons node rest ih =>
    intro sf lsi sf1 h hlog
    by_cases hel : (!node.is_element) = true
    · simp only [read_instrs_loop] at h
      rw [if_pos hel] at h
      have helf : node.is_element = false := by simpa using hel
      obtain ⟨i1, i2⟩ := ih sf lsi sf1 h hlog
      refine ⟨?_, ?_⟩
      · rw [i1]
        simp [List.filter, helf]
      · intro n hn
        rcases List.mem_cons.mp hn with hn | hn
        · subst hn
          intro he
          rw [helf] at he
          exact absurd he (by decide)
        · exact i2 n hn
    · simp only [read_instrs_loop] at h
      rw [if_neg hel] at h
      have helt : node.is_element = true := by simpa using hel
      cases hr : read_instr resolve sf lsi node with
      | error e => rw [hr] at h; simp at h
      | ok r =>
        obtain ⟨sf2, lsi2⟩ := r
        rw [hr] at h
        simp only at h
        obtain ⟨j1, j2⟩ := read_instr_ptrs resolve sf lsi node sf2 lsi2 hr hlog
        obtain ⟨i1, i2⟩ := ih sf2 lsi2 sf1 h j1
        refine ⟨?_, ?_⟩
        · rw [i1, j2, List.append_assoc]
          congr 1
          by_cases hu : node.name = "InstrumentUnused"
          · simp [List.filter, helt, hu]
          · simp [List.filter, helt, hu]
        · intro n hn
          rcases List.mem_cons.mp hn with hn | hn
          · subst hn
            intro _ hu hp
            exact read_instr_named resolve sf lsi n sf2 lsi2 hr hu hp
          · exact i2 n hn

/-- C39: for every bank read by `read_instrs_info`, `emit_c_header` returns
`ALIGN16(8 + 4 * k)`, where `k` is the number of entries of the logical instrument list that
are not `InstrumentUnused`; the two fixed pointer fields are always written, and the
instrument pointer table has exactly `k` entries, one per such entry in reading order:
`NULL` for a placeholder `<Instrument/>` and the address of the instrument, which has a name,
otherwise. -/
theorem emit_c_header_spec (resolve : xml_instr → Except String Unit)
    (instrs : List xml_instr) (sf : instr_state)
    (h : read_instrs_info resolve instrs = .ok sf) (has_drums has_sfx : Bool) :
    ∃ hd, emit_c_header sf has_drums has_sfx
        = .ok (hd, ALIGN16 (8 + 4 * (sf.instruments.filter
            (fun a => !(sf.heap a).unused)).length)) ∧
      hd.drums_ptr = has_drums ∧ hd.sfx_ptr = has_sfx ∧
      (sf.instruments.filter (fun a => !(sf.heap a).unused)).length
        = (instrs.filter
            (fun n => n.is_element && !decide (n.name = "InstrumentUnused"))).length ∧
      hd.instr_ptrs.length
        = (sf.instruments.filter (fun a => !(sf.heap a).unused)).length ∧
      hd.instr_ptrs
        = (instrs.filter (fun n => n.is_element && !decide (n.name = "InstrumentUnused"))).map
            (fun n => if n.has_properties = false then none else n.Name) ∧
      (∀ n ∈ instrs, n.is_element = true → n.name ≠ "InstrumentUnused" →
        n.has_properties = true → n.Name ≠ none) := by
  obtain ⟨p1, p2⟩ := read_instrs_loop_ptrs resolve instrs instr_state.init 0 sf h rfl
  have p1b : (sf.instruments.filter (fun a => !(sf.heap a).unused)).map
        (fun a => (sf.heap a).name)
      = (instrs.filter (fun n => n.is_element && !decide (n.name = "InstrumentUnused"))).map
          (fun n => if n.has_properties = false then none else n.Name) := by
    rw [p1]
    simp [instr_state.init]
  have hlen := congrArg List.length p1b
  simp only [List.length_map] at hlen
  obtain ⟨pad, hpad⟩ := emit_padding_stmt_ok_of_mod4
    ((4 + 4 + 4 * (sf.instruments.filter (fun a => !(sf.heap a).unused)).length) % 2 ^ 32)
    (by omega)
  refine ⟨⟨has_drums, has_sfx,
    (sf.instruments.filter (fun a => !(sf.heap a).unused)).map (fun a => (sf.heap a).name),
    pad⟩, ?_, rfl, rfl, hlen, by simp, p1b, p2⟩
  unfold emit_c_header
  simp only [hpad]

/-- Witness for C39: a placeholder, a reservation and a named instrument give the size 16
(and a table of two pointers, `NULL` and `&A`). -/
theorem emit_c_header_spec_witness :
    ∃ hd, emit_c_header ex_instrs_header true false = .ok (hd, 16) :=
  (emit_c_header_spec (resolve_in ex_tuning [ex_env] [ex_kick])
    [ex_instr_placeholder, ex_instr_unused, ex_instr_a] ex_instrs_header (by rfl)
    true false).imp (fun _ h => h.1)

/-! ## C33: the positions handed to `emit_padding_stmt` -/

theorem emit_padding_stmt_of_mod16_8 (pos : Nat) (h : pos % 16 = 8) :
    emit_padding_stmt pos = .ok [.SF_PAD8] := by
  have hk := pad_amount_eq pos
  rw [h] at hk
  norm_num at hk
  simp [emit_padding_stmt, hk]

theorem book_size_mod16 (a b : Nat) : ((8 + (2 * 8 * a * b) % 2 ^ 32) % 2 ^ 32) % 16 = 8 := by
  have h : 2 * 8 * a * b = 16 * (a * b) := by ring
  rw [h]
  generalize a * b = q
  omega

theorem codec_enum_error (compression_type : Nat) (e : String)
    (h : codec_enum compression_type = .error e) : e = "Bad compression type in aifc file" := by
  unfold codec_enum at h
  split_ifs at h
  injection h with h
  exact h.symm

/-- One sample is written unless its compression type is unknown, and a book block that is
written is followed by `SF_PAD8`. -/
theorem emit_c_sample_cases (samples : List sample_data) (i : Nat) (sample : sample_data) :
    (∃ d sz, emit_c_sample samples i sample = .ok (d, sz) ∧
      (d.new_book = true → d.book_padding = [.SF_PAD8])) ∨
    emit_c_sample samples i sample = .error "Bad compression type in aifc file" := by
  unfold emit_c_sample
  simp only
  cases hc : codec_enum sample.aifc.compression_type with
  | error e =>
    right
    rw [codec_enum_error _ e hc]
  | ok c =>
    left
    simp only
    cases hnb : (find_book sample i samples 0).isNone with
    | true =>
      simp only [if_true]
      rw [emit_padding_stmt_of_mod16_8 _ (book_size_mod16 _ _)]
      exact ⟨_, _, rfl, fun _ => rfl⟩
    | false =>
      simp only [Bool.false_eq_true, if_false]
      exact ⟨_, _, rfl, fun h => absurd h (by simp)⟩

theorem emit_c_samples_loop_error (samples : List sample_data) :
    ∀ (l : List sample_data) (i size : Nat) (e : String),
      emit_c_samples_loop samples l i size = .error e →
      e = "Bad compression type in aifc file" := by
  intro l
  induction l with
  | nil =>
    intro i size e h
    simp [emit_c_samples_loop] at h
  | cons s0 rest ih =>
    intro i size e h
    unfold emit_c_samples_loop at h
    rcases emit_c_sample_cases samples i s0 with ⟨d, sz, h0, _⟩ | h0
    · rw [h0] at h
      simp only at h
      cases h1 : emit_c_samples_loop samples rest (i + 1) (size + sz) with
      | error e1 =>
        rw [h1] at h
        simp only at h
        injection h with h
        rw [← h]
        exact ih _ _ _ h1
      | ok r =>
        rw [h1] at h
        exact Except.noConfusion h
    · rw [h0] at h
      simp only at h
      injection h with h
      exact h.symm

theorem emit_c_envelopes_loop_ok :
    ∀ (l : List envelope_data) (empty_num size : Nat),
      ∃ decls total, emit_c_envelopes_loop l empty_num size = .ok (decls, total) := by
  intro l
  induction l with
  | nil =>
    intro empty_num size
    exact ⟨_, _, rfl⟩
  | cons envdata rest ih =>
    intro empty_num size
    have h0 : ∃ decl sz, emit_c_envelope empty_num envdata = .ok (decl, sz) := by
      unfold emit_c_envelope
      cases hn : envdata.name with
      | none => exact ⟨_, _, rfl⟩
      | some name =>
        simp only
        obtain ⟨pad, hpad⟩ := emit_padding_stmt_ok_of_mod4
          ((4 * (envdata.n_points + 1)) % 2 ^ 32) (by omega)
        rw [hpad]
        exact ⟨_, _, rfl⟩
    obtain ⟨decl, sz, h0⟩ := h0
    obtain ⟨decls, total, h1⟩ :=
      ih (if envdata.name = none then empty_num + 1 else empty_num) (size + sz)
    unfold emit_c_envelopes_loop
    rw [h0]
    simp only
    rw [h1]
    exact ⟨_, _, rfl⟩

theorem emit_c_drums_loop_error {R T : Type} (calc_tuning : R → Int → T) :
    ∀ (drums : List (drum_data R)) (acc : drums_acc T) (e : String),
      emit_c_drums_loop calc_tuning drums acc = .error e → e = "Bad drum range" := by
  intro drums
  induction drums with
  | nil =>
    intro acc e h
    simp [emit_c_drums_loop] at h
  | cons drum rest ih =>
    intro acc e h
    unfold emit_c_drums_loop at h
    by_cases hn : drum.name = none
    · rw [if_pos hn] at h
      exact ih _ _ h
    · rw [if_neg hn] at h
      simp only at h
      unfold emit_c_drum at h
      simp only at h
      by_cases hr : drum.semitone_end + 1 > 64
      · rw [if_pos hr] at h
        simp only at h
        injection h with h
        exact h.symm
      · rw [if_neg hr] at h
        simp only at h
        exact ih _ _ h

/-- C33: no emitter can raise "[Internal] Bad alignment generated": every position handed
to `emit_padding_stmt` is a multiple of 4. `emit_c_header` and `emit_c_envelopes` always
succeed; `emit_c_samples` can only fail for an unknown compression type and `emit_c_drums`
only for a bad drum range or table length. The position after a codebook is 8 modulo 16, so
every codebook block that is written is followed by `SF_PAD8`, 8 bytes of padding. -/
theorem emit_padding_positions :
    (∀ k : Nat, ((4 + 4 + 4 * k) % 2 ^ 32) % 4 = 0) ∧
    (∀ order npredictors : Int,
      ((8 + (2 * 8 * to_unsigned order * to_unsigned npredictors) % 2 ^ 32) % 2 ^ 32) % 16
        = 8) ∧
    (∀ n_points : Nat, ((4 * (n_points + 1)) % 2 ^ 32) % 4 = 0) ∧
    (∀ table_len : Nat, ((table_len * 4) % 2 ^ 32) % 4 = 0) ∧
    (∀ pos, pos % 4 = 0 → ∃ pad, emit_padding_stmt pos = .ok pad) ∧
    (∀ sf has_drums has_sfx, ∃ hd size, emit_c_header sf has_drums has_sfx = .ok (hd, size)) ∧
    (∀ envelopes, ∃ decls size, emit_c_envelopes envelopes = .ok (decls, size)) ∧
    (∀ samples e, emit_c_samples samples = .error e →
      e = "Bad compression type in aifc file") ∧
    (∀ samples decls size, emit_c_samples samples = .ok (decls, size) →
      ∀ d ∈ decls, d.new_book = true →
        d.book_padding = [.SF_PAD8] ∧ (d.book_padding.map pad_stmt.bytes).sum = 8) ∧
    (∀ (R T : Type) (calc_tuning : R → Int → T) (drums : List (drum_data R)) (e : String),
      emit_c_drums calc_tuning drums = .error e →
      e = "Bad drum range" ∨ e = "Bad drum pointer table length") ∧
    (∃ d size, emit_c_samples [ex_sample "S1" 2 1 ex_coefs] = .ok ([d], size) ∧
      d.new_book = true ∧ d.book_padding = [.SF_PAD8]) := by
  refine ⟨fun k => by omega, fun a b => book_size_mod16 _ _, fun n => by omega,
    fun n => by omega, emit_padding_stmt_ok_of_mod4, ?_, ?_, ?_, ?_, ?_, ⟨_, _, by rfl, rfl, rfl⟩⟩
  · intro sf has_drums has_sfx
    obtain ⟨pad, hpad⟩ := emit_padding_stmt_ok_of_mod4
      ((4 + 4 + 4 * (sf.instruments.filter (fun a => !(sf.heap a).unused)).length) % 2 ^ 32)
      (by omega)
    unfold emit_c_header
    simp only [hpad]
    exact ⟨_, _, rfl⟩
  · intro envelopes
    exact emit_c_envelopes_loop_ok envelopes 0 0
  · intro samples e h
    exact emit_c_samples_loop_error samples samples 0 0 e h
  · intro samples decls size h d hd hnew
    obtain ⟨hlen, hget⟩ := emit_c_samples_loop_get samples samples 0 0 decls size h
    obtain ⟨k, hk, hdk⟩ := List.getElem_of_mem hd
    have hk2 : k < samples.length := by rw [← hlen]; exact hk
    obtain ⟨d2, sz, hd2, he⟩ := hget k samples[k] (List.getElem?_eq_getElem hk2)
    rw [List.getElem?_eq_getElem hk, hdk] at hd2
    injection hd2 with hd2
    subst hd2
    rcases emit_c_sample_cases samples (0 + k) samples[k] with ⟨d3, sz3, h3, hp⟩ | h3
    · rw [h3] at he
      injection he with he
      injection he with he _
      subst he
      have := hp hnew
      rw [this]
      exact ⟨rfl, rfl⟩
    · rw [h3] at he
      exact Except.noConfusion he
  · intro R T calc_tuning drums e h
    unfold emit_c_drums at h
    by_cases hemp : drums.isEmpty = true
    · rw [if_pos hemp] at h
      exact Except.noConfusion h
    · rw [if_neg hemp] at h
      cases hl : emit_c_drums_loop calc_tuning drums ⟨ptr_table_init, -1, 0, []⟩ with
      | error e1 =>
        rw [hl] at h
        simp only at h
        injection h with h
        left
        rw [← h]
        exact emit_c_drums_loop_error calc_tuning drums _ _ hl
      | ok acc =>
        rw [hl] at h
        simp only at h
        by_cases ht : to_size_t (acc.max_semitone + 1) > 64
        · rw [if_pos ht] at h
          injection h with h
          right
          exact h.symm
        · rw [if_neg ht] at h
          obtain ⟨pad, hpad⟩ := emit_padding_stmt_ok_of_mod4
            ((to_size_t (acc.max_semitone + 1) * 4) % 2 ^ 32) (by omega)
          rw [hpad] at h
          exact Except.noConfusion h

/-! ## C37: the buffer of `read_match_padding` -/

/-- Every byte the loop stores stands for five characters of the text: the four of its token
and the one after it. -/
theorem read_match_padding_loop_count (data_str : List Char) (bound : Nat)
    (hbound : 4 ≤ data_str.length → bound + 4 ≤ data_str.length) :
    ∀ (fuel i : Nat) (must_be_delimiter : Bool) (padding result : List Nat),
      read_match_padding_loop data_str bound fuel i must_be_delimiter padding = .ok result →
      5 * padding.length ≤ data_str.length →
      (must_be_delimiter = true → 5 * padding.length ≤ i + 1) →
      (must_be_delimiter = false → 5 * padding.length ≤ i) →
      5 * result.length ≤ data_str.length := by
  intro fuel
  induction fuel with
  | zero =>
    intro i mbd padding result h
    exact Except.noConfusion h
  | succ fuel ih =>
    intro i must_be_delimiter padding result h hlen hd1 hd2
    unfold read_match_padding_loop at h
    by_cases c1 : ¬ i < bound
    · rw [if_pos c1] at h
      injection h with h
      subst h
      exact hlen
    · rw [if_neg c1] at h
      by_cases c2 : (isspace (char_at data_str i)
          || decide (char_at data_str i = Char.ofNat 44)) = true
      · rw [if_pos c2] at h
        refine ih _ _ _ _ h hlen (fun hc => absurd hc (by decide)) ?_
        intro _
        cases hm : must_be_delimiter with
        | true => have := hd1 hm; omega
        | false => have := hd2 hm; omega
      · rw [if_neg c2] at h
        by_cases c3 : must_be_delimiter = true
        · rw [if_pos c3] at h
          exact Except.noConfusion h
        · rw [if_neg c3] at h
          by_cases c4 : char_at data_str (i + 0) ≠ '0' ∨ char_at data_str (i + 1) ≠ 'x'
          · rw [if_pos c4] at h
            exact Except.noConfusion h
          · rw [if_neg c4] at h
            simp only [] at h
            by_cases c5 : (!is_hex (toupper (char_at data_str (i + 2)))
                || !is_hex (toupper (char_at data_str (i + 3)))) = true
            · rw [if_pos c5] at h
              exact Except.noConfusion h
            · rw [if_neg c5] at h
              have hlt : i + 3 < data_str.length := by
                by_contra hlt
                have hnul := char_at_of_le data_str (i + 3) (by omega)
                rw [hnul] at c5
                apply c5
                have : is_hex (toupper (Char.ofNat 0)) = false := by decide
                rw [this]
                simp
              have hb := hbound (by omega)
              have hi : 5 * padding.length ≤ i := hd2 (by simpa using c3)
              have hib : i < bound := not_not.mp c1
              split at h
              · refine ih _ _ _ _ h ?_ ?_ (fun hc => absurd hc (by decide))
                · simp only [List.length_append, List.length_singleton]
                  omega
                · intro _
                  simp only [List.length_append, List.length_singleton]
                  omega
              · exact Except.noConfusion h

/-- On a text of fewer than four characters the loop bound has wrapped around, and the loop
runs into the terminating NUL, where it fails. -/
theorem read_match_padding_loop_short (data_str : List Char) (bound : Nat)
    (hshort : data_str.length < 4) (hbound : data_str.length < bound) :
    ∀ (fuel i : Nat) (must_be_delimiter : Bool) (padding : List Nat),
      i ≤ data_str.length → data_str.length + 1 ≤ fuel + i →
      ∃ e, read_match_padding_loop data_str bound fuel i must_be_delimiter padding
        = .error e := by
  intro fuel
  induction fuel with
  | zero =>
    intro i mbd padding h1 h2
    omega
  | succ fuel ih =>
    intro i must_be_delimiter padding h1 h2
    unfold read_match_padding_loop
    have c1 : ¬ ¬ i < bound := by
      rw [not_not]
      omega
    rw [if_neg c1]
    by_cases c2 : (isspace (char_at data_str i)
        || decide (char_at data_str i = Char.ofNat 44)) = true
    · rw [if_pos c2]
      apply ih
      · by_contra hlt
        have hnul := char_at_of_le data_str i (by omega)
        rw [hnul] at c2
        revert c2
        decide
      · omega
    · rw [if_neg c2]
      by_cases c3 : must_be_delimiter = true
      · rw [if_pos c3]
        exact ⟨_, rfl⟩
      · rw [if_neg c3]
        by_cases c4 : char_at data_str (i + 0) ≠ '0' ∨ char_at data_str (i + 1) ≠ 'x'
        · rw [if_pos c4]
          exact ⟨_, rfl⟩
        · rw [if_neg c4]
          simp only []
          by_cases c5 : (!is_hex (toupper (char_at data_str (i + 2)))
              || !is_hex (toupper (char_at data_str (i + 3)))) = true
          · rw [if_pos c5]
            exact ⟨_, rfl⟩
          · exfalso
            have hnul := char_at_of_le data_str (i + 3) (by omega)
            rw [hnul] at c5
            apply c5
            have : is_hex (toupper (Char.ofNat 0)) = false := by decide
            rw [this]
            simp

theorem to_size_t_sub4 (n : Nat) :
    (4 ≤ n → to_size_t ((n : Int) - 4) + 4 ≤ n) ∧ (n < 4 → n < to_size_t ((n : Int) - 4)) := by
  unfold to_size_t
  constructor
  · intro h
    omega
  · intro h
    omega

/-- C37: for every text on which `read_match_padding` succeeds, the number of bytes it stores
is at most the length of the text divided by 5 (rounded down), the size of the buffer it
allocates; and for every text shorter than four characters it fails with an error (the loop
always ends, so the error is one of the source). -/
theorem read_match_padding_capacity (padding_decl : xml_padding) (padding : List Nat)
    (h : read_match_padding padding_decl = .ok padding) :
    (∃ data_str, padding_decl.children = [some data_str] ∧
      padding.length ≤ data_str.length / 5) ∧
    (∀ data_str : List Char, data_str.length < 4 →
      ∃ e, read_match_padding ⟨false, [some data_str]⟩ = .error e ∧ e ≠ loop_error) := by
  constructor
  · unfold read_match_padding at h
    by_cases c1 : padding_decl.has_properties = true
    · rw [if_pos c1] at h
      exact Except.noConfusion h
    · rw [if_neg c1] at h
      cases hc : padding_decl.children with
      | nil =>
        rw [hc] at h
        exact Except.noConfusion h
      | cons c rest =>
        rw [hc] at h
        cases c with
        | none => exact Except.noConfusion h
        | some data_str =>
          simp only at h
          by_cases c2 : (!rest.isEmpty) = true
          · rw [if_pos c2] at h
            exact Except.noConfusion h
          · rw [if_neg c2] at h
            have hrest : rest = [] := by
              cases rest with
              | nil => rfl
              | cons a b => simp at c2
            subst hrest
            refine ⟨data_str, rfl, ?_⟩
            have hcount := read_match_padding_loop_count data_str
              (to_size_t ((data_str.length : Int) - 4)) (to_size_t_sub4 data_str.length).1
              (data_str.length + 1) 0 false [] padding h (by simp) (fun hc => absurd hc (by decide))
              (fun _ => by simp)
            omega
  · intro data_str hshort
    have hloop := read_match_padding_loop_short data_str
      (to_size_t ((data_str.length : Int) - 4)) hshort
      ((to_size_t_sub4 data_str.length).2 hshort) (data_str.length + 1) 0 false []
      (Nat.zero_le _) (le_refl _)
    obtain ⟨e, he⟩ := hloop
    have hrun : read_match_padding ⟨false, [some data_str]⟩ = .error e := by
      simp only [read_match_padding, Bool.false_eq_true, if_false, List.isEmpty_nil,
        Bool.not_true]
      exact he
    refine ⟨e, hrun, ?_⟩
    intro hl
    rw [hl] at hrun
    exact read_match_padding_total _ hrun

/-- Witness for C37: the text `0xAB, 0xcd` followed by a line break has 11 characters and
yields two bytes. -/
theorem read_match_padding_capacity_witness :
    ∃ data_str, ex_padding_two_newline.children = [some data_str] ∧
      ([0xAB, 0xCD] : List Nat).length ≤ data_str.length / 5 :=
  (read_match_padding_capacity ex_padding_two_newline [0xAB, 0xCD] (by rfl)).1

/-! ## C36: the default struct index -/

theorem link_struct_index (sf sf' : instr_state) (n : Nat) (h : link_struct sf n = some sf') :
    ∀ a, (sf'.heap a).struct_index = (sf.heap a).struct_index := by
  unfold link_struct at h
  cases hs : sf.instruments_struct with
  | none =>
    rw [hs] at h
    simp only at h
    injection h with h
    subst h
    intro a
    simp [set_prev_struct, set_next_struct]
    split_ifs <;> rfl
  | some head =>
    rw [hs] at h
    simp only at h
    by_cases hge : (sf.heap n).struct_index ≥ (sf.heap head).struct_index
    · rw [if_pos hge] at h
      injection h with h
      subst h
      intro a
      simp [set_prev_struct, set_next_struct]
      split_ifs <;> rfl
    · rw [if_neg hge] at h
      cases hw : walk_struct sf.heap (sf.heap n).struct_index sf.n_alloc head with
      | none => rw [hw] at h; exact Option.noConfusion h
      | some instr2 =>
        rw [hw] at h
        simp only at h
        cases hn : (sf.heap instr2).next_struct with
        | none =>
          rw [hn] at h
          simp only at h
          injection h with h
          subst h
          intro a
          simp [set_prev_struct, set_next_struct]
          split_ifs <;> rfl
        | some nx =>
          rw [hn] at h
          simp only at h
          injection h with h
          subst h
          intro a
          simp [set_prev_struct, set_next_struct]
          split_ifs <;> rfl

/-- The struct index written by one iteration of `read_instrs_info`, and the new value of
`last_struct_index`. -/
theorem read_instr_index (resolve : xml_instr → Except String Unit) (sf : instr_state)
    (lsi : Int) (node : xml_instr) (sf1 : instr_state) (lsi1 : Int)
    (h : read_instr resolve sf lsi node = .ok (sf1, lsi1)) :
    (∀ a, a ≠ sf.n_alloc → (sf1.heap a).struct_index = (sf.heap a).struct_index) ∧
    ((!node.has_properties && !decide (node.name = "InstrumentUnused")) = true → lsi1 = lsi) ∧
    (¬ (!node.has_properties && !decide (node.name = "InstrumentUnused")) = true →
      (sf1.heap sf.n_alloc).struct_index = node.MatchOrder.getD lsi ∧
      lsi1 = to_int (node.MatchOrder.getD lsi + 1)) := by
  have hcount : ∀ u : Bool, (count_instr sf u).n_alloc = sf.n_alloc ∧
      (count_instr sf u).heap = sf.heap := by
    intro u
    cases u <;> exact ⟨rfl, rfl⟩
  obtain ⟨c1, c3⟩ := hcount (decide (node.name = "InstrumentUnused"))
  unfold read_instr at h
  simp only at h
  split_ifs at h with h1 h2 h3
  · injection h with h
    injection h with h hl
    subst h
    refine ⟨?_, fun _ => hl.symm, fun hc => absurd h2 hc⟩
    intro a ha
    show ((if a = (count_instr sf _).n_alloc then _
        else (count_instr sf _).heap a)).struct_index = (sf.heap a).struct_index
    rw [c1, c3, if_neg ha]
  · cases hr : resolve node with
    | error e => simp [hr] at h
    | ok u =>
      simp only [hr] at h
      cases hl : link_struct (alloc_instr (count_instr sf (decide (node.name = "InstrumentUnused")))
          { name := node.Name, struct_index := node.MatchOrder.getD lsi,
            unused := decide (node.name = "InstrumentUnused") })
          (count_instr sf (decide (node.name = "InstrumentUnused"))).n_alloc with
      | none => simp [hl] at h
      | some sf3 =>
        simp only [hl] at h
        injection h with h
        injection h with h hlsi
        subst h
        have fidx := link_struct_index _ _ _ hl
        refine ⟨?_, fun hc => absurd hc h2, fun _ => ⟨?_, hlsi.symm⟩⟩
        · intro a ha
          show (sf3.heap a).struct_index = _
          rw [fidx a]
          show ((if a = (count_instr sf _).n_alloc then _
              else (count_instr sf _).heap a)).struct_index = (sf.heap a).struct_index
          rw [c1, c3, if_neg ha]
        · show (sf3.heap sf.n_alloc).struct_index = _
          rw [fidx]
          show ((if sf.n_alloc = (count_instr sf _).n_alloc then _
              else (count_instr sf _).heap sf.n_alloc)).struct_index = _
          rw [c1, if_pos rfl]

/-- The struct indices of the records that are written as structures, in reading order,
after one more node is read. -/
theorem read_instr_indices (resolve : xml_instr → Except String Unit) (sf : instr_state)
    (lsi : Int) (node : xml_instr) (sf1 : instr_state) (lsi1 : Int)
    (h : read_instr resolve sf lsi node = .ok (sf1, lsi1))
    (hlog : sf.instruments = List.range sf.n_alloc) :
    sf1.instruments = List.range sf1.n_alloc ∧
    (sf1.instruments.filter
        (fun a => !(decide ((sf1.heap a).name = none) && !(sf1.heap a).unused))).map
      (fun a => (sf1.heap a).struct_index)
      = (sf.instruments.filter
          (fun a => !(decide ((sf.heap a).name = none) && !(sf.heap a).unused))).map
        (fun a => (sf.heap a).struct_index)
        ++ (if (!node.has_properties && !decide (node.name = "InstrumentUnused")) = true then []
            else [node.MatchOrder.getD lsi]) := by
  obtain ⟨f1, f2, _, f4, f5, f6⟩ := read_instr_frame resolve sf lsi node sf1 lsi1 h
  obtain ⟨g1, _, g3⟩ := read_instr_index resolve sf lsi node sf1 lsi1 h
  constructor
  · rw [f2, f1, hlog, List.range_succ]
  · rw [f2, List.filter_append, List.map_append]
    have hold : sf.instruments.filter
          (fun a => !(decide ((sf1.heap a).name = none) && !(sf1.heap a).unused))
        = sf.instruments.filter
          (fun a => !(decide ((sf.heap a).name = none) && !(sf.heap a).unused)) := by
      apply List.filter_congr
      intro a ha
      rw [hlog, List.mem_range] at ha
      rw [(f4 a (by omega)).1, (f4 a (by omega)).2]
    have hmap : (sf.instruments.filter
          (fun a => !(decide ((sf.heap a).name = none) && !(sf.heap a).unused))).map
          (fun a => (sf1.heap a).struct_index)
        = (sf.instruments.filter
          (fun a => !(decide ((sf.heap a).name = none) && !(sf.heap a).unused))).map
          (fun a => (sf.heap a).struct_index) := by
      apply List.map_congr_left
      intro a ha
      have ha2 := (List.mem_filter.mp ha).1
      rw [hlog, List.mem_range] at ha2
      exact g1 a (by omega)
    rw [hold, hmap]
    congr 1
    by_cases hp : (!node.has_properties && !decide (node.name = "InstrumentUnused")) = true
    · rw [if_pos hp]
      have hp2 : node.has_properties = false ∧ node.name ≠ "InstrumentUnused" := by
        simpa using hp
      simp [List.filter, f5, f6, hp2.1, hp2.2]
    · rw [if_neg hp]
      obtain ⟨i1, _⟩ := g3 hp
      by_cases hu : node.name = "InstrumentUnused"
      · simp [List.filter, f5, hu, i1]
      · have hprop : node.has_properties = true := by
          simp only [Bool.and_eq_true, Bool.not_eq_true', decide_eq_false_iff_not, not_and,
            not_not] at hp
          by_contra hc
          exact hu (hp (by simpa using hc))
        have hnamed := read_instr_named resolve sf lsi node sf1 lsi1 h hu hprop
        simp [List.filter, f5, f6, hu, hprop, hnamed, i1]

theorem default_struct_indices_cons (last : Int) (node : xml_instr) (rest : List xml_instr) :
    default_struct_indices last (node :: rest)
      = if (!node.is_element ||
            (!node.has_properties && !decide (node.name = "InstrumentUnused"))) = true
        then default_struct_indices last rest
        else node.MatchOrder.getD last
          :: default_struct_indices (node.MatchOrder.getD last + 1) rest := by
  rfl

theorem read_instrs_loop_indices (resolve : xml_instr → Except String Unit) :
    ∀ (instrs : List xml_instr) (sf : instr_state) (lsi : Int) (sf1 : instr_state),
      read_instrs_loop resolve sf lsi instrs = .ok sf1 →
      sf.instruments = List.range sf.n_alloc →
      (∀ v ∈ default_struct_indices lsi instrs, to_int (v + 1) = v + 1) →
      (sf1.instruments.filter
          (fun a => !(decide ((sf1.heap a).name = none) && !(sf1.heap a).unused))).map
        (fun a => (sf1.heap a).struct_index)
        = (sf.instruments.filter
            (fun a => !(decide ((sf.heap a).name = none) && !(sf.heap a).unused))).map
          (fun a => (sf.heap a).struct_index)
          ++ default_struct_indices lsi instrs := by
  intro instrs
  induction instrs with
  | nil =>
    intro sf lsi sf1 h _ _
    simp only [read_instrs_loop] at h
    injection h with h
    subst h
    simp [default_struct_indices]
  | cons node rest ih =>
    intro sf lsi sf1 h hlog hfit
    by_cases hel : (!node.is_element) = true
    · simp only [read_instrs_loop] at h
      rw [if_pos hel] at h
      have hd : default_struct_indices lsi (node :: rest) = default_struct_indices lsi rest := by
        rw [default_struct_indices_cons, if_pos (by simp [hel])]
      rw [hd] at hfit ⊢
      exact ih sf lsi sf1 h hlog hfit
    · simp only [read_instrs_loop] at h
      rw [if_neg hel] at h
      cases hr : read_instr resolve sf lsi node with
      | error e => rw [hr] at h; simp at h
      | ok r =>
        obtain ⟨sf2, lsi2⟩ := r
        rw [hr] at h
        simp only at h
        obtain ⟨j1, j2⟩ := read_instr_indices resolve sf lsi node sf2 lsi2 hr hlog
        obtain ⟨_, g2, g3⟩ := read_instr_index resolve sf lsi node sf2 lsi2 hr
        have helt : node.is_element = true := by simpa using hel
        by_cases hp : (!node.has_properties && !decide (node.name = "InstrumentUnused")) = true
        · have hd : default_struct_indices lsi (node :: rest)
              = default_struct_indices lsi rest := by
            rw [default_struct_indices_cons,
              if_pos (by simp only [Bool.or_eq_true]; exact Or.inr hp)]
          rw [hd] at hfit ⊢
          rw [g2 hp] at h
          rw [ih sf2 lsi sf1 h j1 hfit, j2, if_pos hp, List.append_nil]
        · have hd : default_struct_indices lsi (node :: rest)
              = node.MatchOrder.getD lsi
                :: default_struct_indices (node.MatchOrder.getD lsi + 1) rest := by
            rw [default_struct_indices_cons, if_neg (by
              simp only [Bool.or_eq_true, not_or]
              exact ⟨by simp [helt], hp⟩)]
          rw [hd] at hfit ⊢
          have hfit0 := hfit _ (List.mem_cons_self _ _)
          rw [(g3 hp).2, hfit0] at h
          rw [ih sf2 _ sf1 h j1 (fun v hv => hfit v (List.mem_cons_of_mem _ hv)), j2,
            if_neg hp, List.append_assoc]
          rfl

theorem default_struct_indices_length :
    ∀ (instrs : List xml_instr) (last : Int),
      (default_struct_indices last instrs).length ≤ instrs.length := by
  intro instrs
  induction instrs with
  | nil =>
    intro last
    simp [default_struct_indices]
  | cons node rest ih =>
    intro last
    rw [default_struct_indices_cons]
    split_ifs
    · have := ih last
      simp only [List.length_cons]
      omega
    · have := ih (node.MatchOrder.getD last + 1)
      simp only [List.length_cons]
      omega

/-- Without `MatchOrder` attributes the indices count up from `last`. -/
theorem default_struct_indices_none :
    ∀ (instrs : List xml_instr) (last : Int),
      (∀ node ∈ instrs, node.is_element = true → node.MatchOrder = none) →
      default_struct_indices last instrs
        = (List.range (default_struct_indices last instrs).length).map
            (fun (j : Nat) => last + (j : Int)) := by
  intro instrs
  induction instrs with
  | nil =>
    intro last _
    simp [default_struct_indices]
  | cons node rest ih =>
    intro last hall
    have hrest : ∀ nd ∈ rest, nd.is_element = true → nd.MatchOrder = none :=
      fun nd hnd => hall nd (by simp [hnd])
    rw [default_struct_indices_cons]
    by_cases hc : (!node.is_element ||
        (!node.has_properties && !decide (node.name = "InstrumentUnused"))) = true
    · rw [if_pos hc]
      exact ih last hrest
    · rw [if_neg hc]
      have hel : node.is_element = true := by
        simp only [Bool.or_eq_true, not_or] at hc
        simpa using hc.1
      have hmo := hall node (by simp) hel
      rw [hmo]
      simp only [Option.getD_none, List.length_cons, List.range_succ_eq_map, List.map_cons,
        List.map_map]
      rw [ih (last + 1) hrest]
      simp only [List.length_map, List.length_range, Nat.cast_zero, add_zero, List.cons.injEq,
        true_and]
      apply List.map_congr_left
      intro j _
      simp only [Function.comp, Nat.cast_succ]
      ring

/-- A filtered initial segment of the natural numbers is strictly increasing. -/
theorem range_filter_sorted (n : Nat) (p : Nat → Bool) :
    ((List.range n).filter p).Pairwise (fun a b => a < b) :=
  (List.pairwise_lt_range n).filter p

/-- The struct indices of a list that `read_instrs_info` reads are those of
`default_struct_indices` as long as no successor of an index overflows `int`. -/
theorem read_instrs_info_indices (resolve : xml_instr → Except String Unit)
    (instrs : List xml_instr) (sf : instr_state)
    (h : read_instrs_info resolve instrs = .ok sf)
    (hfit : ∀ v ∈ default_struct_indices 0 instrs, to_int (v + 1) = v + 1) :
    (sf.instruments.filter
        (fun a => !(decide ((sf.heap a).name = none) && !(sf.heap a).unused))).map
      (fun a => (sf.heap a).struct_index) = default_struct_indices 0 instrs := by
  rw [read_instrs_loop_indices resolve instrs instr_state.init 0 sf h rfl hfit]
  simp [instr_state.init]

/-- Without `MatchOrder` attributes and with fewer than `2^31` nodes the struct indices are
0, 1, 2, ... in reading order, and `emit_c_instruments` writes the structures in reading
order. -/
theorem read_instrs_info_reading_order (resolve : xml_instr → Except String Unit)
    (instrs : List xml_instr) (sf : instr_state)
    (h : read_instrs_info resolve instrs = .ok sf)
    (hmo : ∀ node ∈ instrs, node.is_element = true → node.MatchOrder = none)
    (hlen : instrs.length < 2 ^ 31) :
    (sf.instruments.filter
        (fun a => !(decide ((sf.heap a).name = none) && !(sf.heap a).unused))).map
      (fun a => (sf.heap a).struct_index)
      = (List.range (sf.instruments.filter
          (fun a => !(decide ((sf.heap a).name = none) && !(sf.heap a).unused))).length).map
          (fun (j : Nat) => (j : Int)) ∧
    ∃ decls size, emit_c_instruments sf = .ok (decls, size) ∧
      decls.map (fun d => d.instr)
        = sf.instruments.filter
            (fun a => !(decide ((sf.heap a).name = none) && !(sf.heap a).unused)) := by
  have hnone := default_struct_indices_none instrs 0 hmo
  have hdl := default_struct_indices_length instrs 0
  have hfit : ∀ v ∈ default_struct_indices 0 instrs, to_int (v + 1) = v + 1 := by
    intro v hv
    rw [hnone] at hv
    obtain ⟨j, hj, hjv⟩ := List.mem_map.mp hv
    rw [List.mem_range] at hj
    have hlen2 : instrs.length < 2147483648 := by
      have : (2 : Nat) ^ 31 = 2147483648 := by norm_num
      omega
    unfold to_int
    norm_num
    omega
  have hidx0 := read_instrs_info_indices resolve instrs sf h hfit
  have hrange : (sf.instruments.filter
        (fun a => !(decide ((sf.heap a).name = none) && !(sf.heap a).unused))).map
      (fun a => (sf.heap a).struct_index)
      = (List.range (sf.instruments.filter
          (fun a => !(decide ((sf.heap a).name = none) && !(sf.heap a).unused))).length).map
          (fun (j : Nat) => (j : Int)) := by
    have hlen3 := congrArg List.length hidx0
    simp only [List.length_map] at hlen3
    rw [hidx0, hlen3]
    simpa using hnone
  refine ⟨hrange, ?_⟩
  obtain ⟨l, hl⟩ := (read_instrs_loop_spec resolve instrs instr_state.init 0 []
    struct_inv_init).2 sf h
  have hwalk := walk_prev_struct_of_chain sf.heap l.reverse sf.n_alloc sf.instruments_struct_last
    hl.prev_chain (by simpa using hl.length_le)
  have hlinked : ∀ a ∈ l.reverse, instr_linked (sf.heap a) := by
    intro a ha
    exact ((hl.mem a).mp (by simpa using ha)).2
  have hbody := emit_c_instruments_body_instrs sf.heap l.reverse 0 0 hlinked
  have hemit : emit_c_instruments sf = .ok (emit_c_instruments_body sf.heap l.reverse 0 0) := by
    unfold emit_c_instruments
    rw [hwalk]
  refine ⟨(emit_c_instruments_body sf.heap l.reverse 0 0).1,
    (emit_c_instruments_body sf.heap l.reverse 0 0).2, hemit, ?_⟩
  rw [hbody]
  -- the written records in reading order
  generalize hL : sf.instruments.filter
      (fun a => !(decide ((sf.heap a).name = none) && !(sf.heap a).unused)) = L at hrange
  have hLsorted : L.Pairwise (fun a b => a < b) := by
    rw [← hL, hl.logical]
    exact range_filter_sorted _ _
  have hLmem : ∀ a, a ∈ L ↔ a ∈ l := by
    intro a
    rw [← hL, hl.mem a, List.mem_filter, hl.logical, List.mem_range]
    unfold instr_linked
    simp only [Bool.not_eq_true', Bool.and_eq_false_iff, decide_eq_false_iff_not, not_and,
      Bool.not_eq_false', Bool.not_eq_false]
    constructor
    · rintro ⟨h1, h2⟩
      refine ⟨h1, ?_⟩
      intro hn
      rcases h2 with h | h
      · exact absurd hn h
      · exact h
    · rintro ⟨h1, h2⟩
      refine ⟨h1, ?_⟩
      by_cases hn : (sf.heap a).name = none
      · exact Or.inr (h2 hn)
      · exact Or.inl hn
  have hLidx : ∀ (i : Nat) (hi : i < L.length), (sf.heap L[i]).struct_index = (i : Int) := by
    intro i hi
    have := congrArg (fun x => x[i]?) hrange
    simp only [List.getElem?_map, List.getElem?_eq_getElem hi, Option.map_some',
      List.getElem?_range hi] at this
    injection this
  have hmono : ∀ a ∈ L, ∀ b ∈ L, (sf.heap a).struct_index < (sf.heap b).struct_index → a < b := by
    intro a ha b hb hlt
    obtain ⟨i, hi, hia⟩ := List.getElem_of_mem ha
    obtain ⟨j, hj, hjb⟩ := List.getElem_of_mem hb
    rw [← hia, ← hjb, hLidx i hi, hLidx j hj] at hlt
    have hij : i < j := by exact_mod_cast hlt
    rw [← hia, ← hjb]
    exact (List.pairwise_iff_getElem.mp hLsorted) i j hi hj hij
  have hrev : l.reverse.Pairwise (fun a b => a < b) := by
    rw [List.pairwise_reverse]
    refine hl.sorted.imp_of_mem ?_
    intro a b ha hb hab
    rcases hab with hlt | ⟨_, hlt⟩
    · exact hmono b ((hLmem b).mpr hb) a ((hLmem a).mpr ha) hlt
    · exact hlt
  have hperm : l.reverse.Perm L := by
    refine (List.reverse_perm l).trans ?_
    have hnd : l.Nodup := hl.sorted.imp (fun {a b} hab => struct_before_ne _ a b hab)
    have hnd2 : L.Nodup := hLsorted.imp (fun {a b} hab => Nat.ne_of_lt hab)
    exact (List.perm_ext_iff_of_nodup hnd hnd2).mpr (fun a => (hLmem a).symm)
  exact List.eq_of_perm_of_sorted hperm hrev hLsorted

/-- C36 (code bug): the successor `instr->struct_index + 1` is computed in `int` and
overflows for the largest `MatchOrder`. For the list `<Instrument Name="A"
MatchOrder="2147483647" .../>`, `<Instrument Name="B" .../>` the instrument `B` gets the
struct index -2147483648, not 2147483648, and `emit_c_instruments` writes `B` before `A`.
As long as no successor overflows, the struct indices of the entries that are not
placeholders are those of `default_struct_indices`: the `MatchOrder` attribute, and without
it one more than the struct index of the previous such entry, 0 for the first. Without any
`MatchOrder` (and with fewer than `2^31` nodes) they are 0, 1, 2, ... in reading order, and
`emit_c_instruments` writes the structures in exactly the reading order. -/
theorem read_instrs_info_index_overflow :
    (∃ sf decls size,
      read_instrs_info (resolve_in ex_tuning [ex_env] [ex_kick]) [ex_instr_int_max, ex_instr_b]
        = .ok sf ∧
      (sf.heap 0).name = some "A" ∧ (sf.heap 0).struct_index = 2147483647 ∧
      (sf.heap 1).name = some "B" ∧ (sf.heap 1).struct_index = -2147483648 ∧
      default_struct_indices 0 [ex_instr_int_max, ex_instr_b] = [2147483647, 2147483648] ∧
      emit_c_instruments sf = .ok (decls, size) ∧
      decls.map (fun d => d.symbol) = [.inr "B", .inr "A"]) ∧
    (∀ (resolve : xml_instr → Except String Unit) (instrs : List xml_instr)
      (sf : instr_state), read_instrs_info resolve instrs = .ok sf →
      (∀ v ∈ default_struct_indices 0 instrs, to_int (v + 1) = v + 1) →
      (sf.instruments.filter
          (fun a => !(decide ((sf.heap a).name = none) && !(sf.heap a).unused))).map
        (fun a => (sf.heap a).struct_index) = default_struct_indices 0 instrs) ∧
    (∀ (resolve : xml_instr → Except String Unit) (instrs : List xml_instr)
      (sf : instr_state), read_instrs_info resolve instrs = .ok sf →
      (∀ node ∈ instrs, node.is_element = true → node.MatchOrder = none) →
      instrs.length < 2 ^ 31 →
      (sf.instruments.filter
          (fun a => !(decide ((sf.heap a).name = none) && !(sf.heap a).unused))).map
        (fun a => (sf.heap a).struct_index)
        = (List.range (sf.instruments.filter
            (fun a => !(decide ((sf.heap a).name = none) && !(sf.heap a).unused))).length).map
            (fun (j : Nat) => (j : Int)) ∧
      ∃ decls size, emit_c_instruments sf = .ok (decls, size) ∧
        decls.map (fun d => d.instr)
          = sf.instruments.filter
              (fun a => !(decide ((sf.heap a).name = none) && !(sf.heap a).unused))) :=
  ⟨⟨_, _, _, rfl, rfl, rfl, rfl, rfl, rfl, rfl, rfl⟩, read_instrs_info_indices,
    read_instrs_info_reading_order⟩

/-! ## C31, C32: single-precision rounding -/

theorem log2_fuel_spec :
    ∀ (fuel n : Nat), 0 < n → n ≤ fuel →
      2 ^ log2_fuel fuel n ≤ n ∧ n < 2 ^ (log2_fuel fuel n + 1) := by
  intro fuel
  induction fuel with
  | zero =>
    intro n h0 h1
    omega
  | succ fuel ih =>
    intro n h0 h1
    unfold log2_fuel
    by_cases h2 : n < 2
    · rw [if_pos h2]
      simp only [pow_zero, zero_add, pow_one]
      omega
    · rw [if_neg h2]
      obtain ⟨i1, i2⟩ := ih (n / 2) (by omega) (by omega)
      rw [pow_succ, pow_succ]
      constructor <;> omega

theorem nat_log2_spec (n : Nat) (h : 0 < n) :
    2 ^ nat_log2 n ≤ n ∧ n < 2 ^ (nat_log2 n + 1) :=
  log2_fuel_spec n n h (le_refl n)

/-- The quotient of the two scaled integers of a rounding step is the scaled rational. -/
theorem scale_cast (N D : Nat) (u : Int) :
    ((N * 2 ^ (-u).toNat : Nat) : Rat) / ((D * 2 ^ u.toNat : Nat) : Rat)
      = (N : Rat) / (D : Rat) * (2 : Rat) ^ (-u) := by
  have h2 : (2 : Rat) ≠ 0 := by norm_num
  rcases le_total 0 u with hu | hu
  · obtain ⟨k, rfl⟩ := Int.eq_ofNat_of_zero_le hu
    have h1 : (-(k : Int)).toNat = 0 := by omega
    rw [h1, Int.toNat_ofNat, zpow_neg, zpow_natCast]
    push_cast
    field_simp
  · obtain ⟨k, hk⟩ := Int.eq_ofNat_of_zero_le (neg_nonneg.mpr hu)
    have h1 : u.toNat = 0 := by omega
    rw [h1, hk, Int.toNat_ofNat, zpow_natCast]
    push_cast
    field_simp

theorem ilog2_le (N D : Nat) (hN : 0 < N) (hD : 0 < D) :
    (2 : Rat) ^ ilog2 N D ≤ (N : Rat) / (D : Rat) := by
  have hDq : (0 : Rat) < (D : Rat) := by exact_mod_cast hD
  obtain ⟨n1, n2⟩ := nat_log2_spec N hN
  obtain ⟨d1, d2⟩ := nat_log2_spec D hD
  unfold ilog2
  simp only
  by_cases hc : D * 2 ^ ((nat_log2 N : Int) - (nat_log2 D : Int)).toNat
      ≤ N * 2 ^ (-((nat_log2 N : Int) - (nat_log2 D : Int))).toNat
  · rw [if_pos hc]
    have h1 := scale_cast N D ((nat_log2 N : Int) - (nat_log2 D : Int))
    have h2 : (1 : Rat) ≤ ((N * 2 ^ (-((nat_log2 N : Int) - (nat_log2 D : Int))).toNat : Nat) : Rat)
        / ((D * 2 ^ ((nat_log2 N : Int) - (nat_log2 D : Int)).toNat : Nat) : Rat) := by
      rw [le_div_iff₀ (by positivity), one_mul]
      exact_mod_cast hc
    rw [h1, zpow_neg] at h2
    have hp : (0 : Rat) < (2 : Rat) ^ ((nat_log2 N : Int) - (nat_log2 D : Int)) := by positivity
    rw [← div_eq_mul_inv, le_div_iff₀ hp, one_mul] at h2
    exact h2
  · rw [if_neg hc]
    have e1 : (2 : Rat) ^ ((nat_log2 N : Int) - (nat_log2 D : Int) - 1)
        = (2 : Rat) ^ nat_log2 N / (2 : Rat) ^ (nat_log2 D + 1) := by
      rw [show ((nat_log2 N : Int) - (nat_log2 D : Int) - 1)
        = (nat_log2 N : Int) - ((nat_log2 D + 1 : Nat) : Int) by push_cast; ring]
      rw [zpow_sub₀ (by norm_num), zpow_natCast, zpow_natCast]
    rw [e1]
    have hNq : (2 : Rat) ^ nat_log2 N ≤ (N : Rat) := by exact_mod_cast n1
    have hDq2 : (D : Rat) ≤ (2 : Rat) ^ (nat_log2 D + 1) := by exact_mod_cast d2.le
    exact div_le_div₀ (by positivity) hNq hDq hDq2

theorem round_nearest_even_error (N D : Nat) (hD : 0 < D) :
    |((round_nearest_even N D : Nat) : Rat) - (N : Rat) / (D : Rat)| ≤ 1 / 2 := by
  have hDq : (0 : Rat) < (D : Rat) := by exact_mod_cast hD
  have hdm : (N : Rat) = (D : Rat) * ((N / D : Nat) : Rat) + ((N % D : Nat) : Rat) := by
    exact_mod_cast (Nat.div_add_mod N D).symm
  have hr : (N % D : Nat) < D := Nat.mod_lt N hD
  have hrq : ((N % D : Nat) : Rat) < (D : Rat) := by exact_mod_cast hr
  have hr0 : (0 : Rat) ≤ ((N % D : Nat) : Rat) := by positivity
  have hq : (N : Rat) / (D : Rat) = ((N / D : Nat) : Rat) + ((N % D : Nat) : Rat) / (D : Rat) := by
    rw [hdm]
    field_simp
    ring
  rw [hq, abs_le]
  unfold round_nearest_even
  simp only
  have hfrac0 : (0 : Rat) ≤ ((N % D : Nat) : Rat) / (D : Rat) := by positivity
  have hfrac1 : ((N % D : Nat) : Rat) / (D : Rat) < 1 := by
    rw [div_lt_one hDq]; exact hrq
  by_cases c1 : 2 * (N % D) < D
  · rw [if_pos c1]
    have : ((N % D : Nat) : Rat) / (D : Rat) ≤ 1 / 2 := by
      rw [div_le_iff₀ hDq]
      have : (2 : Rat) * ((N % D : Nat) : Rat) < (D : Rat) := by exact_mod_cast c1
      linarith
    constructor <;> linarith
  · rw [if_neg c1]
    have hge : (1 : Rat) / 2 ≤ ((N % D : Nat) : Rat) / (D : Rat) := by
      rw [le_div_iff₀ hDq]
      have : (D : Rat) ≤ (2 : Rat) * ((N % D : Nat) : Rat) := by
        exact_mod_cast (not_lt.mp c1)
      linarith
    by_cases c2 : D < 2 * (N % D)
    · rw [if_pos c2]
      push_cast
      constructor <;> linarith
    · rw [if_neg c2]
      have heq : ((N % D : Nat) : Rat) / (D : Rat) = 1 / 2 := by
        have h2 : 2 * (N % D) = D := by omega
        have h3 : (2 : Rat) * ((N % D : Nat) : Rat) = (D : Rat) := by exact_mod_cast h2
        rw [div_eq_iff hDq.ne']
        linarith
      by_cases c3 : N / D % 2 = 0
      · rw [if_pos c3]
        constructor <;> linarith
      · rw [if_neg c3]
        push_cast
        constructor <;> linarith

/-- The rounding step of `to_float` for an exponent `e0` at or below the binary exponent of
`N / D`: the result is finite and within half a unit in the last place of `N / D`. -/
theorem to_float_core (sign : Bool) (N D : Nat) (hD : 0 < D) (e0 : Int)
    (hE : (2 : Rat) ^ e0 ≤ (N : Rat) / (D : Rat)) (hE2 : e0 ≤ 126) :
    ∀ (u : Int) (m : Nat), u = e0 - 23 →
      m = round_nearest_even (N * 2 ^ (-u).toNat) (D * 2 ^ u.toNat) →
      ∃ m1 e1,
        (if (if m = 2 ^ 24 then u + 1 else u) > 104 then float.inf sign
          else float.finite sign (if m = 2 ^ 24 then 2 ^ 23 else m)
            (if m = 2 ^ 24 then u + 1 else u)) = float.finite sign m1 e1 ∧
        |(m1 : Rat) * (2 : Rat) ^ e1 - (N : Rat) / (D : Rat)|
          ≤ (N : Rat) / (D : Rat) / 2 ^ 24 := by
  intro u m hu hm
  have hD2 : 0 < D * 2 ^ u.toNat := by positivity
  have herr := round_nearest_even_error (N * 2 ^ (-u).toNat) (D * 2 ^ u.toNat) hD2
  rw [← hm, scale_cast] at herr
  have h2u : (0 : Rat) < (2 : Rat) ^ u := by positivity
  have hval : |(m : Rat) * (2 : Rat) ^ u - (N : Rat) / (D : Rat)|
      ≤ (N : Rat) / (D : Rat) / 2 ^ 24 := by
    have e1 : (m : Rat) * (2 : Rat) ^ u - (N : Rat) / (D : Rat)
        = ((m : Rat) - (N : Rat) / (D : Rat) * (2 : Rat) ^ (-u)) * (2 : Rat) ^ u := by
      rw [zpow_neg]
      field_simp
      ring
    rw [e1, abs_mul, abs_of_pos h2u]
    have e2 : (2 : Rat) ^ u = (2 : Rat) ^ e0 / 2 ^ 23 := by
      rw [hu, zpow_sub₀ (by norm_num : (2 : Rat) ≠ 0)]
      norm_num
    calc |(m : Rat) - (N : Rat) / (D : Rat) * (2 : Rat) ^ (-u)| * (2 : Rat) ^ u
        ≤ 1 / 2 * (2 : Rat) ^ u := by
          exact mul_le_mul_of_nonneg_right herr h2u.le
      _ = (2 : Rat) ^ e0 / 2 ^ 24 := by
          rw [e2]
          ring
      _ ≤ (N : Rat) / (D : Rat) / 2 ^ 24 := by
          exact div_le_div_of_nonneg_right hE (by positivity)
  by_cases h24 : m = 2 ^ 24
  · refine ⟨2 ^ 23, u + 1, ?_, ?_⟩
    · rw [if_pos h24, if_pos h24, if_neg (by omega)]
    · have e3 : ((2 ^ 23 : Nat) : Rat) * (2 : Rat) ^ (u + 1) = (m : Rat) * (2 : Rat) ^ u := by
        rw [h24, zpow_add₀ (by norm_num : (2 : Rat) ≠ 0)]
        push_cast
        ring
      rw [e3]
      exact hval
  · refine ⟨m, u, ?_, hval⟩
    rw [if_neg h24, if_neg h24, if_neg (by omega)]

/-- Rounding a positive rational in the range of the normal numbers to `float`: the result
is finite, and its relative error is at most `2^-24`. -/
theorem to_float_error (sign : Bool) (N D : Nat) (hN : 0 < N) (hD : 0 < D)
    (hlo : (1 : Rat) / 2 ^ 126 ≤ (N : Rat) / (D : Rat))
    (hhi : (N : Rat) / (D : Rat) < 2 ^ 127) :
    ∃ m e, to_float sign N D = float.finite sign m e ∧
      |(m : Rat) * (2 : Rat) ^ e - (N : Rat) / (D : Rat)| ≤ (N : Rat) / (D : Rat) / 2 ^ 24 := by
  have hE : (2 : Rat) ^ (max (ilog2 N D) (-126)) ≤ (N : Rat) / (D : Rat) := by
    rcases max_cases (ilog2 N D) (-126) with ⟨h, _⟩ | ⟨h, _⟩
    · rw [h]
      exact ilog2_le N D hN hD
    · rw [h, show (2 : Rat) ^ (-126 : Int) = 1 / 2 ^ 126 by norm_num]
      exact hlo
  have hE2 : max (ilog2 N D) (-126) ≤ 126 := by
    have hlt : (2 : Rat) ^ (max (ilog2 N D) (-126)) < (2 : Rat) ^ (127 : Int) := by
      rw [show (2 : Rat) ^ (127 : Int) = 2 ^ 127 by norm_num]
      exact lt_of_le_of_lt hE hhi
    have := (zpow_lt_zpow_iff_right₀ (by norm_num : (1 : Rat) < 2)).mp hlt
    omega
  unfold to_float
  rw [if_neg (by omega)]
  exact to_float_core sign N D hD _ hE hE2 _ _ rfl rfl

theorem double_to_float_error (r : Rat) (hlo : (1 : Rat) / 2 ^ 126 ≤ r)
    (hhi : r < 2 ^ 127) :
    ∃ m e, double_to_float r = float.finite false m e ∧
      |(m : Rat) * (2 : Rat) ^ e - r| ≤ r / 2 ^ 24 := by
  have hpos : 0 < r := lt_of_lt_of_le (by positivity) hlo
  have hnum : 0 < r.num := Rat.num_pos.mpr hpos
  have hcast : ((r.num.natAbs : Nat) : Rat) / ((r.den : Nat) : Rat) = r := by
    have h1 : ((r.num.natAbs : Nat) : Int) = r.num := Int.natAbs_of_nonneg hnum.le
    have h2 : ((r.num.natAbs : Nat) : Rat) = ((r.num : Int) : Rat) := by
      rw [Nat.cast_natAbs, abs_of_pos hnum]
    rw [h2]
    exact Rat.num_div_den r
  have hsign : decide (r < 0) = false := by
    simp only [decide_eq_false_iff_not, not_lt]
    exact hpos.le
  unfold double_to_float
  rw [hsign]
  have := to_float_error false r.num.natAbs r.den (by omega) r.den_pos
    (by rw [hcast]; exact hlo) (by rw [hcast]; exact hhi)
  rw [hcast] at this
  exact this

theorem float_div_error (m : Nat) (e : Int) (n : Nat) (f : Int) (hm : 0 < m) (hn : 0 < n)
    (hlo : (1 : Rat) / 2 ^ 126 ≤ (m : Rat) * (2 : Rat) ^ e / ((n : Rat) * (2 : Rat) ^ f))
    (hhi : (m : Rat) * (2 : Rat) ^ e / ((n : Rat) * (2 : Rat) ^ f) < 2 ^ 127) :
    ∃ m1 e1, (float.finite false m e).div (float.finite false n f) = float.finite false m1 e1 ∧
      |(m1 : Rat) * (2 : Rat) ^ e1 - (m : Rat) * (2 : Rat) ^ e / ((n : Rat) * (2 : Rat) ^ f)|
        ≤ (m : Rat) * (2 : Rat) ^ e / ((n : Rat) * (2 : Rat) ^ f) / 2 ^ 24 := by
  have hcast : ((m * 2 ^ (e - f).toNat : Nat) : Rat) / ((n * 2 ^ (-(e - f)).toNat : Nat) : Rat)
      = (m : Rat) * (2 : Rat) ^ e / ((n : Rat) * (2 : Rat) ^ f) := by
    have := scale_cast m n (-(e - f))
    rw [neg_neg] at this
    rw [this, zpow_sub₀ (by norm_num : (2 : Rat) ≠ 0)]
    have hn0 : (n : Rat) ≠ 0 := by positivity
    field_simp
  have hdiv : (float.finite false m e).div (float.finite false n f)
      = to_float false (m * 2 ^ (e - f).toNat) (n * 2 ^ (-(e - f)).toNat) := by
    simp [float.div, hn.ne']
  rw [hdiv]
  have := to_float_error false (m * 2 ^ (e - f).toNat) (n * 2 ^ (-(e - f)).toNat)
    (by positivity) (by positivity) (by rw [hcast]; exact hlo) (by rw [hcast]; exact hhi)
  rw [hcast] at this
  exact this

theorem float_mul_error (m : Nat) (e : Int) (n : Nat) (f : Int) (hm : 0 < m) (hn : 0 < n)
    (hlo : (1 : Rat) / 2 ^ 126 ≤ (m : Rat) * (2 : Rat) ^ e * ((n : Rat) * (2 : Rat) ^ f))
    (hhi : (m : Rat) * (2 : Rat) ^ e * ((n : Rat) * (2 : Rat) ^ f) < 2 ^ 127) :
    ∃ m1 e1, (float.finite false m e).mul (float.finite false n f) = float.finite false m1 e1 ∧
      |(m1 : Rat) * (2 : Rat) ^ e1 - (m : Rat) * (2 : Rat) ^ e * ((n : Rat) * (2 : Rat) ^ f)|
        ≤ (m : Rat) * (2 : Rat) ^ e * ((n : Rat) * (2 : Rat) ^ f) / 2 ^ 24 := by
  have hcast : ((m * n * 2 ^ (e + f).toNat : Nat) : Rat) / ((2 ^ (-(e + f)).toNat : Nat) : Rat)
      = (m : Rat) * (2 : Rat) ^ e * ((n : Rat) * (2 : Rat) ^ f) := by
    have := scale_cast (m * n) 1 (-(e + f))
    rw [neg_neg, one_mul] at this
    rw [this, zpow_add₀ (by norm_num : (2 : Rat) ≠ 0)]
    push_cast
    ring
  have hmul : (float.finite false m e).mul (float.finite false n f)
      = to_float false (m * n * 2 ^ (e + f).toNat) (2 ^ (-(e + f)).toNat) := by
    simp [float.mul]
  rw [hmul]
  have := to_float_error false (m * n * 2 ^ (e + f).toNat) (2 ^ (-(e + f)).toNat)
    (by positivity) (by positivity) (by rw [hcast]; exact hlo) (by rw [hcast]; exact hhi)
  rw [hcast] at this
  exact this

set_option maxRecDepth 100000 in
theorem pitch_frequencies_in_range : pitch_frequencies.all float.in_pitch_range = true := by
  decide

theorem playback_sample_rate_eq : playback_sample_rate = float.finite false 16384000 (-9) := by
  decide

/-- Every entry of the pitch table is a positive normal number between `2^-5` and `2^7`. -/
theorem pitch_frequencies_bounds (n : Nat) (pitch : float)
    (h : pitch_frequencies[n]? = some pitch) :
    ∃ m e, pitch = float.finite false m e ∧ 0 < m ∧
      (1 : Rat) / 2 ^ 5 ≤ (m : Rat) * (2 : Rat) ^ e ∧ (m : Rat) * (2 : Rat) ^ e < 2 ^ 7 := by
  have hmem : pitch ∈ pitch_frequencies := List.getElem?_mem h
  have hok := List.all_eq_true.mp pitch_frequencies_in_range pitch hmem
  cases pitch with
  | finite sign m e =>
    cases sign with
    | true => simp [float.in_pitch_range] at hok
    | false =>
      simp only [float.in_pitch_range, decide_eq_true_eq] at hok
      obtain ⟨h1, h2, h3, h4⟩ := hok
      refine ⟨m, e, rfl, by omega, ?_, ?_⟩
      · have hm : ((2 : Rat) ^ 23) ≤ (m : Rat) := by exact_mod_cast h1
        have he : (2 : Rat) ^ (-28 : Int) ≤ (2 : Rat) ^ e :=
          zpow_le_zpow_right₀ (by norm_num) h3
        calc (1 : Rat) / 2 ^ 5 = (2 : Rat) ^ 23 * (2 : Rat) ^ (-28 : Int) := by norm_num
          _ ≤ (m : Rat) * (2 : Rat) ^ e := mul_le_mul hm he (by positivity) (by positivity)
      · have hm : (m : Rat) < (2 : Rat) ^ 24 := by exact_mod_cast h2
        have he : (2 : Rat) ^ e ≤ (2 : Rat) ^ (-17 : Int) :=
          zpow_le_zpow_right₀ (by norm_num) h4
        calc (m : Rat) * (2 : Rat) ^ e < (2 : Rat) ^ 24 * (2 : Rat) ^ e :=
              mul_lt_mul_of_pos_right hm (by positivity)
          _ ≤ (2 : Rat) ^ 24 * (2 : Rat) ^ (-17 : Int) :=
              mul_le_mul_of_nonneg_left he (by positivity)
          _ = 2 ^ 7 := by norm_num
  | inf sign => simp [float.in_pitch_range] at hok
  | nan => simp [float.in_pitch_range] at hok

theorem abs_sub_le_bounds (v x : Rat) (h : |v - x| ≤ x / 2 ^ 24) :
    x * (1 - 1 / 2 ^ 24) ≤ v ∧ v ≤ x * (1 + 1 / 2 ^ 24) := by
  obtain ⟨h1, h2⟩ := abs_le.mp h
  constructor <;> linarith

/-- The value of `calc_tuning` at a rate between `2^-64` and `2^64` and a note of the table:
the result is finite, and it is the exact value `r / 32000 * pitch` up to a relative error of
`2^-22` (three roundings). -/
theorem calc_tuning_error (r : Rat) (n : Nat) (pitch : float)
    (hp : pitch_frequencies[n]? = some pitch)
    (hlo : (1 : Rat) / 2 ^ 64 ≤ r) (hhi : r ≤ 2 ^ 64) :
    ∃ m e, calc_tuning (double_to_float r) n = some (float.finite false m e) ∧
      float.finite false m e = ((double_to_float r).div playback_sample_rate).mul pitch ∧
      |(m : Rat) * (2 : Rat) ^ e - r / 32000 * pitch.toRat|
        ≤ r / 32000 * pitch.toRat / 2 ^ 22 := by
  have hr0 : 0 < r := lt_of_lt_of_le (by positivity) hlo
  obtain ⟨mp, ep, hpitch, hmp, hplo, hphi⟩ := pitch_frequencies_bounds n pitch hp
  have hP : pitch.toRat = (mp : Rat) * (2 : Rat) ^ ep := by
    rw [hpitch]
    simp [float.toRat]
  -- the conversion of the rate
  obtain ⟨m1, e1, hx1, herr1⟩ := double_to_float_error r
    (le_trans (by norm_num) hlo) (lt_of_le_of_lt hhi (by norm_num))
  obtain ⟨b1lo, b1hi⟩ := abs_sub_le_bounds _ _ herr1
  have hv1lo : r / 2 ≤ (m1 : Rat) * (2 : Rat) ^ e1 := by
    refine le_trans ?_ b1lo
    have : r * (1 / 2) ≤ r * (1 - 1 / 2 ^ 24) := mul_le_mul_of_nonneg_left (by norm_num) hr0.le
    linarith
  have hv1hi : (m1 : Rat) * (2 : Rat) ^ e1 ≤ r * 2 := by
    refine le_trans b1hi ?_
    exact mul_le_mul_of_nonneg_left (by norm_num) hr0.le
  have hv1pos : 0 < (m1 : Rat) * (2 : Rat) ^ e1 := lt_of_lt_of_le (by positivity) hv1lo
  have hm1 : 0 < m1 := by
    rcases Nat.eq_zero_or_pos m1 with h | h
    · rw [h] at hv1pos
      simp at hv1pos
    · exact h
  -- the division
  have hK : (16384000 : Rat) * (2 : Rat) ^ (-9 : Int) = 32000 := by norm_num
  have hdivlo : (1 : Rat) / 2 ^ 126
      ≤ (m1 : Rat) * (2 : Rat) ^ e1 / (((16384000 : Nat) : Rat) * (2 : Rat) ^ (-9 : Int)) := by
    push_cast
    rw [hK, le_div_iff₀ (by norm_num)]
    have : (1 : Rat) / 2 ^ 126 * 32000 ≤ 1 / 2 ^ 64 / 2 := by norm_num
    linarith
  have hdivhi : (m1 : Rat) * (2 : Rat) ^ e1 / (((16384000 : Nat) : Rat) * (2 : Rat) ^ (-9 : Int))
      < 2 ^ 127 := by
    push_cast
    rw [hK, div_lt_iff₀ (by norm_num)]
    have : (2 : Rat) ^ 64 * 2 < (2 : Rat) ^ 127 * 32000 := by norm_num
    linarith
  obtain ⟨m2, e2, hx2, herr2⟩ := float_div_error m1 e1 16384000 (-9) hm1 (by norm_num)
    hdivlo hdivhi
  push_cast at herr2
  rw [hK] at herr2
  obtain ⟨b2lo, b2hi⟩ := abs_sub_le_bounds _ _ herr2
  have hx2pos : 0 < (m1 : Rat) * (2 : Rat) ^ e1 / 32000 := by positivity
  have hv2lo : (m1 : Rat) * (2 : Rat) ^ e1 / 32000 / 2 ≤ (m2 : Rat) * (2 : Rat) ^ e2 := by
    refine le_trans ?_ b2lo
    have : (m1 : Rat) * (2 : Rat) ^ e1 / 32000 * (1 / 2)
        ≤ (m1 : Rat) * (2 : Rat) ^ e1 / 32000 * (1 - 1 / 2 ^ 24) :=
      mul_le_mul_of_nonneg_left (by norm_num) hx2pos.le
    linarith
  have hv2hi : (m2 : Rat) * (2 : Rat) ^ e2 ≤ (m1 : Rat) * (2 : Rat) ^ e1 / 32000 * 2 := by
    refine le_trans b2hi ?_
    exact mul_le_mul_of_nonneg_left (by norm_num) hx2pos.le
  have hv2pos : 0 < (m2 : Rat) * (2 : Rat) ^ e2 := lt_of_lt_of_le (by positivity) hv2lo
  have hm2 : 0 < m2 := by
    rcases Nat.eq_zero_or_pos m2 with h | h
    · rw [h] at hv2pos
      simp at hv2pos
    · exact h
  -- the multiplication
  have hPpos : 0 < (mp : Rat) * (2 : Rat) ^ ep := lt_of_lt_of_le (by positivity) hplo
  have hv2lo2 : (1 : Rat) / 2 ^ 82 ≤ (m2 : Rat) * (2 : Rat) ^ e2 := by
    have : (1 : Rat) / 2 ^ 82 ≤ 1 / 2 ^ 64 / 2 / 32000 / 2 := by norm_num
    have h2 : (1 : Rat) / 2 ^ 64 / 2 / 32000 / 2 ≤ (m1 : Rat) * (2 : Rat) ^ e1 / 32000 / 2 := by
      have : (1 : Rat) / 2 ^ 64 / 2 ≤ (m1 : Rat) * (2 : Rat) ^ e1 := by linarith
      have h3 := div_le_div_of_nonneg_right this (by norm_num : (0 : Rat) ≤ 32000)
      exact div_le_div_of_nonneg_right h3 (by norm_num : (0 : Rat) ≤ 2)
    linarith
  have hv2hi2 : (m2 : Rat) * (2 : Rat) ^ e2 ≤ 2 ^ 66 := by
    have h2 : (m1 : Rat) * (2 : Rat) ^ e1 / 32000 * 2 ≤ 2 ^ 64 * 2 / 32000 * 2 := by
      have : (m1 : Rat) * (2 : Rat) ^ e1 ≤ 2 ^ 64 * 2 := by linarith
      have h3 := div_le_div_of_nonneg_right this (by norm_num : (0 : Rat) ≤ 32000)
      exact mul_le_mul_of_nonneg_right h3 (by norm_num)
    have : (2 : Rat) ^ 64 * 2 / 32000 * 2 ≤ 2 ^ 66 := by norm_num
    linarith
  have hmullo : (1 : Rat) / 2 ^ 126
      ≤ (m2 : Rat) * (2 : Rat) ^ e2 * ((mp : Rat) * (2 : Rat) ^ ep) := by
    have h1 : (1 : Rat) / 2 ^ 82 * (1 / 2 ^ 5)
        ≤ (m2 : Rat) * (2 : Rat) ^ e2 * ((mp : Rat) * (2 : Rat) ^ ep) :=
      mul_le_mul hv2lo2 hplo (by positivity) hv2pos.le
    have : (1 : Rat) / 2 ^ 126 ≤ 1 / 2 ^ 82 * (1 / 2 ^ 5) := by norm_num
    linarith
  have hmulhi : (m2 : Rat) * (2 : Rat) ^ e2 * ((mp : Rat) * (2 : Rat) ^ ep)
      < 2 ^ 127 := by
    have h1 : (m2 : Rat) * (2 : Rat) ^ e2 * ((mp : Rat) * (2 : Rat) ^ ep)
        ≤ 2 ^ 66 * 2 ^ 7 :=
      mul_le_mul hv2hi2 hphi.le hPpos.le (by positivity)
    have : (2 : Rat) ^ 66 * 2 ^ 7 < (2 : Rat) ^ 127 := by norm_num
    linarith
  obtain ⟨m3, e3, hx3, herr3⟩ := float_mul_error m2 e2 mp ep hm2 hmp hmullo hmulhi
  obtain ⟨b3lo, b3hi⟩ := abs_sub_le_bounds _ _ herr3
  refine ⟨m3, e3, ?_, ?_, ?_⟩
  · unfold calc_tuning
    rw [if_neg (by omega)]
    simp only [Int.toNat_ofNat, hp]
    rw [hx1, playback_sample_rate_eq, hx2, hpitch, hx3]
  · rw [hx1, playback_sample_rate_eq, hx2, hpitch, hx3]
  · rw [hP]
    -- the three bounds multiply
    set v1 := (m1 : Rat) * (2 : Rat) ^ e1 with hv1
    set v2 := (m2 : Rat) * (2 : Rat) ^ e2 with hv2
    set v3 := (m3 : Rat) * (2 : Rat) ^ e3 with hv3
    set P := (mp : Rat) * (2 : Rat) ^ ep with hPdef
    have hT : 0 < r / 32000 * P := by positivity
    have up2 : v2 ≤ r / 32000 * (1 + 1 / 2 ^ 24) ^ 2 := by
      have h1 : v1 / 32000 ≤ r * (1 + 1 / 2 ^ 24) / 32000 :=
        div_le_div_of_nonneg_right b1hi (by norm_num)
      have h2 : v1 / 32000 * (1 + 1 / 2 ^ 24) ≤ r * (1 + 1 / 2 ^ 24) / 32000 * (1 + 1 / 2 ^ 24) :=
        mul_le_mul_of_nonneg_right h1 (by norm_num)
      calc v2 ≤ v1 / 32000 * (1 + 1 / 2 ^ 24) := b2hi
        _ ≤ r * (1 + 1 / 2 ^ 24) / 32000 * (1 + 1 / 2 ^ 24) := h2
        _ = r / 32000 * (1 + 1 / 2 ^ 24) ^ 2 := by ring
    have lo2 : r / 32000 * (1 - 1 / 2 ^ 24) ^ 2 ≤ v2 := by
      have h1 : r * (1 - 1 / 2 ^ 24) / 32000 ≤ v1 / 32000 :=
        div_le_div_of_nonneg_right b1lo (by norm_num)
      have h2 : r * (1 - 1 / 2 ^ 24) / 32000 * (1 - 1 / 2 ^ 24) ≤ v1 / 32000 * (1 - 1 / 2 ^ 24) :=
        mul_le_mul_of_nonneg_right h1 (by norm_num)
      calc r / 32000 * (1 - 1 / 2 ^ 24) ^ 2
          = r * (1 - 1 / 2 ^ 24) / 32000 * (1 - 1 / 2 ^ 24) := by ring
        _ ≤ v1 / 32000 * (1 - 1 / 2 ^ 24) := h2
        _ ≤ v2 := b2lo
    have up3 : v3 ≤ r / 32000 * P * (1 + 1 / 2 ^ 24) ^ 3 := by
      have h1 : v2 * P ≤ r / 32000 * (1 + 1 / 2 ^ 24) ^ 2 * P :=
        mul_le_mul_of_nonneg_right up2 hPpos.le
      have h2 : v2 * P * (1 + 1 / 2 ^ 24) ≤ r / 32000 * (1 + 1 / 2 ^ 24) ^ 2 * P * (1 + 1 / 2 ^ 24) :=
        mul_le_mul_of_nonneg_right h1 (by norm_num)
      calc v3 ≤ v2 * P * (1 + 1 / 2 ^ 24) := b3hi
        _ ≤ r / 32000 * (1 + 1 / 2 ^ 24) ^ 2 * P * (1 + 1 / 2 ^ 24) := h2
        _ = r / 32000 * P * (1 + 1 / 2 ^ 24) ^ 3 := by ring
    have lo3 : r / 32000 * P * (1 - 1 / 2 ^ 24) ^ 3 ≤ v3 := by
      have h1 : r / 32000 * (1 - 1 / 2 ^ 24) ^ 2 * P ≤ v2 * P :=
        mul_le_mul_of_nonneg_right lo2 hPpos.le
      have h2 : r / 32000 * (1 - 1 / 2 ^ 24) ^ 2 * P * (1 - 1 / 2 ^ 24) ≤ v2 * P * (1 - 1 / 2 ^ 24) :=
        mul_le_mul_of_nonneg_right h1 (by norm_num)
      calc r / 32000 * P * (1 - 1 / 2 ^ 24) ^ 3
          = r / 32000 * (1 - 1 / 2 ^ 24) ^ 2 * P * (1 - 1 / 2 ^ 24) := by ring
        _ ≤ v2 * P * (1 - 1 / 2 ^ 24) := h2
        _ ≤ v3 := b3lo
    have c1 : ((1 : Rat) + 1 / 2 ^ 24) ^ 3 ≤ 1 + 1 / 2 ^ 22 := by norm_num
    have c2 : (1 : Rat) - 1 / 2 ^ 22 ≤ (1 - 1 / 2 ^ 24) ^ 3 := by norm_num
    have u1 : r / 32000 * P * (1 + 1 / 2 ^ 24) ^ 3 ≤ r / 32000 * P * (1 + 1 / 2 ^ 22) :=
      mul_le_mul_of_nonneg_left c1 hT.le
    have l1 : r / 32000 * P * (1 - 1 / 2 ^ 22) ≤ r / 32000 * P * (1 - 1 / 2 ^ 24) ^ 3 :=
      mul_le_mul_of_nonneg_left c2 hT.le
    rw [abs_le]
    constructor <;> linarith

set_option maxRecDepth 100000 in
theorem calc_tuning_at_c4 :
    calc_tuning (double_to_float 32000) 39 = some (float.finite false (2 ^ 23) (-23)) ∧
    pitch_frequencies[39]? = some (float.finite false (2 ^ 23) (-23)) ∧
    z64_note_name 39 = some "C4" := by
  decide

set_option maxRecDepth 100000 in
theorem calc_tuning_values :
    calc_tuning (double_to_float 1) 39 = some (float.finite false 8589935 (-38)) ∧
    calc_tuning (double_to_float 3) 39 = some (float.finite false 12884902 (-37)) ∧
    calc_tuning (double_to_float 5) 39 = some (float.finite false 10737418 (-36)) ∧
    calc_tuning (double_to_float 8) 39 = some (float.finite false 8589935 (-35)) ∧
    (double_to_float 5).mul (float.finite false 8589935 (-38))
      = float.finite false 10737419 (-36) ∧
    calc_tuning (double_to_float 22765) 20 = some (float.finite false 15931871 (-26)) := by
  decide

/-- C31: `calc_tuning(32000, 39)` is exactly 1.0 (the value 1, bit pattern `0x3F800000`);
39 is the index of `PITCH_C4`, whose table entry is 1.0, and of the note name `C4`.
Consequently an instrument that `read_instrs_info` resolves with a tuning function that
returns the bit pattern of `calc_tuning`, whose mid sample has the rate 32000 and the base
note 39 and which gives neither `SampleRate` nor `BaseNote`, has the mid tuning 1.0. -/
theorem calc_tuning_identity (tuning : Rat → Int → Nat)
    (htuning : ∀ rate note t, calc_tuning (double_to_float rate) note = some t →
      tuning rate note = t.bits)
    (envelopes : List envelope_data) (samples : List sample_data) (node : xml_instr)
    (r : instr_resolved) (h : resolve_instr tuning envelopes samples node = .ok r)
    (hrate : node.SampleRate = none) (hnote : node.BaseNote = none)
    (hsr : r.mid.sample.sample_rate = 32000) (hbn : r.mid.sample.base_note = 39) :
    calc_tuning (double_to_float 32000) 39 = some (float.finite false (2 ^ 23) (-23)) ∧
    (float.finite false (2 ^ 23) (-23)).toRat = 1 ∧
    (float.finite false (2 ^ 23) (-23)).bits = 0x3F800000 ∧
    pitch_frequencies[39]? = some (float.finite false (2 ^ 23) (-23)) ∧
    z64_note_name 39 = some "C4" ∧
    r.mid.base_note = 39 ∧ r.mid.sample_rate = 32000 ∧
    r.mid.tuning = 0x3F800000 := by
  obtain ⟨c1, c2, c3⟩ := calc_tuning_at_c4
  have hbits : (float.finite false (2 ^ 23) (-23)).bits = 0x3F800000 := by decide
  have hval : (float.finite false (2 ^ 23) (-23)).toRat = 1 := by
    simp only [float.toRat, Bool.false_eq_true, if_false]
    norm_num
  obtain ⟨_, _, _, _, _, ⟨sample_mid, _, hmid⟩, _⟩ :=
    resolve_instr_inv tuning envelopes samples node r h
  rw [resolve_sample_eq, hrate, hnote] at hmid
  have hs : r.mid.sample = sample_mid := by rw [hmid]
  rw [← hs] at hmid
  have hb : resolved_base_note none r.mid.sample = 39 := by
    simp only [resolved_base_note, hbn]
    decide
  have hr : resolved_rate_instr none r.mid.sample = 32000 := by
    simp only [resolved_rate_instr, hsr]
  rw [hb, hr] at hmid
  have ht : tuning 32000 39 = 0x3F800000 := by
    rw [htuning 32000 39 _ c1, hbits]
  rw [ht] at hmid
  refine ⟨c1, hval, hbits, c2, c3, ?_, ?_, ?_⟩
  · rw [hmid]
  · rw [hmid]
  · rw [hmid]
    exact (patch_mid_tuning_spec 0x3F800000).2.1 (by unfold f2i; decide)

set_option maxRecDepth 100000 in
/-- Witness for C31: the instrument `A`, whose sample `kick` has the rate 32000 and the base
note 39, resolved with the tuning function built from `calc_tuning`. -/
theorem calc_tuning_identity_witness :
    ∃ r, resolve_instr ex_tuning_bits [ex_env] [ex_kick] ex_instr_a = .ok r ∧
      r.mid.tuning = 0x3F800000 :=
  ⟨_, rfl,
    (calc_tuning_identity ex_tuning_bits
      (by
        intro rate note t ht
        simp only [ex_tuning_bits, ht])
      [ex_env] [ex_kick] ex_instr_a _ rfl rfl rfl rfl rfl).2.2.2.2.2.2.2⟩

/-- C32 (counterexample): `calc_tuning` is not linear in the rate. At the note 39:
`calc_tuning(5)` is `10737418 * 2^-36`, which is neither 5 times `calc_tuning(1)
= 8589935 * 2^-38` nor the `float` product of 5.0 and `calc_tuning(1)`, which is
`10737419 * 2^-36`; `calc_tuning(3 + 5)` is not `calc_tuning(3) + calc_tuning(5)`; and
`calc_tuning(1)` is not the number `1 / 32000` times the table entry 1.0. -/
theorem calc_tuning_not_linear :
    (∃ t1 t5, calc_tuning (double_to_float 1) 39 = some t1 ∧
      calc_tuning (double_to_float 5) 39 = some t5 ∧
      t5.toRat ≠ 5 * t1.toRat ∧ t5 ≠ (double_to_float 5).mul t1) ∧
    (∃ t3 t5 t8, calc_tuning (double_to_float 3) 39 = some t3 ∧
      calc_tuning (double_to_float 5) 39 = some t5 ∧
      calc_tuning (double_to_float (3 + 5)) 39 = some t8 ∧
      t8.toRat ≠ t3.toRat + t5.toRat) ∧
    (∃ t1 pitch, calc_tuning (double_to_float 1) 39 = some t1 ∧
      pitch_frequencies[39]? = some pitch ∧ pitch.toRat = 1 ∧
      t1.toRat ≠ 1 / 32000 * pitch.toRat) := by
  obtain ⟨v1, v3, v5, v8, vmul, _⟩ := calc_tuning_values
  obtain ⟨_, c2, _⟩ := calc_tuning_at_c4
  have e8 : ((3 : Rat) + 5) = 8 := by norm_num
  refine ⟨⟨_, _, v1, v5, ?_, ?_⟩, ⟨_, _, _, v3, v5, by rw [e8]; exact v8, ?_⟩,
    ⟨_, _, v1, c2, ?_, ?_⟩⟩
  · simp only [float.toRat, Bool.false_eq_true, if_false]
    norm_num
  · rw [vmul]
    decide
  · simp only [float.toRat, Bool.false_eq_true, if_false]
    norm_num
  · simp only [float.toRat, Bool.false_eq_true, if_false]
    norm_num
  · simp only [float.toRat, Bool.false_eq_true, if_false]
    norm_num

/-- C32 (amended): for every base note `n` in 0..127 and every rate `r` between `2^-64` and
`2^64`, `calc_tuning(r, n)` is the `float` product of the `float` quotient `r / 32000.0f` and
`pitch_frequencies[n]`; it is a finite positive number, and it is the number
`(r / 32000) * pitch_frequencies[n]` up to a relative error of `2^-22` (three roundings to
single precision). So it scales linearly with the sample rate only up to rounding. -/
theorem calc_tuning_linear_up_to_rounding (r : Rat) (n : Nat) (hn : n < 128)
    (hlo : (1 : Rat) / 2 ^ 64 ≤ r) (hhi : r ≤ 2 ^ 64) :
    ∃ pitch t, pitch_frequencies[n]? = some pitch ∧
      calc_tuning (double_to_float r) n = some t ∧
      t = ((double_to_float r).div playback_sample_rate).mul pitch ∧
      (∃ m e, t = float.finite false m e) ∧
      |t.toRat - r / 32000 * pitch.toRat| ≤ r / 32000 * pitch.toRat / 2 ^ 22 := by
  obtain ⟨pitch, hp⟩ : ∃ pitch, pitch_frequencies[n]? = some pitch :=
    ⟨_, List.getElem?_eq_getElem (by rw [pitch_frequencies_length]; exact hn)⟩
  obtain ⟨m, e, hcalc, heq, herr⟩ := calc_tuning_error r n pitch hp hlo hhi
  refine ⟨pitch, float.finite false m e, hp, hcalc, heq, ⟨m, e, rfl⟩, ?_⟩
  have hv : (float.finite false m e).toRat = (m : Rat) * (2 : Rat) ^ e := by
    simp [float.toRat]
  rw [hv]
  exact herr

/-- Witness for C32 (amended): the rate 44100 at the note 0. -/
theorem calc_tuning_linear_up_to_rounding_witness :
    ∃ pitch t, pitch_frequencies[0]? = some pitch ∧
      calc_tuning (double_to_float 44100) (0 : Nat) = some t ∧
      t = ((double_to_float 44100).div playback_sample_rate).mul pitch ∧
      (∃ m e, t = float.finite false m e) ∧
      |t.toRat - 44100 / 32000 * pitch.toRat| ≤ 44100 / 32000 * pitch.toRat / 2 ^ 22 :=
  calc_tuning_linear_up_to_rounding 44100 0 (by decide) (by norm_num) (by norm_num)

end Soundfont
